import Mathlib

/-!
# mapresample.c : geotransform inversion and coordinate transformers

Shallow embedding of `InvGeoTransform`, `msProjTransformer` and
`msApproxTransformer` of `src/mapresample.c`.

Modelling conventions
* A C `double` is a rational (`ℚ`). The definitions that carry the name of a C function
  compute exactly, and a statement about them is a statement of exact arithmetic.
  Where rounding matters a second definition (`...rounded`, `...Rounded`) takes the
  rounding `fl` of every arithmetic operation as a parameter: `binary64` gives the
  computation on IEEE doubles, operation by operation, and `id` the exact one.
* The three parallel arrays `x`, `y`, `panSuccess` of a point batch are one list
  of points; `nPoints` is the length of that list.
* `panSuccess` is an output-only array: every caller hands it over
  uninitialised, so a transformer is a function of the coordinates alone.
-/

namespace MapResample

/-! ## Definitions -/

/-- The C library function `fabs` on exact numbers. -/
def fabs (a : ℚ) : ℚ := if a < 0 then -a else a

/-- A `double[6]` geotransform: the six coefficients `gt[0] .. gt[5]`. -/
structure GeoTransform where
  a0 : ℚ
  a1 : ℚ
  a2 : ℚ
  a3 : ℚ
  a4 : ℚ
  a5 : ℚ
  deriving DecidableEq, Repr

/-- The value `x = gt[0] + gt[1]*col + gt[2]*row`, `y = gt[3] + gt[4]*col + gt[5]*row`
that the transformers compute when they apply a geotransform to a point. -/
def GeoTransform.apply (gt : GeoTransform) (p : ℚ × ℚ) : ℚ × ℚ :=
  (gt.a0 + gt.a1 * p.1 + gt.a2 * p.2, gt.a3 + gt.a4 * p.1 + gt.a5 * p.2)

/-- The determinant `gt_in[1] * gt_in[5] - gt_in[2] * gt_in[4]` of `InvGeoTransform`. -/
def GeoTransform.det (gt : GeoTransform) : ℚ := gt.a1 * gt.a5 - gt.a2 * gt.a4

/-- The literal `0.000000000000001` of `InvGeoTransform`. -/
def detEpsilon : ℚ := 1 / 1000000000000000

/-- The function `InvGeoTransform(gt_in, gt_out)`: the returned `int` and the contents of `gt_out`
after the call (untouched when the function returns 0). The arithmetic is exact;
`InvGeoTransform.rounded` is the same function with every operation rounded. -/
def InvGeoTransform (gt_in gt_out : GeoTransform) : Int × GeoTransform :=
  let det := gt_in.a1 * gt_in.a5 - gt_in.a2 * gt_in.a4
  if fabs det < 1 / 1000000000000000 then
    (0, gt_out)
  else
    let inv_det := 1 / det
    (1, { a1 := gt_in.a5 * inv_det
          a4 := -gt_in.a4 * inv_det
          a2 := -gt_in.a2 * inv_det
          a5 := gt_in.a1 * inv_det
          a0 := (gt_in.a2 * gt_in.a3 - gt_in.a0 * gt_in.a5) * inv_det
          a3 := (-gt_in.a1 * gt_in.a3 + gt_in.a0 * gt_in.a4) * inv_det })

/-- One entry of a point batch after a transformer ran: `x[i]`, `y[i]` and
`panSuccess[i]`. -/
structure Pt where
  x : ℚ
  y : ℚ
  success : Int
  deriving DecidableEq, Repr

/-- The coordinates `(x[i], y[i])` of an entry. -/
def Pt.xy (p : Pt) : ℚ × ℚ := (p.x, p.y)

/-- A `SimpleTransformer` callback together with its `pCBData`: from the `nPoints`
coordinates in `x`, `y` it yields the returned `int` and the new contents of `x`, `y`
and `panSuccess`. The arrays keep their length `nPoints`. -/
structure SimpleTransformer where
  run : List (ℚ × ℚ) → Int × List Pt
  length_run : ∀ pts, (run pts).2.length = pts.length

/-- Modelled from the spec: the constant `MS_FALSE` of the absent header `map.h`,
the failure value that the transformers return and that callers test with `!`. -/
def MS_FALSE : Int := 0

/-- The parts of the PROJ.4 library that `msProjTransformer` uses and that are not in
the source file: the constants `DEG_TO_RAD`, `RAD_TO_DEG` and `HUGE_VAL`, and
`pj_transform(src, dst, nPoints, 1, x, y, z)` with `z` all zero, which returns an `int`
(0 on success) and overwrites `x` and `y` in place. -/
structure ProjLib where
  DEG_TO_RAD : ℚ
  RAD_TO_DEG : ℚ
  HUGE_VAL : ℚ
  pj_transform : Nat → Nat → List (ℚ × ℚ) → Int × List (ℚ × ℚ)
  length_pj_transform : ∀ src dst pts, (pj_transform src dst pts).2.length = pts.length

/-- The struct `msProjTransformInfo` (the two `projectionObj` pointers, which
`msProjTransformer` never reads, are left out; a `projPJ` handle is a number). -/
structure msProjTransformInfo where
  psSrcProj : Nat
  bSrcIsGeographic : Bool
  adfInvSrcGeoTransform : GeoTransform
  psDstProj : Nat
  bDstIsGeographic : Bool
  adfDstGeoTransform : GeoTransform
  bUseProj : Bool

/-- The arrays after `pj_transform` wrote `x` and `y`: new coordinates, old flags. -/
def setXY (xy : List (ℚ × ℚ)) (pts : List Pt) : List Pt :=
  List.zipWith (fun q p => { x := q.1, y := q.2, success := p.success }) xy pts

/-- The first two loops of `msProjTransformer`: the destination geotransform, with
every `panSuccess[i]` set to 1, then degrees to radians when the destination is
geographic. -/
def msProjTransformer.toDstGeo (proj : ProjLib) (psPTInfo : msProjTransformInfo)
    (pts : List (ℚ × ℚ)) : List Pt :=
  -- Transform into destination georeferenced space.
  let s1 : List Pt := pts.map fun p =>
    { x := psPTInfo.adfDstGeoTransform.a0 + psPTInfo.adfDstGeoTransform.a1 * p.1
            + psPTInfo.adfDstGeoTransform.a2 * p.2
      y := psPTInfo.adfDstGeoTransform.a3 + psPTInfo.adfDstGeoTransform.a4 * p.1
            + psPTInfo.adfDstGeoTransform.a5 * p.2
      success := 1 }
  -- Transform from degrees to radians if geographic.
  if psPTInfo.bDstIsGeographic then
    s1.map fun p => { p with x := p.x * proj.DEG_TO_RAD, y := p.y * proj.DEG_TO_RAD }
  else s1

/-- The last two loops of `msProjTransformer` and its final `return 1`: radians back
to degrees when the source is geographic, then the inverse source geotransform, both
only for the points still flagged successful; the other points become `(-1,-1)`. -/
def msProjTransformer.toSourceRaster (proj : ProjLib) (psPTInfo : msProjTransformInfo)
    (s3 : List Pt) : Int × List Pt :=
  -- Transform back to degrees if source is geographic.
  let s4 : List Pt :=
    if psPTInfo.bSrcIsGeographic then
      s3.map fun p =>
        if p.success ≠ 0 then
          { p with x := p.x * proj.RAD_TO_DEG, y := p.y * proj.RAD_TO_DEG }
        else p
    else s3
  -- Transform to source raster space.
  (1, s4.map fun p =>
    if p.success ≠ 0 then
      { p with
        x := psPTInfo.adfInvSrcGeoTransform.a0 + psPTInfo.adfInvSrcGeoTransform.a1 * p.x
              + psPTInfo.adfInvSrcGeoTransform.a2 * p.y
        y := psPTInfo.adfInvSrcGeoTransform.a3 + psPTInfo.adfInvSrcGeoTransform.a4 * p.x
              + psPTInfo.adfInvSrcGeoTransform.a5 * p.y }
    else { p with x := -1, y := -1 })

/-- The function `msProjTransformer(pCBData, nPoints, x, y, panSuccess)`: the returned `int` and the
three arrays after the call. Each `map` is one of the `for` loops of the source. -/
def msProjTransformer (proj : ProjLib) (psPTInfo : msProjTransformInfo)
    (pts : List (ℚ × ℚ)) : Int × List Pt :=
  let s2 : List Pt := msProjTransformer.toDstGeo proj psPTInfo pts
  -- Transform back to source projection space.
  if psPTInfo.bUseProj then
    let r := proj.pj_transform psPTInfo.psDstProj psPTInfo.psSrcProj (s2.map Pt.xy)
    if r.1 ≠ 0 then
      (MS_FALSE, (setXY r.2 s2).map fun p => { p with success := 0 })
    else
      msProjTransformer.toSourceRaster proj psPTInfo
        ((setXY r.2 s2).map fun p =>
          if p.x = proj.HUGE_VAL ∨ p.y = proj.HUGE_VAL then { p with success := 0 } else p)
  else
    msProjTransformer.toSourceRaster proj psPTInfo s2

/-- The struct `msApproxTransformInfo`: the base transformer (callback and its data)
and the tolerance `dfMaxError`. -/
structure msApproxTransformInfo where
  pfnBaseTransformer : SimpleTransformer
  dfMaxError : ℚ

/-- The function `msApproxTransformer(pCBData, nPoints, x, y, panSuccess)`: the returned `int` and
the three arrays after the call. `nPoints` is `pts.length`; the recursive calls on
`x`, `nMiddle` and on `x+nMiddle`, `nPoints-nMiddle` are the calls on `take` and `drop`,
and each later call of the base transformer reads the coordinates that the earlier
calls left in the arrays. For `nPoints = 0` the C index `nPoints-1` is `-1`; the value
read there cannot change the outcome, because `nPoints <= 5` already decides the test. -/
def msApproxTransformer (psATInfo : msApproxTransformInfo) (pts : List (ℚ × ℚ)) :
    Int × List Pt :=
  if _h : (pts.getD 0 (0, 0)).2 ≠ (pts.getD (pts.length - 1) (0, 0)).2
      ∨ (pts.getD 0 (0, 0)).2 ≠ (pts.getD ((pts.length - 1) / 2) (0, 0)).2
      ∨ (pts.getD 0 (0, 0)).1 = (pts.getD (pts.length - 1) (0, 0)).1
      ∨ (pts.getD 0 (0, 0)).1 = (pts.getD ((pts.length - 1) / 2) (0, 0)).1
      ∨ psATInfo.dfMaxError = 0 ∨ pts.length ≤ 5 then
    psATInfo.pfnBaseTransformer.run pts
  else
    let nMiddle := (pts.length - 1) / 2
    let first := pts.getD 0 (0, 0)
    let middle := pts.getD nMiddle (0, 0)
    let last := pts.getD (pts.length - 1) (0, 0)
    -- Transform first, last and middle point.
    let r := psATInfo.pfnBaseTransformer.run [first, middle, last]
    let p0 := r.2.getD 0 ⟨0, 0, 0⟩
    let p1 := r.2.getD 1 ⟨0, 0, 0⟩
    let p2 := r.2.getD 2 ⟨0, 0, 0⟩
    if r.1 = 0 ∨ p0.success = 0 ∨ p1.success = 0 ∨ p2.success = 0 then
      psATInfo.pfnBaseTransformer.run pts
    else
      let dfDeltaX := (p2.x - p0.x) / (last.1 - first.1)
      let dfDeltaY := (p2.y - p0.y) / (last.1 - first.1)
      let dfError := fabs ((p0.x + dfDeltaX * (middle.1 - first.1)) - p1.x)
        + fabs ((p0.y + dfDeltaY * (middle.1 - first.1)) - p1.y)
      if dfError > psATInfo.dfMaxError then
        let r1 := msApproxTransformer psATInfo (pts.take nMiddle)
        if r1.1 = 0 then
          psATInfo.pfnBaseTransformer.run (r1.2.map Pt.xy ++ pts.drop nMiddle)
        else
          let r2 := msApproxTransformer psATInfo (pts.drop nMiddle)
          if r2.1 = 0 then
            psATInfo.pfnBaseTransformer.run (r1.2.map Pt.xy ++ r2.2.map Pt.xy)
          else
            (1, r1.2 ++ r2.2)
      else
        -- Error is OK, linearly interpolate all points along line.
        (1, pts.map fun p =>
          let dfDist := p.1 - first.1
          { y := p0.y + dfDeltaY * dfDist, x := p0.x + dfDeltaX * dfDist, success := 1 })
termination_by pts.length
decreasing_by
  all_goals simp_wf
  all_goals simp only [not_or, not_le] at _h
  all_goals omega

/-- A sample PROJ.4 library whose `pj_transform` fails for every batch (error code -14)
and leaves the coordinates as they are. -/
def failingProj : ProjLib where
  DEG_TO_RAD := 174532925199432958 / 10000000000000000000
  RAD_TO_DEG := 572957795130823208768 / 10000000000000000000
  HUGE_VAL := 10 ^ 400
  pj_transform := fun _ _ pts => (-14, pts)
  length_pj_transform := fun _ _ _ => rfl

/-- A sample PROJ.4 library whose `pj_transform` succeeds as a call, moves a point with
`x >= 0` by 1000 in `x`, and leaves `HUGE_VAL` in both coordinates of any other point. -/
def sentinelProj : ProjLib where
  DEG_TO_RAD := 174532925199432958 / 10000000000000000000
  RAD_TO_DEG := 572957795130823208768 / 10000000000000000000
  HUGE_VAL := 10 ^ 400
  pj_transform := fun _ _ pts =>
    (0, pts.map fun q => if 0 ≤ q.1 then (q.1 + 1000, q.2) else (10 ^ 400, 10 ^ 400))
  length_pj_transform := fun _ _ _ => List.length_map _ _

/-- A sample `msProjTransformInfo` with CRS conversion in use, no geographic CRS, the
destination geotransform `(10, 2, 0, 20, 0, -2)` and the identity as inverse source
geotransform. -/
def sampleProjInfo : msProjTransformInfo where
  psSrcProj := 1
  bSrcIsGeographic := false
  adfInvSrcGeoTransform := ⟨0, 1, 0, 0, 0, 1⟩
  psDstProj := 2
  bDstIsGeographic := false
  adfDstGeoTransform := ⟨10, 2, 0, 20, 0, -2⟩
  bUseProj := true

/-- The combined deviation `|dx| + |dy|` between two transformed points. -/
def deviation (a b : Pt) : ℚ := fabs (a.x - b.x) + fabs (a.y - b.y)

/-- The entry that the interpolation loop of `msApproxTransformer` writes for the input
point `p`: `dfDist = p.x - first.x`, the point `p0 + dfDelta * dfDist` on the line
through the transformed first point `p0` and the transformed last point `p2`, flag 1. -/
def interpolated (first last : ℚ × ℚ) (p0 p2 : Pt) (p : ℚ × ℚ) : Pt :=
  { x := p0.x + (p2.x - p0.x) / (last.1 - first.1) * (p.1 - first.1)
    y := p0.y + (p2.y - p0.y) / (last.1 - first.1) * (p.1 - first.1)
    success := 1 }

/-- The scanline of six pixels with columns 1 to 6 in row 7. -/
def scanline6 : List (ℚ × ℚ) := [(1, 7), (2, 7), (3, 7), (4, 7), (5, 7), (6, 7)]

/-- The scanline of six pixels with columns 2 to 7 in row 7. -/
def scanlineFrom2 : List (ℚ × ℚ) := [(2, 7), (3, 7), (4, 7), (5, 7), (6, 7), (7, 7)]

/-- A sample non-linear base transformer: every point succeeds and `(x, y)` goes to
`((x-1)(x-3)(x-6), y)`, which vanishes at the columns 1, 3 and 6. -/
def bumpBase : SimpleTransformer where
  run := fun pts => (1, pts.map fun p => ⟨(p.1 - 1) * (p.1 - 3) * (p.1 - 6), p.2, 1⟩)
  length_run := fun _ => List.length_map _ _

/-- A sample base transformer that leaves every point where it is and flags the points
of column 2 as failed. -/
def holeBase : SimpleTransformer where
  run := fun pts => (1, pts.map fun p => ⟨p.1, p.2, if p.1 = 2 then 0 else 1⟩)
  length_run := fun _ => List.length_map _ _

/-- A sample base transformer that is not pointwise: every point succeeds and gets the
column offset from the first point of the batch it is handed in. -/
def relativeBase : SimpleTransformer where
  run := fun pts => (1, pts.map fun p => ⟨p.1 - (pts.headD (0, 0)).1, p.2, 1⟩)
  length_run := fun _ => List.length_map _ _

/-- A sample base transformer with a batch-wide failure, as `msProjTransformer` has one:
a batch that holds a point of column 2 fails as a whole (return 0, every flag 0, the
coordinates left shifted by 100 in `x`); any other batch succeeds with `(x, y)` going
to `(x*x, y)`. -/
def guardedSquare : SimpleTransformer where
  run := fun pts =>
    if pts.any (fun p => p.1 == 2) then (0, pts.map fun p => ⟨p.1 + 100, p.2, 0⟩)
    else (1, pts.map fun p => ⟨p.1 * p.1, p.2, 1⟩)
  length_run := by
    intro pts
    dsimp only
    split <;> exact List.length_map _ _

/-- The struct `projectionObj` as far as `msInitProjTransformer` reads it: the PROJ.4
handle `proj`, where 0 is the NULL pointer. -/
structure projectionObj where
  proj : Nat

/-- The function `msInitProjTransformer(psSrc, padfSrcGeoTransform, psDst,
padfDstGeoTransform)`: the transformer data it returns, or `none` for the NULL it
returns when the source geotransform cannot be inverted. `pj_is_latlong` (PROJ.4) and
`msProjectionsDiffer` (mapproject.c) are not in the source file and are parameters. The
struct comes from `calloc`, so `InvGeoTransform` writes into six zeros. -/
def msInitProjTransformer (pj_is_latlong : Nat → Bool)
    (msProjectionsDiffer : projectionObj → projectionObj → Bool)
    (psSrc : projectionObj) (padfSrcGeoTransform : GeoTransform)
    (psDst : projectionObj) (padfDstGeoTransform : GeoTransform) :
    Option msProjTransformInfo :=
  -- We won't even use PROJ.4 if either coordinate system is NULL.
  let bUseProj : Bool :=
    decide (psSrc.proj ≠ 0) && decide (psDst.proj ≠ 0) && msProjectionsDiffer psSrc psDst
  -- Record source image information.
  let bSrcIsGeographic : Bool := if bUseProj then pj_is_latlong psSrc.proj else false
  let r := InvGeoTransform padfSrcGeoTransform ⟨0, 0, 0, 0, 0, 0⟩
  if r.1 = 0 then
    none
  else
    -- Record destination image information.
    let bDstIsGeographic : Bool := if bUseProj then pj_is_latlong psDst.proj else false
    some
      { psSrcProj := psSrc.proj
        bSrcIsGeographic := bSrcIsGeographic
        adfInvSrcGeoTransform := r.2
        psDstProj := psDst.proj
        bDstIsGeographic := bDstIsGeographic
        adfDstGeoTransform := padfDstGeoTransform
        bUseProj := bUseProj }

/-- The macro `MAX(a,b)` of the source file: `((a>b) ? a : b)`. -/
def MAX {α : Type} [LT α] [DecidableRel (fun a b : α => a < b)] (a b : α) : α :=
  if a > b then a else b

/-- The macro `MIN(a,b)` of the source file: `((a<b) ? a : b)`. -/
def MIN {α : Type} [LT α] [DecidableRel (fun a b : α => a < b)] (a b : α) : α :=
  if a < b then a else b

/-- Truncation toward zero, the value of a conversion from `double` to an integer type
when the result fits. -/
def trunc (d : ℚ) : Int := if 0 ≤ d then ⌊d⌋ else ⌈d⌉

/-- An integer reduced to the 32 bits of an `int` (two's complement). For a value in
the range of `int` this is the value itself. -/
def toInt32 (n : Int) : Int := (n + 2147483648) % 4294967296 - 2147483648

/-- The conversion `(int) d` of a `double`: truncation toward zero. For a value outside
the range of `int` the conversion is undefined in C; the model keeps the low 32 bits,
which for `2^31` is `INT_MIN`, the value the x86 conversion instruction leaves too. All
other `int` arithmetic of the resamplers (pixel counts, offsets) is exact: it stays in
range for rasters that fit in memory. -/
def castInt (d : ℚ) : Int := toInt32 (trunc d)

/-- The conversion `(short) d` of a `double`: truncation, kept to 16 bits. -/
def castShort (d : ℚ) : Int := (trunc d + 32768) % 65536 - 32768

/-- The conversion `(unsigned char) d` of a `double`: truncation, kept to 8 bits. -/
def castUChar (d : ℚ) : Int := trunc d % 256

/-- Modelled from the spec: the renderer tag of an output format, declared in the absent
header `map.h`; `MS_RENDERER_GD(format)` and `MS_RENDERER_RAWDATA(format)` test it.
`GD` covers the paletted and true-colour encodings, `RAWDATA` the raw band buffers. -/
inductive Renderer where
  | GD
  | RAWDATA
  | OTHER
  deriving DecidableEq, Repr

/-- Modelled from the spec: the enumeration `MS_IMAGEMODE_*` of the absent header
`map.h`; the numeric kind of a raw raster is `INT16`, `FLOAT32` or `BYTE`. -/
inductive ImageMode where
  | PC256
  | RGB
  | RGBA
  | INT16
  | FLOAT32
  | BYTE
  | NULL
  deriving DecidableEq, Repr

/-- The fields of `outputFormatObj` that the resamplers read. -/
structure outputFormatObj where
  renderer : Renderer
  imagemode : ImageMode
  bands : Int
  deriving DecidableEq, Repr

/-- The fields of a GD image that the resamplers use: `gdImageTrueColor(im)`, the
palette indexes `pixels[row][col]` and the true-colour values `tpixels[row][col]`. -/
structure gdImage where
  trueColor : Bool
  pixels : Int → Int → Int
  tpixels : Int → Int → Int

/-- The struct `imageObj` as the resamplers use it. `raw` is the one buffer behind the
union members `img.raw_16bit`, `img.raw_float` and `img.raw_byte`, indexed by the flat
offset `col + row * width + band * width * height`; every sample is an exact number. -/
structure imageObj where
  width : Int
  height : Int
  format : outputFormatObj
  gd : gdImage
  raw : Int → ℚ

/-- The struct `colorObj`; the resamplers compare samples with `offsite.red`. -/
structure colorObj where
  red : Int
  green : Int
  blue : Int
  deriving DecidableEq, Repr

/-- The parts of the GD library (`gd.h`) that the resamplers use, and `msAlphaBlend` of
the absent file `maputil.c`; none of them is in the source file. -/
structure GdLib where
  gdTrueColorGetAlpha : Int → Int
  gdTrueColorGetRed : Int → Int
  gdTrueColorGetGreen : Int → Int
  gdTrueColorGetBlue : Int → Int
  gdTrueColor : Int → Int → Int → Int
  gdTrueColorAlpha : Int → Int → Int → Int → Int
  gdAlphaBlend : Int → Int → Int
  msAlphaBlend : Int → Int → Int

/-- The assignment `img.gd->pixels[row][col] = v`. -/
def imageObj.setPixel (img : imageObj) (row col v : Int) : imageObj :=
  { img with
    gd := { img.gd with
      pixels := fun r c => if r = row ∧ c = col then v else img.gd.pixels r c } }

/-- The assignment `img.gd->tpixels[row][col] = v`. -/
def imageObj.setTPixel (img : imageObj) (row col v : Int) : imageObj :=
  { img with
    gd := { img.gd with
      tpixels := fun r c => if r = row ∧ c = col then v else img.gd.tpixels r c } }

/-- The assignment `img.raw_...[off] = v`. -/
def imageObj.setRaw (img : imageObj) (off : Int) (v : ℚ) : imageObj :=
  { img with raw := fun o => if o = off then v else img.raw o }

/-- The flat offset `col + row * width + band * width * height` of a raw sample. -/
def imageObj.rawOffset (img : imageObj) (col row band : Int) : Int :=
  col + row * img.width + band * img.width * img.height

/-- The values `0, 1, .., n-1` that the counter of a loop `for (i = 0; i < n; i++)`
takes. -/
def upTo (n : Int) : List Int := (List.range n.toNat).map Int.ofNat

/-- The values `lo, lo+1, .., hi-1` that the counter of a loop
`for (i = lo; i < hi; i++)` takes. -/
def fromTo (lo hi : Int) : List Int :=
  (List.range (hi - lo).toNat).map fun (i : Nat) => lo + (i : Int)

/-- The head of the pixel loop of `msNearestRasterResampler`: the source position
`(nSrcX, nSrcY)` that is read for a transformed point, or `none` when the loop goes on
to the next pixel (point flagged failed, or outside the source raster). -/
def msNearestRasterResampler.srcPos (psSrcImage : imageObj) (p : Pt) : Option (Int × Int) :=
  if p.success = 0 then
    none
  else
    let nSrcX := castInt p.x
    let nSrcY := castInt p.y
    -- We test the original floating point values to avoid errors related to
    -- asymmetric rounding around zero.
    if p.x < 0 ∨ p.y < 0 ∨ nSrcX ≥ psSrcImage.width ∨ nSrcY ≥ psSrcImage.height then
      none
    else
      some (nSrcX, nSrcY)

/-- One round of the band loop of `msNearestRasterResampler` for a raw source; `none` is
the failed `assert( 0 )` for an image mode other than INT16, FLOAT32 and BYTE. -/
def msNearestRasterResampler.band (psSrcImage : imageObj) (offsite : colorObj)
    (nDstX nDstY nSrcX nSrcY : Int) (psDstImage : imageObj) (band : Int) : Option imageObj :=
  if psSrcImage.format.imagemode = ImageMode.INT16 then
    let nValue := psSrcImage.raw
      (nSrcX + nSrcY * psSrcImage.width + band * psSrcImage.width * psSrcImage.height)
    if nValue = offsite.red then
      some psDstImage
    else
      some (psDstImage.setRaw
        (nDstX + nDstY * psDstImage.width + band * psDstImage.width * psDstImage.height) nValue)
  else if psSrcImage.format.imagemode = ImageMode.FLOAT32 then
    let fValue := psSrcImage.raw
      (nSrcX + nSrcY * psSrcImage.width + band * psSrcImage.width * psSrcImage.height)
    if fValue = offsite.red then
      some psDstImage
    else
      some (psDstImage.setRaw
        (nDstX + nDstY * psDstImage.width + band * psDstImage.width * psDstImage.height) fValue)
  else if psSrcImage.format.imagemode = ImageMode.BYTE then
    let nValue := psSrcImage.raw
      (nSrcX + nSrcY * psSrcImage.width + band * psSrcImage.width * psSrcImage.height)
    if nValue = offsite.red then
      some psDstImage
    else
      some (psDstImage.setRaw
        (nDstX + nDstY * psDstImage.width + band * psDstImage.width * psDstImage.height) nValue)
  else
    none

/-- The body of the pixel loop of `msNearestRasterResampler` for the destination pixel
`(nDstX, nDstY)` and its transformed point `p`: the destination image after it. -/
def msNearestRasterResampler.pixel (gd : GdLib) (psSrcImage : imageObj) (offsite : colorObj)
    (panCMap : Int → Int) (nDstX nDstY : Int) (p : Pt) (psDstImage : imageObj) :
    Option imageObj :=
  match msNearestRasterResampler.srcPos psSrcImage p with
  | none => some psDstImage
  | some (nSrcX, nSrcY) =>
    if psSrcImage.format.renderer = Renderer.GD then
      if ¬ psSrcImage.gd.trueColor then
        let nValue := panCMap (psSrcImage.gd.pixels nSrcY nSrcX)
        if nValue = -1 then
          some psDstImage
        else
          some (psDstImage.setPixel nDstY nDstX nValue)
      else
        let nValue := psSrcImage.gd.tpixels nSrcY nSrcX
        let gd_alpha := gd.gdTrueColorGetAlpha nValue
        if gd_alpha = 0 then
          some (psDstImage.setTPixel nDstY nDstX nValue)
        else if gd_alpha = 127 then
          -- overlay is transparent, do nothing
          some psDstImage
        else
          some (psDstImage.setTPixel nDstY nDstX
            (gd.gdAlphaBlend (psDstImage.gd.tpixels nDstY nDstX) nValue))
    else if psSrcImage.format.renderer = Renderer.RAWDATA then
      (upTo psSrcImage.format.bands).foldlM
        (msNearestRasterResampler.band psSrcImage offsite nDstX nDstY nSrcX nSrcY) psDstImage
    else
      some psDstImage

/-- The function `msNearestRasterResampler(psSrcImage, offsite, psDstImage, panCMap,
pfnTransform, pCBData, debug)`: the returned `int` and the destination image after the
call, or `none` when an `assert` fails. Row by row the pixel centres `(nDstX + 0.5,
nDstY + 0.5)` go through the transformer as one batch (its return value is not looked
at), then the pixel loop runs. The debug message is left out. -/
def msNearestRasterResampler (gd : GdLib) (psSrcImage : imageObj) (offsite : colorObj)
    (psDstImage : imageObj) (panCMap : Int → Int) (pfnTransform : SimpleTransformer) :
    Option (Int × imageObj) :=
  let nDstXSize := psDstImage.width
  let nDstYSize := psDstImage.height
  ((upTo nDstYSize).foldlM
    (fun dst (nDstY : Int) =>
      let pts := (pfnTransform.run
        ((upTo nDstXSize).map fun (nDstX : Int) =>
          ((nDstX : ℚ) + 1 / 2, (nDstY : ℚ) + 1 / 2))).2
      (upTo nDstXSize).foldlM
        (fun dst nDstX =>
          msNearestRasterResampler.pixel gd psSrcImage offsite panCMap nDstX nDstY
            (pts.getD nDstX.toNat ⟨0, 0, 0⟩) dst)
        dst)
    psDstImage).map fun dst => (0, dst)

/-- The content of destination pixel `(row, col)` of an image whose size is `W x H`: the
palette index, the true-colour value and the raw sample of every band `b`. -/
def imageObj.view (W H : Int) (img : imageObj) (rc : Int × Int) : Int × Int × (Nat → ℚ) :=
  (img.gd.pixels rc.1 rc.2, img.gd.tpixels rc.1 rc.2,
    fun b => img.raw (rc.2 + rc.1 * W + (b : Int) * W * H))

/-- The image `t` differs from `s` at most in the content of pixel `(row, col)`, for an
image size `W x H`. -/
def OnlyPixel (W H row col : Int) (s t : imageObj) : Prop :=
  t.width = s.width ∧ t.height = s.height ∧ t.format = s.format
  ∧ t.gd.trueColor = s.gd.trueColor
  ∧ (∀ r c, ¬ (r = row ∧ c = col) → t.gd.pixels r c = s.gd.pixels r c)
  ∧ (∀ r c, ¬ (r = row ∧ c = col) → t.gd.tpixels r c = s.gd.tpixels r c)
  ∧ (∀ off, (∀ b : Int, 0 ≤ b → off ≠ col + row * W + b * W * H) → t.raw off = s.raw off)

/-- The image `t` has the size, the format and the kind of GD image of `s`. -/
def SameShape (s t : imageObj) : Prop :=
  t.width = s.width ∧ t.height = s.height ∧ t.format = s.format
  ∧ t.gd.trueColor = s.gd.trueColor

/-- The source raster has one of the encodings the resamplers handle: a GD image, or
raw bands of kind INT16, FLOAT32 or BYTE. -/
def imageObj.supported (img : imageObj) : Prop :=
  img.format.renderer = Renderer.GD ∨ img.format.imagemode = ImageMode.INT16
  ∨ img.format.imagemode = ImageMode.FLOAT32 ∨ img.format.imagemode = ImageMode.BYTE

/-- The entry of `x`, `y` and `panSuccess` for pixel `nDstX` after `msNearestRasterResampler`
or `msBilinearRasterResampler` ran the transformer on the pixel centres of row `nDstY`. -/
def transformedCentre (pfnTransform : SimpleTransformer) (nDstXSize nDstY nDstX : Int) : Pt :=
  (pfnTransform.run
    ((upTo nDstXSize).map fun (nDstX : Int) =>
      ((nDstX : ℚ) + 1 / 2, (nDstY : ℚ) + 1 / 2))).2.getD nDstX.toNat ⟨0, 0, 0⟩

/-- The identity transformer: every point succeeds and stays where it is. -/
def identityTransformer : SimpleTransformer where
  run := fun pts => (1, pts.map fun p => ⟨p.1, p.2, 1⟩)
  length_run := fun _ => List.length_map _ _

/-- A GD image without content, for the images that are raw. -/
def emptyGd : gdImage := ⟨false, fun _ _ => 0, fun _ _ => 0⟩

/-- A raw image of the given size, kind and band count over the given buffer. -/
def rawImage (width height : Int) (imagemode : ImageMode) (bands : Int) (raw : Int → ℚ) :
    imageObj :=
  { width := width, height := height
    format := ⟨Renderer.RAWDATA, imagemode, bands⟩
    gd := emptyGd, raw := raw }

/-- A sample GD library: the colour macros of `gd.h` on the `0xAARRGGBB` layout, and
blend functions that return the overlay colour made opaque. -/
def sampleGd : GdLib where
  gdTrueColorGetAlpha := fun c => (c / 16777216) % 128
  gdTrueColorGetRed := fun c => (c / 65536) % 256
  gdTrueColorGetGreen := fun c => (c / 256) % 256
  gdTrueColorGetBlue := fun c => c % 256
  gdTrueColor := fun r g b => r * 65536 + g * 256 + b
  gdTrueColorAlpha := fun r g b a => a * 16777216 + r * 65536 + g * 256 + b
  gdAlphaBlend := fun _ src => src % 16777216
  msAlphaBlend := fun _ src => src % 16777216

/-- A GD image of the given size; `trueColor` tells which of the two planes is in use. -/
def gdImageObj (width height : Int) (trueColor : Bool) (pixels tpixels : Int → Int → Int) :
    imageObj :=
  { width := width, height := height
    format := ⟨Renderer.GD, if trueColor then ImageMode.RGBA else ImageMode.PC256, 1⟩
    gd := ⟨trueColor, pixels, tpixels⟩, raw := fun _ => 0 }

/-- The statement `padfPixelSum[i] += v`. -/
def addAt (padfPixelSum : Int → ℚ) (i : Int) (v : ℚ) : Int → ℚ :=
  fun j => if j = i then padfPixelSum j + v else padfPixelSum j

/-- The band loop of `msSourceSample` for a source that is not a GD image, over the bands
still to visit: the sums after the loop and whether the loop ran to its end (`false`
for the early `return` on a nodata sample in band 0); `none` is the failed `assert( 0 )`
for an image mode other than INT16, FLOAT32 and BYTE. -/
def msSourceSample.bands (psSrcImage : imageObj) (iSrcX iSrcY : Int) (dfWeight : ℚ)
    (offsite : colorObj) : List Int → (Int → ℚ) → Option ((Int → ℚ) × Bool)
  | [], padfPixelSum => some (padfPixelSum, true)
  | band :: rest, padfPixelSum =>
    if psSrcImage.format.imagemode = ImageMode.INT16 then
      let nValue := psSrcImage.raw
        (iSrcX + iSrcY * psSrcImage.width + band * psSrcImage.width * psSrcImage.height)
      -- if band 1 is nodata, skip the rest
      if band = 0 ∧ nValue = offsite.red then
        some (padfPixelSum, false)
      else
        msSourceSample.bands psSrcImage iSrcX iSrcY dfWeight offsite rest
          (addAt padfPixelSum band (dfWeight * nValue))
    else if psSrcImage.format.imagemode = ImageMode.FLOAT32 then
      let fValue := psSrcImage.raw
        (iSrcX + iSrcY * psSrcImage.width + band * psSrcImage.width * psSrcImage.height)
      if band = 0 ∧ fValue = offsite.red then
        some (padfPixelSum, false)
      else
        msSourceSample.bands psSrcImage iSrcX iSrcY dfWeight offsite rest
          (addAt padfPixelSum band (fValue * dfWeight))
    else if psSrcImage.format.imagemode = ImageMode.BYTE then
      let nValue := psSrcImage.raw
        (iSrcX + iSrcY * psSrcImage.width + band * psSrcImage.width * psSrcImage.height)
      if band = 0 ∧ nValue = offsite.red then
        -- continue
        msSourceSample.bands psSrcImage iSrcX iSrcY dfWeight offsite rest padfPixelSum
      else
        msSourceSample.bands psSrcImage iSrcX iSrcY dfWeight offsite rest
          (addAt padfPixelSum band (nValue * dfWeight))
    else
      none

/-- The function `msSourceSample(psSrcImage, iSrcX, iSrcY, padfPixelSum, dfWeight,
pdfWeightSum, offsite)`: the array `padfPixelSum` and the value `*pdfWeightSum` after the
call, or `none` when the `assert` fails. The products and sums are exact;
`msSourceSample.rounded` has them rounded. -/
def msSourceSample (gd : GdLib) (psSrcImage : imageObj) (iSrcX iSrcY : Int)
    (padfPixelSum : Int → ℚ) (dfWeight : ℚ) (dfWeightSum : ℚ) (offsite : colorObj) :
    Option ((Int → ℚ) × ℚ) :=
  if psSrcImage.format.renderer = Renderer.GD then
    if ¬ psSrcImage.gd.trueColor then
      some (addAt padfPixelSum 0 (dfWeight * psSrcImage.gd.pixels iSrcY iSrcX),
        dfWeightSum + dfWeight)
    else
      let nValue := psSrcImage.gd.tpixels iSrcY iSrcX
      let gd_alpha := gd.gdTrueColorGetAlpha nValue
      if gd_alpha ≠ 127 then
        some (addAt (addAt (addAt padfPixelSum 0 (dfWeight * gd.gdTrueColorGetRed nValue))
            1 (dfWeight * gd.gdTrueColorGetGreen nValue))
            2 (dfWeight * gd.gdTrueColorGetBlue nValue),
          dfWeightSum + dfWeight)
      else
        some (padfPixelSum, dfWeightSum)
  else
    match msSourceSample.bands psSrcImage iSrcX iSrcY dfWeight offsite
        (upTo psSrcImage.format.bands) padfPixelSum with
    | none => none
    | some (sum, true) => some (sum, dfWeightSum + dfWeight)
    | some (sum, false) => some (sum, dfWeightSum)

/-- The source positions and ratios that `msBilinearRasterResampler` has worked out for a
pixel once it is past the two tests and the edge trim. -/
structure BilinearPos where
  nSrcX : Int
  nSrcY : Int
  nSrcX2 : Int
  nSrcY2 : Int
  dfRatioX2 : ℚ
  dfRatioY2 : ℚ
  deriving DecidableEq

/-- The head of the pixel loop of `msBilinearRasterResampler`: the four source positions
(after the trim to the raster edge) and the two ratios for a transformed point, or
`none` when the loop goes on to the next pixel (point flagged failed, or right off the
source). -/
def msBilinearRasterResampler.srcPos (psSrcImage : imageObj) (p : Pt) : Option BilinearPos :=
  if p.success = 0 then
    none
  else
    -- Offset to treat TL pixel corners as pixel location instead of the center.
    let x := p.x - 1 / 2
    let y := p.y - 1 / 2
    let nSrcX := castInt ((⌊x⌋ : Int) : ℚ)
    let nSrcY := castInt ((⌊y⌋ : Int) : ℚ)
    let nSrcX2 := nSrcX + 1
    let nSrcY2 := nSrcY + 1
    let dfRatioX2 := x - nSrcX
    let dfRatioY2 := y - nSrcY
    -- If we are right off the source, skip this pixel
    if nSrcX2 < 0 ∨ nSrcX ≥ psSrcImage.width ∨ nSrcY2 < 0 ∨ nSrcY ≥ psSrcImage.height then
      none
    else
      -- Trim in stuff one pixel off the edge
      some
        { nSrcX := MAX nSrcX 0
          nSrcY := MAX nSrcY 0
          nSrcX2 := MIN nSrcX2 (psSrcImage.width - 1)
          nSrcY2 := MIN nSrcY2 (psSrcImage.height - 1)
          dfRatioX2 := dfRatioX2
          dfRatioY2 := dfRatioY2 }

/-- The `memset` of `padfPixelSum` and the four calls of `msSourceSample` in
`msBilinearRasterResampler`: the sums and `dfWeightSum` after them. -/
def msBilinearRasterResampler.sample (gd : GdLib) (psSrcImage : imageObj)
    (offsite : colorObj) (pos : BilinearPos) : Option ((Int → ℚ) × ℚ) :=
  (msSourceSample gd psSrcImage pos.nSrcX pos.nSrcY (fun _ => 0)
    ((1 - pos.dfRatioX2) * (1 - pos.dfRatioY2)) 0 offsite).bind fun r1 =>
  (msSourceSample gd psSrcImage pos.nSrcX2 pos.nSrcY r1.1
    (pos.dfRatioX2 * (1 - pos.dfRatioY2)) r1.2 offsite).bind fun r2 =>
  (msSourceSample gd psSrcImage pos.nSrcX pos.nSrcY2 r2.1
    ((1 - pos.dfRatioX2) * pos.dfRatioY2) r2.2 offsite).bind fun r3 =>
  msSourceSample gd psSrcImage pos.nSrcX2 pos.nSrcY2 r3.1
    (pos.dfRatioX2 * pos.dfRatioY2) r3.2 offsite

/-- The part that `msBilinearRasterResampler` and `msAverageRasterResampler` have in the
same words: the destination pixel `(nDstX, nDstY)` written from the normalised sums
`padfPixelSum` and the coverage `dfAlpha` (`dfWeightSum` in the one, `dfAlpha01` in the
other). The conversion `(float)` is exact in the model. -/
def writeResampledPixel (gd : GdLib) (psSrcImage : imageObj) (panCMap : Int → Int)
    (nDstX nDstY : Int) (padfPixelSum : Int → ℚ) (dfAlpha : ℚ) (psDstImage : imageObj) :
    imageObj :=
  if psSrcImage.format.renderer = Renderer.GD then
    if ¬ psSrcImage.gd.trueColor then
      let nResult := panCMap (castInt (padfPixelSum 0))
      if nResult ≠ -1 then
        psDstImage.setPixel nDstY nDstX nResult
      else
        psDstImage
    else
      if dfAlpha > 99 / 100 then
        psDstImage.setTPixel nDstY nDstX
          (gd.gdTrueColor (castInt (padfPixelSum 0)) (castInt (padfPixelSum 1))
            (castInt (padfPixelSum 2)))
      else
        let gd_alpha := castInt (127 - 1279 / 10 * dfAlpha)
        let gd_alpha := MAX 0 (MIN 127 gd_alpha)
        let gd_color := gd.gdTrueColorAlpha (castInt (padfPixelSum 0))
          (castInt (padfPixelSum 1)) (castInt (padfPixelSum 2)) gd_alpha
        psDstImage.setTPixel nDstY nDstX
          (gd.msAlphaBlend (psDstImage.gd.tpixels nDstY nDstX) gd_color)
  else if psSrcImage.format.renderer = Renderer.RAWDATA then
    (upTo psSrcImage.format.bands).foldl
      (fun dst band =>
        if psSrcImage.format.imagemode = ImageMode.INT16 then
          dst.setRaw (nDstX + nDstY * dst.width + band * dst.width * dst.height)
            (castShort (padfPixelSum 0))
        else if psSrcImage.format.imagemode = ImageMode.FLOAT32 then
          dst.setRaw (nDstX + nDstY * dst.width + band * dst.width * dst.height)
            (padfPixelSum 0)
        else if psSrcImage.format.imagemode = ImageMode.BYTE then
          dst.setRaw (nDstX + nDstY * dst.width + band * dst.width * dst.height)
            (castUChar (padfPixelSum 0))
        else
          dst)
      psDstImage
  else
    psDstImage

/-- The body of the pixel loop of `msBilinearRasterResampler` for the destination pixel
`(nDstX, nDstY)` and its transformed point `p`: the destination image after it. -/
def msBilinearRasterResampler.pixel (gd : GdLib) (psSrcImage : imageObj)
    (offsite : colorObj) (panCMap : Int → Int) (nDstX nDstY : Int) (p : Pt)
    (psDstImage : imageObj) : Option imageObj :=
  match msBilinearRasterResampler.srcPos psSrcImage p with
  | none => some psDstImage
  | some pos =>
    match msBilinearRasterResampler.sample gd psSrcImage offsite pos with
    | none => none
    | some (sum, dfWeightSum) =>
      if dfWeightSum = 0 then
        some psDstImage
      else
        let bandCount := MAX 4 psSrcImage.format.bands
        let padfPixelSum : Int → ℚ := fun i =>
          if 0 ≤ i ∧ i < bandCount then sum i / dfWeightSum else sum i
        some (writeResampledPixel gd psSrcImage panCMap nDstX nDstY padfPixelSum dfWeightSum
          psDstImage)

/-- The function `msBilinearRasterResampler(psSrcImage, offsite, psDstImage, panCMap,
pfnTransform, pCBData, debug)`: the returned `int` and the destination image after the
call, or `none` when an `assert` fails. The debug message is left out. The weights, the
sums and the division are exact; `msBilinearRasterResampler.rounded` has every operation
rounded. -/
def msBilinearRasterResampler (gd : GdLib) (psSrcImage : imageObj) (offsite : colorObj)
    (psDstImage : imageObj) (panCMap : Int → Int) (pfnTransform : SimpleTransformer) :
    Option (Int × imageObj) :=
  let nDstXSize := psDstImage.width
  let nDstYSize := psDstImage.height
  ((upTo nDstYSize).foldlM
    (fun dst (nDstY : Int) =>
      let pts := (pfnTransform.run
        ((upTo nDstXSize).map fun (nDstX : Int) =>
          ((nDstX : ℚ) + 1 / 2, (nDstY : ℚ) + 1 / 2))).2
      (upTo nDstXSize).foldlM
        (fun dst nDstX =>
          msBilinearRasterResampler.pixel gd psSrcImage offsite panCMap nDstX nDstY
            (pts.getD nDstX.toNat ⟨0, 0, 0⟩) dst)
        dst)
    psDstImage).map fun dst => (0, dst)

/-- A transformer that leaves the coordinates as they are and flags every point failed. -/
def failingTransformer : SimpleTransformer where
  run := fun pts => (0, pts.map fun p => ⟨p.1, p.2, 0⟩)
  length_run := fun _ => List.length_map _ _

/-- Modelled from the spec: the constant `MS_TRUE` of the absent header `map.h`, the
success value that `msAverageSample` returns. -/
def MS_TRUE : Int := 1

/-- The function `msAverageSample(psSrcImage, dfXMin, dfYMin, dfXMax, dfYMax, offsite,
padfPixelSum, pdfAlpha01)`: the returned `int`, the array `padfPixelSum` and the value
`*pdfAlpha01` after the call, or `none` when the `assert` of `msSourceSample` fails. The
state of the two loops is `padfPixelSum`, `dfWeightSum` and `dfMaxWeight`. -/
def msAverageSample (gd : GdLib) (psSrcImage : imageObj) (dfXMin dfYMin dfXMax dfYMax : ℚ)
    (offsite : colorObj) (padfPixelSum : Int → ℚ) : Option (Int × (Int → ℚ) × ℚ) :=
  let nXMin := castInt dfXMin
  let nYMin := castInt dfYMin
  let nXMax := castInt ((⌈dfXMax⌉ : Int) : ℚ)
  let nYMax := castInt ((⌈dfYMax⌉ : Int) : ℚ)
  ((fromTo nYMin nYMax).foldlM
    (fun (st : (Int → ℚ) × ℚ × ℚ) (iY : Int) =>
      let dfYCellMin := MAX (iY : ℚ) dfYMin
      let dfYCellMax := MIN ((iY : ℚ) + 1) dfYMax
      (fromTo nXMin nXMax).foldlM
        (fun (st : (Int → ℚ) × ℚ × ℚ) (iX : Int) =>
          let dfXCellMin := MAX (iX : ℚ) dfXMin
          let dfXCellMax := MIN ((iX : ℚ) + 1) dfXMax
          let dfWeight := (dfXCellMax - dfXCellMin) * (dfYCellMax - dfYCellMin)
          (msSourceSample gd psSrcImage iX iY st.1 dfWeight st.2.1 offsite).map fun r =>
            (r.1, r.2, st.2.2 + dfWeight))
        st)
    (padfPixelSum, 0, 0)).map fun st =>
      if st.2.1 = 0 then
        (MS_FALSE, st.1, 0)
      else
        (MS_TRUE, fun i => if 0 ≤ i ∧ i < 4 then st.1 i / st.2.1 else st.1 i,
          st.2.1 / st.2.2)

/-- The entry of `x1`, `y1` and `panSuccess1` for index `nDstX` after
`msAverageRasterResampler` ran the transformer on the pixel corners `(nDstX, nDstY)`,
`0 <= nDstX <= nDstXSize`, of a row; with `nDstY + 1` it is the entry of `x2`, `y2` and
`panSuccess2` for the row `nDstY`. -/
def transformedCorner (pfnTransform : SimpleTransformer) (nDstXSize nDstY nDstX : Int) : Pt :=
  (pfnTransform.run
    ((upTo (nDstXSize + 1)).map fun (nDstX : Int) =>
      ((nDstX : ℚ), (nDstY : ℚ)))).2.getD nDstX.toNat ⟨0, 0, 0⟩

/-- The body of the pixel loop of `msAverageRasterResampler` for the destination pixel
`(nDstX, nDstY)`: `p1` and `p1n` are the entries `nDstX` and `nDstX + 1` of the first
batch, `p2` and `p2n` those of the second. -/
def msAverageRasterResampler.pixel (gd : GdLib) (psSrcImage : imageObj)
    (offsite : colorObj) (panCMap : Int → Int) (nDstX nDstY : Int) (p1 p1n p2 p2n : Pt)
    (psDstImage : imageObj) : Option imageObj :=
  -- Do not generate a pixel unless all four corners transformed
  if p1.success = 0 ∨ p1n.success = 0 ∨ p2.success = 0 ∨ p2n.success = 0 then
    some psDstImage
  else
    let dfXMin := MIN (MIN p1.x p1n.x) (MIN p2.x p2n.x)
    let dfYMin := MIN (MIN p1.y p1n.y) (MIN p2.y p2n.y)
    let dfXMax := MAX (MAX p1.x p1n.x) (MAX p2.x p2n.x)
    let dfYMax := MAX (MAX p1.y p1n.y) (MAX p2.y p2n.y)
    let dfXMin := MAX dfXMin 0
    let dfYMin := MAX dfYMin 0
    let dfXMax := MIN dfXMax (psSrcImage.width : ℚ)
    let dfYMax := MIN dfYMax (psSrcImage.height : ℚ)
    match msAverageSample gd psSrcImage dfXMin dfYMin dfXMax dfYMax offsite (fun _ => 0) with
    | none => none
    | some (ret, padfPixelSum, dfAlpha01) =>
      if ret = 0 then
        some psDstImage
      else
        some (writeResampledPixel gd psSrcImage panCMap nDstX nDstY padfPixelSum dfAlpha01
          psDstImage)

/-- The function `msAverageRasterResampler(psSrcImage, offsite, psDstImage, panCMap,
pfnTransform, pCBData, debug)`: the returned `int` and the destination image after the
call, or `none` when an `assert` fails. Row by row the pixel corners `(nDstX, nDstY)` and
`(nDstX, nDstY + 1)`, `0 <= nDstX <= nDstXSize`, go through the transformer as two
batches, then the pixel loop runs. The debug message is left out. -/
def msAverageRasterResampler (gd : GdLib) (psSrcImage : imageObj) (offsite : colorObj)
    (psDstImage : imageObj) (panCMap : Int → Int) (pfnTransform : SimpleTransformer) :
    Option (Int × imageObj) :=
  let nDstXSize := psDstImage.width
  let nDstYSize := psDstImage.height
  ((upTo nDstYSize).foldlM
    (fun dst (nDstY : Int) =>
      let pts1 := (pfnTransform.run
        ((upTo (nDstXSize + 1)).map fun (nDstX : Int) =>
          ((nDstX : ℚ), (nDstY : ℚ)))).2
      let pts2 := (pfnTransform.run
        ((upTo (nDstXSize + 1)).map fun (nDstX : Int) =>
          ((nDstX : ℚ), ((nDstY + 1 : Int) : ℚ)))).2
      (upTo nDstXSize).foldlM
        (fun dst nDstX =>
          msAverageRasterResampler.pixel gd psSrcImage offsite panCMap nDstX nDstY
            (pts1.getD nDstX.toNat ⟨0, 0, 0⟩) (pts1.getD (nDstX + 1).toNat ⟨0, 0, 0⟩)
            (pts2.getD nDstX.toNat ⟨0, 0, 0⟩) (pts2.getD (nDstX + 1).toNat ⟨0, 0, 0⟩) dst)
        dst)
    psDstImage).map fun dst => (0, dst)

/-- The transformer `(x, y) -> (k * x, k * y)`, every point flagged successful. -/
def scaleTransformer (k : ℚ) : SimpleTransformer where
  run := fun pts => (1, pts.map fun p => ⟨k * p.1, k * p.2, 1⟩)
  length_run := fun _ => List.length_map _ _

/-- A transformer that sends every point to `(x, y)` and flags it successful. -/
def constTransformer (x y : ℚ) : SimpleTransformer where
  run := fun pts => (1, pts.map fun _ => ⟨x, y, 1⟩)
  length_run := fun _ => List.length_map _ _

/-- The interpolation loop of `msApproxTransformer` as it is written, in place on the
arrays: `interpolate i a` runs the rounds `i-1, .., 0` of
`for( i = nPoints-1; i >= 0; i-- )` on the array contents `a`; each round reads `x[i]`
and `x[0]` from the arrays as they are at that moment and overwrites entry `i`. -/
def msApproxTransformer.interpolate (x2_0 y2_0 dfDeltaX dfDeltaY : ℚ) :
    Nat → List Pt → List Pt
  | 0, a => a
  | i + 1, a =>
    let dfDist := (a.getD i ⟨0, 0, 0⟩).x - (a.getD 0 ⟨0, 0, 0⟩).x
    msApproxTransformer.interpolate x2_0 y2_0 dfDeltaX dfDeltaY i
      (a.set i { y := y2_0 + dfDeltaY * dfDist, x := x2_0 + dfDeltaX * dfDist, success := 1 })

/-- A sample base transformer: every point succeeds and `(x, y)` goes to
`(2 * x + 1, y + 3)`. -/
def affineBase : SimpleTransformer where
  run := fun pts => (1, pts.map fun p => ⟨2 * p.1 + 1, p.2 + 3, 1⟩)
  length_run := fun _ => List.length_map _ _

/-- The arrays `x2`, `y2`, `anSuccess2` and the value `bSuccess` of `msApproxTransformer`
after its call of the base transformer on the first, the middle and the last point of
the batch. -/
def msApproxTransformer.sampled (psATInfo : msApproxTransformInfo) (pts : List (ℚ × ℚ)) :
    Int × List Pt :=
  psATInfo.pfnBaseTransformer.run
    [pts.getD 0 (0, 0), pts.getD ((pts.length - 1) / 2) (0, 0),
      pts.getD (pts.length - 1) (0, 0)]

/-- The function `msApproxTransformer` with a bound on the nesting of its calls: the same
steps, but a call that would be nested deeper than `depth` gives `none`. -/
def msApproxTransformer.bounded (psATInfo : msApproxTransformInfo) :
    Nat → List (ℚ × ℚ) → Option (Int × List Pt)
  | 0, _ => none
  | depth + 1, pts =>
    if (pts.getD 0 (0, 0)).2 ≠ (pts.getD (pts.length - 1) (0, 0)).2
        ∨ (pts.getD 0 (0, 0)).2 ≠ (pts.getD ((pts.length - 1) / 2) (0, 0)).2
        ∨ (pts.getD 0 (0, 0)).1 = (pts.getD (pts.length - 1) (0, 0)).1
        ∨ (pts.getD 0 (0, 0)).1 = (pts.getD ((pts.length - 1) / 2) (0, 0)).1
        ∨ psATInfo.dfMaxError = 0 ∨ pts.length ≤ 5 then
      some (psATInfo.pfnBaseTransformer.run pts)
    else
      let nMiddle := (pts.length - 1) / 2
      let first := pts.getD 0 (0, 0)
      let middle := pts.getD nMiddle (0, 0)
      let last := pts.getD (pts.length - 1) (0, 0)
      let r := psATInfo.pfnBaseTransformer.run [first, middle, last]
      let p0 := r.2.getD 0 ⟨0, 0, 0⟩
      let p1 := r.2.getD 1 ⟨0, 0, 0⟩
      let p2 := r.2.getD 2 ⟨0, 0, 0⟩
      if r.1 = 0 ∨ p0.success = 0 ∨ p1.success = 0 ∨ p2.success = 0 then
        some (psATInfo.pfnBaseTransformer.run pts)
      else
        let dfDeltaX := (p2.x - p0.x) / (last.1 - first.1)
        let dfDeltaY := (p2.y - p0.y) / (last.1 - first.1)
        let dfError := fabs ((p0.x + dfDeltaX * (middle.1 - first.1)) - p1.x)
          + fabs ((p0.y + dfDeltaY * (middle.1 - first.1)) - p1.y)
        if dfError > psATInfo.dfMaxError then
          match msApproxTransformer.bounded psATInfo depth (pts.take nMiddle) with
          | none => none
          | some r1 =>
            if r1.1 = 0 then
              some (psATInfo.pfnBaseTransformer.run (r1.2.map Pt.xy ++ pts.drop nMiddle))
            else
              match msApproxTransformer.bounded psATInfo depth (pts.drop nMiddle) with
              | none => none
              | some r2 =>
                if r2.1 = 0 then
                  some (psATInfo.pfnBaseTransformer.run (r1.2.map Pt.xy ++ r2.2.map Pt.xy))
                else
                  some (1, r1.2 ++ r2.2)
        else
          some (1, pts.map fun p =>
            let dfDist := p.1 - first.1
            { y := p0.y + dfDeltaY * dfDist, x := p0.x + dfDeltaX * dfDist, success := 1 })

/-- The weighted-average palette index of the four neighbours of a bilinear position:
the sum of weight times index over the four neighbours, divided by the sum of the four
bilinear weights `(1-rx)(1-ry)`, `rx(1-ry)`, `(1-rx)ry`, `rx ry`. -/
def weightedAverageIndex (psSrcImage : imageObj) (pos : BilinearPos) : ℚ :=
  ((1 - pos.dfRatioX2) * (1 - pos.dfRatioY2) * psSrcImage.gd.pixels pos.nSrcY pos.nSrcX
    + pos.dfRatioX2 * (1 - pos.dfRatioY2) * psSrcImage.gd.pixels pos.nSrcY pos.nSrcX2
    + (1 - pos.dfRatioX2) * pos.dfRatioY2 * psSrcImage.gd.pixels pos.nSrcY2 pos.nSrcX
    + pos.dfRatioX2 * pos.dfRatioY2 * psSrcImage.gd.pixels pos.nSrcY2 pos.nSrcX2)
  / ((1 - pos.dfRatioX2) * (1 - pos.dfRatioY2) + pos.dfRatioX2 * (1 - pos.dfRatioY2)
    + (1 - pos.dfRatioX2) * pos.dfRatioY2 + pos.dfRatioX2 * pos.dfRatioY2)

/-- The source cells `(iY, iX)` that the two loops of `msAverageSample` run over, in the
order of the loops; `msSourceSample` reads the source raster at each of them. -/
def msAverageSample.cells (dfXMin dfYMin dfXMax dfYMax : ℚ) : List (Int × Int) :=
  fromTo (castInt dfYMin) (castInt ((⌈dfYMax⌉ : Int) : ℚ))
    ×ˢ fromTo (castInt dfXMin) (castInt ((⌈dfXMax⌉ : Int) : ℚ))

/-- The footprint `(dfXMin, dfYMin, dfXMax, dfYMax)` that `msAverageRasterResampler`
passes to `msAverageSample` for a pixel with the transformed corners `p1`, `p1n` (first
batch) and `p2`, `p2n` (second batch). -/
def msAverageRasterResampler.footprint (psSrcImage : imageObj) (p1 p1n p2 p2n : Pt) :
    ℚ × ℚ × ℚ × ℚ :=
  let dfXMin := MIN (MIN p1.x p1n.x) (MIN p2.x p2n.x)
  let dfYMin := MIN (MIN p1.y p1n.y) (MIN p2.y p2n.y)
  let dfXMax := MAX (MAX p1.x p1n.x) (MAX p2.x p2n.x)
  let dfYMax := MAX (MAX p1.y p1n.y) (MAX p2.y p2n.y)
  let dfXMin := MAX dfXMin 0
  let dfYMin := MAX dfYMin 0
  let dfXMax := MIN dfXMax (psSrcImage.width : ℚ)
  let dfYMax := MIN dfYMax (psSrcImage.height : ℚ)
  (dfXMin, dfYMin, dfXMax, dfYMax)

/-- The struct `rectObj`: an extent `minx`, `miny`, `maxx`, `maxy`. -/
structure rectObj where
  minx : ℚ
  miny : ℚ
  maxx : ℚ
  maxy : ℚ

/-- The macro `EDGE_STEPS` of `msTransformMapToSource`. -/
def EDGE_STEPS : Int := 10

/-- The macro `MAX_SIZE` of `msTransformMapToSource`, the length of its arrays `x`, `y`
and `z`. -/
def MAX_SIZE : Int := (EDGE_STEPS + 1) * (EDGE_STEPS + 1)

/-- The loop `for( dfRatio = 0.0; dfRatio <= 1.001; dfRatio += (1.0/EDGE_STEPS) )` of
`msTransformMapToSource` around a body that may fail an `assert` (`none`), started at
`dfRatio`. Every round of the three loops of this form adds a sample and asserts
`nSamples < MAX_SIZE` first, so more than `MAX_SIZE` rounds cannot happen and the bound
`fuel` of `MAX_SIZE + 1` rounds that the callers give is never used up. -/
def msTransformMapToSource.forRatio {σ : Type} (body : σ → ℚ → Option σ) :
    Nat → ℚ → σ → Option σ
  | 0, _, _ => none
  | fuel + 1, dfRatio, s =>
    if dfRatio ≤ 1001 / 1000 then
      (body s dfRatio).bind (msTransformMapToSource.forRatio body fuel (dfRatio + 1 / EDGE_STEPS))
    else
      some s

/-- The first part of `msTransformMapToSource`: the samples `x[i]`, `y[i]`, `i <
nSamples`, in map image pixel/line coordinates, along the edges (`bUseGrid` zero) or on
a grid; `none` is a failed `assert( nSamples < MAX_SIZE )`. -/
def msTransformMapToSource.samples (nDstXSize nDstYSize : Int) (bUseGrid : Int) :
    Option (List (ℚ × ℚ)) :=
  if bUseGrid = 0 then
    -- Collect edges in map image pixel/line coordinates
    msTransformMapToSource.forRatio
      (fun (xy : List (ℚ × ℚ)) (dfRatio : ℚ) =>
        if (xy.length : Int) < MAX_SIZE then
          some (xy ++ [(dfRatio * nDstXSize, 0), (dfRatio * nDstXSize, (nDstYSize : ℚ)),
            (0, dfRatio * nDstYSize), ((nDstXSize : ℚ), dfRatio * nDstYSize)])
        else
          none)
      (MAX_SIZE.toNat + 1) 0 []
  else
    -- Collect a grid in the hopes of a more accurate region.
    msTransformMapToSource.forRatio
      (fun (xy : List (ℚ × ℚ)) (dfRatio : ℚ) =>
        msTransformMapToSource.forRatio
          (fun (xy : List (ℚ × ℚ)) (dfRatio2 : ℚ) =>
            if (xy.length : Int) < MAX_SIZE then
              some (xy ++ [(dfRatio2 * nDstXSize, dfRatio * nDstYSize)])
            else
              none)
          (MAX_SIZE.toNat + 1) 0 xy)
      (MAX_SIZE.toNat + 1) 0 []

/-- The second part of `msTransformMapToSource`: the samples taken to map georeferenced
units by the destination geotransform and then, when both projections are set, to layer
georeferenced coordinates by `pj_transform` (with the degree/radian factors for
geographic projections); `none` when `pj_transform` fails for the batch, where the
function returns `MS_FALSE`. -/
def msTransformMapToSource.project (proj : ProjLib) (pj_is_latlong : Nat → Bool)
    (adfDstGeoTransform : GeoTransform) (psDstProj psSrcProj : projectionObj)
    (xy : List (ℚ × ℚ)) : Option (List (ℚ × ℚ)) :=
  -- transform to map georeferenced units
  let xy := xy.map fun p =>
    (adfDstGeoTransform.a0 + p.1 * adfDstGeoTransform.a1 + p.2 * adfDstGeoTransform.a2,
      adfDstGeoTransform.a3 + p.1 * adfDstGeoTransform.a4 + p.2 * adfDstGeoTransform.a5)
  -- Transform to layer georeferenced coordinates.
  if psDstProj.proj ≠ 0 ∧ psSrcProj.proj ≠ 0 then
    let xy :=
      if pj_is_latlong psDstProj.proj then
        xy.map fun p => (p.1 * proj.DEG_TO_RAD, p.2 * proj.DEG_TO_RAD)
      else xy
    let r := proj.pj_transform psDstProj.proj psSrcProj.proj xy
    if r.1 ≠ 0 then
      none
    else if pj_is_latlong psSrcProj.proj then
      some (r.2.map fun p =>
        if p.1 ≠ proj.HUGE_VAL ∧ p.2 ≠ proj.HUGE_VAL then
          (p.1 * proj.RAD_TO_DEG, p.2 * proj.RAD_TO_DEG)
        else p)
    else
      some r.2
  else
    some xy

/-- The loop of `msTransformMapToSource` that takes the samples to layer raster
coordinates and collects their bounds: the extent `*psSrcExtent`, `bOutInit` and
`nFailures` after it, from the extent before the call. -/
def msTransformMapToSource.collect (proj : ProjLib) (adfInvSrcGeoTransform : GeoTransform)
    (xy : List (ℚ × ℚ)) (psSrcExtent : rectObj) : rectObj × Int × Int :=
  xy.foldl
    (fun (st : rectObj × Int × Int) (p : ℚ × ℚ) =>
      if p.1 = proj.HUGE_VAL ∨ p.2 = proj.HUGE_VAL then
        (st.1, st.2.1, st.2.2 + 1)
      else
        let x_out := adfInvSrcGeoTransform.a0 + p.1 * adfInvSrcGeoTransform.a1
          + p.2 * adfInvSrcGeoTransform.a2
        let y_out := adfInvSrcGeoTransform.a3 + p.1 * adfInvSrcGeoTransform.a4
          + p.2 * adfInvSrcGeoTransform.a5
        if st.2.1 = 0 then
          ({ minx := x_out, maxx := x_out, miny := y_out, maxy := y_out }, 1, st.2.2)
        else
          ({ minx := MIN st.1.minx x_out, maxx := MAX st.1.maxx x_out
             miny := MIN st.1.miny y_out, maxy := MAX st.1.maxy y_out }, st.2.1, st.2.2))
    (psSrcExtent, 0, 0)

/-- The function `msTransformMapToSource(nDstXSize, nDstYSize, adfDstGeoTransform,
psDstProj, nSrcXSize, nSrcYSize, adfInvSrcGeoTransform, psSrcProj, psSrcExtent,
bUseGrid)`: the returned `int` and `*psSrcExtent` after the call, or `none` when an
`assert` fails. The integer division by `EDGE_STEPS` rounds toward zero, as in C. -/
def msTransformMapToSource (proj : ProjLib) (pj_is_latlong : Nat → Bool)
    (nDstXSize nDstYSize : Int) (adfDstGeoTransform : GeoTransform)
    (psDstProj : projectionObj) (nSrcXSize nSrcYSize : Int)
    (adfInvSrcGeoTransform : GeoTransform) (psSrcProj : projectionObj)
    (psSrcExtent : rectObj) (bUseGrid : Int) : Option (Int × rectObj) :=
  match msTransformMapToSource.samples nDstXSize nDstYSize bUseGrid with
  | none => none
  | some xy =>
    match msTransformMapToSource.project proj pj_is_latlong adfDstGeoTransform psDstProj
        psSrcProj xy with
    | none => some (MS_FALSE, psSrcExtent)
    | some xy =>
      -- If we just using the edges (not a grid) and we go some errors, then we need to
      -- restart using a grid pattern.
      if _h : bUseGrid = 0 ∧ ∃ p ∈ xy, p.1 = proj.HUGE_VAL ∨ p.2 = proj.HUGE_VAL then
        msTransformMapToSource proj pj_is_latlong nDstXSize nDstYSize adfDstGeoTransform
          psDstProj nSrcXSize nSrcYSize adfInvSrcGeoTransform psSrcProj psSrcExtent 1
      else
        -- transform to layer raster coordinates, and collect bounds.
        let st := msTransformMapToSource.collect proj adfInvSrcGeoTransform xy psSrcExtent
        if st.2.1 = 0 then
          some (MS_FALSE, st.1)
        else if st.2.2 > 0 then
          -- If we had some failures, we need to expand the region to represent our very
          -- coarse sampling grid.
          let nGrowAmountX := (castInt (st.1.maxx - st.1.minx)).tdiv EDGE_STEPS + 1
          let nGrowAmountY := (castInt (st.1.maxy - st.1.miny)).tdiv EDGE_STEPS + 1
          some (MS_TRUE,
            { minx := MAX (st.1.minx - nGrowAmountX) 0
              miny := MAX (st.1.miny - nGrowAmountY) 0
              maxx := MIN (st.1.maxx + nGrowAmountX) (nSrcXSize : ℚ)
              maxy := MIN (st.1.maxy + nGrowAmountY) (nSrcYSize : ℚ) })
        else
          some (MS_TRUE, st.1)
termination_by (if bUseGrid = 0 then 1 else 0 : Nat)
decreasing_by
  simp_wf
  simp [_h.1]

/-- The values that `dfRatio` takes in the loops of `msTransformMapToSource`: `k / 10`
for `k = 0, .., 10`. -/
def msTransformMapToSource.ratios : List ℚ := (List.range 11).map fun (k : Nat) => (k : ℚ) / 10

/-- The extent `e` is the bounding box of the points `L`: every point lies inside it and
each of its four bounds is attained by a point. -/
def IsBoundingBox (e : rectObj) (L : List (ℚ × ℚ)) : Prop :=
  (∀ q ∈ L, e.minx ≤ q.1 ∧ q.1 ≤ e.maxx ∧ e.miny ≤ q.2 ∧ q.2 ≤ e.maxy)
  ∧ (∃ q ∈ L, q.1 = e.minx) ∧ (∃ q ∈ L, q.1 = e.maxx)
  ∧ (∃ q ∈ L, q.2 = e.miny) ∧ (∃ q ∈ L, q.2 = e.maxy)

/-- The layer raster coordinates of the samples of `msTransformMapToSource` that came
back from the CRS conversion without the sentinel `HUGE_VAL`: the inverse source
geotransform applied to each of them. -/
def msTransformMapToSource.successes (proj : ProjLib) (adfInvSrcGeoTransform : GeoTransform)
    (xy : List (ℚ × ℚ)) : List (ℚ × ℚ) :=
  (xy.filter fun p => ¬ (p.1 = proj.HUGE_VAL ∨ p.2 = proj.HUGE_VAL)).map fun p =>
    (adfInvSrcGeoTransform.a0 + p.1 * adfInvSrcGeoTransform.a1
        + p.2 * adfInvSrcGeoTransform.a2,
      adfInvSrcGeoTransform.a3 + p.1 * adfInvSrcGeoTransform.a4
        + p.2 * adfInvSrcGeoTransform.a5)

/-- A sample PROJ.4 library whose `pj_transform` succeeds as a call, sends every point
with `x = 0` to `(500, 500)` and leaves `HUGE_VAL` in both coordinates of any other
point. -/
def leftEdgeProj : ProjLib where
  DEG_TO_RAD := 174532925199432958 / 10000000000000000000
  RAD_TO_DEG := 572957795130823208768 / 10000000000000000000
  HUGE_VAL := 10 ^ 400
  pj_transform := fun _ _ pts =>
    (0, pts.map fun q => if q.1 = 0 then (500, 500) else (10 ^ 400, 10 ^ 400))
  length_pj_transform := fun _ _ _ => List.length_map _ _

/-- The callback `msProjTransformer` together with its data `pTCBData`, as it is handed to
`msInitApproxTransformer`. -/
def msProjTransformer.callback (proj : ProjLib) (psPTInfo : msProjTransformInfo) :
    SimpleTransformer where
  run := msProjTransformer proj psPTInfo
  length_run := by
    intro pts
    have h1 : (msProjTransformer.toDstGeo proj psPTInfo pts).length = pts.length := by
      unfold msProjTransformer.toDstGeo
      dsimp only
      split <;> simp
    have h2 : ∀ s : List Pt,
        (msProjTransformer.toSourceRaster proj psPTInfo s).2.length = s.length := by
      intro s
      unfold msProjTransformer.toSourceRaster
      dsimp only
      split <;> simp
    unfold msProjTransformer
    dsimp only
    split_ifs
    · simp [setXY, proj.length_pj_transform, h1]
    · rw [h2]
      simp [setXY, proj.length_pj_transform, h1]
    · rw [h2, h1]

/-- The function `msInitApproxTransformer(pfnBaseTransformer, pBaseCBData, dfMaxError)`:
the struct it fills. -/
def msInitApproxTransformer (pfnBaseTransformer : SimpleTransformer) (dfMaxError : ℚ) :
    msApproxTransformInfo :=
  { pfnBaseTransformer := pfnBaseTransformer, dfMaxError := dfMaxError }

/-- The callback `msApproxTransformer` together with its data `pACBData`, as it is handed
to the resamplers. -/
def msApproxTransformer.callback (psATInfo : msApproxTransformInfo) : SimpleTransformer where
  run := msApproxTransformer psATInfo
  length_run := by
    have key : ∀ (n : Nat) (pts : List (ℚ × ℚ)), pts.length = n →
        (msApproxTransformer psATInfo pts).2.length = pts.length := by
      intro n
      induction n using Nat.strong_induction_on with
      | _ n ih =>
        intro pts hn
        subst hn
        by_cases h1 : (pts.getD 0 (0, 0)).2 ≠ (pts.getD (pts.length - 1) (0, 0)).2
            ∨ (pts.getD 0 (0, 0)).2 ≠ (pts.getD ((pts.length - 1) / 2) (0, 0)).2
            ∨ (pts.getD 0 (0, 0)).1 = (pts.getD (pts.length - 1) (0, 0)).1
            ∨ (pts.getD 0 (0, 0)).1 = (pts.getD ((pts.length - 1) / 2) (0, 0)).1
            ∨ psATInfo.dfMaxError = 0 ∨ pts.length ≤ 5
        · rw [msApproxTransformer, dif_pos h1]
          exact psATInfo.pfnBaseTransformer.length_run pts
        · have hlen : 5 < pts.length := by
            refine not_le.mp fun h => h1 ?_
            simp only [h, or_true]
          have l1 := ih (pts.take ((pts.length - 1) / 2)).length
            (by rw [List.length_take]; omega) (pts.take ((pts.length - 1) / 2)) rfl
          have l2 := ih (pts.drop ((pts.length - 1) / 2)).length
            (by rw [List.length_drop]; omega) (pts.drop ((pts.length - 1) / 2)) rfl
          rw [List.length_take] at l1
          rw [List.length_drop] at l2
          rw [msApproxTransformer, dif_neg h1]
          dsimp only
          split_ifs
          · exact psATInfo.pfnBaseTransformer.length_run pts
          · rw [psATInfo.pfnBaseTransformer.length_run, List.length_append, List.length_map,
              l1, List.length_drop]
            omega
          · rw [psATInfo.pfnBaseTransformer.length_run, List.length_append, List.length_map,
              List.length_map, l1, l2]
            omega
          · rw [List.length_append, l1, l2]
            omega
          · exact List.length_map _ _
    exact fun pts => key pts.length pts rfl

/-- The value of the processing directive `RESAMPLE` as the two tests
`EQUAL(resampleMode,"AVERAGE")` and `EQUAL(resampleMode,"BILINEAR")` of
`msResampleGDALToMap` see it; an absent directive and every other value count as
`NEAREST`. -/
inductive ResampleMode where
  | AVERAGE
  | BILINEAR
  | NEAREST
  deriving DecidableEq, Repr

/-- The struct `layerObj` as far as `msResampleGDALToMap` reads it: the four directives it
fetches from `layer->processing` (`OVERSAMPLE_RATIO` after `atof`, `none` when the
directive is absent), the projection and the offsite colour. `debug` is left out. -/
structure layerObj where
  RESAMPLE : ResampleMode
  LOAD_WHOLE_IMAGE : Bool
  LOAD_FULL_RES_IMAGE : Bool
  OVERSAMPLE_RATIO : Option ℚ
  projection : projectionObj
  offsite : colorObj

/-- The struct `mapObj` as far as `msResampleGDALToMap` reads it: the projection, the
geotransform `map->gt.geotransform` and the background colour. -/
structure mapObj where
  projection : projectionObj
  geotransform : GeoTransform
  imagecolor : colorObj

/-- The fields of the local `sDummyMap` that `msResampleGDALToMap` sets before it hands the
struct to `msImageCreate` and `msDrawRasterLayerGDAL`. `transparent` is
`outputformat->transparent` when the function has set it; `imagecolor` holds what was on
the stack when the function has not set it. -/
structure dummyMapObj where
  cellsize : ℚ
  outputformat : outputFormatObj
  transparent : Option Int
  width : Int
  height : Int
  imagecolor : colorObj

/-- The functions that `msResampleGDALToMap` calls and that are not in the source file:
PROJ.4 and `msProjectionsDiffer`, the GD library, `sqrt`, the error code `MS_PROJERR`,
the three dataset queries (a dataset handle is a number), `msImageCreate(width, height,
format, NULL, NULL, map)` (`none` is NULL), `msDrawRasterLayerGDAL(map, layer, image,
hDS)` with the `RAW_WINDOW` directive it finds in the layer (the returned `int` and the
image after the call), the palette queries of a GD image, and `msAddColorGD(map, img, 0,
r, g, b)`, which sees the colours that the earlier calls of the loop have allocated. -/
structure ResampleLib where
  proj : ProjLib
  pj_is_latlong : Nat → Bool
  msProjectionsDiffer : projectionObj → projectionObj → Bool
  gd : GdLib
  sqrt : ℚ → ℚ
  MS_PROJERR : Int
  msGetGDALGeoTransform : Nat → mapObj → layerObj → GeoTransform
  GDALGetRasterXSize : Nat → Int
  GDALGetRasterYSize : Nat → Int
  msImageCreate : Int → Int → outputFormatObj → dummyMapObj → Option imageObj
  msDrawRasterLayerGDAL : dummyMapObj → layerObj → Int × Int × Int × Int → imageObj → Nat →
    Int × imageObj
  gdImageColorsTotal : imageObj → Int
  gdImageRed : imageObj → Int → Int
  gdImageGreen : imageObj → Int → Int
  gdImageBlue : imageObj → Int → Int
  msAddColorGD : mapObj → imageObj → List colorObj → Int → Int → Int → Int

/-- The contents of the locals of `msResampleGDALToMap` that the function declares without
an initialiser, as they are when the function starts: `adfInvSrcGeoTransform`,
`sSrcExtent`, `anCMap` and `sDummyMap.imagecolor`. -/
structure ResampleLocals where
  adfInvSrcGeoTransform : GeoTransform
  sSrcExtent : rectObj
  anCMap : Int → Int
  imagecolor : colorObj

/-- The part of `msResampleGDALToMap` that finds the source extent: `sSrcExtent` as it is
copied to `sOrigSrcExtent`, or `none` when an `assert` of `msTransformMapToSource` fails.
The return value of `InvGeoTransform` is not looked at. -/
def msResampleGDALToMap.extent (lib : ResampleLib) (locals : ResampleLocals) (map : mapObj)
    (layer : layerObj) (image : imageObj) (hDS : Nat) : Option rectObj :=
  let nDstXSize := image.width
  let nDstYSize := image.height
  let adfDstGeoTransform := map.geotransform
  let adfSrcGeoTransform := lib.msGetGDALGeoTransform hDS map layer
  let nSrcXSize := lib.GDALGetRasterXSize hDS
  let nSrcYSize := lib.GDALGetRasterYSize hDS
  let adfInvSrcGeoTransform :=
    (InvGeoTransform adfSrcGeoTransform locals.adfInvSrcGeoTransform).2
  let r : Option (Int × rectObj) :=
    if layer.LOAD_WHOLE_IMAGE then
      some (0, locals.sSrcExtent)
    else
      msTransformMapToSource lib.proj lib.pj_is_latlong nDstXSize nDstYSize
        adfDstGeoTransform map.projection nSrcXSize nSrcYSize adfInvSrcGeoTransform
        layer.projection locals.sSrcExtent 0
  -- If the transformation failed, we will assume we need the whole raster.
  r.map fun r =>
    if r.1 = 0 then
      { minx := 0, maxx := (nSrcXSize : ℚ), miny := 0, maxy := (nSrcYSize : ℚ) }
    else r.2

/-- The part of `msResampleGDALToMap` that projects the extent out by a pixel and strips
it to the available data. -/
def msResampleGDALToMap.window (sSrcExtent : rectObj) (nSrcXSize nSrcYSize : Int) : rectObj :=
  { minx := MAX 0 ((⌊sSrcExtent.minx - 1⌋ : Int) : ℚ)
    maxx := MIN ((⌈sSrcExtent.maxx + 1⌉ : Int) : ℚ) (nSrcXSize : ℚ)
    miny := MAX ((⌊sSrcExtent.miny - 1⌋ : Int) : ℚ) 0
    maxy := MIN ((⌈sSrcExtent.maxy + 1⌉ : Int) : ℚ) (nSrcYSize : ℚ) }

/-- The part of `msResampleGDALToMap` that determines the desired oversampling ratio:
2.0 if not otherwise set. -/
def msResampleGDALToMap.dfOversampleRatio (layer : layerObj) : ℚ :=
  match layer.OVERSAMPLE_RATIO with
  | none => 2
  | some r => r

/-- The part of `msResampleGDALToMap` that decides on the resolution to read the source
at: `sDummyMap.cellsize` before the fix-up. The arithmetic is exact;
`msResampleGDALToMap.cellsizeRounded` has every operation rounded. -/
def msResampleGDALToMap.cellsize (layer : layerObj) (sOrigSrcExtent : rectObj)
    (nDstXSize : Int) (dfNominalCellSize : ℚ) : ℚ :=
  let dfOversampleRatio := msResampleGDALToMap.dfOversampleRatio layer
  if (sOrigSrcExtent.maxx - sOrigSrcExtent.minx) > dfOversampleRatio * (nDstXSize : ℚ)
      ∧ ¬ layer.LOAD_FULL_RES_IMAGE then
    (dfNominalCellSize * (sOrigSrcExtent.maxx - sOrigSrcExtent.minx))
      / (dfOversampleRatio * (nDstXSize : ℚ))
  else
    dfNominalCellSize

/-- The pair `nLoadImgXSize`, `nLoadImgYSize` of `msResampleGDALToMap`. The product and
the quotient are exact; `msResampleGDALToMap.loadSizeRounded` has them rounded before the
conversion `(int)`. -/
def msResampleGDALToMap.loadSize (sSrcExtent : rectObj) (dfNominalCellSize cellsize : ℚ) :
    Int × Int :=
  (castInt (MAX 1 ((sSrcExtent.maxx - sSrcExtent.minx) * (dfNominalCellSize / cellsize))),
    castInt (MAX 1 ((sSrcExtent.maxy - sSrcExtent.miny) * (dfNominalCellSize / cellsize))))

/-- The six updates of `adfSrcGeoTransform` in `msResampleGDALToMap`, in their order: the
origin moves to the corner of the window with the coefficients as they were, then the
coefficients are scaled. -/
def msResampleGDALToMap.scratchGeoTransform (adfSrcGeoTransform : GeoTransform)
    (sSrcExtent : rectObj) (cellsize dfNominalCellSize : ℚ) : GeoTransform :=
  { a0 := adfSrcGeoTransform.a0
      + (adfSrcGeoTransform.a1 * sSrcExtent.minx + adfSrcGeoTransform.a2 * sSrcExtent.miny)
    a1 := adfSrcGeoTransform.a1 * (cellsize / dfNominalCellSize)
    a2 := adfSrcGeoTransform.a2 * (cellsize / dfNominalCellSize)
    a3 := adfSrcGeoTransform.a3
      + (adfSrcGeoTransform.a4 * sSrcExtent.minx + adfSrcGeoTransform.a5 * sSrcExtent.miny)
    a4 := adfSrcGeoTransform.a4 * (cellsize / dfNominalCellSize)
    a5 := adfSrcGeoTransform.a5 * (cellsize / dfNominalCellSize) }

/-- The part of `msResampleGDALToMap` that fills `sDummyMap`: the clone of the output
format of the destination (`msCloneOutputFormat`, a copy), made transparent for the GD
renderer, and the size of the scratch image; `none` when the `assert` on the image mode
fails. -/
def msResampleGDALToMap.dummyMap (locals : ResampleLocals) (map : mapObj) (image : imageObj)
    (cellsize : ℚ) (nLoadImgXSize nLoadImgYSize : Int) : Option dummyMapObj :=
  -- If we are working in 256 color GD mode, allocate 0 as the transparent color.
  if image.format.renderer = Renderer.GD ∧ ¬ image.gd.trueColor then
    some
      { cellsize := cellsize, outputformat := image.format, transparent := some MS_TRUE
        width := nLoadImgXSize, height := nLoadImgYSize, imagecolor := ⟨117, 17, 191⟩ }
  -- If we are working in RGB mode ensure we produce an RGBA image.
  else if image.format.renderer = Renderer.GD ∧ image.gd.trueColor then
    if image.format.imagemode = ImageMode.RGB ∨ image.format.imagemode = ImageMode.RGBA then
      some
        { cellsize := cellsize
          outputformat := { image.format with imagemode := ImageMode.RGBA }
          transparent := some MS_TRUE
          width := nLoadImgXSize, height := nLoadImgYSize, imagecolor := map.imagecolor }
    else
      none
  else
    some
      { cellsize := cellsize, outputformat := image.format, transparent := none
        width := nLoadImgXSize, height := nLoadImgYSize, imagecolor := locals.imagecolor }

/-- The part of `msResampleGDALToMap` that generates the colormap remapping: `anCMap`
after it. Only a paletted scratch image has the array written; entries outside `0..255`
are what lies beyond the array. -/
def msResampleGDALToMap.colourMap (lib : ResampleLib) (locals : ResampleLocals)
    (map : mapObj) (image srcImage : imageObj) : Int → Int :=
  if srcImage.format.renderer = Renderer.GD ∧ ¬ srcImage.gd.trueColor then
    let nColorCount := lib.gdImageColorsTotal srcImage
    let st := (fromTo 1 nColorCount).foldl
      (fun (st : (Int → Int) × List colorObj) (iColor : Int) =>
        let nResult := lib.msAddColorGD map image st.2 (lib.gdImageRed srcImage iColor)
          (lib.gdImageGreen srcImage iColor) (lib.gdImageBlue srcImage iColor)
        (fun i => if i = iColor then nResult else st.1 i,
          st.2 ++ [⟨lib.gdImageRed srcImage iColor, lib.gdImageGreen srcImage iColor,
            lib.gdImageBlue srcImage iColor⟩]))
      -- color zero is always transparent
      (fun i => if i = 0 then -1 else locals.anCMap i, [])
    (fromTo nColorCount 256).foldl
      (fun (anCMap : Int → Int) (iColor : Int) => fun i => if i = iColor then -1 else anCMap i)
      st.1
  else
    locals.anCMap

/-- The function `msResampleGDALToMap(map, layer, image, hDS)`: the returned `int` and the
destination image after the call, or `none` when an `assert` fails. The scratch image is
local to the call; the debug messages and the freeing of memory are left out. -/
def msResampleGDALToMap (lib : ResampleLib) (locals : ResampleLocals) (map : mapObj)
    (layer : layerObj) (image : imageObj) (hDS : Nat) : Option (Int × imageObj) :=
  let nDstXSize := image.width
  let adfDstGeoTransform := map.geotransform
  let adfSrcGeoTransform := lib.msGetGDALGeoTransform hDS map layer
  let nSrcXSize := lib.GDALGetRasterXSize hDS
  let nSrcYSize := lib.GDALGetRasterYSize hDS
  match msResampleGDALToMap.extent lib locals map layer image hDS with
  | none => none
  | some sOrigSrcExtent =>
    -- Project desired extents out by 2 pixels, and then strip to available data.
    let sSrcExtent := msResampleGDALToMap.window sOrigSrcExtent nSrcXSize nSrcYSize
    if sSrcExtent.maxx ≤ sSrcExtent.minx ∨ sSrcExtent.maxy ≤ sSrcExtent.miny then
      some (0, image)
    else
      -- Decide on a resolution to read from the source image at.
      let dfNominalCellSize := lib.sqrt
        (adfSrcGeoTransform.a1 * adfSrcGeoTransform.a1
          + adfSrcGeoTransform.a2 * adfSrcGeoTransform.a2)
      let nLoadImg := msResampleGDALToMap.loadSize sSrcExtent dfNominalCellSize
        (msResampleGDALToMap.cellsize layer sOrigSrcExtent nDstXSize dfNominalCellSize)
      let cellsize := ((sSrcExtent.maxx - sSrcExtent.minx) * dfNominalCellSize)
        / (nLoadImg.1 : ℚ)
      let adfSrcGeoTransform := msResampleGDALToMap.scratchGeoTransform adfSrcGeoTransform
        sSrcExtent cellsize dfNominalCellSize
      let RAW_WINDOW : Int × Int × Int × Int :=
        (castInt sSrcExtent.minx, castInt sSrcExtent.miny,
          castInt (sSrcExtent.maxx - sSrcExtent.minx),
          castInt (sSrcExtent.maxy - sSrcExtent.miny))
      match msResampleGDALToMap.dummyMap locals map image cellsize nLoadImg.1 nLoadImg.2 with
      | none => none
      | some sDummyMap =>
        -- Setup a dummy map object we can use to read from the source raster.
        match lib.msImageCreate nLoadImg.1 nLoadImg.2 sDummyMap.outputformat sDummyMap with
        | none => some (-1, image)
        | some srcImage =>
          -- Draw into the temporary image.
          let r := lib.msDrawRasterLayerGDAL sDummyMap layer RAW_WINDOW srcImage hDS
          if r.1 ≠ 0 then
            some (r.1, image)
          else
            let srcImage := r.2
            let anCMap := msResampleGDALToMap.colourMap lib locals map image srcImage
            -- Setup transformations between our source image, and the target map image.
            match msInitProjTransformer lib.pj_is_latlong lib.msProjectionsDiffer
                layer.projection adfSrcGeoTransform map.projection adfDstGeoTransform with
            | none => some (lib.MS_PROJERR, image)
            | some pTCBData =>
              let pACBData := msInitApproxTransformer
                (msProjTransformer.callback lib.proj pTCBData) (333 / 1000)
              -- Perform the resampling.
              match layer.RESAMPLE with
              | ResampleMode.AVERAGE =>
                msAverageRasterResampler lib.gd srcImage layer.offsite image anCMap
                  (msApproxTransformer.callback pACBData)
              | ResampleMode.BILINEAR =>
                msBilinearRasterResampler lib.gd srcImage layer.offsite image anCMap
                  (msApproxTransformer.callback pACBData)
              | ResampleMode.NEAREST =>
                msNearestRasterResampler lib.gd srcImage layer.offsite image anCMap
                  (msApproxTransformer.callback pACBData)

/-- A sample `sqrt`: the integer square roots of numerator and denominator, exact on the
squares of rational numbers. -/
def sampleSqrt (q : ℚ) : ℚ := (Nat.sqrt q.num.toNat : ℚ) / (Nat.sqrt q.den : ℚ)

/-- A sample of the library behind `msResampleGDALToMap`: a dataset of the given
geotransform and size, no geographic projection, a raw scratch image that
`msDrawRasterLayerGDAL` fills with the value `v` in every sample, and an empty palette. -/
def sampleLib (proj : ProjLib) (adfSrcGeoTransform : GeoTransform)
    (nSrcXSize nSrcYSize : Int) (v : ℚ) : ResampleLib where
  proj := proj
  pj_is_latlong := fun _ => false
  msProjectionsDiffer := fun a b => decide (a.proj ≠ b.proj)
  gd := sampleGd
  sqrt := sampleSqrt
  MS_PROJERR := 11
  msGetGDALGeoTransform := fun _ _ _ => adfSrcGeoTransform
  GDALGetRasterXSize := fun _ => nSrcXSize
  GDALGetRasterYSize := fun _ => nSrcYSize
  msImageCreate := fun width height format _ =>
    some { width := width, height := height, format := format, gd := emptyGd, raw := fun _ => 0 }
  msDrawRasterLayerGDAL := fun _ _ _ image _ => (0, { image with raw := fun _ => v })
  gdImageColorsTotal := fun _ => 0
  gdImageRed := fun _ _ => 0
  gdImageGreen := fun _ _ => 0
  gdImageBlue := fun _ _ => 0
  msAddColorGD := fun _ _ allocated _ _ _ => (allocated.length : Int) + 1

/-- Sample contents of the uninitialised locals of `msResampleGDALToMap`, with the given
contents of `adfInvSrcGeoTransform`. -/
def sampleLocals (adfInvSrcGeoTransform : GeoTransform) : ResampleLocals where
  adfInvSrcGeoTransform := adfInvSrcGeoTransform
  sSrcExtent := ⟨-7, -7, -7, -7⟩
  anCMap := fun _ => 0
  imagecolor := ⟨0, 0, 0⟩

/-- A sample layer: the given resampling mode, no other directive, the given projection,
offsite colour `(-1, -1, -1)`. -/
def sampleLayer (mode : ResampleMode) (projection : projectionObj) : layerObj where
  RESAMPLE := mode
  LOAD_WHOLE_IMAGE := false
  LOAD_FULL_RES_IMAGE := false
  OVERSAMPLE_RATIO := none
  projection := projection
  offsite := ⟨-1, -1, -1⟩

/-- The grid pass of `msTransformMapToSource` written without a call of the function
itself, the reading of "grid mode never recurses": the grid samples, the CRS conversion,
the bounds of the successful samples, and the growth when a sample failed. -/
def msTransformMapToSource.gridPass (proj : ProjLib) (pj_is_latlong : Nat → Bool)
    (nDstXSize nDstYSize : Int) (adfDstGeoTransform : GeoTransform)
    (psDstProj : projectionObj) (nSrcXSize nSrcYSize : Int)
    (adfInvSrcGeoTransform : GeoTransform) (psSrcProj : projectionObj)
    (psSrcExtent : rectObj) : Option (Int × rectObj) :=
  match (msTransformMapToSource.samples nDstXSize nDstYSize 1).bind
      (msTransformMapToSource.project proj pj_is_latlong adfDstGeoTransform psDstProj
        psSrcProj) with
  | none => some (MS_FALSE, psSrcExtent)
  | some xy =>
    let st := msTransformMapToSource.collect proj adfInvSrcGeoTransform xy psSrcExtent
    if st.2.1 = 0 then
      some (MS_FALSE, st.1)
    else if st.2.2 > 0 then
      let nGrowAmountX := (castInt (st.1.maxx - st.1.minx)).tdiv EDGE_STEPS + 1
      let nGrowAmountY := (castInt (st.1.maxy - st.1.miny)).tdiv EDGE_STEPS + 1
      some (MS_TRUE,
        { minx := MAX (st.1.minx - nGrowAmountX) 0
          miny := MAX (st.1.miny - nGrowAmountY) 0
          maxx := MIN (st.1.maxx + nGrowAmountX) (nSrcXSize : ℚ)
          maxy := MIN (st.1.maxy + nGrowAmountY) (nSrcYSize : ℚ) })
    else
      some (MS_TRUE, st.1)

/-- The indices at which the test `y[0] != y[nPoints-1] || y[0] != y[nMiddle] || x[0] ==
x[nPoints-1] || x[0] == x[nMiddle] || ...` of `msApproxTransformer` reads the arrays `x`
and `y`, with `nMiddle = (nPoints-1)/2` in the arithmetic of `int`. The first operand is
evaluated by every call, so `y` is read at the first two of them whatever the batch is. -/
def msApproxTransformer.testReads (nPoints : Int) : List Int :=
  [0, nPoints - 1, (nPoints - 1).tdiv 2]

/-- A sample base transformer that never fails and is not affine: `(x, y)` goes to
`(x*x, y)`. -/
def squareBase : SimpleTransformer where
  run := fun pts => (1, pts.map fun p => ⟨p.1 * p.1, p.2, 1⟩)
  length_run := fun _ => List.length_map _ _

/-- The weight `dfWeight` that `msAverageSample` works out for the source cell
`(iX, iY)`: `(dfXCellMax - dfXCellMin) * (dfYCellMax - dfYCellMin)`. -/
def msAverageSample.dfWeight (iX iY : Int) (dfXMin dfYMin dfXMax dfYMax : ℚ) : ℚ :=
  (MIN ((iX : ℚ) + 1) dfXMax - MAX (iX : ℚ) dfXMin)
    * (MIN ((iY : ℚ) + 1) dfYMax - MAX (iY : ℚ) dfYMin)

/-- The four calls of `msSourceSample` in `msBilinearRasterResampler`, in the order of the
source: the source position `(iSrcX, iSrcY)` and the weight `dfWeight` of each. -/
def msBilinearRasterResampler.corners (pos : BilinearPos) : List (Int × Int × ℚ) :=
  [(pos.nSrcX, pos.nSrcY, (1 - pos.dfRatioX2) * (1 - pos.dfRatioY2)),
   (pos.nSrcX2, pos.nSrcY, pos.dfRatioX2 * (1 - pos.dfRatioY2)),
   (pos.nSrcX, pos.nSrcY2, (1 - pos.dfRatioX2) * pos.dfRatioY2),
   (pos.nSrcX2, pos.nSrcY2, pos.dfRatioX2 * pos.dfRatioY2)]

/-- The sample that `msSourceSample` multiplies by the weight and adds to
`padfPixelSum[0]`: the palette index, the red part of the true-colour pixel, or the
band 0 sample of a raw raster. -/
def msSourceSample.value (gd : GdLib) (psSrcImage : imageObj) (iSrcX iSrcY : Int) : ℚ :=
  if psSrcImage.format.renderer = Renderer.GD then
    if ¬ psSrcImage.gd.trueColor then
      psSrcImage.gd.pixels iSrcY iSrcX
    else
      gd.gdTrueColorGetRed (psSrcImage.gd.tpixels iSrcY iSrcX)
  else
    psSrcImage.raw (iSrcX + iSrcY * psSrcImage.width
      + 0 * psSrcImage.width * psSrcImage.height)

/-- The tests under which `msSourceSample` leaves a source position out: a true-colour
pixel with `gd_alpha` 127, or a raw sample in band 0 equal to `offsite->red`. -/
def msSourceSample.skipped (gd : GdLib) (psSrcImage : imageObj) (iSrcX iSrcY : Int)
    (offsite : colorObj) : Prop :=
  if psSrcImage.format.renderer = Renderer.GD then
    if ¬ psSrcImage.gd.trueColor then
      False
    else
      gd.gdTrueColorGetAlpha (psSrcImage.gd.tpixels iSrcY iSrcX) = 127
  else
    psSrcImage.raw (iSrcX + iSrcY * psSrcImage.width
      + 0 * psSrcImage.width * psSrcImage.height) = offsite.red

/-- The sources for which `msSourceSample` adds the weight to `*pdfWeightSum` only
together with a sample in `padfPixelSum[0]`: a GD image, or a raw INT16 or FLOAT32 raster
with at least one band. (The BYTE branch goes on after a nodata sample in band 0, and the
band loop of a raster without bands adds no sample.) -/
def imageObj.weightWithSample (img : imageObj) : Prop :=
  img.format.renderer = Renderer.GD
  ∨ ((img.format.imagemode = ImageMode.INT16 ∨ img.format.imagemode = ImageMode.FLOAT32)
      ∧ 0 < img.format.bands)

/-- The number of binary digits of `n` (0 for `n = 0`), by halving at most `fuel` times;
`bitLength n n` is the full count. -/
def bitLength : Nat → Nat → Nat
  | 0, _ => 0
  | fuel + 1, n => if n = 0 then 0 else bitLength fuel (n / 2) + 1

/-- The integer nearest to `n / d` (`d > 0`), a tie going to the even one. -/
def roundHalfEven (n : Int) (d : Nat) : Int :=
  let q := n / (d : Int)
  let r := n % (d : Int)
  if 2 * r < d then q else if (d : Int) < 2 * r then q + 1 else if q % 2 = 0 then q else q + 1

/-- The binary floating-point value nearest to `x`, a tie going to the even significand,
in a format with `p + 1` significant bits whose smallest positive value is `2^kmin`
(gradual underflow). Overflow is left out. `e` is the exponent with
`2^e <= |x| < 2^(e+1)` and `2^k` the spacing of the format around `x`. -/
def roundBinary (p : Nat) (kmin : Int) (x : ℚ) : ℚ :=
  if x = 0 then
    0
  else
    let n := x.num.natAbs
    let d := x.den
    let e0 : Int := (bitLength n n : Int) - (bitLength d d : Int)
    let e : Int := if n * 2 ^ (-e0).toNat < d * 2 ^ e0.toNat then e0 - 1 else e0
    let k : Int := max (e - (p : Int)) kmin
    let m := roundHalfEven (x.num * 2 ^ (-k).toNat) (d * 2 ^ k.toNat)
    ((m * 2 ^ k.toNat : Int) : ℚ) / ((2 ^ (-k).toNat : Nat) : ℚ)

/-- The value of type `double` (IEEE 754 binary64) nearest to `x`, a tie going to the even
significand: 53 significant bits for `|x| >= 2^-1022`, multiples of `2^-1074` below;
meant for `|x| < 2^1024`. With it a C expression on doubles is modelled operation by
operation, each result rounded once (no fused multiply-add, no wider intermediate
format). -/
def binary64 (x : ℚ) : ℚ := roundBinary 52 (-1074) x

/-- The value of type `float` (IEEE 754 binary32) nearest to `x`, the result of the
conversion `(float) x`: 24 significant bits for `|x| >= 2^-126`, multiples of `2^-149`
below; meant for `|x| < 2^128`. -/
def binary32 (x : ℚ) : ℚ := roundBinary 23 (-149) x

/-- The function `InvGeoTransform(gt_in, gt_out)` with the result of every arithmetic
operation, and the literal, passed through `fl`: with `fl = binary64` this is the
computation on doubles as the C code carries it out, operation by operation (a change of
sign is exact); with `fl = id` it is `InvGeoTransform`. -/
def InvGeoTransform.rounded (fl : ℚ → ℚ) (gt_in gt_out : GeoTransform) :
    Int × GeoTransform :=
  let det := fl (fl (gt_in.a1 * gt_in.a5) - fl (gt_in.a2 * gt_in.a4))
  if fabs det < fl (1 / 1000000000000000) then
    (0, gt_out)
  else
    let inv_det := fl (1 / det)
    (1, { a1 := fl (gt_in.a5 * inv_det)
          a4 := fl (-gt_in.a4 * inv_det)
          a2 := fl (-gt_in.a2 * inv_det)
          a5 := fl (gt_in.a1 * inv_det)
          a0 := fl (fl (fl (gt_in.a2 * gt_in.a3) - fl (gt_in.a0 * gt_in.a5)) * inv_det)
          a3 := fl (fl (fl (-gt_in.a1 * gt_in.a3) + fl (gt_in.a0 * gt_in.a4)) * inv_det) })

/-- The value `gt[0] + gt[1]*col + gt[2]*row`, `gt[3] + gt[4]*col + gt[5]*row` with the
result of every arithmetic operation passed through `fl`, in the order in which C
evaluates the expression: the two products, then the sums from the left. -/
def GeoTransform.applyRounded (fl : ℚ → ℚ) (gt : GeoTransform) (p : ℚ × ℚ) : ℚ × ℚ :=
  (fl (fl (gt.a0 + fl (gt.a1 * p.1)) + fl (gt.a2 * p.2)),
    fl (fl (gt.a3 + fl (gt.a4 * p.1)) + fl (gt.a5 * p.2)))

/-- A geotransform of the kind GDAL hands over for a projected raster: origin
`(500000, 4500000)`, pixels of `0.1` map units (the double nearest to 0.1), north up. -/
def utmGeoTransform : GeoTransform :=
  ⟨500000, binary64 (1 / 10), 0, 4500000, 0, -binary64 (1 / 10)⟩

/-- The part of `msResampleGDALToMap` that decides on the resolution to read the source
at, with the result of every arithmetic operation passed through `fl` (`binary64` for the
doubles of the C code, `id` for `msResampleGDALToMap.cellsize`). The conversion of
`nDstXSize` to `double` is exact. -/
def msResampleGDALToMap.cellsizeRounded (fl : ℚ → ℚ) (layer : layerObj)
    (sOrigSrcExtent : rectObj) (nDstXSize : Int) (dfNominalCellSize : ℚ) : ℚ :=
  let dfOversampleRatio := msResampleGDALToMap.dfOversampleRatio layer
  if fl (sOrigSrcExtent.maxx - sOrigSrcExtent.minx) > fl (dfOversampleRatio * (nDstXSize : ℚ))
      ∧ ¬ layer.LOAD_FULL_RES_IMAGE then
    fl (fl (dfNominalCellSize * fl (sOrigSrcExtent.maxx - sOrigSrcExtent.minx))
      / fl (dfOversampleRatio * (nDstXSize : ℚ)))
  else
    dfNominalCellSize

/-- The pair `nLoadImgXSize`, `nLoadImgYSize` of `msResampleGDALToMap` with the result of
every arithmetic operation passed through `fl` before the conversion `(int)`. -/
def msResampleGDALToMap.loadSizeRounded (fl : ℚ → ℚ) (sSrcExtent : rectObj)
    (dfNominalCellSize cellsize : ℚ) : Int × Int :=
  (castInt (MAX 1 (fl (fl (sSrcExtent.maxx - sSrcExtent.minx)
      * fl (dfNominalCellSize / cellsize)))),
    castInt (MAX 1 (fl (fl (sSrcExtent.maxy - sSrcExtent.miny)
      * fl (dfNominalCellSize / cellsize)))))

/-- The statement `padfPixelSum[i] += v` with the sum passed through `fl`. -/
def addAtRounded (fl : ℚ → ℚ) (padfPixelSum : Int → ℚ) (i : Int) (v : ℚ) : Int → ℚ :=
  fun j => if j = i then fl (padfPixelSum j + v) else padfPixelSum j

/-- The band loop of `msSourceSample` for a source that is not a GD image, with the result
of every arithmetic operation passed through `fl`; otherwise as
`msSourceSample.bands`. -/
def msSourceSample.bandsRounded (fl : ℚ → ℚ) (psSrcImage : imageObj) (iSrcX iSrcY : Int)
    (dfWeight : ℚ) (offsite : colorObj) : List Int → (Int → ℚ) → Option ((Int → ℚ) × Bool)
  | [], padfPixelSum => some (padfPixelSum, true)
  | band :: rest, padfPixelSum =>
    if psSrcImage.format.imagemode = ImageMode.INT16 then
      let nValue := psSrcImage.raw
        (iSrcX + iSrcY * psSrcImage.width + band * psSrcImage.width * psSrcImage.height)
      -- if band 1 is nodata, skip the rest
      if band = 0 ∧ nValue = offsite.red then
        some (padfPixelSum, false)
      else
        msSourceSample.bandsRounded fl psSrcImage iSrcX iSrcY dfWeight offsite rest
          (addAtRounded fl padfPixelSum band (fl (dfWeight * nValue)))
    else if psSrcImage.format.imagemode = ImageMode.FLOAT32 then
      let fValue := psSrcImage.raw
        (iSrcX + iSrcY * psSrcImage.width + band * psSrcImage.width * psSrcImage.height)
      if band = 0 ∧ fValue = offsite.red then
        some (padfPixelSum, false)
      else
        msSourceSample.bandsRounded fl psSrcImage iSrcX iSrcY dfWeight offsite rest
          (addAtRounded fl padfPixelSum band (fl (fValue * dfWeight)))
    else if psSrcImage.format.imagemode = ImageMode.BYTE then
      let nValue := psSrcImage.raw
        (iSrcX + iSrcY * psSrcImage.width + band * psSrcImage.width * psSrcImage.height)
      if band = 0 ∧ nValue = offsite.red then
        -- continue
        msSourceSample.bandsRounded fl psSrcImage iSrcX iSrcY dfWeight offsite rest
          padfPixelSum
      else
        msSourceSample.bandsRounded fl psSrcImage iSrcX iSrcY dfWeight offsite rest
          (addAtRounded fl padfPixelSum band (fl (nValue * dfWeight)))
    else
      none

/-- The function `msSourceSample(psSrcImage, iSrcX, iSrcY, padfPixelSum, dfWeight,
pdfWeightSum, offsite)` with the result of every arithmetic operation (each product and
each `+=`) passed through `fl`: with `fl = binary64` the computation on doubles, with
`fl = id` it is `msSourceSample`. The samples themselves convert to `double` exactly. -/
def msSourceSample.rounded (fl : ℚ → ℚ) (gd : GdLib) (psSrcImage : imageObj)
    (iSrcX iSrcY : Int) (padfPixelSum : Int → ℚ) (dfWeight : ℚ) (dfWeightSum : ℚ)
    (offsite : colorObj) : Option ((Int → ℚ) × ℚ) :=
  if psSrcImage.format.renderer = Renderer.GD then
    if ¬ psSrcImage.gd.trueColor then
      some (addAtRounded fl padfPixelSum 0 (fl (dfWeight * psSrcImage.gd.pixels iSrcY iSrcX)),
        fl (dfWeightSum + dfWeight))
    else
      let nValue := psSrcImage.gd.tpixels iSrcY iSrcX
      let gd_alpha := gd.gdTrueColorGetAlpha nValue
      if gd_alpha ≠ 127 then
        some (addAtRounded fl
            (addAtRounded fl
              (addAtRounded fl padfPixelSum 0 (fl (dfWeight * gd.gdTrueColorGetRed nValue)))
              1 (fl (dfWeight * gd.gdTrueColorGetGreen nValue)))
            2 (fl (dfWeight * gd.gdTrueColorGetBlue nValue)),
          fl (dfWeightSum + dfWeight))
      else
        some (padfPixelSum, dfWeightSum)
  else
    match msSourceSample.bandsRounded fl psSrcImage iSrcX iSrcY dfWeight offsite
        (upTo psSrcImage.format.bands) padfPixelSum with
    | none => none
    | some (sum, true) => some (sum, fl (dfWeightSum + dfWeight))
    | some (sum, false) => some (sum, dfWeightSum)

/-- The head of the pixel loop of `msBilinearRasterResampler` with the result of every
arithmetic operation passed through `fl`: the two `-= 0.5` and the two differences
`x[nDstX] - nSrcX`. `floor` and the conversions between `int` and `double` are exact. -/
def msBilinearRasterResampler.srcPosRounded (fl : ℚ → ℚ) (psSrcImage : imageObj) (p : Pt) :
    Option BilinearPos :=
  if p.success = 0 then
    none
  else
    -- Offset to treat TL pixel corners as pixel location instead of the center.
    let x := fl (p.x - 1 / 2)
    let y := fl (p.y - 1 / 2)
    let nSrcX := castInt ((⌊x⌋ : Int) : ℚ)
    let nSrcY := castInt ((⌊y⌋ : Int) : ℚ)
    let nSrcX2 := nSrcX + 1
    let nSrcY2 := nSrcY + 1
    let dfRatioX2 := fl (x - nSrcX)
    let dfRatioY2 := fl (y - nSrcY)
    -- If we are right off the source, skip this pixel
    if nSrcX2 < 0 ∨ nSrcX ≥ psSrcImage.width ∨ nSrcY2 < 0 ∨ nSrcY ≥ psSrcImage.height then
      none
    else
      -- Trim in stuff one pixel off the edge
      some
        { nSrcX := MAX nSrcX 0
          nSrcY := MAX nSrcY 0
          nSrcX2 := MIN nSrcX2 (psSrcImage.width - 1)
          nSrcY2 := MIN nSrcY2 (psSrcImage.height - 1)
          dfRatioX2 := dfRatioX2
          dfRatioY2 := dfRatioY2 }

/-- The `memset` of `padfPixelSum` and the four calls of `msSourceSample` in
`msBilinearRasterResampler` with the result of every arithmetic operation passed through
`fl`, the weights included: the sums and `dfWeightSum` after the calls. -/
def msBilinearRasterResampler.sampleRounded (fl : ℚ → ℚ) (gd : GdLib)
    (psSrcImage : imageObj) (offsite : colorObj) (pos : BilinearPos) :
    Option ((Int → ℚ) × ℚ) :=
  (msSourceSample.rounded fl gd psSrcImage pos.nSrcX pos.nSrcY (fun _ => 0)
    (fl (fl (1 - pos.dfRatioX2) * fl (1 - pos.dfRatioY2))) 0 offsite).bind fun r1 =>
  (msSourceSample.rounded fl gd psSrcImage pos.nSrcX2 pos.nSrcY r1.1
    (fl (pos.dfRatioX2 * fl (1 - pos.dfRatioY2))) r1.2 offsite).bind fun r2 =>
  (msSourceSample.rounded fl gd psSrcImage pos.nSrcX pos.nSrcY2 r2.1
    (fl (fl (1 - pos.dfRatioX2) * pos.dfRatioY2)) r2.2 offsite).bind fun r3 =>
  msSourceSample.rounded fl gd psSrcImage pos.nSrcX2 pos.nSrcY2 r3.1
    (fl (pos.dfRatioX2 * pos.dfRatioY2)) r3.2 offsite

/-- The part that `msBilinearRasterResampler` and `msAverageRasterResampler` have in the
same words, with the result of every arithmetic operation and the two literals passed
through `fl` and the conversion `(float)` through `fl32`: with `binary64` and `binary32`
the write as the C code carries it out, with `id` and `id` it is
`writeResampledPixel`. -/
def writeResampledPixelRounded (fl fl32 : ℚ → ℚ) (gd : GdLib) (psSrcImage : imageObj)
    (panCMap : Int → Int) (nDstX nDstY : Int) (padfPixelSum : Int → ℚ) (dfAlpha : ℚ)
    (psDstImage : imageObj) : imageObj :=
  if psSrcImage.format.renderer = Renderer.GD then
    if ¬ psSrcImage.gd.trueColor then
      let nResult := panCMap (castInt (padfPixelSum 0))
      if nResult ≠ -1 then
        psDstImage.setPixel nDstY nDstX nResult
      else
        psDstImage
    else
      if dfAlpha > fl (99 / 100) then
        psDstImage.setTPixel nDstY nDstX
          (gd.gdTrueColor (castInt (padfPixelSum 0)) (castInt (padfPixelSum 1))
            (castInt (padfPixelSum 2)))
      else
        let gd_alpha := castInt (fl (127 - fl (fl (1279 / 10) * dfAlpha)))
        let gd_alpha := MAX 0 (MIN 127 gd_alpha)
        let gd_color := gd.gdTrueColorAlpha (castInt (padfPixelSum 0))
          (castInt (padfPixelSum 1)) (castInt (padfPixelSum 2)) gd_alpha
        psDstImage.setTPixel nDstY nDstX
          (gd.msAlphaBlend (psDstImage.gd.tpixels nDstY nDstX) gd_color)
  else if psSrcImage.format.renderer = Renderer.RAWDATA then
    (upTo psSrcImage.format.bands).foldl
      (fun dst band =>
        if psSrcImage.format.imagemode = ImageMode.INT16 then
          dst.setRaw (nDstX + nDstY * dst.width + band * dst.width * dst.height)
            (castShort (padfPixelSum 0))
        else if psSrcImage.format.imagemode = ImageMode.FLOAT32 then
          dst.setRaw (nDstX + nDstY * dst.width + band * dst.width * dst.height)
            (fl32 (padfPixelSum 0))
        else if psSrcImage.format.imagemode = ImageMode.BYTE then
          dst.setRaw (nDstX + nDstY * dst.width + band * dst.width * dst.height)
            (castUChar (padfPixelSum 0))
        else
          dst)
      psDstImage
  else
    psDstImage

/-- The body of the pixel loop of `msBilinearRasterResampler` with the result of every
arithmetic operation passed through `fl` and the conversion `(float)` through `fl32`:
the rounded head, the rounded four calls of `msSourceSample`, the test
`dfWeightSum == 0.0`, the rounded division of the sums and the rounded write. -/
def msBilinearRasterResampler.pixelRounded (fl fl32 : ℚ → ℚ) (gd : GdLib)
    (psSrcImage : imageObj) (offsite : colorObj) (panCMap : Int → Int) (nDstX nDstY : Int)
    (p : Pt) (psDstImage : imageObj) : Option imageObj :=
  match msBilinearRasterResampler.srcPosRounded fl psSrcImage p with
  | none => some psDstImage
  | some pos =>
    match msBilinearRasterResampler.sampleRounded fl gd psSrcImage offsite pos with
    | none => none
    | some (sum, dfWeightSum) =>
      if dfWeightSum = 0 then
        some psDstImage
      else
        let bandCount := MAX 4 psSrcImage.format.bands
        let padfPixelSum : Int → ℚ := fun i =>
          if 0 ≤ i ∧ i < bandCount then fl (sum i / dfWeightSum) else sum i
        some (writeResampledPixelRounded fl fl32 gd psSrcImage panCMap nDstX nDstY
          padfPixelSum dfWeightSum psDstImage)

/-- The function `msBilinearRasterResampler(psSrcImage, offsite, psDstImage, panCMap,
pfnTransform, pCBData, debug)` with the result of every arithmetic operation of its pixel
loop passed through `fl` and the conversion `(float)` through `fl32`: with `binary64`
and `binary32` the function on the doubles of the C code, with `id` and `id` it is
`msBilinearRasterResampler`. The pixel centres `nDstX + 0.5`, `nDstY + 0.5` that go into
the transformer are exact on doubles and stay as they are. -/
def msBilinearRasterResampler.rounded (fl fl32 : ℚ → ℚ) (gd : GdLib)
    (psSrcImage : imageObj) (offsite : colorObj) (psDstImage : imageObj)
    (panCMap : Int → Int) (pfnTransform : SimpleTransformer) : Option (Int × imageObj) :=
  let nDstXSize := psDstImage.width
  let nDstYSize := psDstImage.height
  ((upTo nDstYSize).foldlM
    (fun dst (nDstY : Int) =>
      let pts := (pfnTransform.run
        ((upTo nDstXSize).map fun (nDstX : Int) =>
          ((nDstX : ℚ) + 1 / 2, (nDstY : ℚ) + 1 / 2))).2
      (upTo nDstXSize).foldlM
        (fun dst nDstX =>
          msBilinearRasterResampler.pixelRounded fl fl32 gd psSrcImage offsite panCMap nDstX
            nDstY (pts.getD nDstX.toNat ⟨0, 0, 0⟩) dst)
        dst)
    psDstImage).map fun dst => (0, dst)

/-- The weight sum of a bilinear position as the code adds it up from 0, the four
weights in the order of the calls, each product, difference and sum passed through
`fl`. -/
def weightSumRounded (fl : ℚ → ℚ) (pos : BilinearPos) : ℚ :=
  fl (fl (fl (fl (0 + fl (fl (1 - pos.dfRatioX2) * fl (1 - pos.dfRatioY2)))
        + fl (pos.dfRatioX2 * fl (1 - pos.dfRatioY2)))
      + fl (fl (1 - pos.dfRatioX2) * pos.dfRatioY2))
    + fl (pos.dfRatioX2 * pos.dfRatioY2))

/-- The weighted average of the four neighbouring palette indexes of a bilinear position
as the code computes it: the weighted indexes added up from 0 in the order of the calls,
divided by `weightSumRounded`, every operation passed through `fl`. -/
def weightedAverageIndexRounded (fl : ℚ → ℚ) (psSrcImage : imageObj) (pos : BilinearPos) : ℚ :=
  fl (fl (fl (fl (fl (0
            + fl (fl (fl (1 - pos.dfRatioX2) * fl (1 - pos.dfRatioY2))
                * psSrcImage.gd.pixels pos.nSrcY pos.nSrcX))
          + fl (fl (pos.dfRatioX2 * fl (1 - pos.dfRatioY2))
              * psSrcImage.gd.pixels pos.nSrcY pos.nSrcX2))
        + fl (fl (fl (1 - pos.dfRatioX2) * pos.dfRatioY2)
            * psSrcImage.gd.pixels pos.nSrcY2 pos.nSrcX))
      + fl (fl (pos.dfRatioX2 * pos.dfRatioY2)
          * psSrcImage.gd.pixels pos.nSrcY2 pos.nSrcX2))
    / weightSumRounded fl pos)

/-- The test whether the round of the pixel loop of `msAverageRasterResampler` for the
destination pixel `(nDstX, nDstY)` gets as far as a call of `msSourceSample`: all four
corners transformed, and at least one cell in the two loops of `msAverageSample` over
the footprint of the pixel. -/
def msAverageRasterResampler.readsSample (psSrcImage : imageObj)
    (pfnTransform : SimpleTransformer) (nDstXSize nDstY nDstX : Int) : Prop :=
  ¬ ((transformedCorner pfnTransform nDstXSize nDstY nDstX).success = 0
      ∨ (transformedCorner pfnTransform nDstXSize nDstY (nDstX + 1)).success = 0
      ∨ (transformedCorner pfnTransform nDstXSize (nDstY + 1) nDstX).success = 0
      ∨ (transformedCorner pfnTransform nDstXSize (nDstY + 1) (nDstX + 1)).success = 0)
  ∧ msAverageSample.cells
      (msAverageRasterResampler.footprint psSrcImage
        (transformedCorner pfnTransform nDstXSize nDstY nDstX)
        (transformedCorner pfnTransform nDstXSize nDstY (nDstX + 1))
        (transformedCorner pfnTransform nDstXSize (nDstY + 1) nDstX)
        (transformedCorner pfnTransform nDstXSize (nDstY + 1) (nDstX + 1))).1
      (msAverageRasterResampler.footprint psSrcImage
        (transformedCorner pfnTransform nDstXSize nDstY nDstX)
        (transformedCorner pfnTransform nDstXSize nDstY (nDstX + 1))
        (transformedCorner pfnTransform nDstXSize (nDstY + 1) nDstX)
        (transformedCorner pfnTransform nDstXSize (nDstY + 1) (nDstX + 1))).2.1
      (msAverageRasterResampler.footprint psSrcImage
        (transformedCorner pfnTransform nDstXSize nDstY nDstX)
        (transformedCorner pfnTransform nDstXSize nDstY (nDstX + 1))
        (transformedCorner pfnTransform nDstXSize (nDstY + 1) nDstX)
        (transformedCorner pfnTransform nDstXSize (nDstY + 1) (nDstX + 1))).2.2.1
      (msAverageRasterResampler.footprint psSrcImage
        (transformedCorner pfnTransform nDstXSize nDstY nDstX)
        (transformedCorner pfnTransform nDstXSize nDstY (nDstX + 1))
        (transformedCorner pfnTransform nDstXSize (nDstY + 1) nDstX)
        (transformedCorner pfnTransform nDstXSize (nDstY + 1) (nDstX + 1))).2.2.2 ≠ []

/-! ## Theorems -/

theorem fabs_eq_abs (a : ℚ) : fabs a = |a| := by
  unfold fabs
  split_ifs with h
  · exact (abs_of_neg h).symm
  · exact (abs_of_nonneg (not_lt.mp h)).symm

theorem fabs_nonneg (a : ℚ) : 0 ≤ fabs a := by
  rw [fabs_eq_abs]; exact abs_nonneg a

theorem fabs_zero : fabs 0 = 0 := by
  simp [fabs]

theorem InvGeoTransform_ret (gt_in gt_out : GeoTransform) :
    (InvGeoTransform gt_in gt_out).1 = if fabs gt_in.det < detEpsilon then 0 else 1 := by
  unfold InvGeoTransform GeoTransform.det detEpsilon
  simp only []
  split_ifs <;> rfl

theorem det_ne_zero_of_success (gt_in gt_out : GeoTransform)
    (h : (InvGeoTransform gt_in gt_out).1 = 1) : gt_in.det ≠ 0 := by
  rw [InvGeoTransform_ret] at h
  intro h0
  rw [h0, fabs_zero] at h
  simp [detEpsilon] at h

/-- C1 (amended): in exact arithmetic, whenever `InvGeoTransform` succeeds on `T`, the
inverse it wrote, applied to `T(c,r)`, gives back `(c,r)` exactly. -/
theorem InvGeoTransform_round_trip (T out : GeoTransform) (c r : ℚ)
    (h : (InvGeoTransform T out).1 = 1) :
    (InvGeoTransform T out).2.apply (T.apply (c, r)) = (c, r) := by
  have hdet : T.a1 * T.a5 - T.a2 * T.a4 ≠ 0 := det_ne_zero_of_success T out h
  have hlt : ¬ fabs (T.a1 * T.a5 - T.a2 * T.a4) < 1 / 1000000000000000 := by
    intro hlt
    have hret := InvGeoTransform_ret T out
    rw [h, GeoTransform.det, detEpsilon, if_pos hlt] at hret
    exact absurd hret (by decide)
  unfold InvGeoTransform
  simp only [hlt, if_false, GeoTransform.apply]
  refine Prod.ext ?_ ?_
  · simp only []
    field_simp
    ring
  · simp only []
    field_simp
    ring

/-- C1 (witness): the geotransform with origin `(10, 20)` and pixels of 2 units, north
up, and the pixel `(3, 4)`. -/
theorem InvGeoTransform_round_trip_witness :
    (InvGeoTransform ⟨10, 2, 0, 20, 0, -2⟩ ⟨0, 0, 0, 0, 0, 0⟩).1 = 1 ∧
    (InvGeoTransform ⟨10, 2, 0, 20, 0, -2⟩ ⟨0, 0, 0, 0, 0, 0⟩).2.apply
      ((⟨10, 2, 0, 20, 0, -2⟩ : GeoTransform).apply (3, 4)) = (3, 4) :=
  ⟨by norm_num [InvGeoTransform, fabs],
   InvGeoTransform_round_trip ⟨10, 2, 0, 20, 0, -2⟩ ⟨0, 0, 0, 0, 0, 0⟩ 3 4
     (by norm_num [InvGeoTransform, fabs])⟩

theorem setXY_of_success (xy : List (ℚ × ℚ)) (s : List Pt) (hlen : xy.length = s.length)
    (hs : ∀ p ∈ s, p.success = 1) :
    setXY xy s = xy.map fun q => { x := q.1, y := q.2, success := 1 } := by
  induction xy generalizing s with
  | nil => simp [setXY]
  | cons q xy ih =>
    cases s with
    | nil => simp at hlen
    | cons p s =>
      simp only [setXY, List.zipWith_cons_cons, List.map_cons]
      have hp : p.success = 1 := hs p (List.mem_cons_self _ _)
      rw [hp]
      congr 1
      exact ih s (by simpa using hlen) (fun p hp => hs p (List.mem_cons_of_mem _ hp))

theorem toDstGeo_length (proj : ProjLib) (psPTInfo : msProjTransformInfo) (pts : List (ℚ × ℚ)) :
    (msProjTransformer.toDstGeo proj psPTInfo pts).length = pts.length := by
  unfold msProjTransformer.toDstGeo
  simp only []
  split_ifs <;> simp

theorem toDstGeo_success (proj : ProjLib) (psPTInfo : msProjTransformInfo) (pts : List (ℚ × ℚ)) :
    ∀ p ∈ msProjTransformer.toDstGeo proj psPTInfo pts, p.success = 1 := by
  unfold msProjTransformer.toDstGeo
  simp only []
  split_ifs
  · intro p hp
    simp only [List.mem_map] at hp
    obtain ⟨q, ⟨a, -, rfl⟩, rfl⟩ := hp
    rfl
  · intro p hp
    simp only [List.mem_map] at hp
    obtain ⟨a, -, rfl⟩ := hp
    rfl

theorem setXY_pj_transform (proj : ProjLib) (psPTInfo : msProjTransformInfo)
    (pts : List (ℚ × ℚ)) :
    setXY (proj.pj_transform psPTInfo.psDstProj psPTInfo.psSrcProj
        ((msProjTransformer.toDstGeo proj psPTInfo pts).map Pt.xy)).2
      (msProjTransformer.toDstGeo proj psPTInfo pts) =
    (proj.pj_transform psPTInfo.psDstProj psPTInfo.psSrcProj
        ((msProjTransformer.toDstGeo proj psPTInfo pts).map Pt.xy)).2.map
      fun q => { x := q.1, y := q.2, success := 1 } := by
  apply setXY_of_success
  · rw [proj.length_pj_transform, List.length_map]
  · exact toDstGeo_success proj psPTInfo pts

/-- C8: when CRS conversion is in use and `pj_transform` reports failure for the batch,
`msProjTransformer` returns `MS_FALSE` and every one of the `nPoints` success flags is 0. -/
theorem msProjTransformer_batch_failure (proj : ProjLib) (psPTInfo : msProjTransformInfo)
    (pts : List (ℚ × ℚ)) (huse : psPTInfo.bUseProj = true)
    (hfail : (proj.pj_transform psPTInfo.psDstProj psPTInfo.psSrcProj
      ((msProjTransformer.toDstGeo proj psPTInfo pts).map Pt.xy)).1 ≠ 0) :
    (msProjTransformer proj psPTInfo pts).1 = MS_FALSE ∧
    (msProjTransformer proj psPTInfo pts).2.length = pts.length ∧
    ∀ p ∈ (msProjTransformer proj psPTInfo pts).2, p.success = 0 := by
  have hrun : msProjTransformer proj psPTInfo pts =
      (MS_FALSE, (setXY (proj.pj_transform psPTInfo.psDstProj psPTInfo.psSrcProj
        ((msProjTransformer.toDstGeo proj psPTInfo pts).map Pt.xy)).2
        (msProjTransformer.toDstGeo proj psPTInfo pts)).map
          fun p => { p with success := 0 }) := by
    unfold msProjTransformer
    simp only []
    rw [if_pos huse, if_pos hfail]
  rw [hrun, setXY_pj_transform]
  refine ⟨rfl, ?_, ?_⟩
  · simp [proj.length_pj_transform, toDstGeo_length]
  · intro p hp
    simp only [List.mem_map] at hp
    obtain ⟨q, -, rfl⟩ := hp
    rfl

theorem msProjTransformer_batch_failure_witness :
    sampleProjInfo.bUseProj = true ∧
    (failingProj.pj_transform sampleProjInfo.psDstProj sampleProjInfo.psSrcProj
      ((msProjTransformer.toDstGeo failingProj sampleProjInfo [(1/2, 1/2), (3/2, 1/2)]).map
        Pt.xy)).1 ≠ 0 ∧
    (msProjTransformer failingProj sampleProjInfo [(1/2, 1/2), (3/2, 1/2)]).1 = MS_FALSE ∧
    ∀ p ∈ (msProjTransformer failingProj sampleProjInfo [(1/2, 1/2), (3/2, 1/2)]).2,
      p.success = 0 :=
  ⟨rfl, by simp [failingProj],
   (msProjTransformer_batch_failure failingProj sampleProjInfo [(1/2, 1/2), (3/2, 1/2)] rfl
     (by simp [failingProj])).1,
   (msProjTransformer_batch_failure failingProj sampleProjInfo [(1/2, 1/2), (3/2, 1/2)] rfl
     (by simp [failingProj])).2.2⟩

/-- C9 (the code at a failing input): with CRS conversion in use and a batch-wide
`pj_transform` failure, `msProjTransformer` returns through its early `return MS_FALSE`:
the point `(0.5, 0.5)` comes back flagged 0 with the coordinates `(11, 19)` of the
destination geotransform, not with the marker `(-1, -1)`. -/
theorem msProjTransformer_batch_failure_keeps_coordinates :
    msProjTransformer failingProj sampleProjInfo [(1/2, 1/2)] =
      (MS_FALSE, [{ x := 11, y := 19, success := 0 }]) ∧
    ({ x := 11, y := 19, success := 0 } : Pt).success = 0 ∧
    ({ x := 11, y := 19, success := 0 } : Pt).xy ≠ (-1, -1) := by
  refine ⟨?_, rfl, ?_⟩
  · norm_num [msProjTransformer, msProjTransformer.toDstGeo, failingProj, sampleProjInfo,
      setXY, Pt.xy, MS_FALSE]
  · norm_num [Pt.xy]

theorem toDstGeo_xy (proj : ProjLib) (psPTInfo : msProjTransformInfo) (pts : List (ℚ × ℚ)) :
    (msProjTransformer.toDstGeo proj psPTInfo pts).map Pt.xy =
      pts.map fun p =>
        if psPTInfo.bDstIsGeographic then
          ((psPTInfo.adfDstGeoTransform.apply p).1 * proj.DEG_TO_RAD,
           (psPTInfo.adfDstGeoTransform.apply p).2 * proj.DEG_TO_RAD)
        else psPTInfo.adfDstGeoTransform.apply p := by
  unfold msProjTransformer.toDstGeo
  simp only []
  split_ifs
  · simp [Pt.xy, GeoTransform.apply, Function.comp_def]
  · simp [Pt.xy, GeoTransform.apply, Function.comp_def]

/-- C10: when CRS conversion is in use and the `pj_transform` call succeeds,
`msProjTransformer` returns 1 and its output is the pointwise image of the converted
batch: a converted point with `HUGE_VAL` in `x` or `y` becomes `(-1,-1)` with flag 0, and
every other converted point `q` becomes the inverse source geotransform of `q` (scaled
by `RAD_TO_DEG` first when the source is geographic) with flag 1, whatever happened to
the other points. The converted batch is `pj_transform` of the destination geotransform
of each input point (scaled by `DEG_TO_RAD` when the destination is geographic). -/
theorem msProjTransformer_isolated_failures (proj : ProjLib) (psPTInfo : msProjTransformInfo)
    (pts : List (ℚ × ℚ)) (huse : psPTInfo.bUseProj = true)
    (hok : (proj.pj_transform psPTInfo.psDstProj psPTInfo.psSrcProj
      (pts.map fun p =>
        if psPTInfo.bDstIsGeographic then
          ((psPTInfo.adfDstGeoTransform.apply p).1 * proj.DEG_TO_RAD,
           (psPTInfo.adfDstGeoTransform.apply p).2 * proj.DEG_TO_RAD)
        else psPTInfo.adfDstGeoTransform.apply p)).1 = 0) :
    msProjTransformer proj psPTInfo pts =
      (1, (proj.pj_transform psPTInfo.psDstProj psPTInfo.psSrcProj
        (pts.map fun p =>
          if psPTInfo.bDstIsGeographic then
            ((psPTInfo.adfDstGeoTransform.apply p).1 * proj.DEG_TO_RAD,
             (psPTInfo.adfDstGeoTransform.apply p).2 * proj.DEG_TO_RAD)
          else psPTInfo.adfDstGeoTransform.apply p)).2.map fun q =>
        if q.1 = proj.HUGE_VAL ∨ q.2 = proj.HUGE_VAL then
          { x := -1, y := -1, success := 0 }
        else
          { x := (psPTInfo.adfInvSrcGeoTransform.apply
              (if psPTInfo.bSrcIsGeographic then (q.1 * proj.RAD_TO_DEG, q.2 * proj.RAD_TO_DEG)
               else q)).1
            y := (psPTInfo.adfInvSrcGeoTransform.apply
              (if psPTInfo.bSrcIsGeographic then (q.1 * proj.RAD_TO_DEG, q.2 * proj.RAD_TO_DEG)
               else q)).2
            success := 1 }) := by
  rw [← toDstGeo_xy] at hok ⊢
  have hne : ¬ (proj.pj_transform psPTInfo.psDstProj psPTInfo.psSrcProj
      ((msProjTransformer.toDstGeo proj psPTInfo pts).map Pt.xy)).1 ≠ 0 := not_not.mpr hok
  unfold msProjTransformer
  simp only []
  rw [if_pos huse, if_neg hne, setXY_pj_transform]
  unfold msProjTransformer.toSourceRaster
  by_cases hg : psPTInfo.bSrcIsGeographic = true
  · simp only [hg, if_true, List.map_map]
    congr 1
    apply List.map_congr_left
    intro q _
    by_cases hq : q.1 = proj.HUGE_VAL ∨ q.2 = proj.HUGE_VAL
    · simp [hq, Function.comp]
    · simp [hq, Function.comp, GeoTransform.apply]
  · simp only [hg, Bool.false_eq_true, if_false, List.map_map]
    congr 1
    apply List.map_congr_left
    intro q _
    by_cases hq : q.1 = proj.HUGE_VAL ∨ q.2 = proj.HUGE_VAL
    · simp [hq, Function.comp]
    · simp [hq, Function.comp, GeoTransform.apply]

theorem msProjTransformer_isolated_failures_witness :
    sampleProjInfo.bUseProj = true ∧
    (sentinelProj.pj_transform sampleProjInfo.psDstProj sampleProjInfo.psSrcProj
      ([(1/2, 1/2), (-11/2, 1/2), (3/2, 1/2)].map fun p =>
        if sampleProjInfo.bDstIsGeographic then
          ((sampleProjInfo.adfDstGeoTransform.apply p).1 * sentinelProj.DEG_TO_RAD,
           (sampleProjInfo.adfDstGeoTransform.apply p).2 * sentinelProj.DEG_TO_RAD)
        else sampleProjInfo.adfDstGeoTransform.apply p)).1 = 0 ∧
    msProjTransformer sentinelProj sampleProjInfo [(1/2, 1/2), (-11/2, 1/2), (3/2, 1/2)] =
      (1, [{ x := 1011, y := 19, success := 1 }, { x := -1, y := -1, success := 0 },
           { x := 1013, y := 19, success := 1 }]) :=
  ⟨rfl, rfl,
   (msProjTransformer_isolated_failures sentinelProj sampleProjInfo
      [(1/2, 1/2), (-11/2, 1/2), (3/2, 1/2)] rfl rfl).trans
     (by norm_num [sentinelProj, sampleProjInfo, GeoTransform.apply])⟩

theorem msApproxTransformer_ret_ne_zero (psATInfo : msApproxTransformInfo)
    (hret : ∀ pts, (psATInfo.pfnBaseTransformer.run pts).1 ≠ 0) (pts : List (ℚ × ℚ)) :
    (msApproxTransformer psATInfo pts).1 ≠ 0 := by
  rw [msApproxTransformer]
  dsimp only
  split_ifs
  all_goals first | exact hret _ | exact Int.one_ne_zero

theorem msApproxTransformer_of_length_le_five (psATInfo : msApproxTransformInfo)
    (pts : List (ℚ × ℚ)) (h : pts.length ≤ 5) :
    msApproxTransformer psATInfo pts = psATInfo.pfnBaseTransformer.run pts := by
  rw [msApproxTransformer]
  apply dif_pos
  simp only [h, or_true]

/-- C5 (amended): whenever a precondition of the approximation fails, i.e. the batch has
at most 5 points, or the tolerance equals 0, or the first, middle and last input rows
are not all equal, or the first input column equals the last or the middle one,
`msApproxTransformer` yields exactly what the base transformer yields on the whole
batch: coordinates, success flags and return code. -/
theorem msApproxTransformer_precondition_delegation (psATInfo : msApproxTransformInfo)
    (pts : List (ℚ × ℚ))
    (h : pts.length ≤ 5 ∨ psATInfo.dfMaxError = 0
      ∨ ¬ ((pts.getD 0 (0, 0)).2 = (pts.getD ((pts.length - 1) / 2) (0, 0)).2
          ∧ (pts.getD 0 (0, 0)).2 = (pts.getD (pts.length - 1) (0, 0)).2)
      ∨ (pts.getD 0 (0, 0)).1 = (pts.getD (pts.length - 1) (0, 0)).1
      ∨ (pts.getD 0 (0, 0)).1 = (pts.getD ((pts.length - 1) / 2) (0, 0)).1) :
    msApproxTransformer psATInfo pts = psATInfo.pfnBaseTransformer.run pts := by
  rw [msApproxTransformer]
  apply dif_pos
  tauto

/-- C6: when the preconditions hold but the base transformer, run on the first, middle
and last point, returns 0 or flags one of the three with 0, `msApproxTransformer`
yields exactly what the base transformer yields on the whole, untouched batch. -/
theorem msApproxTransformer_three_sample_failure (psATInfo : msApproxTransformInfo)
    (pts : List (ℚ × ℚ))
    (hlen : 5 < pts.length) (heps : psATInfo.dfMaxError ≠ 0)
    (hrow : (pts.getD 0 (0, 0)).2 = (pts.getD ((pts.length - 1) / 2) (0, 0)).2
      ∧ (pts.getD 0 (0, 0)).2 = (pts.getD (pts.length - 1) (0, 0)).2)
    (hcol : (pts.getD 0 (0, 0)).1 ≠ (pts.getD (pts.length - 1) (0, 0)).1
      ∧ (pts.getD 0 (0, 0)).1 ≠ (pts.getD ((pts.length - 1) / 2) (0, 0)).1)
    (hfail :
      (psATInfo.pfnBaseTransformer.run
        [pts.getD 0 (0, 0), pts.getD ((pts.length - 1) / 2) (0, 0),
         pts.getD (pts.length - 1) (0, 0)]).1 = 0
      ∨ ∃ i < 3, ((psATInfo.pfnBaseTransformer.run
        [pts.getD 0 (0, 0), pts.getD ((pts.length - 1) / 2) (0, 0),
         pts.getD (pts.length - 1) (0, 0)]).2.getD i ⟨0, 0, 0⟩).success = 0) :
    msApproxTransformer psATInfo pts = psATInfo.pfnBaseTransformer.run pts := by
  have h5 : ¬ pts.length ≤ 5 := not_le.mpr hlen
  have h1 : ¬ ((pts.getD 0 (0, 0)).2 ≠ (pts.getD (pts.length - 1) (0, 0)).2
      ∨ (pts.getD 0 (0, 0)).2 ≠ (pts.getD ((pts.length - 1) / 2) (0, 0)).2
      ∨ (pts.getD 0 (0, 0)).1 = (pts.getD (pts.length - 1) (0, 0)).1
      ∨ (pts.getD 0 (0, 0)).1 = (pts.getD ((pts.length - 1) / 2) (0, 0)).1
      ∨ psATInfo.dfMaxError = 0 ∨ pts.length ≤ 5) := by
    tauto
  have h2 : (psATInfo.pfnBaseTransformer.run
        [pts.getD 0 (0, 0), pts.getD ((pts.length - 1) / 2) (0, 0),
         pts.getD (pts.length - 1) (0, 0)]).1 = 0
      ∨ ((psATInfo.pfnBaseTransformer.run
        [pts.getD 0 (0, 0), pts.getD ((pts.length - 1) / 2) (0, 0),
         pts.getD (pts.length - 1) (0, 0)]).2.getD 0 ⟨0, 0, 0⟩).success = 0
      ∨ ((psATInfo.pfnBaseTransformer.run
        [pts.getD 0 (0, 0), pts.getD ((pts.length - 1) / 2) (0, 0),
         pts.getD (pts.length - 1) (0, 0)]).2.getD 1 ⟨0, 0, 0⟩).success = 0
      ∨ ((psATInfo.pfnBaseTransformer.run
        [pts.getD 0 (0, 0), pts.getD ((pts.length - 1) / 2) (0, 0),
         pts.getD (pts.length - 1) (0, 0)]).2.getD 2 ⟨0, 0, 0⟩).success = 0 := by
    rcases hfail with h0 | ⟨i, hi, hs⟩
    · exact Or.inl h0
    · interval_cases i
      · exact Or.inr (Or.inl hs)
      · exact Or.inr (Or.inr (Or.inl hs))
      · exact Or.inr (Or.inr (Or.inr hs))
  rw [msApproxTransformer, dif_neg h1]
  dsimp only
  rw [if_pos h2]

/-- The arrays keep their length: `msApproxTransformer` is itself a `SimpleTransformer`. -/
theorem msApproxTransformer_length (psATInfo : msApproxTransformInfo) :
    ∀ (n : Nat) (pts : List (ℚ × ℚ)), pts.length = n →
      (msApproxTransformer psATInfo pts).2.length = pts.length := by
  intro n
  induction n using Nat.strong_induction_on with
  | _ n ih =>
    intro pts hn
    subst hn
    by_cases h1 : (pts.getD 0 (0, 0)).2 ≠ (pts.getD (pts.length - 1) (0, 0)).2
        ∨ (pts.getD 0 (0, 0)).2 ≠ (pts.getD ((pts.length - 1) / 2) (0, 0)).2
        ∨ (pts.getD 0 (0, 0)).1 = (pts.getD (pts.length - 1) (0, 0)).1
        ∨ (pts.getD 0 (0, 0)).1 = (pts.getD ((pts.length - 1) / 2) (0, 0)).1
        ∨ psATInfo.dfMaxError = 0 ∨ pts.length ≤ 5
    · rw [msApproxTransformer, dif_pos h1]
      exact psATInfo.pfnBaseTransformer.length_run pts
    · have hlen : 5 < pts.length := by
        refine not_le.mp fun h => h1 ?_
        simp only [h, or_true]
      have l1 := ih (pts.take ((pts.length - 1) / 2)).length
        (by rw [List.length_take]; omega) (pts.take ((pts.length - 1) / 2)) rfl
      have l2 := ih (pts.drop ((pts.length - 1) / 2)).length
        (by rw [List.length_drop]; omega) (pts.drop ((pts.length - 1) / 2)) rfl
      rw [List.length_take] at l1
      rw [List.length_drop] at l2
      rw [msApproxTransformer, dif_neg h1]
      dsimp only
      split_ifs
      · exact psATInfo.pfnBaseTransformer.length_run pts
      · rw [psATInfo.pfnBaseTransformer.length_run, List.length_append, List.length_map, l1,
          List.length_drop]
        omega
      · rw [psATInfo.pfnBaseTransformer.length_run, List.length_append, List.length_map,
          List.length_map, l1, l2]
        omega
      · rw [List.length_append, l1, l2]
        omega
      · exact List.length_map _ _

/-- For a base transformer that never fails a batch and maps each point by `f`, every
call of `msApproxTransformer` ends in one of three ways: the base transformer on the
whole batch, the interpolation of the whole batch, or the two recursive results side
by side. -/
theorem msApproxTransformer_cases (psATInfo : msApproxTransformInfo) (f : ℚ × ℚ → Pt)
    (hbase : ∀ pts, (psATInfo.pfnBaseTransformer.run pts).1 ≠ 0
      ∧ (psATInfo.pfnBaseTransformer.run pts).2 = pts.map f)
    (pts : List (ℚ × ℚ)) :
    msApproxTransformer psATInfo pts = psATInfo.pfnBaseTransformer.run pts
    ∨ (5 < pts.length
        ∧ (pts.getD 0 (0, 0)).1 ≠ (pts.getD (pts.length - 1) (0, 0)).1
        ∧ deviation
            (interpolated (pts.getD 0 (0, 0)) (pts.getD (pts.length - 1) (0, 0))
              (f (pts.getD 0 (0, 0))) (f (pts.getD (pts.length - 1) (0, 0)))
              (pts.getD ((pts.length - 1) / 2) (0, 0)))
            (f (pts.getD ((pts.length - 1) / 2) (0, 0))) ≤ psATInfo.dfMaxError
        ∧ msApproxTransformer psATInfo pts =
            (1, pts.map (interpolated (pts.getD 0 (0, 0)) (pts.getD (pts.length - 1) (0, 0))
              (f (pts.getD 0 (0, 0))) (f (pts.getD (pts.length - 1) (0, 0))))))
    ∨ (5 < pts.length
        ∧ msApproxTransformer psATInfo pts =
            (1, (msApproxTransformer psATInfo (pts.take ((pts.length - 1) / 2))).2
              ++ (msApproxTransformer psATInfo (pts.drop ((pts.length - 1) / 2))).2)) := by
  have hret := msApproxTransformer_ret_ne_zero psATInfo (fun l => (hbase l).1)
  have hr3 : (psATInfo.pfnBaseTransformer.run
      [pts.getD 0 (0, 0), pts.getD ((pts.length - 1) / 2) (0, 0),
       pts.getD (pts.length - 1) (0, 0)]).2 =
      [f (pts.getD 0 (0, 0)), f (pts.getD ((pts.length - 1) / 2) (0, 0)),
       f (pts.getD (pts.length - 1) (0, 0))] := by
    rw [(hbase _).2]; rfl
  by_cases h1 : (pts.getD 0 (0, 0)).2 ≠ (pts.getD (pts.length - 1) (0, 0)).2
      ∨ (pts.getD 0 (0, 0)).2 ≠ (pts.getD ((pts.length - 1) / 2) (0, 0)).2
      ∨ (pts.getD 0 (0, 0)).1 = (pts.getD (pts.length - 1) (0, 0)).1
      ∨ (pts.getD 0 (0, 0)).1 = (pts.getD ((pts.length - 1) / 2) (0, 0)).1
      ∨ psATInfo.dfMaxError = 0 ∨ pts.length ≤ 5
  · left
    rw [msApproxTransformer, dif_pos h1]
  · have hlen : 5 < pts.length := by
      refine not_le.mp fun h => h1 ?_
      simp only [h, or_true]
    have hcol : (pts.getD 0 (0, 0)).1 ≠ (pts.getD (pts.length - 1) (0, 0)).1 := by
      intro h
      exact h1 (Or.inr (Or.inr (Or.inl h)))
    rw [msApproxTransformer, dif_neg h1]
    dsimp only
    rw [hr3]
    simp only [List.getD_cons_zero, List.getD_cons_succ]
    split_ifs with h2 h3 h4 h5
    · exact Or.inl rfl
    · exact absurd h4 (hret _)
    · exact absurd h5 (hret _)
    · exact Or.inr (Or.inr ⟨hlen, rfl⟩)
    · exact Or.inr (Or.inl ⟨hlen, hcol, not_lt.mp h3, rfl⟩)

theorem forall₂_map_of_forall {α β : Type} (R : α → β → Prop) (g : α → β)
    (h : ∀ a, R a (g a)) (l : List α) : List.Forall₂ R l (l.map g) := by
  induction l with
  | nil => exact List.Forall₂.nil
  | cons a l ih => exact List.Forall₂.cons (h a) ih

theorem msApproxTransformer_flag_or_base (psATInfo : msApproxTransformInfo) (f : ℚ × ℚ → Pt)
    (hbase : ∀ pts, (psATInfo.pfnBaseTransformer.run pts).1 ≠ 0
      ∧ (psATInfo.pfnBaseTransformer.run pts).2 = pts.map f) :
    ∀ (n : Nat) (pts : List (ℚ × ℚ)), pts.length = n →
      List.Forall₂ (fun p q => q = f p ∨ q.success = 1) pts
        (msApproxTransformer psATInfo pts).2 := by
  intro n
  induction n using Nat.strong_induction_on with
  | _ n ih =>
    intro pts hn
    rcases msApproxTransformer_cases psATInfo f hbase pts with h | ⟨_, _, _, h⟩ | ⟨h5, h⟩
    · rw [h, (hbase pts).2]
      exact forall₂_map_of_forall _ f (fun _ => Or.inl rfl) pts
    · rw [h]
      exact forall₂_map_of_forall (fun p q => q = f p ∨ q.success = 1) _
        (fun _ => Or.inr rfl) pts
    · rw [h]
      have h1 := ih (pts.take ((pts.length - 1) / 2)).length
        (by rw [List.length_take]; omega) (pts.take ((pts.length - 1) / 2)) rfl
      have h2 := ih (pts.drop ((pts.length - 1) / 2)).length
        (by rw [List.length_drop]; omega) (pts.drop ((pts.length - 1) / 2)) rfl
      have h3 := List.rel_append h1 h2
      dsimp only at h3
      rwa [List.take_append_drop] at h3

theorem msApproxTransformer_length_of_pointwise (psATInfo : msApproxTransformInfo)
    (f : ℚ × ℚ → Pt)
    (hbase : ∀ pts, (psATInfo.pfnBaseTransformer.run pts).1 ≠ 0
      ∧ (psATInfo.pfnBaseTransformer.run pts).2 = pts.map f) (pts : List (ℚ × ℚ)) :
    (msApproxTransformer psATInfo pts).2.length = pts.length :=
  (msApproxTransformer_flag_or_base psATInfo f hbase pts.length pts rfl).length_eq.symm

theorem interpolated_first_xy (first last : ℚ × ℚ) (p0 p2 : Pt) :
    (interpolated first last p0 p2 first).xy = p0.xy := by
  simp [interpolated, Pt.xy]

theorem interpolated_last_xy (first last : ℚ × ℚ) (p0 p2 : Pt) (h : first.1 ≠ last.1) :
    (interpolated first last p0 p2 last).xy = p2.xy := by
  have hne : last.1 - first.1 ≠ 0 := sub_ne_zero.mpr (Ne.symm h)
  simp only [interpolated, Pt.xy]
  refine Prod.ext ?_ ?_
  · simp only []
    field_simp
  · simp only []
    field_simp

theorem msApproxTransformer_ends_exact (psATInfo : msApproxTransformInfo) (f : ℚ × ℚ → Pt)
    (hbase : ∀ pts, (psATInfo.pfnBaseTransformer.run pts).1 ≠ 0
      ∧ (psATInfo.pfnBaseTransformer.run pts).2 = pts.map f) :
    ∀ (n : Nat) (pts : List (ℚ × ℚ)), pts.length = n →
      ((msApproxTransformer psATInfo pts).2[0]?).map Pt.xy = (pts[0]?).map (fun p => (f p).xy)
      ∧ ((msApproxTransformer psATInfo pts).2[n - 1]?).map Pt.xy
          = (pts[n - 1]?).map (fun p => (f p).xy) := by
  intro n
  induction n using Nat.strong_induction_on with
  | _ n ih =>
    intro pts hn
    rcases msApproxTransformer_cases psATInfo f hbase pts with h | ⟨h5, hcol, _, h⟩ | ⟨h5, h⟩
    · rw [h, (hbase pts).2]
      simp [Function.comp_def]
    · rw [h]
      have h0 : 0 < pts.length := by omega
      have hl : pts.length - 1 < pts.length := by omega
      have e0 : pts.getD 0 (0, 0) = pts[0] := by simp [h0]
      have el : pts.getD (pts.length - 1) (0, 0) = pts[pts.length - 1] := by simp [hl]
      subst hn
      constructor
      · rw [List.getElem?_map, List.getElem?_eq_getElem h0, e0]
        simp only [Option.map_some']
        rw [interpolated_first_xy]
      · rw [List.getElem?_map, List.getElem?_eq_getElem hl, e0, el]
        simp only [Option.map_some']
        rw [interpolated_last_xy _ _ _ _ (by rw [← e0, ← el]; exact hcol)]
    · rw [h]
      subst hn
      have hm1 : (pts.take ((pts.length - 1) / 2)).length = (pts.length - 1) / 2 := by
        rw [List.length_take]; omega
      have hm2 : (pts.drop ((pts.length - 1) / 2)).length
          = pts.length - (pts.length - 1) / 2 := List.length_drop _ _
      have h1 := (ih _ (by rw [hm1]; omega) (pts.take ((pts.length - 1) / 2)) rfl).1
      have h2 := (ih _ (by rw [hm2]; omega) (pts.drop ((pts.length - 1) / 2)) rfl).2
      have l1 := msApproxTransformer_length_of_pointwise psATInfo f hbase
        (pts.take ((pts.length - 1) / 2))
      rw [hm1] at l1
      dsimp only
      constructor
      · rw [List.getElem?_append_left (by rw [l1]; omega), h1,
          List.getElem?_take_of_lt (by omega)]
      · rw [List.getElem?_append_right (by rw [l1]; omega), l1]
        rw [hm2, List.getElem?_drop] at h2
        have e1 : pts.length - 1 - (pts.length - 1) / 2
            = pts.length - (pts.length - 1) / 2 - 1 := by omega
        have e2 : (pts.length - 1) / 2 + (pts.length - (pts.length - 1) / 2 - 1)
            = pts.length - 1 := by omega
        rw [e1, h2, e2]

theorem deviation_eq_zero_of_xy (a b : Pt) (h : a.xy = b.xy) : deviation a b = 0 := by
  simp only [Pt.xy, Prod.mk.injEq] at h
  simp [deviation, h.1, h.2, fabs]

theorem deviation_getD_of_xy (out : List Pt) (pts : List (ℚ × ℚ)) (f : ℚ × ℚ → Pt) (i : Nat)
    (hlen : out.length = pts.length) (hi : i < pts.length)
    (h : (out[i]?).map Pt.xy = (pts[i]?).map (fun p => (f p).xy)) :
    deviation (out.getD i ⟨0, 0, 0⟩) (f (pts.getD i (0, 0))) = 0 := by
  have hi2 : i < out.length := by omega
  rw [List.getElem?_eq_getElem hi, List.getElem?_eq_getElem hi2] at h
  simp only [Option.map_some', Option.some.injEq] at h
  apply deviation_eq_zero_of_xy
  simpa [hi, hi2] using h

/-- C3 (amended): for every base transformer that never fails a batch and maps each
point on its own (by `f`), every tolerance `eps > 0` and every batch, what
`msApproxTransformer` outputs for the first, the middle (index `(n-1)/2`) and the last
point of the batch differs from the base transformer's direct output `f` for that point
by at most `eps` in `|dx| + |dy|`. -/
theorem msApproxTransformer_anchor_deviation (psATInfo : msApproxTransformInfo)
    (f : ℚ × ℚ → Pt)
    (hbase : ∀ pts, (psATInfo.pfnBaseTransformer.run pts).1 ≠ 0
      ∧ (psATInfo.pfnBaseTransformer.run pts).2 = pts.map f)
    (heps : 0 < psATInfo.dfMaxError) (pts : List (ℚ × ℚ)) (i : Nat) (hi : i < pts.length)
    (hanchor : i = 0 ∨ i = (pts.length - 1) / 2 ∨ i = pts.length - 1) :
    deviation ((msApproxTransformer psATInfo pts).2.getD i ⟨0, 0, 0⟩) (f (pts.getD i (0, 0)))
      ≤ psATInfo.dfMaxError := by
  have hlen := msApproxTransformer_length_of_pointwise psATInfo f hbase pts
  have hends := msApproxTransformer_ends_exact psATInfo f hbase pts.length pts rfl
  rcases hanchor with h0 | hm | hl
  · subst h0
    rw [deviation_getD_of_xy _ _ f 0 hlen hi hends.1]
    exact heps.le
  · rcases msApproxTransformer_cases psATInfo f hbase pts with h | ⟨_, _, hdev, h⟩ | ⟨h5, h⟩
    · rw [deviation_getD_of_xy _ _ f i hlen hi]
      · exact heps.le
      · rw [h, (hbase pts).2]
        simp [Function.comp_def]
    · subst hm
      rw [h]
      have e : ((1 : Int), pts.map (interpolated (pts.getD 0 (0, 0))
          (pts.getD (pts.length - 1) (0, 0)) (f (pts.getD 0 (0, 0)))
          (f (pts.getD (pts.length - 1) (0, 0))))).2.getD ((pts.length - 1) / 2) ⟨0, 0, 0⟩
          = interpolated (pts.getD 0 (0, 0)) (pts.getD (pts.length - 1) (0, 0))
              (f (pts.getD 0 (0, 0))) (f (pts.getD (pts.length - 1) (0, 0)))
              (pts.getD ((pts.length - 1) / 2) (0, 0)) := by
        simp [hi]
      rw [e]
      exact hdev
    · rw [deviation_getD_of_xy _ _ f i hlen hi]
      · exact heps.le
      · subst hm
        have l1 := msApproxTransformer_length_of_pointwise psATInfo f hbase
          (pts.take ((pts.length - 1) / 2))
        have hm1 : (pts.take ((pts.length - 1) / 2)).length = (pts.length - 1) / 2 := by
          rw [List.length_take]; omega
        rw [hm1] at l1
        have h2 := (msApproxTransformer_ends_exact psATInfo f hbase _
          (pts.drop ((pts.length - 1) / 2)) rfl).1
        rw [List.getElem?_drop] at h2
        rw [h]
        dsimp only
        rw [List.getElem?_append_right (by rw [l1]), l1, Nat.sub_self, h2]
        rfl
  · subst hl
    rw [deviation_getD_of_xy _ _ f _ hlen hi hends.2]
    exact heps.le

theorem msApproxTransformer_anchor_deviation_witness :
    (∀ pts, (bumpBase.run pts).1 ≠ 0 ∧ (bumpBase.run pts).2
      = pts.map fun p => ⟨(p.1 - 1) * (p.1 - 3) * (p.1 - 6), p.2, 1⟩) ∧
    (0 : ℚ) < (⟨bumpBase, 1⟩ : msApproxTransformInfo).dfMaxError ∧
    2 < scanline6.length ∧
    deviation ((msApproxTransformer ⟨bumpBase, 1⟩ scanline6).2.getD 2 ⟨0, 0, 0⟩)
      ((fun p : ℚ × ℚ => (⟨(p.1 - 1) * (p.1 - 3) * (p.1 - 6), p.2, 1⟩ : Pt))
        (scanline6.getD 2 (0, 0))) ≤ (⟨bumpBase, 1⟩ : msApproxTransformInfo).dfMaxError :=
  ⟨fun _ => ⟨Int.one_ne_zero, rfl⟩, one_pos, by decide,
   msApproxTransformer_anchor_deviation ⟨bumpBase, 1⟩ _ (fun _ => ⟨Int.one_ne_zero, rfl⟩)
     one_pos scanline6 2 (by decide) (Or.inr (Or.inl (by decide)))⟩

/-- C4 (amended): for every base transformer that never fails a batch and maps each
point on its own (by `f`), and for every batch, each entry that `msApproxTransformer`
outputs is either the base transformer's own output for that point, success flag
included, or an interpolated point that is flagged successful (1): a point is reported
failed only where the base transformer fails it. -/
theorem msApproxTransformer_flags (psATInfo : msApproxTransformInfo) (f : ℚ × ℚ → Pt)
    (hbase : ∀ pts, (psATInfo.pfnBaseTransformer.run pts).1 ≠ 0
      ∧ (psATInfo.pfnBaseTransformer.run pts).2 = pts.map f)
    (pts : List (ℚ × ℚ)) :
    List.Forall₂ (fun p q => q = f p ∨ q.success = 1) pts
      (msApproxTransformer psATInfo pts).2 :=
  msApproxTransformer_flag_or_base psATInfo f hbase pts.length pts rfl

theorem msApproxTransformer_flags_witness :
    (∀ pts, (holeBase.run pts).1 ≠ 0 ∧ (holeBase.run pts).2
      = pts.map fun p => ⟨p.1, p.2, if p.1 = 2 then 0 else 1⟩) ∧
    List.Forall₂
      (fun p q => q = (fun p : ℚ × ℚ => (⟨p.1, p.2, if p.1 = 2 then 0 else 1⟩ : Pt)) p
        ∨ q.success = 1)
      scanline6 (msApproxTransformer ⟨holeBase, 1⟩ scanline6).2 :=
  ⟨fun _ => ⟨Int.one_ne_zero, rfl⟩,
   msApproxTransformer_flags ⟨holeBase, 1⟩ _ (fun _ => ⟨Int.one_ne_zero, rfl⟩) scanline6⟩

/-- C3 (counterexample): with the tolerance 1 and the always successful base transformer
`(x, y) ↦ ((x-1)(x-3)(x-6), y)`, the scanline of columns 1 to 6 is interpolated (the
three samples lie on one line), and the point of column 2 comes out as `(0, 7)` while
the base transformer maps it to `(4, 7)`: the deviation 4 exceeds the tolerance. -/
theorem msApproxTransformer_bound_counterexample :
    (0 : ℚ) < (⟨bumpBase, 1⟩ : msApproxTransformInfo).dfMaxError ∧
    (∀ p ∈ scanline6, p.2 = 7) ∧
    msApproxTransformer ⟨bumpBase, 1⟩ scanline6 =
      (1, [⟨0, 7, 1⟩, ⟨0, 7, 1⟩, ⟨0, 7, 1⟩, ⟨0, 7, 1⟩, ⟨0, 7, 1⟩, ⟨0, 7, 1⟩]) ∧
    bumpBase.run scanline6 =
      (1, [⟨0, 7, 1⟩, ⟨4, 7, 1⟩, ⟨0, 7, 1⟩, ⟨-6, 7, 1⟩, ⟨-8, 7, 1⟩, ⟨0, 7, 1⟩]) ∧
    ¬ deviation ((msApproxTransformer ⟨bumpBase, 1⟩ scanline6).2.getD 1 ⟨0, 0, 0⟩)
        ((bumpBase.run scanline6).2.getD 1 ⟨0, 0, 0⟩)
      ≤ (⟨bumpBase, 1⟩ : msApproxTransformInfo).dfMaxError := by
  have e3 : bumpBase.run [(1, 7), (3, 7), (6, 7)] = (1, [⟨0, 7, 1⟩, ⟨0, 7, 1⟩, ⟨0, 7, 1⟩]) := by
    norm_num [bumpBase]
  have ea : msApproxTransformer ⟨bumpBase, 1⟩ scanline6 =
      (1, [⟨0, 7, 1⟩, ⟨0, 7, 1⟩, ⟨0, 7, 1⟩, ⟨0, 7, 1⟩, ⟨0, 7, 1⟩, ⟨0, 7, 1⟩]) := by
    rw [msApproxTransformer]
    norm_num [scanline6, e3, fabs]
  have eb : bumpBase.run scanline6 =
      (1, [⟨0, 7, 1⟩, ⟨4, 7, 1⟩, ⟨0, 7, 1⟩, ⟨-6, 7, 1⟩, ⟨-8, 7, 1⟩, ⟨0, 7, 1⟩]) := by
    norm_num [scanline6, bumpBase]
  refine ⟨one_pos, ?_, ea, eb, ?_⟩
  · simp [scanline6]
  · rw [ea, eb]
    norm_num [deviation, fabs]

/-- C4 (counterexample): the base transformer `holeBase` flags the point of column 2 as
failed, but its three samples (columns 1, 3 and 6) succeed and lie on one line, so
`msApproxTransformer` interpolates the scanline and reports that point successful. -/
theorem msApproxTransformer_flags_counterexample :
    (∀ p ∈ scanline6, p.2 = 7) ∧
    msApproxTransformer ⟨holeBase, 1⟩ scanline6 =
      (1, [⟨1, 7, 1⟩, ⟨2, 7, 1⟩, ⟨3, 7, 1⟩, ⟨4, 7, 1⟩, ⟨5, 7, 1⟩, ⟨6, 7, 1⟩]) ∧
    holeBase.run scanline6 =
      (1, [⟨1, 7, 1⟩, ⟨2, 7, 0⟩, ⟨3, 7, 1⟩, ⟨4, 7, 1⟩, ⟨5, 7, 1⟩, ⟨6, 7, 1⟩]) ∧
    ((msApproxTransformer ⟨holeBase, 1⟩ scanline6).2.getD 1 ⟨0, 0, 0⟩).success ≠
      ((holeBase.run scanline6).2.getD 1 ⟨0, 0, 0⟩).success := by
  have e3 : holeBase.run [(1, 7), (3, 7), (6, 7)] = (1, [⟨1, 7, 1⟩, ⟨3, 7, 1⟩, ⟨6, 7, 1⟩]) := by
    norm_num [holeBase]
  have ea : msApproxTransformer ⟨holeBase, 1⟩ scanline6 =
      (1, [⟨1, 7, 1⟩, ⟨2, 7, 1⟩, ⟨3, 7, 1⟩, ⟨4, 7, 1⟩, ⟨5, 7, 1⟩, ⟨6, 7, 1⟩]) := by
    rw [msApproxTransformer]
    norm_num [scanline6, e3, fabs]
  have eb : holeBase.run scanline6 =
      (1, [⟨1, 7, 1⟩, ⟨2, 7, 0⟩, ⟨3, 7, 1⟩, ⟨4, 7, 1⟩, ⟨5, 7, 1⟩, ⟨6, 7, 1⟩]) := by
    norm_num [scanline6, holeBase]
  refine ⟨by simp [scanline6], ea, eb, ?_⟩
  rw [ea, eb]
  simp

/-- C5 (counterexample): with the negative tolerance -1 the batch is not handed to the
base transformer. The three samples succeed, the error 0 exceeds -1, and the two
recursive calls run the base transformer on the first two and on the last four points
separately; for `relativeBase` that is not what it yields on the whole batch. -/
theorem msApproxTransformer_negative_tolerance_counterexample :
    ¬ (0 : ℚ) < (⟨relativeBase, -1⟩ : msApproxTransformInfo).dfMaxError ∧
    msApproxTransformer ⟨relativeBase, -1⟩ scanline6 =
      (1, [⟨0, 7, 1⟩, ⟨1, 7, 1⟩, ⟨0, 7, 1⟩, ⟨1, 7, 1⟩, ⟨2, 7, 1⟩, ⟨3, 7, 1⟩]) ∧
    relativeBase.run scanline6 =
      (1, [⟨0, 7, 1⟩, ⟨1, 7, 1⟩, ⟨2, 7, 1⟩, ⟨3, 7, 1⟩, ⟨4, 7, 1⟩, ⟨5, 7, 1⟩]) ∧
    msApproxTransformer ⟨relativeBase, -1⟩ scanline6 ≠ relativeBase.run scanline6 := by
  have e3 : relativeBase.run [(1, 7), (3, 7), (6, 7)] =
      (1, [⟨0, 7, 1⟩, ⟨2, 7, 1⟩, ⟨5, 7, 1⟩]) := by
    norm_num [relativeBase]
  have e1 : msApproxTransformer ⟨relativeBase, -1⟩ [(1, 7), (2, 7)] =
      (1, [⟨0, 7, 1⟩, ⟨1, 7, 1⟩]) := by
    rw [msApproxTransformer_of_length_le_five _ _ (by decide)]
    norm_num [relativeBase]
  have e2 : msApproxTransformer ⟨relativeBase, -1⟩ [(3, 7), (4, 7), (5, 7), (6, 7)] =
      (1, [⟨0, 7, 1⟩, ⟨1, 7, 1⟩, ⟨2, 7, 1⟩, ⟨3, 7, 1⟩]) := by
    rw [msApproxTransformer_of_length_le_five _ _ (by decide)]
    norm_num [relativeBase]
  have ea : msApproxTransformer ⟨relativeBase, -1⟩ scanline6 =
      (1, [⟨0, 7, 1⟩, ⟨1, 7, 1⟩, ⟨0, 7, 1⟩, ⟨1, 7, 1⟩, ⟨2, 7, 1⟩, ⟨3, 7, 1⟩]) := by
    rw [msApproxTransformer]
    norm_num [scanline6, e1, e2, e3, fabs]
  have eb : relativeBase.run scanline6 =
      (1, [⟨0, 7, 1⟩, ⟨1, 7, 1⟩, ⟨2, 7, 1⟩, ⟨3, 7, 1⟩, ⟨4, 7, 1⟩, ⟨5, 7, 1⟩]) := by
    norm_num [scanline6, relativeBase]
  refine ⟨by norm_num, ea, eb, ?_⟩
  rw [ea, eb]
  simp

theorem msApproxTransformer_precondition_delegation_witness :
    (scanline6.length ≤ 5 ∨ (⟨bumpBase, 0⟩ : msApproxTransformInfo).dfMaxError = 0
      ∨ ¬ ((scanline6.getD 0 (0, 0)).2 = (scanline6.getD ((scanline6.length - 1) / 2) (0, 0)).2
          ∧ (scanline6.getD 0 (0, 0)).2 = (scanline6.getD (scanline6.length - 1) (0, 0)).2)
      ∨ (scanline6.getD 0 (0, 0)).1 = (scanline6.getD (scanline6.length - 1) (0, 0)).1
      ∨ (scanline6.getD 0 (0, 0)).1 = (scanline6.getD ((scanline6.length - 1) / 2) (0, 0)).1) ∧
    msApproxTransformer ⟨bumpBase, 0⟩ scanline6 = bumpBase.run scanline6 :=
  ⟨Or.inr (Or.inl rfl),
   msApproxTransformer_precondition_delegation ⟨bumpBase, 0⟩ scanline6 (Or.inr (Or.inl rfl))⟩

theorem msApproxTransformer_three_sample_failure_witness :
    5 < scanlineFrom2.length ∧
    (⟨holeBase, 1⟩ : msApproxTransformInfo).dfMaxError ≠ 0 ∧
    ((holeBase.run
        [scanlineFrom2.getD 0 (0, 0), scanlineFrom2.getD ((scanlineFrom2.length - 1) / 2) (0, 0),
         scanlineFrom2.getD (scanlineFrom2.length - 1) (0, 0)]).2.getD 0 ⟨0, 0, 0⟩).success = 0 ∧
    msApproxTransformer ⟨holeBase, 1⟩ scanlineFrom2 = holeBase.run scanlineFrom2 :=
  ⟨by decide, one_ne_zero, by norm_num [scanlineFrom2, holeBase],
   msApproxTransformer_three_sample_failure ⟨holeBase, 1⟩ scanlineFrom2 (by decide) one_ne_zero
     (by norm_num [scanlineFrom2]) (by norm_num [scanlineFrom2])
     (Or.inr ⟨0, by decide, by norm_num [scanlineFrom2, holeBase]⟩)⟩

/-- C7 (the code at a failing input): tolerance 1, base transformer `guardedSquare`,
scanline of columns 1 to 6. The three samples succeed with a middle deviation of 6, so
the recursive branch is taken; the first recursive call (columns 1 and 2) fails and
leaves `(101, 7)`, `(102, 7)` in the arrays; the fallback then runs the base
transformer on these overwritten coordinates and returns success with `(10201, 7)`,
`(10404, 7)`, whereas the base transformer on the original batch fails every point. -/
theorem msApproxTransformer_fallback_on_overwritten_input :
    guardedSquare.run [(1, 7), (3, 7), (6, 7)] = (1, [⟨1, 7, 1⟩, ⟨9, 7, 1⟩, ⟨36, 7, 1⟩]) ∧
    deviation (interpolated (1, 7) (6, 7) ⟨1, 7, 1⟩ ⟨36, 7, 1⟩ (3, 7)) ⟨9, 7, 1⟩ = 6 ∧
    msApproxTransformer ⟨guardedSquare, 1⟩ (scanline6.take 2) =
      (0, [⟨101, 7, 0⟩, ⟨102, 7, 0⟩]) ∧
    msApproxTransformer ⟨guardedSquare, 1⟩ scanline6 =
      (1, [⟨10201, 7, 1⟩, ⟨10404, 7, 1⟩, ⟨9, 7, 1⟩, ⟨16, 7, 1⟩, ⟨25, 7, 1⟩, ⟨36, 7, 1⟩]) ∧
    guardedSquare.run scanline6 =
      (0, [⟨101, 7, 0⟩, ⟨102, 7, 0⟩, ⟨103, 7, 0⟩, ⟨104, 7, 0⟩, ⟨105, 7, 0⟩, ⟨106, 7, 0⟩]) := by
  have e3 : guardedSquare.run [(1, 7), (3, 7), (6, 7)] =
      (1, [⟨1, 7, 1⟩, ⟨9, 7, 1⟩, ⟨36, 7, 1⟩]) := by
    norm_num [guardedSquare]
  have e1 : msApproxTransformer ⟨guardedSquare, 1⟩ [(1, 7), (2, 7)] =
      (0, [⟨101, 7, 0⟩, ⟨102, 7, 0⟩]) := by
    rw [msApproxTransformer_of_length_le_five _ _ (by decide)]
    norm_num [guardedSquare]
  have e2 : guardedSquare.run [(101, 7), (102, 7), (3, 7), (4, 7), (5, 7), (6, 7)] =
      (1, [⟨10201, 7, 1⟩, ⟨10404, 7, 1⟩, ⟨9, 7, 1⟩, ⟨16, 7, 1⟩, ⟨25, 7, 1⟩, ⟨36, 7, 1⟩]) := by
    norm_num [guardedSquare]
  refine ⟨e3, ?_, ?_, ?_, ?_⟩
  · norm_num [deviation, interpolated, fabs]
  · simpa [scanline6] using e1
  · rw [msApproxTransformer]
    norm_num [scanline6, e1, e2, e3, fabs, Pt.xy]
  · norm_num [scanline6, guardedSquare]

/-- C11: when either CRS handle is NULL or the two CRSs do not differ, and the source
geotransform can be inverted, `msInitProjTransformer` builds a transformer, and that
transformer maps every point of every batch to the inverted source geotransform applied
to the destination geotransform of the point, without any degree/radian factor, flags
every point 1 and returns 1, whatever the PROJ.4 library is. -/
theorem msInitProjTransformer_no_conversion (pj_is_latlong : Nat → Bool)
    (msProjectionsDiffer : projectionObj → projectionObj → Bool)
    (psSrc psDst : projectionObj) (padfSrcGeoTransform padfDstGeoTransform : GeoTransform)
    (hcrs : psSrc.proj = 0 ∨ psDst.proj = 0 ∨ msProjectionsDiffer psSrc psDst = false)
    (hinv : (InvGeoTransform padfSrcGeoTransform ⟨0, 0, 0, 0, 0, 0⟩).1 ≠ 0) :
    ∃ psPTInfo,
      msInitProjTransformer pj_is_latlong msProjectionsDiffer psSrc padfSrcGeoTransform
        psDst padfDstGeoTransform = some psPTInfo ∧
      ∀ (proj : ProjLib) (pts : List (ℚ × ℚ)),
        msProjTransformer proj psPTInfo pts =
          (1, pts.map fun p =>
            { x := ((InvGeoTransform padfSrcGeoTransform ⟨0, 0, 0, 0, 0, 0⟩).2.apply
                (padfDstGeoTransform.apply p)).1
              y := ((InvGeoTransform padfSrcGeoTransform ⟨0, 0, 0, 0, 0, 0⟩).2.apply
                (padfDstGeoTransform.apply p)).2
              success := 1 }) := by
  have huse : (decide (psSrc.proj ≠ 0) && decide (psDst.proj ≠ 0)
      && msProjectionsDiffer psSrc psDst) = false := by
    rcases hcrs with h | h | h <;> simp [h]
  have hinit : msInitProjTransformer pj_is_latlong msProjectionsDiffer psSrc
      padfSrcGeoTransform psDst padfDstGeoTransform =
      some { psSrcProj := psSrc.proj
             bSrcIsGeographic := false
             adfInvSrcGeoTransform := (InvGeoTransform padfSrcGeoTransform ⟨0, 0, 0, 0, 0, 0⟩).2
             psDstProj := psDst.proj
             bDstIsGeographic := false
             adfDstGeoTransform := padfDstGeoTransform
             bUseProj := false } := by
    unfold msInitProjTransformer
    simp only [huse, if_neg hinv, Bool.false_eq_true, if_false]
  refine ⟨_, hinit, ?_⟩
  intro proj pts
  simp only [msProjTransformer, msProjTransformer.toDstGeo,
    msProjTransformer.toSourceRaster, Bool.false_eq_true, if_false, List.map_map]
  rfl

theorem msInitProjTransformer_no_conversion_witness :
    ((⟨0⟩ : projectionObj).proj = 0 ∨ (⟨5⟩ : projectionObj).proj = 0
      ∨ (fun _ _ => true : projectionObj → projectionObj → Bool) ⟨0⟩ ⟨5⟩ = false) ∧
    (InvGeoTransform ⟨10, 2, 0, 20, 0, -2⟩ ⟨0, 0, 0, 0, 0, 0⟩).1 ≠ 0 ∧
    ∃ psPTInfo,
      msInitProjTransformer (fun _ => true) (fun _ _ => true) ⟨0⟩ ⟨10, 2, 0, 20, 0, -2⟩
        ⟨5⟩ ⟨10, 2, 0, 20, 0, -2⟩ = some psPTInfo ∧
      ∀ (proj : ProjLib) (pts : List (ℚ × ℚ)),
        msProjTransformer proj psPTInfo pts =
          (1, pts.map fun p =>
            { x := ((InvGeoTransform ⟨10, 2, 0, 20, 0, -2⟩ ⟨0, 0, 0, 0, 0, 0⟩).2.apply
                ((⟨10, 2, 0, 20, 0, -2⟩ : GeoTransform).apply p)).1
              y := ((InvGeoTransform ⟨10, 2, 0, 20, 0, -2⟩ ⟨0, 0, 0, 0, 0, 0⟩).2.apply
                ((⟨10, 2, 0, 20, 0, -2⟩ : GeoTransform).apply p)).2
              success := 1 }) :=
  ⟨Or.inl rfl, by norm_num [InvGeoTransform, fabs],
   msInitProjTransformer_no_conversion (fun _ => true) (fun _ _ => true) ⟨0⟩ ⟨5⟩
     ⟨10, 2, 0, 20, 0, -2⟩ ⟨10, 2, 0, 20, 0, -2⟩ (Or.inl rfl)
     (by norm_num [InvGeoTransform, fabs])⟩

theorem mem_upTo (n i : Int) : i ∈ upTo n ↔ 0 ≤ i ∧ i < n := by
  unfold upTo
  simp only [List.mem_map, List.mem_range]
  constructor
  · rintro ⟨k, hk, rfl⟩
    simp only [Int.ofNat_eq_coe]
    omega
  · rintro ⟨h0, hn⟩
    refine ⟨i.toNat, ?_, ?_⟩
    · omega
    · simp only [Int.ofNat_eq_coe]
      omega

theorem nodup_upTo (n : Int) : (upTo n).Nodup := by
  unfold upTo
  exact (List.nodup_range _).map (fun a b h => by simpa using h)

theorem mem_fromTo (lo hi i : Int) : i ∈ fromTo lo hi ↔ lo ≤ i ∧ i < hi := by
  unfold fromTo
  simp only [List.mem_map, List.mem_range]
  constructor
  · rintro ⟨k, hk, rfl⟩
    omega
  · rintro ⟨h0, hn⟩
    exact ⟨(i - lo).toNat, by omega, by omega⟩

theorem foldlM_isSome {σ ι : Type} (step : σ → ι → Option σ) :
    ∀ (l : List ι), (∀ s i, i ∈ l → (step s i).isSome) → ∀ s, (l.foldlM step s).isSome := by
  intro l
  induction l with
  | nil => intro _ s; rfl
  | cons i l ih =>
    intro h s
    rw [List.foldlM_cons]
    obtain ⟨s1, hs1⟩ := Option.isSome_iff_exists.mp (h s i (List.mem_cons_self _ _))
    rw [hs1]
    exact ih (fun s j hj => h s j (List.mem_cons_of_mem _ hj)) s1

/-- A loop whose rounds each touch the view of their own index only: when the loop
completes, every index it ran over is related to its initial view by the relation that
one round establishes, and the view of any other valid index is unchanged. -/
theorem foldlM_pixelwise {σ ι V : Type} (step : σ → ι → Option σ) (Inv : σ → Prop)
    (view : σ → ι → V) (R : ι → V → V → Prop) (valid : ι → Prop) :
    ∀ (l : List ι), l.Nodup → (∀ i ∈ l, valid i) →
      (∀ s i s', i ∈ l → Inv s → step s i = some s' →
        Inv s' ∧ (∀ j, valid j → j ≠ i → view s' j = view s j) ∧ R i (view s i) (view s' i)) →
      ∀ s s', Inv s → l.foldlM step s = some s' →
        Inv s' ∧ (∀ j, valid j → j ∉ l → view s' j = view s j)
          ∧ ∀ i ∈ l, R i (view s i) (view s' i) := by
  intro l
  induction l with
  | nil =>
    intro _ _ _ s s' hs h
    simp only [List.foldlM_nil, Option.pure_def, Option.some.injEq] at h
    subst h
    exact ⟨hs, fun _ _ _ => rfl, fun i hi => absurd hi (List.not_mem_nil _)⟩
  | cons i l ih =>
    intro hnd hvalid hstep s s' hs h
    rw [List.foldlM_cons] at h
    cases h1 : step s i with
    | none => rw [h1] at h; exact absurd h (by simp)
    | some s1 =>
      rw [h1] at h
      simp only [Option.bind_eq_bind, Option.some_bind] at h
      obtain ⟨hinv1, hframe1, hR1⟩ := hstep s i s1 (List.mem_cons_self _ _) hs h1
      have hnd' := List.nodup_cons.mp hnd
      obtain ⟨hinv', hframe', hR'⟩ := ih hnd'.2 (fun j hj => hvalid j (List.mem_cons_of_mem _ hj))
        (fun s j s' hj => hstep s j s' (List.mem_cons_of_mem _ hj)) s1 s' hinv1 h
      refine ⟨hinv', ?_, ?_⟩
      · intro j hj hjl
        have hji : j ≠ i := fun e => hjl (e ▸ List.mem_cons_self _ _)
        have hjl' : j ∉ l := fun e => hjl (List.mem_cons_of_mem _ e)
        rw [hframe' j hj hjl', hframe1 j hj hji]
      · intro j hj
        rcases List.mem_cons.mp hj with rfl | hjl
        · rw [hframe' j (hvalid j (List.mem_cons_self _ _)) hnd'.1]
          exact hR1
        · have hji : j ≠ i := fun e => hnd'.1 (e ▸ hjl)
          rw [← hframe1 j (hvalid j hj) hji]
          exact hR' j hjl

/-- Two nested loops are one loop over the pairs of their counters. -/
theorem foldlM_nested {σ α β : Type} (f : σ → α → β → Option σ) (cols : List β) :
    ∀ (rows : List α) (s : σ),
      rows.foldlM (fun s a => cols.foldlM (fun s b => f s a b) s) s
        = (rows ×ˢ cols).foldlM (fun s ab => f s ab.1 ab.2) s := by
  intro rows
  induction rows with
  | nil => intro s; rfl
  | cons a rows ih =>
    intro s
    rw [List.foldlM_cons, List.product_cons, List.foldlM_append, List.foldlM_map]
    congr 1
    funext s1
    exact ih s1

theorem add_mul_inj (n a q a' q' : Int) (ha : 0 ≤ a) (han : a < n) (ha' : 0 ≤ a')
    (han' : a' < n) (h : a + q * n = a' + q' * n) : a = a' ∧ q = q' := by
  have hn : 0 < n := lt_of_le_of_lt ha han
  have e1 : (a + q * n) % n = a := by
    rw [Int.add_mul_emod_self, Int.emod_eq_of_lt ha han]
  have e2 : (a' + q' * n) % n = a' := by
    rw [Int.add_mul_emod_self, Int.emod_eq_of_lt ha' han']
  have haa : a = a' := by rw [← e1, ← e2, h]
  refine ⟨haa, ?_⟩
  subst haa
  have h2 : q * n = q' * n := by linarith
  exact Int.eq_of_mul_eq_mul_right (ne_of_gt hn) h2

/-- Two raw samples of an image of size `W x H` share their flat offset only if they
are the same band of the same pixel. -/
theorem rawOffset_inj (W H c r b c' r' b' : Int) (hc : 0 ≤ c) (hcW : c < W) (hr : 0 ≤ r)
    (hrH : r < H) (hc' : 0 ≤ c') (hcW' : c' < W) (hr' : 0 ≤ r') (hrH' : r' < H)
    (h : c + r * W + b * W * H = c' + r' * W + b' * W * H) : c = c' ∧ r = r' ∧ b = b' := by
  have h1 : c + (r + b * H) * W = c' + (r' + b' * H) * W := by linarith [h]
  obtain ⟨hcc, h2⟩ := add_mul_inj W c _ c' _ hc hcW hc' hcW' h1
  obtain ⟨hrr, hbb⟩ := add_mul_inj H r b r' b' hr hrH hr' hrH' h2
  exact ⟨hcc, hrr, hbb⟩

theorem OnlyPixel.refl (W H row col : Int) (s : imageObj) : OnlyPixel W H row col s s :=
  ⟨rfl, rfl, rfl, rfl, fun _ _ _ => rfl, fun _ _ _ => rfl, fun _ _ => rfl⟩

theorem OnlyPixel.trans {W H row col : Int} {s t u : imageObj}
    (h1 : OnlyPixel W H row col s t) (h2 : OnlyPixel W H row col t u) :
    OnlyPixel W H row col s u := by
  obtain ⟨a1, a2, a3, a4, a5, a6, a7⟩ := h1
  obtain ⟨b1, b2, b3, b4, b5, b6, b7⟩ := h2
  exact ⟨b1.trans a1, b2.trans a2, b3.trans a3, b4.trans a4,
    fun r c h => (b5 r c h).trans (a5 r c h), fun r c h => (b6 r c h).trans (a6 r c h),
    fun off h => (b7 off h).trans (a7 off h)⟩

theorem OnlyPixel.setPixel (W H row col v : Int) (s : imageObj) :
    OnlyPixel W H row col s (s.setPixel row col v) := by
  refine ⟨rfl, rfl, rfl, rfl, ?_, fun _ _ _ => rfl, fun _ _ => rfl⟩
  intro r c h
  simp only [imageObj.setPixel, if_neg h]

theorem OnlyPixel.setTPixel (W H row col v : Int) (s : imageObj) :
    OnlyPixel W H row col s (s.setTPixel row col v) := by
  refine ⟨rfl, rfl, rfl, rfl, fun _ _ _ => rfl, ?_, fun _ _ => rfl⟩
  intro r c h
  simp only [imageObj.setTPixel, if_neg h]

theorem OnlyPixel.setRaw (W H row col b : Int) (v : ℚ) (s : imageObj) (hb : 0 ≤ b) :
    OnlyPixel W H row col s (s.setRaw (col + row * W + b * W * H) v) := by
  refine ⟨rfl, rfl, rfl, rfl, fun _ _ _ => rfl, fun _ _ _ => rfl, ?_⟩
  intro off h
  simp only [imageObj.setRaw, if_neg (h b hb)]

/-- A change confined to one pixel leaves the content of every other pixel of the
image as it was. -/
theorem OnlyPixel.view_eq {W H row col : Int} {s t : imageObj}
    (h : OnlyPixel W H row col s t) (hr : 0 ≤ row) (hrH : row < H) (hc : 0 ≤ col)
    (hcW : col < W) (rc : Int × Int) (hr' : 0 ≤ rc.1) (hrH' : rc.1 < H) (hc' : 0 ≤ rc.2)
    (hcW' : rc.2 < W) (hne : rc ≠ (row, col)) : t.view W H rc = s.view W H rc := by
  obtain ⟨-, -, -, -, a5, a6, a7⟩ := h
  have hne' : ¬ (rc.1 = row ∧ rc.2 = col) := fun e => hne (Prod.ext e.1 e.2)
  unfold imageObj.view
  refine Prod.ext (a5 _ _ hne') (Prod.ext (a6 _ _ hne') ?_)
  funext b
  apply a7
  intro b' hb' e
  obtain ⟨e1, e2, -⟩ := rawOffset_inj W H _ _ _ _ _ _ hc' hcW' hr' hrH' hc hcW hr hrH e
  exact hne' ⟨e2, e1⟩

theorem OnlyPixel.sameShape {W H row col : Int} {s t u : imageObj}
    (h : OnlyPixel W H row col s t) (hs : SameShape u s) : SameShape u t := by
  obtain ⟨a1, a2, a3, a4, -, -, -⟩ := h
  obtain ⟨b1, b2, b3, b4⟩ := hs
  exact ⟨a1.trans b1, a2.trans b2, a3.trans b3, a4.trans b4⟩

theorem SameShape_refl (s : imageObj) : SameShape s s := ⟨rfl, rfl, rfl, rfl⟩

theorem msNearestRasterResampler_band_onlyPixel (psSrcImage : imageObj) (offsite : colorObj)
    (nDstX nDstY nSrcX nSrcY band : Int) (s s' : imageObj) (hb : 0 ≤ band)
    (h : msNearestRasterResampler.band psSrcImage offsite nDstX nDstY nSrcX nSrcY s band
      = some s') :
    OnlyPixel s.width s.height nDstY nDstX s s' := by
  unfold msNearestRasterResampler.band at h
  dsimp only at h
  split_ifs at h <;> simp only [Option.some.injEq] at h <;> subst h
  all_goals first
    | exact OnlyPixel.refl _ _ _ _ _
    | exact OnlyPixel.setRaw _ _ _ _ _ _ _ hb

theorem msNearestRasterResampler_bands_onlyPixel (psSrcImage : imageObj) (offsite : colorObj)
    (nDstX nDstY nSrcX nSrcY : Int) :
    ∀ (l : List Int), (∀ b ∈ l, 0 ≤ b) → ∀ (s s' : imageObj),
      l.foldlM (msNearestRasterResampler.band psSrcImage offsite nDstX nDstY nSrcX nSrcY) s
        = some s' →
      OnlyPixel s.width s.height nDstY nDstX s s' := by
  intro l
  induction l with
  | nil =>
    intro _ s s' h
    simp only [List.foldlM_nil, Option.pure_def, Option.some.injEq] at h
    subst h
    exact OnlyPixel.refl _ _ _ _ _
  | cons b l ih =>
    intro hl s s' h
    rw [List.foldlM_cons] at h
    cases h1 : msNearestRasterResampler.band psSrcImage offsite nDstX nDstY nSrcX nSrcY s b with
    | none => rw [h1] at h; exact absurd h (by simp)
    | some s1 =>
      rw [h1] at h
      simp only [Option.bind_eq_bind, Option.some_bind] at h
      have o1 := msNearestRasterResampler_band_onlyPixel _ _ _ _ _ _ _ _ _
        (hl b (List.mem_cons_self _ _)) h1
      have o2 := ih (fun b hb => hl b (List.mem_cons_of_mem _ hb)) s1 s' h
      rw [o1.1, o1.2.1] at o2
      exact o1.trans o2

theorem msNearestRasterResampler_pixel_onlyPixel (gd : GdLib) (psSrcImage : imageObj)
    (offsite : colorObj) (panCMap : Int → Int) (nDstX nDstY : Int) (p : Pt)
    (s s' : imageObj)
    (h : msNearestRasterResampler.pixel gd psSrcImage offsite panCMap nDstX nDstY p s
      = some s') :
    OnlyPixel s.width s.height nDstY nDstX s s' := by
  unfold msNearestRasterResampler.pixel at h
  cases hp : msNearestRasterResampler.srcPos psSrcImage p with
  | none =>
    rw [hp] at h
    simp only [Option.some.injEq] at h
    subst h
    exact OnlyPixel.refl _ _ _ _ _
  | some pos =>
    obtain ⟨nSrcX, nSrcY⟩ := pos
    rw [hp] at h
    dsimp only at h
    split_ifs at h
    all_goals first
      | exact msNearestRasterResampler_bands_onlyPixel _ _ _ _ _ _ _
          (fun b hb => ((mem_upTo _ _).mp hb).1) _ _ h
      | (simp only [Option.some.injEq] at h
         subst h
         first
          | exact OnlyPixel.refl _ _ _ _ _
          | exact OnlyPixel.setPixel _ _ _ _ _ _
          | exact OnlyPixel.setTPixel _ _ _ _ _ _)

theorem msNearestRasterResampler_bands_isSome (psSrcImage : imageObj) (offsite : colorObj)
    (nDstX nDstY nSrcX nSrcY : Int)
    (hmode : psSrcImage.format.imagemode = ImageMode.INT16
      ∨ psSrcImage.format.imagemode = ImageMode.FLOAT32
      ∨ psSrcImage.format.imagemode = ImageMode.BYTE) (l : List Int) (s : imageObj) :
    (l.foldlM (msNearestRasterResampler.band psSrcImage offsite nDstX nDstY nSrcX nSrcY)
      s).isSome := by
  apply foldlM_isSome
  intro s b _
  unfold msNearestRasterResampler.band
  dsimp only
  rcases hmode with h | h | h <;> simp only [h] <;> split_ifs <;> rfl

theorem msNearestRasterResampler_pixel_isSome (gd : GdLib) (psSrcImage : imageObj)
    (offsite : colorObj) (panCMap : Int → Int) (nDstX nDstY : Int) (p : Pt) (s : imageObj)
    (hsup : psSrcImage.supported) :
    (msNearestRasterResampler.pixel gd psSrcImage offsite panCMap nDstX nDstY p s).isSome := by
  unfold msNearestRasterResampler.pixel
  cases hp : msNearestRasterResampler.srcPos psSrcImage p with
  | none => rfl
  | some pos =>
    obtain ⟨nSrcX, nSrcY⟩ := pos
    dsimp only
    split_ifs with h1 h2 h3 h4 h5
    all_goals try rfl
    rcases hsup with h | h
    · exact absurd h h1
    · exact msNearestRasterResampler_bands_isSome _ _ _ _ _ _ h _ _

theorem mem_upTo_product (H W : Int) (rc : Int × Int) :
    rc ∈ upTo H ×ˢ upTo W ↔ (0 ≤ rc.1 ∧ rc.1 < H) ∧ (0 ≤ rc.2 ∧ rc.2 < W) := by
  obtain ⟨r, c⟩ := rc
  rw [List.mem_product, mem_upTo, mem_upTo]

/-- The pixel loops of a resampler whose rounds each change their own destination pixel
only: when the loops complete, the destination has kept its shape and every pixel is
related to its initial content by what its own round establishes. -/
theorem pixelLoops_pixelwise (dst : imageObj) (step : imageObj → Int → Int → Option imageObj)
    (R : Int × Int → (Int × Int × (Nat → ℚ)) → (Int × Int × (Nat → ℚ)) → Prop)
    (hframe : ∀ (nDstY nDstX : Int) (s s' : imageObj), step s nDstY nDstX = some s' →
      OnlyPixel s.width s.height nDstY nDstX s s')
    (hown : ∀ (nDstY nDstX : Int) (s s' : imageObj), 0 ≤ nDstY → nDstY < dst.height →
      0 ≤ nDstX → nDstX < dst.width → SameShape dst s → step s nDstY nDstX = some s' →
      R (nDstY, nDstX) (s.view dst.width dst.height (nDstY, nDstX))
        (s'.view dst.width dst.height (nDstY, nDstX)))
    (dst' : imageObj)
    (h : (upTo dst.height).foldlM
      (fun s nDstY => (upTo dst.width).foldlM (fun s nDstX => step s nDstY nDstX) s) dst
        = some dst') :
    SameShape dst dst' ∧
    ∀ nDstY nDstX : Int, 0 ≤ nDstY → nDstY < dst.height → 0 ≤ nDstX → nDstX < dst.width →
      R (nDstY, nDstX) (dst.view dst.width dst.height (nDstY, nDstX))
        (dst'.view dst.width dst.height (nDstY, nDstX)) := by
  rw [foldlM_nested] at h
  have key := foldlM_pixelwise (fun s (rc : Int × Int) => step s rc.1 rc.2) (SameShape dst)
    (fun s rc => s.view dst.width dst.height rc) R
    (fun rc => (0 ≤ rc.1 ∧ rc.1 < dst.height) ∧ (0 ≤ rc.2 ∧ rc.2 < dst.width))
    (upTo dst.height ×ˢ upTo dst.width)
    ((nodup_upTo _).product (nodup_upTo _))
    (fun rc hrc => (mem_upTo_product _ _ rc).mp hrc)
    (by
      intro s rc s' hrc hs hstep
      obtain ⟨⟨h1, h2⟩, h3, h4⟩ := (mem_upTo_product _ _ rc).mp hrc
      have ho := hframe rc.1 rc.2 s s' hstep
      rw [hs.1, hs.2.1] at ho
      refine ⟨ho.sameShape hs, ?_, hown rc.1 rc.2 s s' h1 h2 h3 h4 hs hstep⟩
      intro j hj hne
      exact ho.view_eq h1 h2 h3 h4 j hj.1.1 hj.1.2 hj.2.1 hj.2.2 hne)
    dst dst' (SameShape_refl dst) h
  refine ⟨key.1, ?_⟩
  intro nDstY nDstX h1 h2 h3 h4
  exact key.2.2 (nDstY, nDstX) ((mem_upTo_product _ _ _).mpr ⟨⟨h1, h2⟩, h3, h4⟩)

theorem pixelLoops_isSome (dst : imageObj) (step : imageObj → Int → Int → Option imageObj)
    (h : ∀ s nDstY nDstX, (step s nDstY nDstX).isSome) :
    ((upTo dst.height).foldlM
      (fun s nDstY => (upTo dst.width).foldlM (fun s nDstX => step s nDstY nDstX) s)
      dst).isSome := by
  apply foldlM_isSome
  intro s nDstY _
  apply foldlM_isSome
  intro s nDstX _
  exact h s nDstY nDstX

/-- What `msNearestRasterResampler` does to the image follows pixel by pixel from the
body of its pixel loop: when the call returns, it returns 0, the destination has kept
its shape, and each pixel is related to its initial content as one run of the loop body
for that pixel relates them. -/
theorem msNearestRasterResampler_pixelwise (gd : GdLib) (psSrcImage : imageObj)
    (offsite : colorObj) (psDstImage : imageObj) (panCMap : Int → Int)
    (pfnTransform : SimpleTransformer)
    (R : Int × Int → (Int × Int × (Nat → ℚ)) → (Int × Int × (Nat → ℚ)) → Prop)
    (hown : ∀ (nDstY nDstX : Int) (s s' : imageObj), 0 ≤ nDstY → nDstY < psDstImage.height →
      0 ≤ nDstX → nDstX < psDstImage.width → SameShape psDstImage s →
      msNearestRasterResampler.pixel gd psSrcImage offsite panCMap nDstX nDstY
        (transformedCentre pfnTransform psDstImage.width nDstY nDstX) s = some s' →
      R (nDstY, nDstX) (s.view psDstImage.width psDstImage.height (nDstY, nDstX))
        (s'.view psDstImage.width psDstImage.height (nDstY, nDstX)))
    (rc : Int) (dst' : imageObj)
    (h : msNearestRasterResampler gd psSrcImage offsite psDstImage panCMap pfnTransform
      = some (rc, dst')) :
    rc = 0 ∧ SameShape psDstImage dst' ∧
    ∀ nDstY nDstX : Int, 0 ≤ nDstY → nDstY < psDstImage.height → 0 ≤ nDstX →
      nDstX < psDstImage.width →
      R (nDstY, nDstX) (psDstImage.view psDstImage.width psDstImage.height (nDstY, nDstX))
        (dst'.view psDstImage.width psDstImage.height (nDstY, nDstX)) := by
  unfold msNearestRasterResampler at h
  simp only [Option.map_eq_some', Prod.mk.injEq] at h
  obtain ⟨d, hd, hrc, rfl⟩ := h
  refine ⟨hrc.symm, ?_⟩
  exact pixelLoops_pixelwise psDstImage
    (fun s nDstY nDstX => msNearestRasterResampler.pixel gd psSrcImage offsite panCMap nDstX
      nDstY (transformedCentre pfnTransform psDstImage.width nDstY nDstX) s) R
    (fun nDstY nDstX s s' hs =>
      msNearestRasterResampler_pixel_onlyPixel _ _ _ _ _ _ _ _ _ hs)
    hown d hd

theorem msNearestRasterResampler_isSome (gd : GdLib) (psSrcImage : imageObj)
    (offsite : colorObj) (psDstImage : imageObj) (panCMap : Int → Int)
    (pfnTransform : SimpleTransformer) (hsup : psSrcImage.supported) :
    (msNearestRasterResampler gd psSrcImage offsite psDstImage panCMap pfnTransform).isSome := by
  unfold msNearestRasterResampler
  simp only [Option.isSome_map']
  exact pixelLoops_isSome psDstImage
    (fun s nDstY nDstX => msNearestRasterResampler.pixel gd psSrcImage offsite panCMap nDstX
      nDstY (transformedCentre pfnTransform psDstImage.width nDstY nDstX) s)
    (fun s nDstY nDstX => msNearestRasterResampler_pixel_isSome _ _ _ _ _ _ _ _ hsup)

theorem msNearestRasterResampler_srcPos_eq_some (psSrcImage : imageObj) (p : Pt)
    (h1 : p.success ≠ 0) (h2 : 0 ≤ p.x) (h3 : 0 ≤ p.y) (h4 : castInt p.x < psSrcImage.width)
    (h5 : castInt p.y < psSrcImage.height) :
    msNearestRasterResampler.srcPos psSrcImage p = some (castInt p.x, castInt p.y) := by
  unfold msNearestRasterResampler.srcPos
  rw [if_neg h1]
  dsimp only
  rw [if_neg]
  intro h
  rcases h with h | h | h | h
  · exact absurd h2 (not_le.mpr h)
  · exact absurd h3 (not_le.mpr h)
  · exact absurd h4 (not_lt.mpr h)
  · exact absurd h5 (not_lt.mpr h)

theorem msNearestRasterResampler_srcPos_eq_none (psSrcImage : imageObj) (p : Pt)
    (h : ¬ (p.success ≠ 0 ∧ 0 ≤ p.x ∧ 0 ≤ p.y ∧ castInt p.x < psSrcImage.width
      ∧ castInt p.y < psSrcImage.height)) :
    msNearestRasterResampler.srcPos psSrcImage p = none := by
  unfold msNearestRasterResampler.srcPos
  by_cases h1 : p.success = 0
  · rw [if_pos h1]
  · rw [if_neg h1]
    dsimp only
    rw [if_pos]
    by_contra hc
    simp only [not_or, not_lt, ge_iff_le, not_le] at hc
    exact h ⟨h1, hc.1, hc.2.1, hc.2.2.1, hc.2.2.2⟩

/-- The band loop of `msNearestRasterResampler` when it completes: each band `b` it runs
over gets the source sample unless that sample is the nodata value, in which case the
destination sample stays. -/
theorem msNearestRasterResampler_bands_raw (psSrcImage : imageObj) (offsite : colorObj)
    (nDstX nDstY nSrcX nSrcY : Int)
    (s s' : imageObj) (hX : 0 ≤ nDstX) (hXW : nDstX < s.width) (hY : 0 ≤ nDstY)
    (hYH : nDstY < s.height) (n : Int)
    (h : (upTo n).foldlM
      (msNearestRasterResampler.band psSrcImage offsite nDstX nDstY nSrcX nSrcY) s = some s')
    (b : Int) (hb : 0 ≤ b) :
    s'.raw (nDstX + nDstY * s.width + b * s.width * s.height) =
      if b < n ∧ psSrcImage.raw
          (nSrcX + nSrcY * psSrcImage.width + b * psSrcImage.width * psSrcImage.height)
          ≠ offsite.red then
        psSrcImage.raw
          (nSrcX + nSrcY * psSrcImage.width + b * psSrcImage.width * psSrcImage.height)
      else s.raw (nDstX + nDstY * s.width + b * s.width * s.height) := by
  have key := foldlM_pixelwise
    (msNearestRasterResampler.band psSrcImage offsite nDstX nDstY nSrcX nSrcY)
    (fun t => t.width = s.width ∧ t.height = s.height)
    (fun t (b : Int) => t.raw (nDstX + nDstY * s.width + b * s.width * s.height))
    (fun b old new => new =
      if psSrcImage.raw
          (nSrcX + nSrcY * psSrcImage.width + b * psSrcImage.width * psSrcImage.height)
          ≠ offsite.red then
        psSrcImage.raw
          (nSrcX + nSrcY * psSrcImage.width + b * psSrcImage.width * psSrcImage.height)
      else old)
    (fun b => 0 ≤ b) (upTo n) (nodup_upTo n) (fun b hb => ((mem_upTo _ _).mp hb).1)
    (by
      intro t i t' hi ht hstep
      have hi0 : 0 ≤ i := ((mem_upTo _ _).mp hi).1
      have ho := msNearestRasterResampler_band_onlyPixel _ _ _ _ _ _ _ _ _ hi0 hstep
      refine ⟨⟨ho.1.trans ht.1, ho.2.1.trans ht.2⟩, ?_, ?_⟩
      · intro j hj hji
        dsimp only
        rw [ht.1, ht.2] at ho
        obtain ⟨-, -, -, -, -, -, a7⟩ := ho
        unfold msNearestRasterResampler.band at hstep
        dsimp only at hstep
        rw [ht.1, ht.2] at hstep
        have hoff : nDstX + nDstY * s.width + j * s.width * s.height
            ≠ nDstX + nDstY * s.width + i * s.width * s.height := by
          intro e
          exact hji (rawOffset_inj _ _ _ _ _ _ _ _ hX hXW hY hYH hX hXW hY hYH e).2.2
        split_ifs at hstep <;> simp only [Option.some.injEq] at hstep <;> subst hstep
        all_goals first
          | rfl
          | simp only [imageObj.setRaw, if_neg hoff]
      · dsimp only
        unfold msNearestRasterResampler.band at hstep
        dsimp only at hstep
        rw [ht.1, ht.2] at hstep
        split_ifs at hstep with c1 c2 c1 c2 c1 c2 <;>
          simp only [Option.some.injEq] at hstep <;> subst hstep
        all_goals simp [imageObj.setRaw, c2])
    s s' ⟨rfl, rfl⟩ h
  by_cases hbn : b < n
  · have := key.2.2 b ((mem_upTo _ _).mpr ⟨hb, hbn⟩)
    dsimp only at this
    rw [this]
    simp only [hbn, true_and]
  · have := key.2.1 b hb (fun hm => hbn ((mem_upTo _ _).mp hm).2)
    dsimp only at this
    rw [this]
    simp only [hbn, false_and, if_false]

/-- The loop body of `msNearestRasterResampler` on a raw source, sample by sample. -/
theorem msNearestRasterResampler_pixel_raw (gd : GdLib) (psSrcImage : imageObj)
    (offsite : colorObj) (panCMap : Int → Int) (nDstX nDstY : Int) (p : Pt)
    (hraw : psSrcImage.format.renderer = Renderer.RAWDATA)
    (s s' : imageObj) (hX : 0 ≤ nDstX) (hXW : nDstX < s.width) (hY : 0 ≤ nDstY)
    (hYH : nDstY < s.height)
    (h : msNearestRasterResampler.pixel gd psSrcImage offsite panCMap nDstX nDstY p s
      = some s')
    (b : Int) (hb : 0 ≤ b) :
    s'.raw (nDstX + nDstY * s.width + b * s.width * s.height) =
      if b < psSrcImage.format.bands ∧ p.success ≠ 0 ∧ 0 ≤ p.x ∧ 0 ≤ p.y
          ∧ castInt p.x < psSrcImage.width ∧ castInt p.y < psSrcImage.height
          ∧ psSrcImage.raw (castInt p.x + castInt p.y * psSrcImage.width
              + b * psSrcImage.width * psSrcImage.height) ≠ offsite.red then
        psSrcImage.raw (castInt p.x + castInt p.y * psSrcImage.width
          + b * psSrcImage.width * psSrcImage.height)
      else s.raw (nDstX + nDstY * s.width + b * s.width * s.height) := by
  have hgd : ¬ psSrcImage.format.renderer = Renderer.GD := by rw [hraw]; decide
  by_cases hin : p.success ≠ 0 ∧ 0 ≤ p.x ∧ 0 ≤ p.y ∧ castInt p.x < psSrcImage.width
      ∧ castInt p.y < psSrcImage.height
  · obtain ⟨h1, h2, h3, h4, h5⟩ := hin
    unfold msNearestRasterResampler.pixel at h
    rw [msNearestRasterResampler_srcPos_eq_some _ _ h1 h2 h3 h4 h5] at h
    dsimp only at h
    rw [if_neg hgd, if_pos hraw] at h
    rw [msNearestRasterResampler_bands_raw _ _ _ _ _ _ _ _ hX hXW hY hYH _ h b hb]
    simp only [h1, h2, h3, h4, h5, ne_eq, not_false_eq_true, true_and]
  · unfold msNearestRasterResampler.pixel at h
    rw [msNearestRasterResampler_srcPos_eq_none _ _ hin] at h
    simp only [Option.some.injEq] at h
    subst h
    rw [if_neg]
    intro hc
    exact hin ⟨hc.2.1, hc.2.2.1, hc.2.2.2.1, hc.2.2.2.2.1, hc.2.2.2.2.2.1⟩

/-- C13: for a raw source of kind INT16, FLOAT32 or BYTE, `msNearestRasterResampler`
returns 0, and for every destination pixel `(X, Y)` and every band `b` of the source the
destination sample afterwards is the source sample at `((int) x, (int) y)` in band `b`
when the transformed centre `(x, y)` succeeded, `x >= 0`, `y >= 0`, `(int) x < srcWidth`,
`(int) y < srcHeight` and that source sample is not the nodata value; otherwise it is
the sample the destination had before. The test is made band by band, so a nodata value
in one band does not stop another band from being copied. `(int)` is truncation toward
zero for every coordinate in the range of `int`. -/
theorem msNearestRasterResampler_raw_per_band (gd : GdLib) (psSrcImage : imageObj)
    (offsite : colorObj) (psDstImage : imageObj) (panCMap : Int → Int)
    (pfnTransform : SimpleTransformer)
    (hraw : psSrcImage.format.renderer = Renderer.RAWDATA)
    (hmode : psSrcImage.format.imagemode = ImageMode.INT16
      ∨ psSrcImage.format.imagemode = ImageMode.FLOAT32
      ∨ psSrcImage.format.imagemode = ImageMode.BYTE) :
    ∃ dst', msNearestRasterResampler gd psSrcImage offsite psDstImage panCMap pfnTransform
        = some (0, dst') ∧
      ∀ (X Y : Int), 0 ≤ X → X < psDstImage.width → 0 ≤ Y → Y < psDstImage.height →
      ∀ b : Nat,
        dst'.raw (X + Y * psDstImage.width + b * psDstImage.width * psDstImage.height) =
          if (b : Int) < psSrcImage.format.bands
              ∧ (transformedCentre pfnTransform psDstImage.width Y X).success ≠ 0
              ∧ 0 ≤ (transformedCentre pfnTransform psDstImage.width Y X).x
              ∧ 0 ≤ (transformedCentre pfnTransform psDstImage.width Y X).y
              ∧ castInt (transformedCentre pfnTransform psDstImage.width Y X).x
                  < psSrcImage.width
              ∧ castInt (transformedCentre pfnTransform psDstImage.width Y X).y
                  < psSrcImage.height
              ∧ psSrcImage.raw
                  (castInt (transformedCentre pfnTransform psDstImage.width Y X).x
                    + castInt (transformedCentre pfnTransform psDstImage.width Y X).y
                      * psSrcImage.width
                    + b * psSrcImage.width * psSrcImage.height) ≠ offsite.red then
            psSrcImage.raw
              (castInt (transformedCentre pfnTransform psDstImage.width Y X).x
                + castInt (transformedCentre pfnTransform psDstImage.width Y X).y
                  * psSrcImage.width
                + b * psSrcImage.width * psSrcImage.height)
          else
            psDstImage.raw
              (X + Y * psDstImage.width + b * psDstImage.width * psDstImage.height) := by
  have hsome := msNearestRasterResampler_isSome gd psSrcImage offsite psDstImage panCMap
    pfnTransform (Or.inr hmode)
  obtain ⟨⟨rc, dst'⟩, hres⟩ := Option.isSome_iff_exists.mp hsome
  have key := msNearestRasterResampler_pixelwise gd psSrcImage offsite psDstImage panCMap
    pfnTransform
    (fun rc old new => ∀ b : Nat, new.2.2 b =
      if (b : Int) < psSrcImage.format.bands
          ∧ (transformedCentre pfnTransform psDstImage.width rc.1 rc.2).success ≠ 0
          ∧ 0 ≤ (transformedCentre pfnTransform psDstImage.width rc.1 rc.2).x
          ∧ 0 ≤ (transformedCentre pfnTransform psDstImage.width rc.1 rc.2).y
          ∧ castInt (transformedCentre pfnTransform psDstImage.width rc.1 rc.2).x
              < psSrcImage.width
          ∧ castInt (transformedCentre pfnTransform psDstImage.width rc.1 rc.2).y
              < psSrcImage.height
          ∧ psSrcImage.raw
              (castInt (transformedCentre pfnTransform psDstImage.width rc.1 rc.2).x
                + castInt (transformedCentre pfnTransform psDstImage.width rc.1 rc.2).y
                  * psSrcImage.width
                + b * psSrcImage.width * psSrcImage.height) ≠ offsite.red then
        psSrcImage.raw
          (castInt (transformedCentre pfnTransform psDstImage.width rc.1 rc.2).x
            + castInt (transformedCentre pfnTransform psDstImage.width rc.1 rc.2).y
              * psSrcImage.width
            + b * psSrcImage.width * psSrcImage.height)
      else old.2.2 b)
    (by
      intro nDstY nDstX s s' h1 h2 h3 h4 hs hstep b
      have := msNearestRasterResampler_pixel_raw gd psSrcImage offsite panCMap nDstX nDstY _
        hraw s s' h3 (hs.1 ▸ h4) h1 (hs.2.1 ▸ h2) hstep b (Int.ofNat_nonneg b)
      rw [hs.1, hs.2.1] at this
      exact this)
    rc dst' hres
  obtain ⟨hrc, -, hpix⟩ := key
  subst hrc
  refine ⟨dst', hres, ?_⟩
  intro X Y hX hXW hY hYH b
  exact hpix Y X hY hYH hX hXW b

/-- The loop body of `msNearestRasterResampler` on a true-colour source. -/
theorem msNearestRasterResampler_pixel_truecolor (gd : GdLib) (psSrcImage : imageObj)
    (offsite : colorObj) (panCMap : Int → Int) (nDstX nDstY : Int) (p : Pt)
    (hgd : psSrcImage.format.renderer = Renderer.GD) (htc : psSrcImage.gd.trueColor = true)
    (s s' : imageObj)
    (h : msNearestRasterResampler.pixel gd psSrcImage offsite panCMap nDstX nDstY p s
      = some s') :
    s'.gd.tpixels nDstY nDstX =
      if p.success ≠ 0 ∧ 0 ≤ p.x ∧ 0 ≤ p.y ∧ castInt p.x < psSrcImage.width
          ∧ castInt p.y < psSrcImage.height then
        if gd.gdTrueColorGetAlpha (psSrcImage.gd.tpixels (castInt p.y) (castInt p.x)) = 0 then
          psSrcImage.gd.tpixels (castInt p.y) (castInt p.x)
        else if gd.gdTrueColorGetAlpha (psSrcImage.gd.tpixels (castInt p.y) (castInt p.x))
            = 127 then
          s.gd.tpixels nDstY nDstX
        else
          gd.gdAlphaBlend (s.gd.tpixels nDstY nDstX)
            (psSrcImage.gd.tpixels (castInt p.y) (castInt p.x))
      else s.gd.tpixels nDstY nDstX := by
  by_cases hin : p.success ≠ 0 ∧ 0 ≤ p.x ∧ 0 ≤ p.y ∧ castInt p.x < psSrcImage.width
      ∧ castInt p.y < psSrcImage.height
  · obtain ⟨h1, h2, h3, h4, h5⟩ := hin
    unfold msNearestRasterResampler.pixel at h
    rw [msNearestRasterResampler_srcPos_eq_some _ _ h1 h2 h3 h4 h5] at h
    dsimp only at h
    rw [if_pos hgd, if_neg (by simp [htc])] at h
    rw [if_pos ⟨h1, h2, h3, h4, h5⟩]
    split_ifs at h ⊢ <;> simp only [Option.some.injEq] at h <;> subst h
    all_goals simp [imageObj.setTPixel]
  · unfold msNearestRasterResampler.pixel at h
    rw [msNearestRasterResampler_srcPos_eq_none _ _ hin] at h
    simp only [Option.some.injEq] at h
    subst h
    rw [if_neg hin]

/-- The loop body of `msNearestRasterResampler` on a paletted source. -/
theorem msNearestRasterResampler_pixel_palette (gd : GdLib) (psSrcImage : imageObj)
    (offsite : colorObj) (panCMap : Int → Int) (nDstX nDstY : Int) (p : Pt)
    (hgd : psSrcImage.format.renderer = Renderer.GD) (htc : psSrcImage.gd.trueColor = false)
    (s s' : imageObj)
    (h : msNearestRasterResampler.pixel gd psSrcImage offsite panCMap nDstX nDstY p s
      = some s') :
    s'.gd.pixels nDstY nDstX =
      if p.success ≠ 0 ∧ 0 ≤ p.x ∧ 0 ≤ p.y ∧ castInt p.x < psSrcImage.width
          ∧ castInt p.y < psSrcImage.height
          ∧ panCMap (psSrcImage.gd.pixels (castInt p.y) (castInt p.x)) ≠ -1 then
        panCMap (psSrcImage.gd.pixels (castInt p.y) (castInt p.x))
      else s.gd.pixels nDstY nDstX := by
  by_cases hin : p.success ≠ 0 ∧ 0 ≤ p.x ∧ 0 ≤ p.y ∧ castInt p.x < psSrcImage.width
      ∧ castInt p.y < psSrcImage.height
  · obtain ⟨h1, h2, h3, h4, h5⟩ := hin
    unfold msNearestRasterResampler.pixel at h
    rw [msNearestRasterResampler_srcPos_eq_some _ _ h1 h2 h3 h4 h5] at h
    dsimp only at h
    rw [if_pos hgd, if_pos (by simp [htc])] at h
    split_ifs at h with c1 <;> simp only [Option.some.injEq] at h <;> subst h
    · simp [c1]
    · simp [imageObj.setPixel, h1, h2, h3, h4, h5, c1]
  · unfold msNearestRasterResampler.pixel at h
    rw [msNearestRasterResampler_srcPos_eq_none _ _ hin] at h
    simp only [Option.some.injEq] at h
    subst h
    rw [if_neg]
    intro hc
    exact hin ⟨hc.1, hc.2.1, hc.2.2.1, hc.2.2.2.1, hc.2.2.2.2.1⟩

/-- C14: for a true-colour source `msNearestRasterResampler` returns 0, and for every
destination pixel whose transformed centre succeeded and lies inside the source, the
pixel afterwards is: the source value when its alpha is 0 (opaque); the value the
destination had before when the alpha is 127 (transparent); and for any other alpha
`gdAlphaBlend` of the previous destination value with the source value. -/
theorem msNearestRasterResampler_truecolor (gd : GdLib) (psSrcImage : imageObj)
    (offsite : colorObj) (psDstImage : imageObj) (panCMap : Int → Int)
    (pfnTransform : SimpleTransformer)
    (hgd : psSrcImage.format.renderer = Renderer.GD)
    (htc : psSrcImage.gd.trueColor = true) :
    ∃ dst', msNearestRasterResampler gd psSrcImage offsite psDstImage panCMap pfnTransform
        = some (0, dst') ∧
      ∀ (X Y : Int), 0 ≤ X → X < psDstImage.width → 0 ≤ Y → Y < psDstImage.height →
        (transformedCentre pfnTransform psDstImage.width Y X).success ≠ 0 →
        0 ≤ (transformedCentre pfnTransform psDstImage.width Y X).x →
        0 ≤ (transformedCentre pfnTransform psDstImage.width Y X).y →
        castInt (transformedCentre pfnTransform psDstImage.width Y X).x < psSrcImage.width →
        castInt (transformedCentre pfnTransform psDstImage.width Y X).y < psSrcImage.height →
        dst'.gd.tpixels Y X =
          if gd.gdTrueColorGetAlpha (psSrcImage.gd.tpixels
              (castInt (transformedCentre pfnTransform psDstImage.width Y X).y)
              (castInt (transformedCentre pfnTransform psDstImage.width Y X).x)) = 0 then
            psSrcImage.gd.tpixels
              (castInt (transformedCentre pfnTransform psDstImage.width Y X).y)
              (castInt (transformedCentre pfnTransform psDstImage.width Y X).x)
          else if gd.gdTrueColorGetAlpha (psSrcImage.gd.tpixels
              (castInt (transformedCentre pfnTransform psDstImage.width Y X).y)
              (castInt (transformedCentre pfnTransform psDstImage.width Y X).x)) = 127 then
            psDstImage.gd.tpixels Y X
          else
            gd.gdAlphaBlend (psDstImage.gd.tpixels Y X)
              (psSrcImage.gd.tpixels
                (castInt (transformedCentre pfnTransform psDstImage.width Y X).y)
                (castInt (transformedCentre pfnTransform psDstImage.width Y X).x)) := by
  have hsome := msNearestRasterResampler_isSome gd psSrcImage offsite psDstImage panCMap
    pfnTransform (Or.inl hgd)
  obtain ⟨⟨rc, dst'⟩, hres⟩ := Option.isSome_iff_exists.mp hsome
  have key := msNearestRasterResampler_pixelwise gd psSrcImage offsite psDstImage panCMap
    pfnTransform
    (fun rc old new =>
      (transformedCentre pfnTransform psDstImage.width rc.1 rc.2).success ≠ 0
      ∧ 0 ≤ (transformedCentre pfnTransform psDstImage.width rc.1 rc.2).x
      ∧ 0 ≤ (transformedCentre pfnTransform psDstImage.width rc.1 rc.2).y
      ∧ castInt (transformedCentre pfnTransform psDstImage.width rc.1 rc.2).x
          < psSrcImage.width
      ∧ castInt (transformedCentre pfnTransform psDstImage.width rc.1 rc.2).y
          < psSrcImage.height →
      new.2.1 =
        if gd.gdTrueColorGetAlpha (psSrcImage.gd.tpixels
            (castInt (transformedCentre pfnTransform psDstImage.width rc.1 rc.2).y)
            (castInt (transformedCentre pfnTransform psDstImage.width rc.1 rc.2).x)) = 0 then
          psSrcImage.gd.tpixels
            (castInt (transformedCentre pfnTransform psDstImage.width rc.1 rc.2).y)
            (castInt (transformedCentre pfnTransform psDstImage.width rc.1 rc.2).x)
        else if gd.gdTrueColorGetAlpha (psSrcImage.gd.tpixels
            (castInt (transformedCentre pfnTransform psDstImage.width rc.1 rc.2).y)
            (castInt (transformedCentre pfnTransform psDstImage.width rc.1 rc.2).x)) = 127 then
          old.2.1
        else
          gd.gdAlphaBlend old.2.1
            (psSrcImage.gd.tpixels
              (castInt (transformedCentre pfnTransform psDstImage.width rc.1 rc.2).y)
              (castInt (transformedCentre pfnTransform psDstImage.width rc.1 rc.2).x)))
    (by
      intro nDstY nDstX s s' _ _ _ _ _ hstep hin
      have := msNearestRasterResampler_pixel_truecolor gd psSrcImage offsite panCMap nDstX
        nDstY _ hgd htc s s' hstep
      rw [if_pos hin] at this
      exact this)
    rc dst' hres
  obtain ⟨hrc, -, hpix⟩ := key
  subst hrc
  refine ⟨dst', hres, ?_⟩
  intro X Y hX hXW hY hYH h1 h2 h3 h4 h5
  exact hpix Y X hY hYH hX hXW ⟨h1, h2, h3, h4, h5⟩

theorem toInt32_of_range (n : Int) (h1 : -2147483648 ≤ n) (h2 : n < 2147483648) :
    toInt32 n = n := by
  unfold toInt32
  omega

theorem trunc_intCast (n : Int) : trunc (n : ℚ) = n := by
  unfold trunc
  split_ifs <;> simp

theorem castInt_add_half (n : Int) (h0 : 0 ≤ n) (h : n < 2147483648) :
    castInt ((n : ℚ) + 1 / 2) = n := by
  have hf : ⌊(n : ℚ) + 1 / 2⌋ = n := by
    rw [Int.floor_eq_iff]
    constructor <;> norm_num
  have hnn : (0 : ℚ) ≤ (n : ℚ) + 1 / 2 := by
    have : (0 : ℚ) ≤ (n : ℚ) := by exact_mod_cast h0
    linarith
  unfold castInt trunc
  rw [if_pos hnn, hf, toInt32_of_range n (by omega) h]

theorem getD_upTo (n i : Int) (h0 : 0 ≤ i) (h : i < n) (d : Int) :
    (upTo n).getD i.toNat d = i := by
  unfold upTo
  have hi : i.toNat < n.toNat := by omega
  rw [List.getD_eq_getElem?_getD, List.getElem?_map, List.getElem?_range hi]
  simp only [Option.map_some', Option.getD_some, Int.ofNat_eq_coe]
  omega

theorem length_upTo (n : Int) : (upTo n).length = n.toNat := by
  unfold upTo
  simp

/-- The identity transformer hands the pixel centre `(X + 0.5, Y + 0.5)` back, flagged 1. -/
theorem transformedCentre_identity (W Y X : Int) (h0 : 0 ≤ X) (h : X < W) :
    transformedCentre identityTransformer W Y X
      = { x := (X : ℚ) + 1 / 2, y := (Y : ℚ) + 1 / 2, success := 1 } := by
  unfold transformedCentre identityTransformer
  have hi : X.toNat < (upTo W).length := by rw [length_upTo]; omega
  simp only [List.map_map, List.getD_eq_getElem?_getD, List.getElem?_map,
    List.getElem?_eq_getElem hi, Option.map_some', Option.getD_some, Function.comp]
  have hx : (upTo W)[X.toNat] = X := by
    have := getD_upTo W X h0 h 0
    rw [List.getD_eq_getElem?_getD, List.getElem?_eq_getElem hi] at this
    simpa using this
  rw [hx]

/-- C12 (amended): for a source of a handled encoding and a destination of the same
size, `msNearestRasterResampler` with the identity transformer returns 0 and leaves each
destination sample equal to the source sample wherever the sample is copied: a raw
sample that is not the nodata value, a true-colour value with alpha 0, and for a
paletted source the remapped index `panCMap[source]` when that is not -1. A raw nodata
sample, a true-colour value with alpha 127 and an index remapped to -1 leave the
destination sample as it was, and a true-colour value with another alpha is blended
onto it. -/
theorem msNearestRasterResampler_identity (gd : GdLib) (psSrcImage : imageObj)
    (offsite : colorObj) (psDstImage : imageObj) (panCMap : Int → Int)
    (hsup : psSrcImage.supported)
    (hW : psDstImage.width = psSrcImage.width) (hH : psDstImage.height = psSrcImage.height)
    (hWr : psSrcImage.width < 2147483648) (hHr : psSrcImage.height < 2147483648) :
    ∃ dst', msNearestRasterResampler gd psSrcImage offsite psDstImage panCMap
        identityTransformer = some (0, dst') ∧
      ∀ (X Y : Int), 0 ≤ X → X < psSrcImage.width → 0 ≤ Y → Y < psSrcImage.height →
        (psSrcImage.format.renderer = Renderer.RAWDATA →
          ∀ b : Nat, (b : Int) < psSrcImage.format.bands →
            dst'.raw (X + Y * psSrcImage.width + b * psSrcImage.width * psSrcImage.height) =
              if psSrcImage.raw
                  (X + Y * psSrcImage.width + b * psSrcImage.width * psSrcImage.height)
                  = offsite.red then
                psDstImage.raw
                  (X + Y * psSrcImage.width + b * psSrcImage.width * psSrcImage.height)
              else
                psSrcImage.raw
                  (X + Y * psSrcImage.width + b * psSrcImage.width * psSrcImage.height))
        ∧ (psSrcImage.format.renderer = Renderer.GD → psSrcImage.gd.trueColor = false →
            dst'.gd.pixels Y X =
              if panCMap (psSrcImage.gd.pixels Y X) = -1 then psDstImage.gd.pixels Y X
              else panCMap (psSrcImage.gd.pixels Y X))
        ∧ (psSrcImage.format.renderer = Renderer.GD → psSrcImage.gd.trueColor = true →
            dst'.gd.tpixels Y X =
              if gd.gdTrueColorGetAlpha (psSrcImage.gd.tpixels Y X) = 0 then
                psSrcImage.gd.tpixels Y X
              else if gd.gdTrueColorGetAlpha (psSrcImage.gd.tpixels Y X) = 127 then
                psDstImage.gd.tpixels Y X
              else gd.gdAlphaBlend (psDstImage.gd.tpixels Y X) (psSrcImage.gd.tpixels Y X)) := by
  have hsome := msNearestRasterResampler_isSome gd psSrcImage offsite psDstImage panCMap
    identityTransformer hsup
  obtain ⟨⟨rc, dst'⟩, hres⟩ := Option.isSome_iff_exists.mp hsome
  have key := msNearestRasterResampler_pixelwise gd psSrcImage offsite psDstImage panCMap
    identityTransformer
    (fun rc old new =>
      (psSrcImage.format.renderer = Renderer.RAWDATA →
        ∀ b : Nat, (b : Int) < psSrcImage.format.bands →
          new.2.2 b =
            if psSrcImage.raw (rc.2 + rc.1 * psSrcImage.width
                + b * psSrcImage.width * psSrcImage.height) = offsite.red then old.2.2 b
            else psSrcImage.raw (rc.2 + rc.1 * psSrcImage.width
                + b * psSrcImage.width * psSrcImage.height))
      ∧ (psSrcImage.format.renderer = Renderer.GD → psSrcImage.gd.trueColor = false →
          new.1 = if panCMap (psSrcImage.gd.pixels rc.1 rc.2) = -1 then old.1
            else panCMap (psSrcImage.gd.pixels rc.1 rc.2))
      ∧ (psSrcImage.format.renderer = Renderer.GD → psSrcImage.gd.trueColor = true →
          new.2.1 =
            if gd.gdTrueColorGetAlpha (psSrcImage.gd.tpixels rc.1 rc.2) = 0 then
              psSrcImage.gd.tpixels rc.1 rc.2
            else if gd.gdTrueColorGetAlpha (psSrcImage.gd.tpixels rc.1 rc.2) = 127 then
              old.2.1
            else gd.gdAlphaBlend old.2.1 (psSrcImage.gd.tpixels rc.1 rc.2)))
    (by
      intro nDstY nDstX s s' h1 h2 h3 h4 hs hstep
      rw [transformedCentre_identity _ _ _ h3 h4] at hstep
      rw [hW] at h4
      rw [hH] at h2
      have cx : castInt ((nDstX : ℚ) + 1 / 2) = nDstX := castInt_add_half _ h3 (by omega)
      have cy : castInt ((nDstY : ℚ) + 1 / 2) = nDstY := castInt_add_half _ h1 (by omega)
      have px : (0 : ℚ) ≤ (nDstX : ℚ) + 1 / 2 := by
        have : (0 : ℚ) ≤ (nDstX : ℚ) := by exact_mod_cast h3
        linarith
      have py : (0 : ℚ) ≤ (nDstY : ℚ) + 1 / 2 := by
        have : (0 : ℚ) ≤ (nDstY : ℚ) := by exact_mod_cast h1
        linarith
      have hsw : s.width = psSrcImage.width := hs.1.trans hW
      have hsh : s.height = psSrcImage.height := hs.2.1.trans hH
      refine ⟨?_, ?_, ?_⟩
      · intro hraw b hb
        have := msNearestRasterResampler_pixel_raw gd psSrcImage offsite panCMap nDstX nDstY _
          hraw s s' h3 (hsw ▸ h4) h1 (hsh ▸ h2) hstep b (Int.ofNat_nonneg b)
        dsimp only at this
        rw [cx, cy, hsw, hsh] at this
        dsimp only [imageObj.view]
        rw [hW, hH, this]
        by_cases hnd : psSrcImage.raw (nDstX + nDstY * psSrcImage.width
            + b * psSrcImage.width * psSrcImage.height) = offsite.red
        · rw [if_pos hnd, if_neg]
          intro hc
          exact hc.2.2.2.2.2.2 hnd
        · rw [if_neg hnd, if_pos]
          exact ⟨hb, one_ne_zero, px, py, h4, h2, hnd⟩
      · intro hgd htc
        have := msNearestRasterResampler_pixel_palette gd psSrcImage offsite panCMap nDstX
          nDstY _ hgd htc s s' hstep
        dsimp only at this
        rw [cx, cy] at this
        dsimp only [imageObj.view]
        rw [this]
        by_cases hm : panCMap (psSrcImage.gd.pixels nDstY nDstX) = -1
        · rw [if_pos hm, if_neg]
          intro hc
          exact hc.2.2.2.2.2 hm
        · rw [if_neg hm, if_pos]
          exact ⟨one_ne_zero, px, py, h4, h2, hm⟩
      · intro hgd htc
        have := msNearestRasterResampler_pixel_truecolor gd psSrcImage offsite panCMap nDstX
          nDstY _ hgd htc s s' hstep
        dsimp only at this
        rw [cx, cy, if_pos ⟨one_ne_zero, px, py, h4, h2⟩] at this
        exact this)
    rc dst' hres
  obtain ⟨hrc, -, hpix⟩ := key
  subst hrc
  refine ⟨dst', hres, ?_⟩
  intro X Y hX hXW hY hYH
  have := hpix Y X hY (hH ▸ hYH) hX (hW ▸ hXW)
  dsimp only [imageObj.view] at this
  rw [hW, hH] at this
  exact this

/-- C12 (counterexample): a 1 x 1 one-band BYTE source whose only sample 0 is the nodata
value, resampled with the identity transformer into a 1 x 1 destination that holds 5:
the call returns 0 and the destination sample is still 5, not the source sample 0. -/
theorem msNearestRasterResampler_identity_counterexample :
    (rawImage 1 1 ImageMode.BYTE 1 fun _ => 0).raw 0 = 0 ∧
    ∃ dst', msNearestRasterResampler sampleGd (rawImage 1 1 ImageMode.BYTE 1 fun _ => 0)
        ⟨0, 0, 0⟩ (rawImage 1 1 ImageMode.BYTE 1 fun _ => 5) (fun i => i)
        identityTransformer = some (0, dst') ∧
      dst'.raw 0 = 5 ∧
      dst'.raw 0 ≠ (rawImage 1 1 ImageMode.BYTE 1 fun _ => 0).raw 0 := by
  have hsome := msNearestRasterResampler_isSome sampleGd
    (rawImage 1 1 ImageMode.BYTE 1 fun _ => 0) ⟨0, 0, 0⟩
    (rawImage 1 1 ImageMode.BYTE 1 fun _ => 5) (fun i => i) identityTransformer
    (Or.inr (Or.inr (Or.inr rfl)))
  obtain ⟨⟨rc, dst'⟩, hres⟩ := Option.isSome_iff_exists.mp hsome
  have key := msNearestRasterResampler_pixelwise sampleGd
    (rawImage 1 1 ImageMode.BYTE 1 fun _ => 0) ⟨0, 0, 0⟩
    (rawImage 1 1 ImageMode.BYTE 1 fun _ => 5) (fun i => i) identityTransformer
    (fun _ old new => new.2.2 0 = old.2.2 0)
    (by
      intro nDstY nDstX s s' h1 h2 h3 h4 hs hstep
      have hw : s.width = 1 := hs.1
      have hh : s.height = 1 := hs.2.1
      have := msNearestRasterResampler_pixel_raw _ _ _ _ nDstX nDstY _ rfl s s' h3
        (hw ▸ h4) h1 (hh ▸ h2) hstep 0 le_rfl
      rw [if_neg (by simp [rawImage])] at this
      simp only [imageObj.view, Nat.cast_zero, zero_mul, add_zero]
      rw [hw, hh] at this
      simpa [rawImage] using this)
    rc dst' hres
  obtain ⟨hrc, -, hpix⟩ := key
  subst hrc
  have h0 := hpix 0 0 le_rfl (by decide) le_rfl (by decide)
  have h5 : dst'.raw 0 = 5 := by simpa [imageObj.view, rawImage] using h0
  refine ⟨rfl, dst', hres, h5, ?_⟩
  rw [h5]
  norm_num [rawImage]

theorem msNearestRasterResampler_identity_witness :
    (rawImage 1 1 ImageMode.BYTE 1 fun _ => 7).supported ∧
    ∃ dst', msNearestRasterResampler sampleGd (rawImage 1 1 ImageMode.BYTE 1 fun _ => 7)
        ⟨0, 0, 0⟩ (rawImage 1 1 ImageMode.BYTE 1 fun _ => 5) (fun i => i)
        identityTransformer = some (0, dst') ∧ dst'.raw 0 = 7 := by
  obtain ⟨dst', h, hp⟩ := msNearestRasterResampler_identity sampleGd
    (rawImage 1 1 ImageMode.BYTE 1 fun _ => 7) ⟨0, 0, 0⟩
    (rawImage 1 1 ImageMode.BYTE 1 fun _ => 5) (fun i => i)
    (Or.inr (Or.inr (Or.inr rfl))) rfl rfl (by decide) (by decide)
  refine ⟨Or.inr (Or.inr (Or.inr rfl)), dst', h, ?_⟩
  have := (hp 0 0 le_rfl (by decide) le_rfl (by decide)).1 rfl 0 (by decide)
  simpa [rawImage] using this

theorem msNearestRasterResampler_raw_per_band_witness :
    (rawImage 1 1 ImageMode.INT16 1 fun _ => 7).format.renderer = Renderer.RAWDATA ∧
    ∃ dst', msNearestRasterResampler sampleGd (rawImage 1 1 ImageMode.INT16 1 fun _ => 7)
        ⟨0, 0, 0⟩ (rawImage 1 1 ImageMode.INT16 1 fun _ => 5) (fun i => i)
        identityTransformer = some (0, dst') ∧ dst'.raw 0 = 7 := by
  obtain ⟨dst', h, hp⟩ := msNearestRasterResampler_raw_per_band sampleGd
    (rawImage 1 1 ImageMode.INT16 1 fun _ => 7) ⟨0, 0, 0⟩
    (rawImage 1 1 ImageMode.INT16 1 fun _ => 5) (fun i => i) identityTransformer rfl
    (Or.inl rfl)
  refine ⟨rfl, dst', h, ?_⟩
  have := hp 0 0 le_rfl (by decide) le_rfl (by decide) 0
  have hc : transformedCentre identityTransformer
      (rawImage 1 1 ImageMode.INT16 1 fun _ => 5).width 0 0 = ⟨1 / 2, 1 / 2, 1⟩ := by
    rw [transformedCentre_identity _ _ _ le_rfl (by decide)]
    norm_num
  rw [hc] at this
  have hci : castInt (1 / 2) = 0 := by norm_num [castInt, toInt32, trunc]
  simp only [hci] at this
  rw [if_pos (by norm_num [rawImage])] at this
  simpa [rawImage] using this

theorem msNearestRasterResampler_truecolor_witness :
    (gdImageObj 1 1 true (fun _ _ => 0) fun _ _ => 255).format.renderer = Renderer.GD ∧
    (gdImageObj 1 1 true (fun _ _ => 0) fun _ _ => 255).gd.trueColor = true ∧
    ∃ dst', msNearestRasterResampler sampleGd
        (gdImageObj 1 1 true (fun _ _ => 0) fun _ _ => 255) ⟨0, 0, 0⟩
        (gdImageObj 1 1 true (fun _ _ => 0) fun _ _ => 0) (fun i => i)
        identityTransformer = some (0, dst') ∧ dst'.gd.tpixels 0 0 = 255 := by
  obtain ⟨dst', h, hp⟩ := msNearestRasterResampler_truecolor sampleGd
    (gdImageObj 1 1 true (fun _ _ => 0) fun _ _ => 255) ⟨0, 0, 0⟩
    (gdImageObj 1 1 true (fun _ _ => 0) fun _ _ => 0) (fun i => i) identityTransformer rfl rfl
  refine ⟨rfl, rfl, dst', h, ?_⟩
  have hc : transformedCentre identityTransformer
      (gdImageObj 1 1 true (fun _ _ => 0) fun _ _ => 0).width 0 0 = ⟨1 / 2, 1 / 2, 1⟩ := by
    rw [transformedCentre_identity _ _ _ le_rfl (by decide)]
    norm_num
  have hci : castInt (1 / 2) = 0 := by norm_num [castInt, toInt32, trunc]
  have := hp 0 0 le_rfl (by decide) le_rfl (by decide)
  rw [hc] at this
  simp only [hci] at this
  have := this one_ne_zero (by norm_num) (by norm_num) (by decide) (by decide)
  rw [this]
  norm_num [gdImageObj, sampleGd]

/-- For a raw source of kind INT16 or FLOAT32 with at least one band, a source position
whose band-0 sample is the nodata value leaves the sums and the weight sum as they
were: the band loop returns at band 0. -/
theorem msSourceSample_nodata_int16_float32 (gd : GdLib) (psSrcImage : imageObj)
    (iSrcX iSrcY : Int) (padfPixelSum : Int → ℚ) (dfWeight dfWeightSum : ℚ)
    (offsite : colorObj) (hraw : psSrcImage.format.renderer ≠ Renderer.GD)
    (hmode : psSrcImage.format.imagemode = ImageMode.INT16
      ∨ psSrcImage.format.imagemode = ImageMode.FLOAT32)
    (hbands : 0 < psSrcImage.format.bands)
    (hnodata : psSrcImage.raw (iSrcX + iSrcY * psSrcImage.width
      + 0 * psSrcImage.width * psSrcImage.height) = offsite.red) :
    msSourceSample gd psSrcImage iSrcX iSrcY padfPixelSum dfWeight dfWeightSum offsite
      = some (padfPixelSum, dfWeightSum) := by
  have hl : ∃ rest, upTo psSrcImage.format.bands = 0 :: rest := by
    unfold upTo
    obtain ⟨n, hn⟩ : ∃ n, psSrcImage.format.bands.toNat = n + 1 :=
      ⟨psSrcImage.format.bands.toNat - 1, by omega⟩
    rw [hn, List.range_succ_eq_map]
    exact ⟨_, rfl⟩
  obtain ⟨rest, hrest⟩ := hl
  unfold msSourceSample
  rw [if_neg hraw, hrest]
  unfold msSourceSample.bands
  rcases hmode with h | h
  · simp only [zero_mul, add_zero] at hnodata
    simp [h, hnodata]
  · simp only [zero_mul, add_zero] at hnodata
    simp [h, hnodata]

/-- C17 (the code at a failing input): a 1 x 1 two-band BYTE source whose band-0 sample 0
is the nodata value and whose band-1 sample is 9, sampled with weight 1 into sums and a
weight sum that are all 0: the BYTE branch goes on with `continue`, so band 1 is added
to its sum and the weight is added to the weight sum. -/
theorem msSourceSample_byte_nodata_adds_weight :
    (rawImage 1 1 ImageMode.BYTE 2 fun off => if off = 0 then 0 else 9).raw 0
      = ((⟨0, 0, 0⟩ : colorObj).red : ℚ) ∧
    (msSourceSample sampleGd
      (rawImage 1 1 ImageMode.BYTE 2 fun off => if off = 0 then 0 else 9) 0 0
      (fun _ => 0) 1 0 ⟨0, 0, 0⟩).map (fun r => (r.1 0, r.1 1, r.2)) = some (0, 9, 1) := by
  have e2 : upTo 2 = [0, 1] := by decide
  constructor
  · norm_num [rawImage]
  · simp +decide [msSourceSample, msSourceSample.bands, rawImage, e2, addAt]

theorem foldl_onlyPixel (f : imageObj → Int → imageObj) (nDstX nDstY : Int)
    (hf : ∀ (dst : imageObj) (b : Int), 0 ≤ b →
      OnlyPixel dst.width dst.height nDstY nDstX dst (f dst b))
    (l : List Int) (hl : ∀ b ∈ l, 0 ≤ b) (s : imageObj) :
    OnlyPixel s.width s.height nDstY nDstX s (l.foldl f s) := by
  induction l generalizing s with
  | nil => exact OnlyPixel.refl _ _ _ _ _
  | cons b rest ih =>
    rw [List.foldl_cons]
    have o1 := hf s b (hl b (List.mem_cons_self _ _))
    have o2 := ih (fun c hc => hl c (List.mem_cons_of_mem _ hc)) (f s b)
    rw [o1.1, o1.2.1] at o2
    exact o1.trans o2

/-- The write of a resampled pixel changes the destination pixel `(nDstX, nDstY)` only. -/
theorem writeResampledPixel_onlyPixel (gd : GdLib) (psSrcImage : imageObj)
    (panCMap : Int → Int) (nDstX nDstY : Int) (padfPixelSum : Int → ℚ) (dfAlpha : ℚ)
    (s : imageObj) :
    OnlyPixel s.width s.height nDstY nDstX s
      (writeResampledPixel gd psSrcImage panCMap nDstX nDstY padfPixelSum dfAlpha s) := by
  unfold writeResampledPixel
  dsimp only
  split_ifs
  all_goals first
    | exact OnlyPixel.refl _ _ _ _ _
    | exact OnlyPixel.setPixel _ _ _ _ _ _
    | exact OnlyPixel.setTPixel _ _ _ _ _ _
    | (apply foldl_onlyPixel _ _ _ _ _ (fun b hb => ((mem_upTo _ _).mp hb).1)
       intro dst b hb
       first
        | exact OnlyPixel.setRaw _ _ _ _ _ _ _ hb
        | exact OnlyPixel.refl _ _ _ _ _)

theorem msBilinearRasterResampler_pixel_onlyPixel (gd : GdLib) (psSrcImage : imageObj)
    (offsite : colorObj) (panCMap : Int → Int) (nDstX nDstY : Int) (p : Pt)
    (s s' : imageObj)
    (h : msBilinearRasterResampler.pixel gd psSrcImage offsite panCMap nDstX nDstY p s
      = some s') :
    OnlyPixel s.width s.height nDstY nDstX s s' := by
  unfold msBilinearRasterResampler.pixel at h
  cases hp : msBilinearRasterResampler.srcPos psSrcImage p with
  | none =>
    rw [hp] at h
    simp only [Option.some.injEq] at h
    subst h
    exact OnlyPixel.refl _ _ _ _ _
  | some pos =>
    rw [hp] at h
    dsimp only at h
    cases hs : msBilinearRasterResampler.sample gd psSrcImage offsite pos with
    | none =>
      rw [hs] at h
      exact absurd h (by simp)
    | some r =>
      obtain ⟨sum, dfWeightSum⟩ := r
      rw [hs] at h
      dsimp only at h
      split_ifs at h
      · simp only [Option.some.injEq] at h
        subst h
        exact OnlyPixel.refl _ _ _ _ _
      · simp only [Option.some.injEq] at h
        subst h
        exact writeResampledPixel_onlyPixel _ _ _ _ _ _ _ _

theorem msSourceSample_bands_isSome (psSrcImage : imageObj) (iSrcX iSrcY : Int)
    (dfWeight : ℚ) (offsite : colorObj)
    (hmode : psSrcImage.format.imagemode = ImageMode.INT16
      ∨ psSrcImage.format.imagemode = ImageMode.FLOAT32
      ∨ psSrcImage.format.imagemode = ImageMode.BYTE) (l : List Int)
    (padfPixelSum : Int → ℚ) :
    (msSourceSample.bands psSrcImage iSrcX iSrcY dfWeight offsite l padfPixelSum).isSome := by
  induction l generalizing padfPixelSum with
  | nil => rfl
  | cons b rest ih =>
    unfold msSourceSample.bands
    dsimp only
    rcases hmode with h | h | h <;> simp only [h] <;> split_ifs <;> first | rfl | exact ih _

theorem msSourceSample_isSome (gd : GdLib) (psSrcImage : imageObj) (iSrcX iSrcY : Int)
    (padfPixelSum : Int → ℚ) (dfWeight dfWeightSum : ℚ) (offsite : colorObj)
    (hsup : psSrcImage.supported) :
    (msSourceSample gd psSrcImage iSrcX iSrcY padfPixelSum dfWeight dfWeightSum
      offsite).isSome := by
  unfold msSourceSample
  dsimp only
  split_ifs with h1 h2 h3
  all_goals try rfl
  rcases hsup with h | h
  · exact absurd h h1
  · have hb := msSourceSample_bands_isSome psSrcImage iSrcX iSrcY dfWeight offsite h
      (upTo psSrcImage.format.bands) padfPixelSum
    obtain ⟨⟨sum, fl⟩, hr⟩ := Option.isSome_iff_exists.mp hb
    rw [hr]
    cases fl <;> rfl

theorem msBilinearRasterResampler_sample_isSome (gd : GdLib) (psSrcImage : imageObj)
    (offsite : colorObj) (pos : BilinearPos) (hsup : psSrcImage.supported) :
    (msBilinearRasterResampler.sample gd psSrcImage offsite pos).isSome := by
  unfold msBilinearRasterResampler.sample
  obtain ⟨r1, h1⟩ := Option.isSome_iff_exists.mp (msSourceSample_isSome gd psSrcImage
    pos.nSrcX pos.nSrcY (fun _ => 0) ((1 - pos.dfRatioX2) * (1 - pos.dfRatioY2)) 0 offsite hsup)
  rw [h1, Option.some_bind]
  obtain ⟨r2, h2⟩ := Option.isSome_iff_exists.mp (msSourceSample_isSome gd psSrcImage
    pos.nSrcX2 pos.nSrcY r1.1 (pos.dfRatioX2 * (1 - pos.dfRatioY2)) r1.2 offsite hsup)
  rw [h2, Option.some_bind]
  obtain ⟨r3, h3⟩ := Option.isSome_iff_exists.mp (msSourceSample_isSome gd psSrcImage
    pos.nSrcX pos.nSrcY2 r2.1 ((1 - pos.dfRatioX2) * pos.dfRatioY2) r2.2 offsite hsup)
  rw [h3, Option.some_bind]
  exact msSourceSample_isSome _ _ _ _ _ _ _ _ hsup

theorem msBilinearRasterResampler_pixel_isSome (gd : GdLib) (psSrcImage : imageObj)
    (offsite : colorObj) (panCMap : Int → Int) (nDstX nDstY : Int) (p : Pt) (s : imageObj)
    (hsup : psSrcImage.supported) :
    (msBilinearRasterResampler.pixel gd psSrcImage offsite panCMap nDstX nDstY p s).isSome := by
  unfold msBilinearRasterResampler.pixel
  cases hp : msBilinearRasterResampler.srcPos psSrcImage p with
  | none => rfl
  | some pos =>
    dsimp only
    obtain ⟨⟨sum, w⟩, hr⟩ := Option.isSome_iff_exists.mp
      (msBilinearRasterResampler_sample_isSome gd psSrcImage offsite pos hsup)
    rw [hr]
    dsimp only
    split_ifs <;> rfl

/-- What `msBilinearRasterResampler` does to the image follows pixel by pixel from the
body of its pixel loop: when the call returns, it returns 0, the destination has kept
its shape, and each pixel is related to its initial content as one run of the loop body
for that pixel relates them. -/
theorem msBilinearRasterResampler_pixelwise (gd : GdLib) (psSrcImage : imageObj)
    (offsite : colorObj) (psDstImage : imageObj) (panCMap : Int → Int)
    (pfnTransform : SimpleTransformer)
    (R : Int × Int → (Int × Int × (Nat → ℚ)) → (Int × Int × (Nat → ℚ)) → Prop)
    (hown : ∀ (nDstY nDstX : Int) (s s' : imageObj), 0 ≤ nDstY → nDstY < psDstImage.height →
      0 ≤ nDstX → nDstX < psDstImage.width → SameShape psDstImage s →
      msBilinearRasterResampler.pixel gd psSrcImage offsite panCMap nDstX nDstY
        (transformedCentre pfnTransform psDstImage.width nDstY nDstX) s = some s' →
      R (nDstY, nDstX) (s.view psDstImage.width psDstImage.height (nDstY, nDstX))
        (s'.view psDstImage.width psDstImage.height (nDstY, nDstX)))
    (rc : Int) (dst' : imageObj)
    (h : msBilinearRasterResampler gd psSrcImage offsite psDstImage panCMap pfnTransform
      = some (rc, dst')) :
    rc = 0 ∧ SameShape psDstImage dst' ∧
    ∀ nDstY nDstX : Int, 0 ≤ nDstY → nDstY < psDstImage.height → 0 ≤ nDstX →
      nDstX < psDstImage.width →
      R (nDstY, nDstX) (psDstImage.view psDstImage.width psDstImage.height (nDstY, nDstX))
        (dst'.view psDstImage.width psDstImage.height (nDstY, nDstX)) := by
  unfold msBilinearRasterResampler at h
  simp only [Option.map_eq_some', Prod.mk.injEq] at h
  obtain ⟨d, hd, hrc, rfl⟩ := h
  refine ⟨hrc.symm, ?_⟩
  exact pixelLoops_pixelwise psDstImage
    (fun s nDstY nDstX => msBilinearRasterResampler.pixel gd psSrcImage offsite panCMap nDstX
      nDstY (transformedCentre pfnTransform psDstImage.width nDstY nDstX) s) R
    (fun nDstY nDstX s s' hs =>
      msBilinearRasterResampler_pixel_onlyPixel _ _ _ _ _ _ _ _ _ hs)
    hown d hd

theorem msBilinearRasterResampler_isSome (gd : GdLib) (psSrcImage : imageObj)
    (offsite : colorObj) (psDstImage : imageObj) (panCMap : Int → Int)
    (pfnTransform : SimpleTransformer) (hsup : psSrcImage.supported) :
    (msBilinearRasterResampler gd psSrcImage offsite psDstImage panCMap pfnTransform).isSome := by
  unfold msBilinearRasterResampler
  simp only [Option.isSome_map']
  exact pixelLoops_isSome psDstImage
    (fun s nDstY nDstX => msBilinearRasterResampler.pixel gd psSrcImage offsite panCMap nDstX
      nDstY (transformedCentre pfnTransform psDstImage.width nDstY nDstX) s)
    (fun s nDstY nDstX => msBilinearRasterResampler_pixel_isSome _ _ _ _ _ _ _ _ hsup)

theorem msNearestRasterResampler_pixel_failed (gd : GdLib) (psSrcImage : imageObj)
    (offsite : colorObj) (panCMap : Int → Int) (nDstX nDstY : Int) (p : Pt)
    (hp : p.success = 0) (s : imageObj) :
    msNearestRasterResampler.pixel gd psSrcImage offsite panCMap nDstX nDstY p s = some s := by
  unfold msNearestRasterResampler.pixel
  rw [msNearestRasterResampler_srcPos_eq_none _ _ (fun hc => hc.1 hp)]

theorem msBilinearRasterResampler_pixel_failed (gd : GdLib) (psSrcImage : imageObj)
    (offsite : colorObj) (panCMap : Int → Int) (nDstX nDstY : Int) (p : Pt)
    (hp : p.success = 0) (s : imageObj) :
    msBilinearRasterResampler.pixel gd psSrcImage offsite panCMap nDstX nDstY p s = some s := by
  unfold msBilinearRasterResampler.pixel msBilinearRasterResampler.srcPos
  rw [if_pos hp]

/-- C15: for every transformer, source raster and destination raster, whenever
`msNearestRasterResampler` or `msBilinearRasterResampler` returns, it returns 0 and every
destination pixel whose transformed centre is flagged failed has the content it had
before the call, in the palette plane, the true-colour plane and every raw band; and
for a source in one of the handled encodings both calls do return, however many points
failed. -/
theorem resamplers_failure_containment (gd : GdLib) (psSrcImage : imageObj)
    (offsite : colorObj) (psDstImage : imageObj) (panCMap : Int → Int)
    (pfnTransform : SimpleTransformer) :
    (psSrcImage.supported →
      (msNearestRasterResampler gd psSrcImage offsite psDstImage panCMap
        pfnTransform).isSome ∧
      (msBilinearRasterResampler gd psSrcImage offsite psDstImage panCMap
        pfnTransform).isSome) ∧
    ∀ (rc : Int) (dst' : imageObj),
      (msNearestRasterResampler gd psSrcImage offsite psDstImage panCMap pfnTransform
          = some (rc, dst') ∨
        msBilinearRasterResampler gd psSrcImage offsite psDstImage panCMap pfnTransform
          = some (rc, dst')) →
      rc = 0 ∧
      ∀ X Y : Int, 0 ≤ X → X < psDstImage.width → 0 ≤ Y → Y < psDstImage.height →
        (transformedCentre pfnTransform psDstImage.width Y X).success = 0 →
        dst'.gd.pixels Y X = psDstImage.gd.pixels Y X
        ∧ dst'.gd.tpixels Y X = psDstImage.gd.tpixels Y X
        ∧ ∀ b : Nat,
          dst'.raw (X + Y * psDstImage.width + b * psDstImage.width * psDstImage.height)
            = psDstImage.raw
              (X + Y * psDstImage.width + b * psDstImage.width * psDstImage.height) := by
  refine ⟨fun hsup => ⟨msNearestRasterResampler_isSome _ _ _ _ _ _ hsup,
    msBilinearRasterResampler_isSome _ _ _ _ _ _ hsup⟩, ?_⟩
  intro rc dst' h
  have key : rc = 0 ∧ SameShape psDstImage dst' ∧
      ∀ nDstY nDstX : Int, 0 ≤ nDstY → nDstY < psDstImage.height → 0 ≤ nDstX →
        nDstX < psDstImage.width →
        ((transformedCentre pfnTransform psDstImage.width nDstY nDstX).success = 0 →
          dst'.view psDstImage.width psDstImage.height (nDstY, nDstX)
            = psDstImage.view psDstImage.width psDstImage.height (nDstY, nDstX)) := by
    rcases h with h | h
    · refine msNearestRasterResampler_pixelwise gd psSrcImage offsite psDstImage panCMap
        pfnTransform
        (fun rc old new =>
          (transformedCentre pfnTransform psDstImage.width rc.1 rc.2).success = 0 → new = old)
        ?_ rc dst' h
      intro nDstY nDstX s s' _ _ _ _ _ hstep hfail
      rw [msNearestRasterResampler_pixel_failed _ _ _ _ _ _ _ hfail] at hstep
      simp only [Option.some.injEq] at hstep
      rw [hstep]
    · refine msBilinearRasterResampler_pixelwise gd psSrcImage offsite psDstImage panCMap
        pfnTransform
        (fun rc old new =>
          (transformedCentre pfnTransform psDstImage.width rc.1 rc.2).success = 0 → new = old)
        ?_ rc dst' h
      intro nDstY nDstX s s' _ _ _ _ _ hstep hfail
      rw [msBilinearRasterResampler_pixel_failed _ _ _ _ _ _ _ hfail] at hstep
      simp only [Option.some.injEq] at hstep
      rw [hstep]
  obtain ⟨hrc, -, hpix⟩ := key
  refine ⟨hrc, ?_⟩
  intro X Y hX hXW hY hYH hfail
  have hv := hpix Y X hY hYH hX hXW hfail
  simp only [imageObj.view, Prod.mk.injEq] at hv
  exact ⟨hv.1, hv.2.1, fun b => congrFun hv.2.2 b⟩

/-- Under `failingTransformer` the centre of every pixel of a row is flagged failed. -/
theorem failingTransformer_centre (W Y X : Int) (h0 : 0 ≤ X) (h : X < W) :
    (transformedCentre failingTransformer W Y X).success = 0 := by
  unfold transformedCentre failingTransformer
  dsimp only
  rw [List.getD_eq_getElem?_getD, List.getElem?_map, List.getElem?_map]
  have hlt : X.toNat < (upTo W).length := by
    rw [length_upTo]
    omega
  rw [List.getElem?_eq_getElem hlt]
  rfl

theorem resamplers_failure_containment_witness :
    (rawImage 1 1 ImageMode.INT16 1 fun _ => 7).supported ∧
    (∃ dst', msNearestRasterResampler sampleGd (rawImage 1 1 ImageMode.INT16 1 fun _ => 7)
        ⟨0, 0, 0⟩ (rawImage 1 1 ImageMode.INT16 1 fun _ => 5) (fun i => i)
        failingTransformer = some (0, dst') ∧ dst'.raw 0 = 5) ∧
    ∃ dst', msBilinearRasterResampler sampleGd (rawImage 1 1 ImageMode.INT16 1 fun _ => 7)
        ⟨0, 0, 0⟩ (rawImage 1 1 ImageMode.INT16 1 fun _ => 5) (fun i => i)
        failingTransformer = some (0, dst') ∧ dst'.raw 0 = 5 := by
  have hsup : (rawImage 1 1 ImageMode.INT16 1 fun _ => 7).supported := Or.inr (Or.inl rfl)
  obtain ⟨htot, hpart⟩ := resamplers_failure_containment sampleGd
    (rawImage 1 1 ImageMode.INT16 1 fun _ => 7) ⟨0, 0, 0⟩
    (rawImage 1 1 ImageMode.INT16 1 fun _ => 5) (fun i => i) failingTransformer
  obtain ⟨hn, hb⟩ := htot hsup
  obtain ⟨⟨rcn, dn⟩, hn⟩ := Option.isSome_iff_exists.mp hn
  obtain ⟨⟨rcb, db⟩, hb⟩ := Option.isSome_iff_exists.mp hb
  have hfail := failingTransformer_centre 1 0 0 le_rfl (by decide)
  obtain ⟨h1, h2⟩ := hpart rcn dn (Or.inl hn)
  obtain ⟨h3, h4⟩ := hpart rcb db (Or.inr hb)
  subst h1
  subst h3
  refine ⟨hsup, ⟨dn, hn, ?_⟩, ⟨db, hb, ?_⟩⟩
  · have := (h2 0 0 le_rfl (by decide) le_rfl (by decide) hfail).2.2 0
    simpa [rawImage] using this
  · have := (h4 0 0 le_rfl (by decide) le_rfl (by decide) hfail).2.2 0
    simpa [rawImage] using this

theorem msAverageRasterResampler_pixel_onlyPixel (gd : GdLib) (psSrcImage : imageObj)
    (offsite : colorObj) (panCMap : Int → Int) (nDstX nDstY : Int) (p1 p1n p2 p2n : Pt)
    (s s' : imageObj)
    (h : msAverageRasterResampler.pixel gd psSrcImage offsite panCMap nDstX nDstY
      p1 p1n p2 p2n s = some s') :
    OnlyPixel s.width s.height nDstY nDstX s s' := by
  unfold msAverageRasterResampler.pixel at h
  split_ifs at h with hfail
  · simp only [Option.some.injEq] at h
    subst h
    exact OnlyPixel.refl _ _ _ _ _
  · dsimp only at h
    split at h
    · exact absurd h (by simp)
    · split_ifs at h
      · simp only [Option.some.injEq] at h
        subst h
        exact OnlyPixel.refl _ _ _ _ _
      · simp only [Option.some.injEq] at h
        subst h
        exact writeResampledPixel_onlyPixel _ _ _ _ _ _ _ _

theorem msAverageSample_isSome (gd : GdLib) (psSrcImage : imageObj)
    (dfXMin dfYMin dfXMax dfYMax : ℚ) (offsite : colorObj) (padfPixelSum : Int → ℚ)
    (hsup : psSrcImage.supported) :
    (msAverageSample gd psSrcImage dfXMin dfYMin dfXMax dfYMax offsite padfPixelSum).isSome := by
  unfold msAverageSample
  simp only [Option.isSome_map']
  apply foldlM_isSome
  intro st iY _
  apply foldlM_isSome
  intro st iX _
  simp only [Option.isSome_map']
  exact msSourceSample_isSome _ _ _ _ _ _ _ _ hsup

theorem msAverageRasterResampler_pixel_isSome (gd : GdLib) (psSrcImage : imageObj)
    (offsite : colorObj) (panCMap : Int → Int) (nDstX nDstY : Int) (p1 p1n p2 p2n : Pt)
    (s : imageObj) (hsup : psSrcImage.supported) :
    (msAverageRasterResampler.pixel gd psSrcImage offsite panCMap nDstX nDstY
      p1 p1n p2 p2n s).isSome := by
  unfold msAverageRasterResampler.pixel
  split_ifs with hfail
  · rfl
  · dsimp only
    split
    · rename_i hnone
      have hs := Option.isSome_iff_exists.mp
        (msAverageSample_isSome gd psSrcImage
          (MAX (MIN (MIN p1.x p1n.x) (MIN p2.x p2n.x)) 0)
          (MAX (MIN (MIN p1.y p1n.y) (MIN p2.y p2n.y)) 0)
          (MIN (MAX (MAX p1.x p1n.x) (MAX p2.x p2n.x)) psSrcImage.width)
          (MIN (MAX (MAX p1.y p1n.y) (MAX p2.y p2n.y)) psSrcImage.height)
          offsite (fun _ => 0) hsup)
      obtain ⟨r, hr⟩ := hs
      rw [hnone] at hr
      exact absurd hr (by simp)
    · split_ifs <;> rfl

/-- What `msAverageRasterResampler` does to the image follows pixel by pixel from the
body of its pixel loop: when the call returns, it returns 0, the destination has kept
its shape, and each pixel is related to its initial content as one run of the loop body
for that pixel relates them. -/
theorem msAverageRasterResampler_pixelwise (gd : GdLib) (psSrcImage : imageObj)
    (offsite : colorObj) (psDstImage : imageObj) (panCMap : Int → Int)
    (pfnTransform : SimpleTransformer)
    (R : Int × Int → (Int × Int × (Nat → ℚ)) → (Int × Int × (Nat → ℚ)) → Prop)
    (hown : ∀ (nDstY nDstX : Int) (s s' : imageObj), 0 ≤ nDstY → nDstY < psDstImage.height →
      0 ≤ nDstX → nDstX < psDstImage.width → SameShape psDstImage s →
      msAverageRasterResampler.pixel gd psSrcImage offsite panCMap nDstX nDstY
        (transformedCorner pfnTransform psDstImage.width nDstY nDstX)
        (transformedCorner pfnTransform psDstImage.width nDstY (nDstX + 1))
        (transformedCorner pfnTransform psDstImage.width (nDstY + 1) nDstX)
        (transformedCorner pfnTransform psDstImage.width (nDstY + 1) (nDstX + 1)) s
        = some s' →
      R (nDstY, nDstX) (s.view psDstImage.width psDstImage.height (nDstY, nDstX))
        (s'.view psDstImage.width psDstImage.height (nDstY, nDstX)))
    (rc : Int) (dst' : imageObj)
    (h : msAverageRasterResampler gd psSrcImage offsite psDstImage panCMap pfnTransform
      = some (rc, dst')) :
    rc = 0 ∧ SameShape psDstImage dst' ∧
    ∀ nDstY nDstX : Int, 0 ≤ nDstY → nDstY < psDstImage.height → 0 ≤ nDstX →
      nDstX < psDstImage.width →
      R (nDstY, nDstX) (psDstImage.view psDstImage.width psDstImage.height (nDstY, nDstX))
        (dst'.view psDstImage.width psDstImage.height (nDstY, nDstX)) := by
  unfold msAverageRasterResampler at h
  simp only [Option.map_eq_some', Prod.mk.injEq] at h
  obtain ⟨d, hd, hrc, rfl⟩ := h
  refine ⟨hrc.symm, ?_⟩
  exact pixelLoops_pixelwise psDstImage
    (fun s nDstY nDstX => msAverageRasterResampler.pixel gd psSrcImage offsite panCMap nDstX
      nDstY (transformedCorner pfnTransform psDstImage.width nDstY nDstX)
      (transformedCorner pfnTransform psDstImage.width nDstY (nDstX + 1))
      (transformedCorner pfnTransform psDstImage.width (nDstY + 1) nDstX)
      (transformedCorner pfnTransform psDstImage.width (nDstY + 1) (nDstX + 1)) s) R
    (fun nDstY nDstX s s' hs =>
      msAverageRasterResampler_pixel_onlyPixel _ _ _ _ _ _ _ _ _ _ _ _ hs)
    hown d hd

theorem msAverageRasterResampler_isSome (gd : GdLib) (psSrcImage : imageObj)
    (offsite : colorObj) (psDstImage : imageObj) (panCMap : Int → Int)
    (pfnTransform : SimpleTransformer) (hsup : psSrcImage.supported) :
    (msAverageRasterResampler gd psSrcImage offsite psDstImage panCMap pfnTransform).isSome := by
  unfold msAverageRasterResampler
  simp only [Option.isSome_map']
  exact pixelLoops_isSome psDstImage
    (fun s nDstY nDstX => msAverageRasterResampler.pixel gd psSrcImage offsite panCMap nDstX
      nDstY (transformedCorner pfnTransform psDstImage.width nDstY nDstX)
      (transformedCorner pfnTransform psDstImage.width nDstY (nDstX + 1))
      (transformedCorner pfnTransform psDstImage.width (nDstY + 1) nDstX)
      (transformedCorner pfnTransform psDstImage.width (nDstY + 1) (nDstX + 1)) s)
    (fun s nDstY nDstX => msAverageRasterResampler_pixel_isSome _ _ _ _ _ _ _ _ _ _ _ hsup)

theorem msAverageRasterResampler_pixel_failed (gd : GdLib) (psSrcImage : imageObj)
    (offsite : colorObj) (panCMap : Int → Int) (nDstX nDstY : Int) (p1 p1n p2 p2n : Pt)
    (hp : p1.success = 0 ∨ p1n.success = 0 ∨ p2.success = 0 ∨ p2n.success = 0)
    (s : imageObj) :
    msAverageRasterResampler.pixel gd psSrcImage offsite panCMap nDstX nDstY p1 p1n p2 p2n s
      = some s := by
  unfold msAverageRasterResampler.pixel
  rw [if_pos hp]

/-- C16: for every transformer, source raster and destination raster, whenever
`msAverageRasterResampler` returns, it returns 0 and every destination pixel `(X, Y)` one
of whose four corners `(X, Y)`, `(X + 1, Y)`, `(X, Y + 1)`, `(X + 1, Y + 1)` the
transformer flagged failed, in the two batches of row `Y`, has the content it had before
the call, in the palette plane, the true-colour plane and every raw band; and for a
source in one of the handled encodings the call does return. -/
theorem msAverageRasterResampler_corner_failure (gd : GdLib) (psSrcImage : imageObj)
    (offsite : colorObj) (psDstImage : imageObj) (panCMap : Int → Int)
    (pfnTransform : SimpleTransformer) :
    (psSrcImage.supported →
      (msAverageRasterResampler gd psSrcImage offsite psDstImage panCMap
        pfnTransform).isSome) ∧
    ∀ (rc : Int) (dst' : imageObj),
      msAverageRasterResampler gd psSrcImage offsite psDstImage panCMap pfnTransform
          = some (rc, dst') →
      rc = 0 ∧
      ∀ X Y : Int, 0 ≤ X → X < psDstImage.width → 0 ≤ Y → Y < psDstImage.height →
        ((transformedCorner pfnTransform psDstImage.width Y X).success = 0
          ∨ (transformedCorner pfnTransform psDstImage.width Y (X + 1)).success = 0
          ∨ (transformedCorner pfnTransform psDstImage.width (Y + 1) X).success = 0
          ∨ (transformedCorner pfnTransform psDstImage.width (Y + 1) (X + 1)).success = 0) →
        dst'.gd.pixels Y X = psDstImage.gd.pixels Y X
        ∧ dst'.gd.tpixels Y X = psDstImage.gd.tpixels Y X
        ∧ ∀ b : Nat,
          dst'.raw (X + Y * psDstImage.width + b * psDstImage.width * psDstImage.height)
            = psDstImage.raw
              (X + Y * psDstImage.width + b * psDstImage.width * psDstImage.height) := by
  refine ⟨fun hsup => msAverageRasterResampler_isSome _ _ _ _ _ _ hsup, ?_⟩
  intro rc dst' h
  have key := msAverageRasterResampler_pixelwise gd psSrcImage offsite psDstImage panCMap
    pfnTransform
    (fun rc old new =>
      ((transformedCorner pfnTransform psDstImage.width rc.1 rc.2).success = 0
        ∨ (transformedCorner pfnTransform psDstImage.width rc.1 (rc.2 + 1)).success = 0
        ∨ (transformedCorner pfnTransform psDstImage.width (rc.1 + 1) rc.2).success = 0
        ∨ (transformedCorner pfnTransform psDstImage.width (rc.1 + 1) (rc.2 + 1)).success = 0)
      → new = old)
    (by
      intro nDstY nDstX s s' _ _ _ _ _ hstep hfail
      rw [msAverageRasterResampler_pixel_failed _ _ _ _ _ _ _ _ _ _ hfail] at hstep
      simp only [Option.some.injEq] at hstep
      rw [hstep])
    rc dst' h
  obtain ⟨hrc, -, hpix⟩ := key
  refine ⟨hrc, ?_⟩
  intro X Y hX hXW hY hYH hfail
  have hv := hpix Y X hY hYH hX hXW hfail
  simp only [imageObj.view, Prod.mk.injEq] at hv
  exact ⟨hv.1, hv.2.1, fun b => congrFun hv.2.2 b⟩

/-- Under `failingTransformer` every corner of a row is flagged failed. -/
theorem failingTransformer_corner (W Y X : Int) (h0 : 0 ≤ X) (h : X ≤ W) :
    (transformedCorner failingTransformer W Y X).success = 0 := by
  unfold transformedCorner failingTransformer
  dsimp only
  rw [List.getD_eq_getElem?_getD, List.getElem?_map, List.getElem?_map]
  have hlt : X.toNat < (upTo (W + 1)).length := by
    rw [length_upTo]
    omega
  rw [List.getElem?_eq_getElem hlt]
  rfl

theorem msAverageRasterResampler_corner_failure_witness :
    (rawImage 1 1 ImageMode.INT16 1 fun _ => 7).supported ∧
    ∃ dst', msAverageRasterResampler sampleGd (rawImage 1 1 ImageMode.INT16 1 fun _ => 7)
        ⟨0, 0, 0⟩ (rawImage 1 1 ImageMode.INT16 1 fun _ => 5) (fun i => i)
        failingTransformer = some (0, dst') ∧ dst'.raw 0 = 5 := by
  have hsup : (rawImage 1 1 ImageMode.INT16 1 fun _ => 7).supported := Or.inr (Or.inl rfl)
  obtain ⟨htot, hpart⟩ := msAverageRasterResampler_corner_failure sampleGd
    (rawImage 1 1 ImageMode.INT16 1 fun _ => 7) ⟨0, 0, 0⟩
    (rawImage 1 1 ImageMode.INT16 1 fun _ => 5) (fun i => i) failingTransformer
  obtain ⟨⟨rc, d⟩, hd⟩ := Option.isSome_iff_exists.mp (htot hsup)
  obtain ⟨h1, h2⟩ := hpart rc d hd
  subst h1
  refine ⟨hsup, d, hd, ?_⟩
  have := (h2 0 0 le_rfl (by decide) le_rfl (by decide)
    (Or.inl (failingTransformer_corner 1 0 0 le_rfl (by decide)))).2.2 0
  simpa [rawImage] using this

theorem msSourceSample_bands_eq (psSrcImage : imageObj) (iSrcX iSrcY : Int) (dfWeight : ℚ)
    (offsite : colorObj)
    (hmode : psSrcImage.format.imagemode = ImageMode.INT16
      ∨ psSrcImage.format.imagemode = ImageMode.FLOAT32
      ∨ psSrcImage.format.imagemode = ImageMode.BYTE)
    (hdata : psSrcImage.raw (iSrcX + iSrcY * psSrcImage.width
      + 0 * psSrcImage.width * psSrcImage.height) ≠ offsite.red)
    (l : List Int) (hl : l.Nodup) (padfPixelSum : Int → ℚ) :
    msSourceSample.bands psSrcImage iSrcX iSrcY dfWeight offsite l padfPixelSum
      = some (fun i => if i ∈ l then
          padfPixelSum i + dfWeight * psSrcImage.raw
            (iSrcX + iSrcY * psSrcImage.width + i * psSrcImage.width * psSrcImage.height)
        else padfPixelSum i, true) := by
  induction l generalizing padfPixelSum with
  | nil => simp [msSourceSample.bands]
  | cons b rest ih =>
    obtain ⟨hb, hrest⟩ := List.nodup_cons.mp hl
    have hno : ¬ (b = 0 ∧ psSrcImage.raw (iSrcX + iSrcY * psSrcImage.width
        + b * psSrcImage.width * psSrcImage.height) = offsite.red) := by
      rintro ⟨rfl, h⟩
      exact hdata h
    have hfun : ∀ v : ℚ,
        (fun i => if i ∈ rest then
          addAt padfPixelSum b v i + dfWeight * psSrcImage.raw
            (iSrcX + iSrcY * psSrcImage.width + i * psSrcImage.width * psSrcImage.height)
        else addAt padfPixelSum b v i)
        = fun i => if i ∈ b :: rest then
          (if i = b then padfPixelSum i + v else padfPixelSum i + dfWeight * psSrcImage.raw
            (iSrcX + iSrcY * psSrcImage.width + i * psSrcImage.width * psSrcImage.height))
        else padfPixelSum i := by
      intro v
      funext i
      by_cases hib : i = b
      · subst hib
        simp [addAt, hb]
      · simp [addAt, hib]
    unfold msSourceSample.bands
    dsimp only
    rcases hmode with h | h | h
    · rw [if_pos h, if_neg hno, ih hrest, hfun]
      congr 2
      funext i
      by_cases hib : i = b
      · subst hib
        simp
      · simp [hib]
    · rw [if_neg (by rw [h]; decide), if_pos h, if_neg hno, ih hrest, hfun]
      congr 2
      funext i
      by_cases hib : i = b
      · subst hib
        simp [mul_comm]
      · simp [hib]
    · rw [if_neg (by rw [h]; decide), if_neg (by rw [h]; decide), if_pos h, if_neg hno,
        ih hrest, hfun]
      congr 2
      funext i
      by_cases hib : i = b
      · subst hib
        simp [mul_comm]
      · simp [hib]

/-- The function `msSourceSample` on a raw source at a position whose band-0 sample is
not the nodata value: every band `i` of the source adds `dfWeight` times its sample to
`padfPixelSum[i]`, and `dfWeight` is added to the weight sum. -/
theorem msSourceSample_raw (gd : GdLib) (psSrcImage : imageObj) (iSrcX iSrcY : Int)
    (padfPixelSum : Int → ℚ) (dfWeight dfWeightSum : ℚ) (offsite : colorObj)
    (hraw : psSrcImage.format.renderer ≠ Renderer.GD)
    (hmode : psSrcImage.format.imagemode = ImageMode.INT16
      ∨ psSrcImage.format.imagemode = ImageMode.FLOAT32
      ∨ psSrcImage.format.imagemode = ImageMode.BYTE)
    (hdata : psSrcImage.raw (iSrcX + iSrcY * psSrcImage.width
      + 0 * psSrcImage.width * psSrcImage.height) ≠ offsite.red) :
    msSourceSample gd psSrcImage iSrcX iSrcY padfPixelSum dfWeight dfWeightSum offsite
      = some (fun i => if 0 ≤ i ∧ i < psSrcImage.format.bands then
          padfPixelSum i + dfWeight * psSrcImage.raw
            (iSrcX + iSrcY * psSrcImage.width + i * psSrcImage.width * psSrcImage.height)
        else padfPixelSum i, dfWeightSum + dfWeight) := by
  unfold msSourceSample
  rw [if_neg hraw, msSourceSample_bands_eq _ _ _ _ _ hmode hdata _ (nodup_upTo _)]
  dsimp only
  congr 2
  funext i
  simp only [mem_upTo]

theorem foldl_setRaw_const (nDstX nDstY : Int) (v : ℚ) (l : List Int) (s : imageObj)
    (off : Int) :
    (l.foldl (fun dst band =>
        dst.setRaw (nDstX + nDstY * dst.width + band * dst.width * dst.height) v) s).raw off
      = if ∃ b ∈ l, off = nDstX + nDstY * s.width + b * s.width * s.height then v
        else s.raw off := by
  induction l generalizing s with
  | nil => simp
  | cons b rest ih =>
    rw [List.foldl_cons, ih]
    simp only [imageObj.setRaw, List.mem_cons, exists_eq_or_imp]
    by_cases h1 : ∃ c ∈ rest, off = nDstX + nDstY * s.width + c * s.width * s.height
    · rw [if_pos h1, if_pos (Or.inr h1)]
    · rw [if_neg h1]
      by_cases h2 : off = nDstX + nDstY * s.width + b * s.width * s.height
      · rw [if_pos h2, if_pos (Or.inl h2)]
      · rw [if_neg h2, if_neg (by rintro (h | h); exact h2 h; exact h1 h)]

/-- The write of a resampled pixel into a raw destination: every band of the source
gets the value of `padfPixelSum[0]`, converted to the kind of the samples. -/
theorem writeResampledPixel_raw (gd : GdLib) (psSrcImage : imageObj) (panCMap : Int → Int)
    (nDstX nDstY : Int) (padfPixelSum : Int → ℚ) (dfAlpha : ℚ) (s : imageObj)
    (hraw : psSrcImage.format.renderer = Renderer.RAWDATA) (b : Int) (hb0 : 0 ≤ b)
    (hb : b < psSrcImage.format.bands) :
    (writeResampledPixel gd psSrcImage panCMap nDstX nDstY padfPixelSum dfAlpha s).raw
        (nDstX + nDstY * s.width + b * s.width * s.height)
      = if psSrcImage.format.imagemode = ImageMode.INT16 then (castShort (padfPixelSum 0) : ℚ)
        else if psSrcImage.format.imagemode = ImageMode.FLOAT32 then padfPixelSum 0
        else if psSrcImage.format.imagemode = ImageMode.BYTE then
          (castUChar (padfPixelSum 0) : ℚ)
        else s.raw (nDstX + nDstY * s.width + b * s.width * s.height) := by
  have hmem : ∃ c ∈ upTo psSrcImage.format.bands,
      nDstX + nDstY * s.width + b * s.width * s.height
        = nDstX + nDstY * s.width + c * s.width * s.height :=
    ⟨b, (mem_upTo _ _).mpr ⟨hb0, hb⟩, rfl⟩
  unfold writeResampledPixel
  rw [if_neg (by rw [hraw]; decide), if_pos hraw]
  by_cases h16 : psSrcImage.format.imagemode = ImageMode.INT16
  · simp only [h16, if_true]
    rw [foldl_setRaw_const, if_pos hmem]
  · by_cases h32 : psSrcImage.format.imagemode = ImageMode.FLOAT32
    · simp only [h32, reduceCtorEq, if_true, if_false]
      rw [foldl_setRaw_const, if_pos hmem]
    · by_cases h8 : psSrcImage.format.imagemode = ImageMode.BYTE
      · simp only [h8, reduceCtorEq, if_true, if_false]
        rw [foldl_setRaw_const, if_pos hmem]
      · simp only [h16, h32, h8, if_false]
        congr 1
        clear hmem
        induction upTo psSrcImage.format.bands generalizing s with
        | nil => rfl
        | cons c rest ih => exact ih s

/-- The loop body of `msBilinearRasterResampler` for the one pixel of a 1 x 1 destination
whose centre maps to `(0.5, 0.5)` in a 1 x 1 two-band INT16 source with the samples 10
and 20 and no nodata sample: both destination bands get 10. -/
theorem msBilinearRasterResampler_pixel_two_band (s s' : imageObj) (hw : s.width = 1) (hh : s.height = 1)
    (h : msBilinearRasterResampler.pixel sampleGd
      (rawImage 1 1 ImageMode.INT16 2 fun off => if off = 0 then 10 else 20) ⟨-1, 0, 0⟩
      (fun i => i) 0 0 ⟨1 / 2, 1 / 2, 1⟩ s = some s') :
    s'.raw 0 = 10 ∧ s'.raw 1 = 10 := by
  have hpos : msBilinearRasterResampler.srcPos
      (rawImage 1 1 ImageMode.INT16 2 fun off => if off = 0 then 10 else 20)
      ⟨1 / 2, 1 / 2, 1⟩ = some ⟨0, 0, 0, 0, 0, 0⟩ := by
    norm_num [msBilinearRasterResampler.srcPos, castInt, toInt32, trunc, MAX, MIN, rawImage]
  have hraw : (rawImage 1 1 ImageMode.INT16 2 fun off => if off = 0 then 10 else 20).format.renderer
      ≠ Renderer.GD := by decide
  have hdata : (rawImage 1 1 ImageMode.INT16 2 fun off => if off = 0 then 10 else 20).raw
      (0 + 0 * (rawImage 1 1 ImageMode.INT16 2 fun off => if off = 0 then 10 else 20).width
        + 0 * (rawImage 1 1 ImageMode.INT16 2 fun off => if off = 0 then 10 else 20).width
          * (rawImage 1 1 ImageMode.INT16 2 fun off => if off = 0 then 10 else 20).height)
      ≠ ((⟨-1, 0, 0⟩ : colorObj).red : ℚ) := by
    norm_num [rawImage]
  unfold msBilinearRasterResampler.pixel at h
  rw [hpos] at h
  dsimp only at h
  unfold msBilinearRasterResampler.sample at h
  simp only [msSourceSample_raw _ _ _ _ _ _ _ _ hraw (Or.inl rfl) hdata, Option.some_bind] at h
  rw [if_neg (by norm_num)] at h
  simp only [Option.some.injEq] at h
  subst h
  have key : ∀ (F : Int → ℚ) (a : ℚ) (b : Int), 0 ≤ b → b < 2 →
      (writeResampledPixel sampleGd
        (rawImage 1 1 ImageMode.INT16 2 fun off => if off = 0 then 10 else 20) (fun i => i)
        0 0 F a s).raw b = castShort (F 0) := by
    intro F a b hb0 hb2
    have := writeResampledPixel_raw sampleGd
      (rawImage 1 1 ImageMode.INT16 2 fun off => if off = 0 then 10 else 20) (fun i => i)
      0 0 F a s rfl b hb0 hb2
    rw [hw, hh, if_pos (show (rawImage 1 1 ImageMode.INT16 2 fun off : Int =>
      if off = 0 then (10 : ℚ) else 20).format.imagemode = ImageMode.INT16 from rfl)] at this
    rw [← this]
    congr 1
    ring
  rw [key _ _ 0 le_rfl (by decide), key _ _ 1 (by decide) (by decide)]
  norm_num [rawImage, MAX, castShort, trunc]

/-- C18 (the code at a failing input): a 1 x 1 INT16 source with two bands, sample 10 in
band 0 and sample 20 in band 1, none of them the nodata value -1, resampled with the
identity transformer into a 1 x 1 destination. The four neighbours all are the one
source pixel, so the weighted average of band 1 is 20; `msBilinearRasterResampler`
returns 0 and has written 10, the average of band 0, into band 0 and into band 1. -/
theorem msBilinearRasterResampler_band0_in_every_band :
    (rawImage 1 1 ImageMode.INT16 2 fun off => if off = 0 then 10 else 20).raw 1 = 20 ∧
    ∃ dst', msBilinearRasterResampler sampleGd
        (rawImage 1 1 ImageMode.INT16 2 fun off => if off = 0 then 10 else 20) ⟨-1, 0, 0⟩
        (rawImage 1 1 ImageMode.INT16 2 fun _ => 0) (fun i => i) identityTransformer
          = some (0, dst') ∧
      dst'.raw 0 = 10 ∧ dst'.raw 1 = 10 := by
  refine ⟨by norm_num [rawImage], ?_⟩
  have hsome := msBilinearRasterResampler_isSome sampleGd
    (rawImage 1 1 ImageMode.INT16 2 fun off => if off = 0 then 10 else 20) ⟨-1, 0, 0⟩
    (rawImage 1 1 ImageMode.INT16 2 fun _ => 0) (fun i => i) identityTransformer
    (Or.inr (Or.inl rfl))
  obtain ⟨⟨rc, dst'⟩, hres⟩ := Option.isSome_iff_exists.mp hsome
  have key := msBilinearRasterResampler_pixelwise sampleGd
    (rawImage 1 1 ImageMode.INT16 2 fun off => if off = 0 then 10 else 20) ⟨-1, 0, 0⟩
    (rawImage 1 1 ImageMode.INT16 2 fun _ => 0) (fun i => i) identityTransformer
    (fun _ _ new => new.2.2 0 = 10 ∧ new.2.2 1 = 10)
    (by
      intro nDstY nDstX s s' h1 h2 h3 h4 hs hstep
      have hY : nDstY = 0 := by
        have : nDstY < 1 := h2
        omega
      have hX : nDstX = 0 := by
        have : nDstX < 1 := h4
        omega
      subst hY
      subst hX
      have hc : transformedCentre identityTransformer
          (rawImage 1 1 ImageMode.INT16 2 fun _ => 0).width 0 0 = ⟨1 / 2, 1 / 2, 1⟩ := by
        rw [transformedCentre_identity _ _ _ le_rfl (by decide)]
        norm_num
      rw [hc] at hstep
      have := msBilinearRasterResampler_pixel_two_band s s' hs.1 hs.2.1 hstep
      simpa [imageObj.view, rawImage] using this)
    rc dst' hres
  obtain ⟨hrc, -, hpix⟩ := key
  subst hrc
  refine ⟨dst', hres, ?_⟩
  have := hpix 0 0 le_rfl (by decide) le_rfl (by decide)
  simpa [imageObj.view, rawImage] using this

/-- Under `constTransformer x y` the centre of every pixel of a row maps to `(x, y)`. -/
theorem transformedCentre_const (x y : ℚ) (W Y X : Int) (h0 : 0 ≤ X) (h : X < W) :
    transformedCentre (constTransformer x y) W Y X = ⟨x, y, 1⟩ := by
  unfold transformedCentre constTransformer
  dsimp only
  rw [List.getD_eq_getElem?_getD, List.getElem?_map, List.getElem?_map]
  have hlt : X.toNat < (upTo W).length := by
    rw [length_upTo]
    omega
  rw [List.getElem?_eq_getElem hlt]
  rfl

/-- The source positions that `msBilinearRasterResampler` samples are inside a source
raster that has at least one column and one row. -/
theorem msBilinearRasterResampler_srcPos_in_bounds (psSrcImage : imageObj) (p : Pt)
    (pos : BilinearPos) (hw : 0 < psSrcImage.width) (hh : 0 < psSrcImage.height)
    (h : msBilinearRasterResampler.srcPos psSrcImage p = some pos) :
    (0 ≤ pos.nSrcX ∧ pos.nSrcX < psSrcImage.width)
    ∧ (0 ≤ pos.nSrcX2 ∧ pos.nSrcX2 < psSrcImage.width)
    ∧ (0 ≤ pos.nSrcY ∧ pos.nSrcY < psSrcImage.height)
    ∧ (0 ≤ pos.nSrcY2 ∧ pos.nSrcY2 < psSrcImage.height) := by
  unfold msBilinearRasterResampler.srcPos at h
  split_ifs at h with h1
  dsimp only at h
  split_ifs at h with h2
  simp only [Option.some.injEq] at h
  subst h
  simp only [not_or, not_lt, ge_iff_le, not_le] at h2
  obtain ⟨a1, a2, a3, a4⟩ := h2
  dsimp only
  unfold MAX MIN
  refine ⟨⟨?_, ?_⟩, ⟨?_, ?_⟩, ⟨?_, ?_⟩, ⟨?_, ?_⟩⟩ <;> split_ifs <;> omega

/-- C20 (the code at a failing input): a 1 x 1 source and a transformed point
`(2147483648, 0.5)` flagged successful. The test `x < 0.0` is passed, `(int) x` is
-2147483648, which is below the source width, so `msNearestRasterResampler` takes
column -2147483648 of row 0 as the source position; with the transformer that sends
every pixel centre there, the destination sample becomes what the raw source buffer
holds at offset -2147483648 (99 here), not the one sample of the source (7). -/
theorem msNearestRasterResampler_reads_negative_column :
    msNearestRasterResampler.srcPos
        (rawImage 1 1 ImageMode.BYTE 1 fun off => if off = 0 then 7 else 99)
        ⟨2147483648, 1 / 2, 1⟩ = some (-2147483648, 0) ∧
    ∃ dst', msNearestRasterResampler sampleGd
        (rawImage 1 1 ImageMode.BYTE 1 fun off => if off = 0 then 7 else 99) ⟨-1, 0, 0⟩
        (rawImage 1 1 ImageMode.BYTE 1 fun _ => 5) (fun i => i)
        (constTransformer 2147483648 (1 / 2)) = some (0, dst') ∧
      dst'.raw 0 = 99 := by
  have hcx : castInt 2147483648 = -2147483648 := by norm_num [castInt, toInt32, trunc]
  have hcy : castInt (1 / 2) = 0 := by norm_num [castInt, toInt32, trunc]
  constructor
  · rw [msNearestRasterResampler_srcPos_eq_some _ _ (by decide) (by norm_num) (by norm_num)
      (by rw [hcx]; decide) (by rw [hcy]; decide)]
    simp only [hcx, hcy]
  · have hsome := msNearestRasterResampler_isSome sampleGd
      (rawImage 1 1 ImageMode.BYTE 1 fun off => if off = 0 then 7 else 99) ⟨-1, 0, 0⟩
      (rawImage 1 1 ImageMode.BYTE 1 fun _ => 5) (fun i => i)
      (constTransformer 2147483648 (1 / 2)) (Or.inr (Or.inr (Or.inr rfl)))
    obtain ⟨⟨rc, dst'⟩, hres⟩ := Option.isSome_iff_exists.mp hsome
    have key := msNearestRasterResampler_pixelwise sampleGd
      (rawImage 1 1 ImageMode.BYTE 1 fun off => if off = 0 then 7 else 99) ⟨-1, 0, 0⟩
      (rawImage 1 1 ImageMode.BYTE 1 fun _ => 5) (fun i => i)
      (constTransformer 2147483648 (1 / 2))
      (fun _ _ new => new.2.2 0 = 99)
      (by
        intro nDstY nDstX s s' h1 h2 h3 h4 hs hstep
        have hY : nDstY = 0 := by
          have : nDstY < 1 := h2
          omega
        have hX : nDstX = 0 := by
          have : nDstX < 1 := h4
          omega
        subst hY
        subst hX
        rw [transformedCentre_const _ _ _ _ _ le_rfl (by decide)] at hstep
        have hw : s.width = 1 := hs.1
        have hh : s.height = 1 := hs.2.1
        have := msNearestRasterResampler_pixel_raw sampleGd _ _ _ 0 0 _ rfl s s' le_rfl
          (by rw [hw]; decide) le_rfl (by rw [hh]; decide) hstep 0 le_rfl
        rw [hw, hh] at this
        dsimp only at this
        simp only [hcx, hcy] at this
        rw [if_pos (by norm_num [rawImage])] at this
        simp only [imageObj.view]
        norm_num [rawImage] at this ⊢
        exact this)
      rc dst' hres
    obtain ⟨hrc, -, hpix⟩ := key
    subst hrc
    refine ⟨dst', hres, ?_⟩
    have := hpix 0 0 le_rfl (by decide) le_rfl (by decide)
    simpa [imageObj.view, rawImage] using this

theorem MIN_of_le (a b : ℚ) (h : a ≤ b) : MIN a b = a := by
  unfold MIN
  split_ifs with h1
  · rfl
  · exact le_antisymm (not_lt.mp h1) h

theorem MIN_of_ge (a b : ℚ) (h : b ≤ a) : MIN a b = b := by
  unfold MIN
  rw [if_neg (not_lt.mpr h)]

theorem MAX_of_le (a b : ℚ) (h : a ≤ b) : MAX a b = b := by
  unfold MAX
  rw [if_neg (not_lt.mpr h)]

theorem MAX_of_ge (a b : ℚ) (h : b ≤ a) : MAX a b = a := by
  unfold MAX
  split_ifs with h1
  · rfl
  · exact le_antisymm h (not_lt.mp h1)

theorem length_fromTo (lo hi : Int) : (fromTo lo hi).length = (hi - lo).toNat := by
  unfold fromTo
  rw [List.length_map, List.length_range]

/-- A loop that completes each round and counts it: after the loop the count is the
initial count plus the number of rounds. -/
theorem foldlM_count {σ ι : Type} (step : σ → ι → Option σ) (P : Nat → σ → Prop) :
    ∀ (l : List ι), (∀ n s i, i ∈ l → P n s → ∃ s', step s i = some s' ∧ P (n + 1) s') →
      ∀ n s, P n s → ∃ s', l.foldlM step s = some s' ∧ P (n + l.length) s' := by
  intro l
  induction l with
  | nil =>
    intro _ n s hs
    exact ⟨s, rfl, hs⟩
  | cons i l ih =>
    intro h n s hs
    obtain ⟨s1, h1, hP1⟩ := h n s i (List.mem_cons_self _ _) hs
    obtain ⟨s', h', hP'⟩ := ih (fun n s j hj => h n s j (List.mem_cons_of_mem _ hj)) (n + 1) s1 hP1
    refine ⟨s', ?_, ?_⟩
    · rw [List.foldlM_cons, h1]
      exact h'
    · rw [List.length_cons]
      have e : n + (l.length + 1) = n + 1 + l.length := by omega
      rw [e]
      exact hP'

theorem castInt_intCast (n : Int) (h1 : -2147483648 ≤ n) (h2 : n < 2147483648) :
    castInt (n : ℚ) = n := by
  unfold castInt
  rw [trunc_intCast, toInt32_of_range n h1 h2]

/-- The function `msAverageSample` over a box of whole source cells `[a, b) x [c, d)` in
each of which `msSourceSample` adds the weight to the weight sum and the weight times
the same values `C` to the sums: it returns `MS_TRUE`, the first four normalised sums are
`C`, and the coverage is 1. -/
theorem msAverageSample_const (gd : GdLib) (psSrcImage : imageObj) (offsite : colorObj)
    (C : Int → ℚ) (a b c d : Int) (hab : a < b) (hcd : c < d)
    (ha : -2147483648 ≤ a) (hb : b < 2147483648) (hc : -2147483648 ≤ c)
    (hd : d < 2147483648)
    (hs : ∀ (iX iY : Int) (sum : Int → ℚ) (w ws : ℚ), a ≤ iX → iX < b → c ≤ iY → iY < d →
      msSourceSample gd psSrcImage iX iY sum w ws offsite
        = some (fun i => sum i + w * C i, ws + w)) :
    ∃ F, msAverageSample gd psSrcImage a c b d offsite (fun _ => 0) = some (MS_TRUE, F, 1)
      ∧ ∀ i, 0 ≤ i → i < 4 → F i = C i := by
  unfold msAverageSample
  dsimp only
  rw [Int.ceil_intCast, Int.ceil_intCast, castInt_intCast a ha (by omega),
    castInt_intCast b (by omega) hb, castInt_intCast c hc (by omega),
    castInt_intCast d (by omega) hd]
  rw [foldlM_nested]
  have key := foldlM_count
    (fun (st : (Int → ℚ) × ℚ × ℚ) (ab : Int × Int) =>
      (msSourceSample gd psSrcImage ab.2 ab.1 st.1
        ((MIN ((ab.2 : ℚ) + 1) (b : ℚ) - MAX (ab.2 : ℚ) (a : ℚ))
          * (MIN ((ab.1 : ℚ) + 1) (d : ℚ) - MAX (ab.1 : ℚ) (c : ℚ))) st.2.1 offsite).map
        fun r => (r.1, r.2,
          st.2.2 + (MIN ((ab.2 : ℚ) + 1) (b : ℚ) - MAX (ab.2 : ℚ) (a : ℚ))
            * (MIN ((ab.1 : ℚ) + 1) (d : ℚ) - MAX (ab.1 : ℚ) (c : ℚ))))
    (fun (n : Nat) st => st = (fun i => (n : ℚ) * C i, (n : ℚ), (n : ℚ)))
    (fromTo c d ×ˢ fromTo a b)
    (by
      intro n st ab hmem hst
      obtain ⟨hy, hx⟩ := List.mem_product.mp hmem
      rw [mem_fromTo] at hy hx
      have e1 : MIN ((ab.2 : ℚ) + 1) (b : ℚ) = (ab.2 : ℚ) + 1 :=
        MIN_of_le _ _ (by exact_mod_cast (show ab.2 + 1 ≤ b by omega))
      have e2 : MAX (ab.2 : ℚ) (a : ℚ) = (ab.2 : ℚ) :=
        MAX_of_ge _ _ (by exact_mod_cast hx.1)
      have e3 : MIN ((ab.1 : ℚ) + 1) (d : ℚ) = (ab.1 : ℚ) + 1 :=
        MIN_of_le _ _ (by exact_mod_cast (show ab.1 + 1 ≤ d by omega))
      have e4 : MAX (ab.1 : ℚ) (c : ℚ) = (ab.1 : ℚ) :=
        MAX_of_ge _ _ (by exact_mod_cast hy.1)
      dsimp only
      rw [e1, e2, e3, e4, hs _ _ _ _ _ hx.1 hx.2 hy.1 hy.2, hst]
      refine ⟨_, rfl, ?_⟩
      dsimp only
      refine Prod.ext ?_ (Prod.ext ?_ ?_)
      · funext i
        dsimp only
        push_cast
        ring
      · dsimp only
        push_cast
        ring
      · dsimp only
        push_cast
        ring)
    0 ((fun _ => 0), 0, 0)
    (by
      refine Prod.ext ?_ (Prod.ext ?_ ?_)
      · funext i
        simp
      · simp
      · simp)
  obtain ⟨st, hfold, hst⟩ := key
  rw [hfold]
  have hlen : (0 : ℚ) < (((0 + (fromTo c d ×ˢ fromTo a b).length : Nat)) : ℚ) := by
    have : 0 < (fromTo c d ×ˢ fromTo a b).length := by
      rw [List.length_product, length_fromTo, length_fromTo]
      apply Nat.mul_pos <;> omega
    exact_mod_cast (by omega : 0 < 0 + (fromTo c d ×ˢ fromTo a b).length)
  generalize (0 + (fromTo c d ×ˢ fromTo a b).length : Nat) = N at hst hlen
  subst hst
  simp only [Option.map_some']
  rw [if_neg (ne_of_gt hlen)]
  rw [div_self (ne_of_gt hlen)]
  refine ⟨fun i => if 0 ≤ i ∧ i < 4 then (N : ℚ) * C i / (N : ℚ) else (N : ℚ) * C i, rfl, ?_⟩
  intro i h0 h4
  dsimp only
  rw [if_pos ⟨h0, h4⟩]
  field_simp

/-- Under `scaleTransformer k` the corner `(X, Y)` of a row maps to `(k * X, k * Y)`. -/
theorem transformedCorner_scale (k : ℚ) (W Y X : Int) (h0 : 0 ≤ X) (h : X ≤ W) :
    transformedCorner (scaleTransformer k) W Y X
      = { x := k * (X : ℚ), y := k * (Y : ℚ), success := 1 } := by
  unfold transformedCorner scaleTransformer
  have hi : X.toNat < (upTo (W + 1)).length := by rw [length_upTo]; omega
  simp only [List.map_map, List.getD_eq_getElem?_getD, List.getElem?_map,
    List.getElem?_eq_getElem hi, Option.map_some', Option.getD_some, Function.comp]
  have hx : (upTo (W + 1))[X.toNat] = X := by
    have := getD_upTo (W + 1) X h0 (by omega) 0
    rw [List.getD_eq_getElem?_getD, List.getElem?_eq_getElem hi] at this
    simpa using this
  rw [hx]

/-- The loop body of `msAverageRasterResampler` for a pixel whose corners map to the
corners of the block of `k x k` whole source cells at `(k * X, k * Y)`, on a source in
each cell of which `msSourceSample` adds the weight to the weight sum and the weight
times the same values `C` to the sums: the pixel is written from sums that are `C` in
the first four entries, with coverage 1. -/
theorem msAverageRasterResampler_pixel_const (gd : GdLib) (psSrcImage : imageObj)
    (offsite : colorObj) (panCMap : Int → Int) (C : Int → ℚ) (k X Y : Int) (s : imageObj)
    (hk : 1 ≤ k) (hX : 0 ≤ X) (hXW : k * (X + 1) ≤ psSrcImage.width) (hY : 0 ≤ Y)
    (hYH : k * (Y + 1) ≤ psSrcImage.height) (hwr : psSrcImage.width < 2147483648)
    (hhr : psSrcImage.height < 2147483648)
    (hs : ∀ (iX iY : Int) (sum : Int → ℚ) (w ws : ℚ), 0 ≤ iX → iX < psSrcImage.width →
      0 ≤ iY → iY < psSrcImage.height →
      msSourceSample gd psSrcImage iX iY sum w ws offsite
        = some (fun i => sum i + w * C i, ws + w)) :
    ∃ F, msAverageRasterResampler.pixel gd psSrcImage offsite panCMap X Y
        ⟨(k : ℚ) * (X : ℚ), (k : ℚ) * (Y : ℚ), 1⟩
        ⟨(k : ℚ) * ((X + 1 : Int) : ℚ), (k : ℚ) * (Y : ℚ), 1⟩
        ⟨(k : ℚ) * (X : ℚ), (k : ℚ) * ((Y + 1 : Int) : ℚ), 1⟩
        ⟨(k : ℚ) * ((X + 1 : Int) : ℚ), (k : ℚ) * ((Y + 1 : Int) : ℚ), 1⟩ s
        = some (writeResampledPixel gd psSrcImage panCMap X Y F 1 s)
      ∧ ∀ i, 0 ≤ i → i < 4 → F i = C i := by
  have hkX : 0 ≤ k * X := Int.mul_nonneg (by omega) hX
  have hkY : 0 ≤ k * Y := Int.mul_nonneg (by omega) hY
  have hX1 : k * X < k * (X + 1) := by
    have : k * (X + 1) = k * X + k := by ring
    omega
  have hY1 : k * Y < k * (Y + 1) := by
    have : k * (Y + 1) = k * Y + k := by ring
    omega
  have qX : ((k : ℚ) * (X : ℚ)) ≤ (k : ℚ) * ((X + 1 : Int) : ℚ) := by
    exact_mod_cast le_of_lt hX1
  have qY : ((k : ℚ) * (Y : ℚ)) ≤ (k : ℚ) * ((Y + 1 : Int) : ℚ) := by
    exact_mod_cast le_of_lt hY1
  have q0X : (0 : ℚ) ≤ (k : ℚ) * (X : ℚ) := by exact_mod_cast hkX
  have q0Y : (0 : ℚ) ≤ (k : ℚ) * (Y : ℚ) := by exact_mod_cast hkY
  have qW : (k : ℚ) * ((X + 1 : Int) : ℚ) ≤ (psSrcImage.width : ℚ) := by exact_mod_cast hXW
  have qH : (k : ℚ) * ((Y + 1 : Int) : ℚ) ≤ (psSrcImage.height : ℚ) := by exact_mod_cast hYH
  obtain ⟨F, hF, hFC⟩ := msAverageSample_const gd psSrcImage offsite C (k * X) (k * (X + 1))
    (k * Y) (k * (Y + 1)) hX1 hY1 (by omega) (by omega) (by omega) (by omega)
    (fun iX iY sum w ws h1 h2 h3 h4 =>
      hs iX iY sum w ws (by omega) (by omega) (by omega) (by omega))
  refine ⟨F, ?_, hFC⟩
  unfold msAverageRasterResampler.pixel
  rw [if_neg (by simp)]
  dsimp only
  have mself : ∀ a : ℚ, MIN a a = a := fun a => MIN_of_le a a (le_refl a)
  have xself : ∀ a : ℚ, MAX a a = a := fun a => MAX_of_le a a (le_refl a)
  simp only [MIN_of_le _ _ qX, MIN_of_le _ _ qY, MAX_of_le _ _ qX, MAX_of_le _ _ qY, mself,
    xself, MAX_of_ge _ _ q0X, MAX_of_ge _ _ q0Y, MIN_of_le _ _ qW, MIN_of_le _ _ qH]
  have c1 : (k : ℚ) * (X : ℚ) = ((k * X : Int) : ℚ) := by push_cast; ring
  have c2 : (k : ℚ) * (Y : ℚ) = ((k * Y : Int) : ℚ) := by push_cast; ring
  have c3 : (k : ℚ) * ((X + 1 : Int) : ℚ) = ((k * (X + 1) : Int) : ℚ) := by push_cast; ring
  have c4 : (k : ℚ) * ((Y + 1 : Int) : ℚ) = ((k * (Y + 1) : Int) : ℚ) := by push_cast; ring
  rw [c1, c2, c3, c4, hF]
  dsimp only
  rw [if_neg (by decide)]

/-- The function `msAverageRasterResampler` with the transformer `(x, y) -> (k * x, k * y)`
on a source of `k` times the size of the destination, in each cell of which
`msSourceSample` adds the weight to the weight sum and the weight times the same values
`C` to the sums: the call returns 0, and every destination pixel has the content that
the write of a pixel from sums `C` (in the first four entries) with coverage 1 gives. -/
theorem msAverageRasterResampler_const (gd : GdLib) (psSrcImage : imageObj)
    (offsite : colorObj) (psDstImage : imageObj) (panCMap : Int → Int) (C : Int → ℚ)
    (k : Int) (hk : 1 ≤ k) (hw : psSrcImage.width = k * psDstImage.width)
    (hh : psSrcImage.height = k * psDstImage.height)
    (hwr : psSrcImage.width < 2147483648) (hhr : psSrcImage.height < 2147483648)
    (hsup : psSrcImage.supported)
    (hs : ∀ (iX iY : Int) (sum : Int → ℚ) (w ws : ℚ), 0 ≤ iX → iX < psSrcImage.width →
      0 ≤ iY → iY < psSrcImage.height →
      msSourceSample gd psSrcImage iX iY sum w ws offsite
        = some (fun i => sum i + w * C i, ws + w)) :
    ∃ dst', msAverageRasterResampler gd psSrcImage offsite psDstImage panCMap
        (scaleTransformer k) = some (0, dst') ∧
      ∀ Y X : Int, 0 ≤ Y → Y < psDstImage.height → 0 ≤ X → X < psDstImage.width →
        ∃ (F : Int → ℚ) (s : imageObj), (∀ i, 0 ≤ i → i < 4 → F i = C i)
          ∧ SameShape psDstImage s
          ∧ dst'.view psDstImage.width psDstImage.height (Y, X)
            = (writeResampledPixel gd psSrcImage panCMap X Y F 1 s).view
                psDstImage.width psDstImage.height (Y, X) := by
  have hsome := msAverageRasterResampler_isSome gd psSrcImage offsite psDstImage panCMap
    (scaleTransformer k) hsup
  obtain ⟨⟨rc, dst'⟩, hres⟩ := Option.isSome_iff_exists.mp hsome
  have key := msAverageRasterResampler_pixelwise gd psSrcImage offsite psDstImage panCMap
    (scaleTransformer k)
    (fun yx _ new => ∃ (F : Int → ℚ) (s : imageObj), (∀ i, 0 ≤ i → i < 4 → F i = C i)
      ∧ SameShape psDstImage s
      ∧ new = (writeResampledPixel gd psSrcImage panCMap yx.2 yx.1 F 1 s).view
          psDstImage.width psDstImage.height yx)
    (by
      intro nDstY nDstX s s' h1 h2 h3 h4 hsh hstep
      rw [transformedCorner_scale _ _ _ _ h3 (by omega),
        transformedCorner_scale _ _ _ _ (by omega) (by omega),
        transformedCorner_scale _ _ _ _ h3 (by omega),
        transformedCorner_scale _ _ _ _ (by omega) (by omega)] at hstep
      have hXW : k * (nDstX + 1) ≤ psSrcImage.width := by
        rw [hw]
        exact Int.mul_le_mul_of_nonneg_left (by omega) (by omega)
      have hYH : k * (nDstY + 1) ≤ psSrcImage.height := by
        rw [hh]
        exact Int.mul_le_mul_of_nonneg_left (by omega) (by omega)
      obtain ⟨F, hF, hFC⟩ := msAverageRasterResampler_pixel_const gd psSrcImage offsite
        panCMap C k nDstX nDstY s hk h3 hXW h1 hYH hwr hhr hs
      rw [hF] at hstep
      simp only [Option.some.injEq] at hstep
      subst hstep
      exact ⟨F, s, hFC, hsh, rfl⟩)
    rc dst' hres
  obtain ⟨hrc, -, hpix⟩ := key
  subst hrc
  exact ⟨dst', hres, fun Y X h1 h2 h3 h4 => hpix Y X h1 h2 h3 h4⟩

/-- The function `msSourceSample` on a paletted source adds the weight times the index
of the pixel to `padfPixelSum[0]` and the weight to the weight sum. -/
theorem msSourceSample_palette (gd : GdLib) (psSrcImage : imageObj) (iSrcX iSrcY : Int)
    (padfPixelSum : Int → ℚ) (dfWeight dfWeightSum : ℚ) (offsite : colorObj)
    (hgd : psSrcImage.format.renderer = Renderer.GD)
    (htc : psSrcImage.gd.trueColor = false) :
    msSourceSample gd psSrcImage iSrcX iSrcY padfPixelSum dfWeight dfWeightSum offsite
      = some (fun i => padfPixelSum i + dfWeight *
          (if i = 0 then (psSrcImage.gd.pixels iSrcY iSrcX : ℚ) else 0),
        dfWeightSum + dfWeight) := by
  unfold msSourceSample
  rw [if_pos hgd, if_pos (by rw [htc]; decide)]
  congr 2
  funext i
  unfold addAt
  split_ifs <;> simp

/-- The function `msSourceSample` on a true-colour source at a pixel that is not fully
transparent adds the weight times red, green and blue of the pixel to the first three
sums and the weight to the weight sum. -/
theorem msSourceSample_truecolor (gd : GdLib) (psSrcImage : imageObj) (iSrcX iSrcY : Int)
    (padfPixelSum : Int → ℚ) (dfWeight dfWeightSum : ℚ) (offsite : colorObj)
    (hgd : psSrcImage.format.renderer = Renderer.GD)
    (htc : psSrcImage.gd.trueColor = true)
    (halpha : gd.gdTrueColorGetAlpha (psSrcImage.gd.tpixels iSrcY iSrcX) ≠ 127) :
    msSourceSample gd psSrcImage iSrcX iSrcY padfPixelSum dfWeight dfWeightSum offsite
      = some (fun i => padfPixelSum i + dfWeight *
          (if i = 0 then (gd.gdTrueColorGetRed (psSrcImage.gd.tpixels iSrcY iSrcX) : ℚ)
           else if i = 1 then
             (gd.gdTrueColorGetGreen (psSrcImage.gd.tpixels iSrcY iSrcX) : ℚ)
           else if i = 2 then
             (gd.gdTrueColorGetBlue (psSrcImage.gd.tpixels iSrcY iSrcX) : ℚ)
           else 0),
        dfWeightSum + dfWeight) := by
  unfold msSourceSample
  rw [if_pos hgd, if_neg (by rw [htc]; decide)]
  dsimp only
  rw [if_pos halpha]
  congr 2
  funext i
  unfold addAt
  by_cases h0 : i = 0
  · subst h0
    simp
  · by_cases h1 : i = 1
    · subst h1
      simp
    · by_cases h2 : i = 2
      · subst h2
        simp
      · simp [h0, h1, h2]

/-- The write of a resampled pixel from a paletted source: the index `padfPixelSum[0]`
goes through `panCMap` and is written unless it maps to -1. -/
theorem writeResampledPixel_palette (gd : GdLib) (psSrcImage : imageObj)
    (panCMap : Int → Int) (nDstX nDstY : Int) (padfPixelSum : Int → ℚ) (dfAlpha : ℚ)
    (s : imageObj) (hgd : psSrcImage.format.renderer = Renderer.GD)
    (htc : psSrcImage.gd.trueColor = false) :
    (writeResampledPixel gd psSrcImage panCMap nDstX nDstY padfPixelSum dfAlpha s).gd.pixels
        nDstY nDstX
      = if panCMap (castInt (padfPixelSum 0)) ≠ -1 then panCMap (castInt (padfPixelSum 0))
        else s.gd.pixels nDstY nDstX := by
  unfold writeResampledPixel
  rw [if_pos hgd, if_pos (by rw [htc]; decide)]
  dsimp only
  split_ifs
  · simp [imageObj.setPixel]
  · rfl

/-- The write of a resampled pixel from a true-colour source when the coverage is above
0.99: the colour made of the first three sums is written. -/
theorem writeResampledPixel_truecolor (gd : GdLib) (psSrcImage : imageObj)
    (panCMap : Int → Int) (nDstX nDstY : Int) (padfPixelSum : Int → ℚ) (dfAlpha : ℚ)
    (s : imageObj) (hgd : psSrcImage.format.renderer = Renderer.GD)
    (htc : psSrcImage.gd.trueColor = true) (ha : dfAlpha > 99 / 100) :
    (writeResampledPixel gd psSrcImage panCMap nDstX nDstY padfPixelSum dfAlpha s).gd.tpixels
        nDstY nDstX
      = gd.gdTrueColor (castInt (padfPixelSum 0)) (castInt (padfPixelSum 1))
          (castInt (padfPixelSum 2)) := by
  unfold writeResampledPixel
  rw [if_pos hgd, if_neg (by rw [htc]; decide), if_pos ha]
  simp [imageObj.setTPixel]

/-- C19 (amended): let the source have `k >= 1` times the width and the height of the
destination, both below 2^31, and let `msAverageRasterResampler` run with the
transformer `(x, y) -> (k * x, k * y)`. It returns 0 and sets every destination pixel to
exactly `V` in these cases: a raw source of kind INT16, FLOAT32 or BYTE whose samples all
are `V`, a value of that kind other than the nodata value (every band of the pixel
becomes `V`); a paletted source whose pixels all are the index `V`, when `panCMap` maps
`V` to itself and `V` is not -1; a true-colour source whose pixels all are `V`, when `V`
is not fully transparent and `gdTrueColor` of its red, green and blue is `V` again, as
for an opaque colour. -/
theorem msAverageRasterResampler_conservation (gd : GdLib) (psSrcImage : imageObj)
    (offsite : colorObj) (psDstImage : imageObj) (panCMap : Int → Int) (k : Int)
    (hk : 1 ≤ k) (hw : psSrcImage.width = k * psDstImage.width)
    (hh : psSrcImage.height = k * psDstImage.height)
    (hwr : psSrcImage.width < 2147483648) (hhr : psSrcImage.height < 2147483648) :
    (∀ V : ℚ, psSrcImage.format.renderer = Renderer.RAWDATA →
      (psSrcImage.format.imagemode = ImageMode.INT16 ∧ (castShort V : ℚ) = V
        ∨ psSrcImage.format.imagemode = ImageMode.FLOAT32
        ∨ psSrcImage.format.imagemode = ImageMode.BYTE ∧ (castUChar V : ℚ) = V) →
      (∀ col row band : Int, 0 ≤ col → col < psSrcImage.width → 0 ≤ row →
        row < psSrcImage.height → 0 ≤ band → band < psSrcImage.format.bands →
        psSrcImage.raw (col + row * psSrcImage.width
          + band * psSrcImage.width * psSrcImage.height) = V) →
      V ≠ offsite.red →
      ∃ dst', msAverageRasterResampler gd psSrcImage offsite psDstImage panCMap
          (scaleTransformer k) = some (0, dst') ∧
        ∀ X Y : Int, 0 ≤ X → X < psDstImage.width → 0 ≤ Y → Y < psDstImage.height →
          ∀ b : Nat, (b : Int) < psSrcImage.format.bands →
            dst'.raw (X + Y * psDstImage.width + b * psDstImage.width * psDstImage.height)
              = V)
    ∧ (∀ V : Int, psSrcImage.format.renderer = Renderer.GD →
      psSrcImage.gd.trueColor = false →
      (∀ col row : Int, 0 ≤ col → col < psSrcImage.width → 0 ≤ row →
        row < psSrcImage.height → psSrcImage.gd.pixels row col = V) →
      -2147483648 ≤ V → V < 2147483648 → panCMap V = V → V ≠ -1 →
      ∃ dst', msAverageRasterResampler gd psSrcImage offsite psDstImage panCMap
          (scaleTransformer k) = some (0, dst') ∧
        ∀ X Y : Int, 0 ≤ X → X < psDstImage.width → 0 ≤ Y → Y < psDstImage.height →
          dst'.gd.pixels Y X = V)
    ∧ (∀ V : Int, psSrcImage.format.renderer = Renderer.GD →
      psSrcImage.gd.trueColor = true →
      (∀ col row : Int, 0 ≤ col → col < psSrcImage.width → 0 ≤ row →
        row < psSrcImage.height → psSrcImage.gd.tpixels row col = V) →
      gd.gdTrueColorGetAlpha V ≠ 127 →
      gd.gdTrueColor (castInt (gd.gdTrueColorGetRed V)) (castInt (gd.gdTrueColorGetGreen V))
        (castInt (gd.gdTrueColorGetBlue V)) = V →
      ∃ dst', msAverageRasterResampler gd psSrcImage offsite psDstImage panCMap
          (scaleTransformer k) = some (0, dst') ∧
        ∀ X Y : Int, 0 ≤ X → X < psDstImage.width → 0 ≤ Y → Y < psDstImage.height →
          dst'.gd.tpixels Y X = V) := by
  refine ⟨?_, ?_, ?_⟩
  · intro V hraw hmode hconst hdata
    have hmode' : psSrcImage.format.imagemode = ImageMode.INT16
        ∨ psSrcImage.format.imagemode = ImageMode.FLOAT32
        ∨ psSrcImage.format.imagemode = ImageMode.BYTE := by
      rcases hmode with h | h | h
      · exact Or.inl h.1
      · exact Or.inr (Or.inl h)
      · exact Or.inr (Or.inr h.1)
    have hngd : psSrcImage.format.renderer ≠ Renderer.GD := by rw [hraw]; decide
    by_cases hbands : 0 < psSrcImage.format.bands
    · obtain ⟨dst', hres, hpix⟩ := msAverageRasterResampler_const gd psSrcImage offsite
        psDstImage panCMap (fun i => if 0 ≤ i ∧ i < psSrcImage.format.bands then V else 0)
        k hk hw hh hwr hhr (Or.inr hmode')
        (by
          intro iX iY sum w ws h1 h2 h3 h4
          rw [msSourceSample_raw gd psSrcImage iX iY sum w ws offsite hngd hmode'
            (by rw [hconst iX iY 0 h1 h2 h3 h4 le_rfl hbands]; exact hdata)]
          congr 2
          funext i
          dsimp only
          by_cases hi : 0 ≤ i ∧ i < psSrcImage.format.bands
          · rw [if_pos hi, if_pos hi, hconst iX iY i h1 h2 h3 h4 hi.1 hi.2]
          · rw [if_neg hi, if_neg hi, mul_zero, add_zero])
      refine ⟨dst', hres, ?_⟩
      intro X Y hX hXW hY hYH b hb
      obtain ⟨F, s, hFC, hsh, hview⟩ := hpix Y X hY hYH hX hXW
      have hv := congrFun (congrArg (fun v => v.2.2) hview) b
      simp only [imageObj.view] at hv
      rw [hv]
      have hwrite := writeResampledPixel_raw gd psSrcImage panCMap X Y F 1 s hraw b
        (Int.ofNat_nonneg b) hb
      rw [hsh.1, hsh.2.1] at hwrite
      have hF0 : F 0 = V := by
        rw [hFC 0 le_rfl (by decide)]
        exact if_pos ⟨le_rfl, hbands⟩
      rw [hwrite, hF0]
      rcases hmode with h | h | h
      · rw [if_pos h.1, h.2]
      · rw [if_neg (by rw [h]; decide), if_pos h]
      · rw [if_neg (by rw [h.1]; decide), if_neg (by rw [h.1]; decide), if_pos h.1, h.2]
    · obtain ⟨⟨rc, dst'⟩, hres⟩ := Option.isSome_iff_exists.mp
        (msAverageRasterResampler_isSome gd psSrcImage offsite psDstImage panCMap
          (scaleTransformer k) (Or.inr hmode'))
      have hrc := (msAverageRasterResampler_pixelwise gd psSrcImage offsite psDstImage
        panCMap (scaleTransformer k) (fun _ _ _ => True)
        (fun _ _ _ _ _ _ _ _ _ _ => trivial) rc dst' hres).1
      subst hrc
      refine ⟨dst', hres, ?_⟩
      intro X Y _ _ _ _ b hb
      exact absurd (lt_of_le_of_lt (Int.ofNat_nonneg b) hb) hbands
  · intro V hgd htc hconst hV1 hV2 hmap hne
    obtain ⟨dst', hres, hpix⟩ := msAverageRasterResampler_const gd psSrcImage offsite
      psDstImage panCMap (fun i => if i = 0 then (V : ℚ) else 0)
      k hk hw hh hwr hhr (Or.inl hgd)
      (by
        intro iX iY sum w ws h1 h2 h3 h4
        rw [msSourceSample_palette gd psSrcImage iX iY sum w ws offsite hgd htc,
          hconst iX iY h1 h2 h3 h4])
    refine ⟨dst', hres, ?_⟩
    intro X Y hX hXW hY hYH
    obtain ⟨F, s, hFC, hsh, hview⟩ := hpix Y X hY hYH hX hXW
    have hv := congrArg (fun v => v.1) hview
    simp only [imageObj.view] at hv
    have hF0 : F 0 = (V : ℚ) := by
      rw [hFC 0 le_rfl (by decide)]
      exact if_pos rfl
    rw [hv, writeResampledPixel_palette gd psSrcImage panCMap X Y F 1 s hgd htc,
      hF0, castInt_intCast V hV1 hV2, hmap, if_pos hne]
  · intro V hgd htc hconst halpha hround
    obtain ⟨dst', hres, hpix⟩ := msAverageRasterResampler_const gd psSrcImage offsite
      psDstImage panCMap
      (fun i => if i = 0 then (gd.gdTrueColorGetRed V : ℚ)
        else if i = 1 then (gd.gdTrueColorGetGreen V : ℚ)
        else if i = 2 then (gd.gdTrueColorGetBlue V : ℚ) else 0)
      k hk hw hh hwr hhr (Or.inl hgd)
      (by
        intro iX iY sum w ws h1 h2 h3 h4
        rw [msSourceSample_truecolor gd psSrcImage iX iY sum w ws offsite hgd htc
          (by rw [hconst iX iY h1 h2 h3 h4]; exact halpha), hconst iX iY h1 h2 h3 h4])
    refine ⟨dst', hres, ?_⟩
    intro X Y hX hXW hY hYH
    obtain ⟨F, s, hFC, hsh, hview⟩ := hpix Y X hY hYH hX hXW
    have hv := congrArg (fun v => v.2.1) hview
    simp only [imageObj.view] at hv
    have hF0 : F 0 = (gd.gdTrueColorGetRed V : ℚ) := by
      rw [hFC 0 le_rfl (by decide)]
      exact if_pos rfl
    have hF1 : F 1 = (gd.gdTrueColorGetGreen V : ℚ) := by
      rw [hFC 1 (by decide) (by decide)]
      simp
    have hF2 : F 2 = (gd.gdTrueColorGetBlue V : ℚ) := by
      rw [hFC 2 (by decide) (by decide)]
      simp
    rw [hv, writeResampledPixel_truecolor gd psSrcImage panCMap X Y F 1 s hgd htc
      (by norm_num), hF0, hF1, hF2]
    exact hround

/-- C19 (counterexample): a 1 x 1 true-colour source whose one pixel is the half
transparent blue `0x400000FF` = 1073742079 (alpha 64, so not the fully transparent
value that the sampler skips), resampled by the factor `k = 1` into a 1 x 1
destination. `msAverageRasterResampler` returns 0 and sets the destination pixel to the
opaque blue `0x000000FF` = 255, not to the value of the source pixels. -/
theorem msAverageRasterResampler_conservation_counterexample :
    (gdImageObj 1 1 true (fun _ _ => 0) fun _ _ => 1073742079).gd.tpixels 0 0 = 1073742079 ∧
    sampleGd.gdTrueColorGetAlpha 1073742079 = 64 ∧
    ∃ dst', msAverageRasterResampler sampleGd
        (gdImageObj 1 1 true (fun _ _ => 0) fun _ _ => 1073742079) ⟨-1, 0, 0⟩
        (gdImageObj 1 1 true (fun _ _ => 0) fun _ _ => 0) (fun i => i)
        (scaleTransformer ((1 : Int) : ℚ)) = some (0, dst') ∧
      dst'.gd.tpixels 0 0 = 255 ∧ dst'.gd.tpixels 0 0 ≠ 1073742079 := by
  have halpha : sampleGd.gdTrueColorGetAlpha 1073742079 = 64 := by
    norm_num [sampleGd]
  have hr : sampleGd.gdTrueColorGetRed 1073742079 = 0 := by norm_num [sampleGd]
  have hg : sampleGd.gdTrueColorGetGreen 1073742079 = 0 := by norm_num [sampleGd]
  have hb : sampleGd.gdTrueColorGetBlue 1073742079 = 255 := by norm_num [sampleGd]
  refine ⟨rfl, halpha, ?_⟩
  obtain ⟨dst', hres, hpix⟩ := msAverageRasterResampler_const sampleGd
    (gdImageObj 1 1 true (fun _ _ => 0) fun _ _ => 1073742079) ⟨-1, 0, 0⟩
    (gdImageObj 1 1 true (fun _ _ => 0) fun _ _ => 0) (fun i => i)
    (fun i => if i = 0 then ((sampleGd.gdTrueColorGetRed 1073742079 : Int) : ℚ)
      else if i = 1 then ((sampleGd.gdTrueColorGetGreen 1073742079 : Int) : ℚ)
      else if i = 2 then ((sampleGd.gdTrueColorGetBlue 1073742079 : Int) : ℚ) else 0)
    1 le_rfl rfl rfl (by decide) (by decide) (Or.inl rfl)
    (fun iX iY sum w ws _ _ _ _ =>
      msSourceSample_truecolor sampleGd
        (gdImageObj 1 1 true (fun _ _ => 0) fun _ _ => 1073742079) iX iY sum w ws
        ⟨-1, 0, 0⟩ rfl rfl
        (by
          show sampleGd.gdTrueColorGetAlpha 1073742079 ≠ 127
          rw [halpha]
          decide))
  have h255 : dst'.gd.tpixels 0 0 = 255 := by
    obtain ⟨F, s, hFC, hsh, hview⟩ := hpix 0 0 le_rfl (by decide) le_rfl (by decide)
    have hv := congrArg (fun v => v.2.1) hview
    simp only [imageObj.view] at hv
    have hF0 : F 0 = 0 := by
      rw [hFC 0 le_rfl (by decide), if_pos rfl, hr]
      norm_num
    have hF1 : F 1 = 0 := by
      rw [hFC 1 (by decide) (by decide), if_neg (by decide), if_pos rfl, hg]
      norm_num
    have hF2 : F 2 = 255 := by
      rw [hFC 2 (by decide) (by decide), if_neg (by decide), if_neg (by decide), if_pos rfl,
        hb]
      norm_num
    rw [hv, writeResampledPixel_truecolor sampleGd _ _ 0 0 F 1 s rfl rfl (by norm_num),
      hF0, hF1, hF2]
    norm_num [sampleGd, castInt, toInt32, trunc]
  refine ⟨dst', hres, h255, ?_⟩
  rw [h255]
  decide

theorem msAverageRasterResampler_conservation_witness :
    (1 : Int) ≤ 2 ∧
    (rawImage 2 2 ImageMode.INT16 1 fun _ => 7).width
      = 2 * (rawImage 1 1 ImageMode.INT16 1 fun _ => 5).width ∧
    ∃ dst', msAverageRasterResampler sampleGd (rawImage 2 2 ImageMode.INT16 1 fun _ => 7)
        ⟨-1, 0, 0⟩ (rawImage 1 1 ImageMode.INT16 1 fun _ => 5) (fun i => i)
        (scaleTransformer ((2 : Int) : ℚ)) = some (0, dst') ∧ dst'.raw 0 = 7 := by
  obtain ⟨dst', hres, hpix⟩ := (msAverageRasterResampler_conservation sampleGd
    (rawImage 2 2 ImageMode.INT16 1 fun _ => 7) ⟨-1, 0, 0⟩
    (rawImage 1 1 ImageMode.INT16 1 fun _ => 5) (fun i => i) 2 (by decide) rfl rfl
    (by decide) (by decide)).1 7 rfl
    (Or.inl ⟨rfl, by norm_num [castShort, trunc]⟩)
    (fun _ _ _ _ _ _ _ _ _ => rfl) (by norm_num)
  refine ⟨by decide, rfl, dst', hres, ?_⟩
  have := hpix 0 0 le_rfl (by decide) le_rfl (by decide) 0 (by decide)
  simpa [rawImage] using this

/-- The interpolation loop run in place gives, for every entry, the value computed from
the original `x[i]` and the original `x[0]`: entry 0 is overwritten in the last round,
after every read of `x[0]`. -/
theorem msApproxTransformer_interpolate_eq (x2_0 y2_0 dfDeltaX dfDeltaY : ℚ) :
    ∀ (i : Nat) (a : List Pt), i ≤ a.length →
      msApproxTransformer.interpolate x2_0 y2_0 dfDeltaX dfDeltaY i a
        = (a.take i).map (fun p =>
            { y := y2_0 + dfDeltaY * (p.x - (a.getD 0 ⟨0, 0, 0⟩).x)
              x := x2_0 + dfDeltaX * (p.x - (a.getD 0 ⟨0, 0, 0⟩).x)
              success := 1 }) ++ a.drop i := by
  intro i
  induction i with
  | zero =>
    intro a _
    simp [msApproxTransformer.interpolate]
  | succ i ih =>
    intro a hi
    have hlt : i < a.length := hi
    rw [msApproxTransformer.interpolate]
    rw [ih _ (by rw [List.length_set]; omega)]
    have hget : a.getD i ⟨0, 0, 0⟩ = a[i] := by
      rw [List.getD_eq_getElem?_getD, List.getElem?_eq_getElem hlt, Option.getD_some]
    have hset : ∀ v : Pt, a.set i v = a.take i ++ v :: a.drop (i + 1) := by
      intro v
      rw [List.set_eq_take_append_cons_drop, if_pos hlt]
    have hlen : (a.take i).length = i := by
      rw [List.length_take]
      omega
    have htake : ∀ v : Pt, (a.set i v).take i = a.take i := by
      intro v
      rw [hset, List.take_left' hlen]
    have hdrop : ∀ v : Pt, (a.set i v).drop i = v :: a.drop (i + 1) := by
      intro v
      rw [hset, List.drop_left' hlen]
    rw [htake, hdrop, List.take_succ, List.getElem?_eq_getElem hlt, hget]
    simp only [Option.toList_some, List.map_append, List.map_cons, List.map_nil,
      List.append_assoc, List.singleton_append]
    rcases Nat.eq_zero_or_pos i with h0 | hpos
    · subst h0
      simp
    · have h0 : ∀ v : Pt, (a.set i v).getD 0 ⟨0, 0, 0⟩ = a.getD 0 ⟨0, 0, 0⟩ := by
        intro v
        rw [List.getD_eq_getElem?_getD, List.getD_eq_getElem?_getD,
          List.getElem?_set_ne (by omega)]
      rw [h0]

/-- C28: when the batch has more than five points, the tolerance is not zero, the first,
the middle and the last point have the same row and the first column differs from the
last and the middle one, the base transformer succeeds on the three samples (return
value and all three flags) and the deviation at the middle point is at most the
tolerance, then `msApproxTransformer` returns 1, flags every point 1 and sets point `i`
to `(X0 + (XL - X0) * (x_i - x_0) / (x_last - x_0), Y0 + (YL - Y0) * (x_i - x_0) /
(x_last - x_0))`, where `(X0, Y0)` and `(XL, YL)` are the transformed first and last
sample and `x_i`, `x_0`, `x_last` are the input columns. The loop as written, in place
and downward on any arrays that hold the batch, gives the same entries: `x[0]` is
overwritten in the last round only. -/
theorem msApproxTransformer_fast_path (psATInfo : msApproxTransformInfo)
    (pts : List (ℚ × ℚ)) (hlen : 5 < pts.length) (heps : psATInfo.dfMaxError ≠ 0)
    (hrow1 : (pts.getD 0 (0, 0)).2 = (pts.getD (pts.length - 1) (0, 0)).2)
    (hrow2 : (pts.getD 0 (0, 0)).2 = (pts.getD ((pts.length - 1) / 2) (0, 0)).2)
    (hcol1 : (pts.getD 0 (0, 0)).1 ≠ (pts.getD (pts.length - 1) (0, 0)).1)
    (hcol2 : (pts.getD 0 (0, 0)).1 ≠ (pts.getD ((pts.length - 1) / 2) (0, 0)).1)
    (hret : (msApproxTransformer.sampled psATInfo pts).1 ≠ 0)
    (hs0 : ((msApproxTransformer.sampled psATInfo pts).2.getD 0 ⟨0, 0, 0⟩).success ≠ 0)
    (hs1 : ((msApproxTransformer.sampled psATInfo pts).2.getD 1 ⟨0, 0, 0⟩).success ≠ 0)
    (hs2 : ((msApproxTransformer.sampled psATInfo pts).2.getD 2 ⟨0, 0, 0⟩).success ≠ 0)
    (herr : deviation
      (interpolated (pts.getD 0 (0, 0)) (pts.getD (pts.length - 1) (0, 0))
        ((msApproxTransformer.sampled psATInfo pts).2.getD 0 ⟨0, 0, 0⟩)
        ((msApproxTransformer.sampled psATInfo pts).2.getD 2 ⟨0, 0, 0⟩)
        (pts.getD ((pts.length - 1) / 2) (0, 0)))
      ((msApproxTransformer.sampled psATInfo pts).2.getD 1 ⟨0, 0, 0⟩)
        ≤ psATInfo.dfMaxError) :
    msApproxTransformer psATInfo pts
      = (1, pts.map fun p =>
          { x := ((msApproxTransformer.sampled psATInfo pts).2.getD 0 ⟨0, 0, 0⟩).x
              + (((msApproxTransformer.sampled psATInfo pts).2.getD 2 ⟨0, 0, 0⟩).x
                  - ((msApproxTransformer.sampled psATInfo pts).2.getD 0 ⟨0, 0, 0⟩).x)
                * (p.1 - (pts.getD 0 (0, 0)).1)
                / ((pts.getD (pts.length - 1) (0, 0)).1 - (pts.getD 0 (0, 0)).1)
            y := ((msApproxTransformer.sampled psATInfo pts).2.getD 0 ⟨0, 0, 0⟩).y
              + (((msApproxTransformer.sampled psATInfo pts).2.getD 2 ⟨0, 0, 0⟩).y
                  - ((msApproxTransformer.sampled psATInfo pts).2.getD 0 ⟨0, 0, 0⟩).y)
                * (p.1 - (pts.getD 0 (0, 0)).1)
                / ((pts.getD (pts.length - 1) (0, 0)).1 - (pts.getD 0 (0, 0)).1)
            success := 1 })
    ∧ ∀ a : List Pt, a.map Pt.xy = pts →
      msApproxTransformer.interpolate
          ((msApproxTransformer.sampled psATInfo pts).2.getD 0 ⟨0, 0, 0⟩).x
          ((msApproxTransformer.sampled psATInfo pts).2.getD 0 ⟨0, 0, 0⟩).y
          ((((msApproxTransformer.sampled psATInfo pts).2.getD 2 ⟨0, 0, 0⟩).x
              - ((msApproxTransformer.sampled psATInfo pts).2.getD 0 ⟨0, 0, 0⟩).x)
            / ((pts.getD (pts.length - 1) (0, 0)).1 - (pts.getD 0 (0, 0)).1))
          ((((msApproxTransformer.sampled psATInfo pts).2.getD 2 ⟨0, 0, 0⟩).y
              - ((msApproxTransformer.sampled psATInfo pts).2.getD 0 ⟨0, 0, 0⟩).y)
            / ((pts.getD (pts.length - 1) (0, 0)).1 - (pts.getD 0 (0, 0)).1))
          a.length a
        = (msApproxTransformer psATInfo pts).2 := by
  have hpre : ¬ ((pts.getD 0 (0, 0)).2 ≠ (pts.getD (pts.length - 1) (0, 0)).2
      ∨ (pts.getD 0 (0, 0)).2 ≠ (pts.getD ((pts.length - 1) / 2) (0, 0)).2
      ∨ (pts.getD 0 (0, 0)).1 = (pts.getD (pts.length - 1) (0, 0)).1
      ∨ (pts.getD 0 (0, 0)).1 = (pts.getD ((pts.length - 1) / 2) (0, 0)).1
      ∨ psATInfo.dfMaxError = 0 ∨ pts.length ≤ 5) := by
    rintro (h | h | h | h | h | h)
    · exact h hrow1
    · exact h hrow2
    · exact hcol1 h
    · exact hcol2 h
    · exact heps h
    · omega
  have hsucc : ¬ ((msApproxTransformer.sampled psATInfo pts).1 = 0
      ∨ ((msApproxTransformer.sampled psATInfo pts).2.getD 0 ⟨0, 0, 0⟩).success = 0
      ∨ ((msApproxTransformer.sampled psATInfo pts).2.getD 1 ⟨0, 0, 0⟩).success = 0
      ∨ ((msApproxTransformer.sampled psATInfo pts).2.getD 2 ⟨0, 0, 0⟩).success = 0) := by
    rintro (h | h | h | h)
    · exact hret h
    · exact hs0 h
    · exact hs1 h
    · exact hs2 h
  have hmain : msApproxTransformer psATInfo pts
      = (1, pts.map fun p =>
          { x := ((msApproxTransformer.sampled psATInfo pts).2.getD 0 ⟨0, 0, 0⟩).x
              + (((msApproxTransformer.sampled psATInfo pts).2.getD 2 ⟨0, 0, 0⟩).x
                  - ((msApproxTransformer.sampled psATInfo pts).2.getD 0 ⟨0, 0, 0⟩).x)
                * (p.1 - (pts.getD 0 (0, 0)).1)
                / ((pts.getD (pts.length - 1) (0, 0)).1 - (pts.getD 0 (0, 0)).1)
            y := ((msApproxTransformer.sampled psATInfo pts).2.getD 0 ⟨0, 0, 0⟩).y
              + (((msApproxTransformer.sampled psATInfo pts).2.getD 2 ⟨0, 0, 0⟩).y
                  - ((msApproxTransformer.sampled psATInfo pts).2.getD 0 ⟨0, 0, 0⟩).y)
                * (p.1 - (pts.getD 0 (0, 0)).1)
                / ((pts.getD (pts.length - 1) (0, 0)).1 - (pts.getD 0 (0, 0)).1)
            success := 1 }) := by
    rw [msApproxTransformer, dif_neg hpre]
    dsimp only
    unfold msApproxTransformer.sampled at hsucc herr ⊢
    rw [if_neg hsucc]
    unfold deviation interpolated at herr
    dsimp only at herr
    rw [if_neg (not_lt.mpr herr)]
    congr 1
    apply List.map_congr_left
    intro p _
    congr 1 <;> ring
  refine ⟨hmain, ?_⟩
  intro a ha
  rw [msApproxTransformer_interpolate_eq _ _ _ _ a.length a le_rfl, hmain, ← ha]
  simp only [List.take_length, List.drop_length, List.append_nil, List.map_map]
  apply List.map_congr_left
  intro p hp
  have hne : a ≠ [] := List.ne_nil_of_mem hp
  have h0 : (a.map Pt.xy).getD 0 (0, 0) = (a.getD 0 ⟨0, 0, 0⟩).xy := by
    cases a with
    | nil => exact absurd rfl hne
    | cons q rest => rfl
  simp only [Function.comp, h0, Pt.xy]
  congr 1 <;> ring

theorem msApproxTransformer_fast_path_witness :
    msApproxTransformer ⟨affineBase, 1⟩ scanline6
      = (1, [⟨3, 10, 1⟩, ⟨5, 10, 1⟩, ⟨7, 10, 1⟩, ⟨9, 10, 1⟩, ⟨11, 10, 1⟩, ⟨13, 10, 1⟩]) := by
  have h := (msApproxTransformer_fast_path ⟨affineBase, 1⟩ scanline6 (by decide)
    one_ne_zero (by decide) (by decide) (by decide) (by decide) (by decide)
    (by decide) (by decide) (by decide)
    (by norm_num [deviation, interpolated, msApproxTransformer.sampled, affineBase,
      scanline6, fabs])).1
  rw [h]
  norm_num [msApproxTransformer.sampled, affineBase, scanline6]

/-- A nesting bound above the number of points is enough for `msApproxTransformer`. -/
theorem msApproxTransformer_bounded_eq (psATInfo : msApproxTransformInfo) :
    ∀ (depth : Nat) (pts : List (ℚ × ℚ)), pts.length < depth →
      msApproxTransformer.bounded psATInfo depth pts
        = some (msApproxTransformer psATInfo pts) := by
  intro depth
  induction depth with
  | zero =>
    intro pts h
    exact absurd h (Nat.not_lt_zero _)
  | succ depth ih =>
    intro pts h
    rw [msApproxTransformer.bounded, msApproxTransformer]
    by_cases hpre : (pts.getD 0 (0, 0)).2 ≠ (pts.getD (pts.length - 1) (0, 0)).2
        ∨ (pts.getD 0 (0, 0)).2 ≠ (pts.getD ((pts.length - 1) / 2) (0, 0)).2
        ∨ (pts.getD 0 (0, 0)).1 = (pts.getD (pts.length - 1) (0, 0)).1
        ∨ (pts.getD 0 (0, 0)).1 = (pts.getD ((pts.length - 1) / 2) (0, 0)).1
        ∨ psATInfo.dfMaxError = 0 ∨ pts.length ≤ 5
    · rw [if_pos hpre, dif_pos hpre]
    · rw [if_neg hpre, dif_neg hpre]
      have hlen : 5 < pts.length := by
        refine not_le.mp fun h5 => hpre ?_
        simp only [h5, or_true]
      have h1 := ih (pts.take ((pts.length - 1) / 2)) (by
        rw [List.length_take]
        omega)
      have h2 := ih (pts.drop ((pts.length - 1) / 2)) (by
        rw [List.length_drop]
        omega)
      dsimp only
      rw [h1, h2]
      dsimp only
      split_ifs <;> rfl

/-- C29: `msApproxTransformer` returns for every batch, tolerance and base transformer,
with calls nested no deeper than the number of points plus one: run with any bound on
the nesting above the number of points it gives its result. A batch of more than five
points is split at `nMiddle = (nPoints-1)/2` into `nMiddle` and `nPoints - nMiddle`
points, both at least 2 and fewer than `nPoints`. -/
theorem msApproxTransformer_terminates (psATInfo : msApproxTransformInfo)
    (pts : List (ℚ × ℚ)) :
    (∀ depth : Nat, pts.length < depth →
      msApproxTransformer.bounded psATInfo depth pts
        = some (msApproxTransformer psATInfo pts))
    ∧ (5 < pts.length →
      2 ≤ (pts.take ((pts.length - 1) / 2)).length
      ∧ (pts.take ((pts.length - 1) / 2)).length < pts.length
      ∧ 2 ≤ (pts.drop ((pts.length - 1) / 2)).length
      ∧ (pts.drop ((pts.length - 1) / 2)).length < pts.length) := by
  refine ⟨fun depth h => msApproxTransformer_bounded_eq psATInfo depth pts h, ?_⟩
  intro h
  rw [List.length_take, List.length_drop]
  omega

theorem msApproxTransformer_terminates_witness :
    msApproxTransformer.bounded ⟨bumpBase, 1⟩ 7 scanline6
      = some (msApproxTransformer ⟨bumpBase, 1⟩ scanline6)
    ∧ 2 ≤ (scanline6.take ((scanline6.length - 1) / 2)).length
    ∧ (scanline6.drop ((scanline6.length - 1) / 2)).length < scanline6.length :=
  ⟨(msApproxTransformer_terminates ⟨bumpBase, 1⟩ scanline6).1 7 (by decide),
   ((msApproxTransformer_terminates ⟨bumpBase, 1⟩ scanline6).2 (by decide)).1,
   ((msApproxTransformer_terminates ⟨bumpBase, 1⟩ scanline6).2 (by decide)).2.2.2⟩

/-- The four calls of `msSourceSample` of the bilinear resampler on a paletted source:
the weight sum is the sum of the four weights, which is 1, and the first sum is the
weighted sum of the four indexes. -/
theorem msBilinearRasterResampler_sample_palette (gd : GdLib) (psSrcImage : imageObj)
    (offsite : colorObj) (pos : BilinearPos)
    (hgd : psSrcImage.format.renderer = Renderer.GD)
    (htc : psSrcImage.gd.trueColor = false) :
    ∃ F : Int → ℚ, msBilinearRasterResampler.sample gd psSrcImage offsite pos = some (F, 1)
      ∧ F 0 = weightedAverageIndex psSrcImage pos := by
  have hW : (0 : ℚ) + (1 - pos.dfRatioX2) * (1 - pos.dfRatioY2)
      + pos.dfRatioX2 * (1 - pos.dfRatioY2)
      + (1 - pos.dfRatioX2) * pos.dfRatioY2 + pos.dfRatioX2 * pos.dfRatioY2 = 1 := by
    ring
  have hw : (1 - pos.dfRatioX2) * (1 - pos.dfRatioY2)
      + pos.dfRatioX2 * (1 - pos.dfRatioY2)
      + (1 - pos.dfRatioX2) * pos.dfRatioY2 + pos.dfRatioX2 * pos.dfRatioY2 = 1 := by
    ring
  unfold msBilinearRasterResampler.sample
  simp only [msSourceSample_palette gd psSrcImage _ _ _ _ _ offsite hgd htc,
    Option.some_bind]
  rw [hW]
  refine ⟨_, rfl, ?_⟩
  unfold weightedAverageIndex
  rw [hw, div_one]
  simp only [if_true]
  ring

/-- The loop body of `msBilinearRasterResampler` on a paletted source: the index looked
up in `panCMap` is the weighted average of the four neighbours converted with `(int)`. -/
theorem msBilinearRasterResampler_pixel_palette (gd : GdLib) (psSrcImage : imageObj)
    (offsite : colorObj) (panCMap : Int → Int) (nDstX nDstY : Int) (p : Pt)
    (hgd : psSrcImage.format.renderer = Renderer.GD) (htc : psSrcImage.gd.trueColor = false)
    (s s' : imageObj)
    (h : msBilinearRasterResampler.pixel gd psSrcImage offsite panCMap nDstX nDstY p s
      = some s') :
    (msBilinearRasterResampler.srcPos psSrcImage p = none →
      s'.gd.pixels nDstY nDstX = s.gd.pixels nDstY nDstX)
    ∧ ∀ pos, msBilinearRasterResampler.srcPos psSrcImage p = some pos →
      s'.gd.pixels nDstY nDstX =
        if panCMap (castInt (weightedAverageIndex psSrcImage pos)) ≠ -1 then
          panCMap (castInt (weightedAverageIndex psSrcImage pos))
        else s.gd.pixels nDstY nDstX := by
  unfold msBilinearRasterResampler.pixel at h
  constructor
  · intro hp
    rw [hp] at h
    simp only [Option.some.injEq] at h
    rw [← h]
  · intro pos hp
    obtain ⟨F, hF, hF0⟩ := msBilinearRasterResampler_sample_palette gd psSrcImage offsite pos
      hgd htc
    rw [hp] at h
    dsimp only at h
    rw [hF] at h
    dsimp only at h
    rw [if_neg one_ne_zero] at h
    simp only [Option.some.injEq] at h
    rw [← h, writeResampledPixel_palette gd psSrcImage panCMap nDstX nDstY _ 1 s hgd htc]
    have hband : (0 : Int) < MAX 4 psSrcImage.format.bands := by
      unfold MAX
      split_ifs <;> omega
    have hsum : (if (0 : Int) ≤ 0 ∧ (0 : Int) < MAX 4 psSrcImage.format.bands then F 0 / 1
        else F 0) = weightedAverageIndex psSrcImage pos := by
      rw [if_pos ⟨le_rfl, hband⟩, div_one, hF0]
    rw [hsum]

/-- C30 (counterexample): a 2 x 1 paletted source with the indexes 1 and 2, the identity
as remap table, and a transformer that sends the centre of the one destination pixel to
`(1.4, 0.5)`. The bilinear position is column 0 with ratio 0.9, so the weighted-average
index is `0.1 * 1 + 0.9 * 2 = 1.9`, whose nearest integer is 2;
`msBilinearRasterResampler` looks up `(int) 1.9 = 1` and writes 1. -/
theorem msBilinearRasterResampler_palette_counterexample :
    weightedAverageIndex
        (gdImageObj 2 1 false (fun _ c => if c = 0 then 1 else 2) fun _ _ => 0)
        ⟨0, 0, 1, 0, 9 / 10, 0⟩ = 19 / 10 ∧
    round (19 / 10 : ℚ) = 2 ∧
    ∃ dst', msBilinearRasterResampler sampleGd
        (gdImageObj 2 1 false (fun _ c => if c = 0 then 1 else 2) fun _ _ => 0) ⟨-1, 0, 0⟩
        (gdImageObj 1 1 false (fun _ _ => 0) fun _ _ => 0) (fun i => i)
        (constTransformer (7 / 5) (1 / 2)) = some (0, dst') ∧
      dst'.gd.pixels 0 0 = 1 := by
  have havg : weightedAverageIndex
      (gdImageObj 2 1 false (fun _ c => if c = 0 then 1 else 2) fun _ _ => 0)
      ⟨0, 0, 1, 0, 9 / 10, 0⟩ = 19 / 10 := by
    norm_num [weightedAverageIndex, gdImageObj]
  have hpos : msBilinearRasterResampler.srcPos
      (gdImageObj 2 1 false (fun _ c => if c = 0 then 1 else 2) fun _ _ => 0)
      ⟨7 / 5, 1 / 2, 1⟩ = some ⟨0, 0, 1, 0, 9 / 10, 0⟩ := by
    norm_num [msBilinearRasterResampler.srcPos, castInt, toInt32, trunc, MAX, MIN,
      gdImageObj]
  refine ⟨havg, ?_, ?_⟩
  · rw [round_eq]
    norm_num
  · have hsome := msBilinearRasterResampler_isSome sampleGd
      (gdImageObj 2 1 false (fun _ c => if c = 0 then 1 else 2) fun _ _ => 0) ⟨-1, 0, 0⟩
      (gdImageObj 1 1 false (fun _ _ => 0) fun _ _ => 0) (fun i => i)
      (constTransformer (7 / 5) (1 / 2)) (Or.inl rfl)
    obtain ⟨⟨rc, dst'⟩, hres⟩ := Option.isSome_iff_exists.mp hsome
    have key := msBilinearRasterResampler_pixelwise sampleGd
      (gdImageObj 2 1 false (fun _ c => if c = 0 then 1 else 2) fun _ _ => 0) ⟨-1, 0, 0⟩
      (gdImageObj 1 1 false (fun _ _ => 0) fun _ _ => 0) (fun i => i)
      (constTransformer (7 / 5) (1 / 2))
      (fun _ _ new => new.1 = 1)
      (by
        intro nDstY nDstX s s' h1 h2 h3 h4 hs hstep
        have hY : nDstY = 0 := by
          have : nDstY < 1 := h2
          omega
        have hX : nDstX = 0 := by
          have : nDstX < 1 := h4
          omega
        subst hY
        subst hX
        rw [transformedCentre_const _ _ _ _ _ le_rfl (by decide)] at hstep
        have := (msBilinearRasterResampler_pixel_palette sampleGd _ _ _ 0 0 _ rfl rfl s s'
          hstep).2 _ hpos
        rw [havg] at this
        have hc : castInt (19 / 10) = 1 := by norm_num [castInt, toInt32, trunc]
        rw [hc] at this
        simpa [imageObj.view] using this)
      rc dst' hres
    obtain ⟨hrc, -, hpix⟩ := key
    subst hrc
    refine ⟨dst', hres, ?_⟩
    have := hpix 0 0 le_rfl (by decide) le_rfl (by decide)
    simpa [imageObj.view] using this

theorem upTo_pos (n : Int) (h : 0 < n) : ∃ rest, upTo n = 0 :: rest := by
  unfold upTo
  obtain ⟨m, hm⟩ : ∃ m, n.toNat = m + 1 := ⟨n.toNat - 1, by omega⟩
  rw [hm, List.range_succ_eq_map]
  exact ⟨_, rfl⟩

theorem fromTo_pos (lo hi : Int) (h : lo < hi) : ∃ rest, fromTo lo hi = lo :: rest := by
  unfold fromTo
  obtain ⟨m, hm⟩ : ∃ m, (hi - lo).toNat = m + 1 := ⟨(hi - lo).toNat - 1, by omega⟩
  rw [hm, List.range_succ_eq_map]
  refine ⟨(List.map Nat.succ (List.range m)).map fun (i : Nat) => lo + (i : Int), ?_⟩
  simp

/-- Pixel loops whose round for the first pixel fails an `assert` fail as a whole. -/
theorem pixelLoops_eq_none (dst : imageObj) (step : imageObj → Int → Int → Option imageObj)
    (hH : 0 < dst.height) (hW : 0 < dst.width) (h : step dst 0 0 = none) :
    (upTo dst.height).foldlM
      (fun s nDstY => (upTo dst.width).foldlM (fun s nDstX => step s nDstY nDstX) s) dst
        = none := by
  obtain ⟨rows, hrows⟩ := upTo_pos dst.height hH
  obtain ⟨cols, hcols⟩ := upTo_pos dst.width hW
  rw [hrows, List.foldlM_cons, hcols, List.foldlM_cons, h]
  rfl

/-- The function `msSourceSample` on a raw source with at least one band whose image
mode is none of INT16, FLOAT32 and BYTE: the `assert( 0 )` is reached. -/
theorem msSourceSample_unsupported (gd : GdLib) (psSrcImage : imageObj) (iSrcX iSrcY : Int)
    (padfPixelSum : Int → ℚ) (dfWeight dfWeightSum : ℚ) (offsite : colorObj)
    (hraw : psSrcImage.format.renderer ≠ Renderer.GD)
    (h16 : psSrcImage.format.imagemode ≠ ImageMode.INT16)
    (h32 : psSrcImage.format.imagemode ≠ ImageMode.FLOAT32)
    (h8 : psSrcImage.format.imagemode ≠ ImageMode.BYTE)
    (hbands : 0 < psSrcImage.format.bands) :
    msSourceSample gd psSrcImage iSrcX iSrcY padfPixelSum dfWeight dfWeightSum offsite
      = none := by
  obtain ⟨rest, hrest⟩ := upTo_pos _ hbands
  unfold msSourceSample
  rw [if_neg hraw, hrest]
  unfold msSourceSample.bands
  rw [if_neg h16, if_neg h32, if_neg h8]

/-- The function `msAverageSample` over a box with at least one cell on a raw source
with at least one band whose image mode is none of INT16, FLOAT32 and BYTE: the
`assert( 0 )` of `msSourceSample` is reached in the first cell. -/
theorem msAverageSample_unsupported (gd : GdLib) (psSrcImage : imageObj)
    (dfXMin dfYMin dfXMax dfYMax : ℚ) (offsite : colorObj) (padfPixelSum : Int → ℚ)
    (hraw : psSrcImage.format.renderer ≠ Renderer.GD)
    (h16 : psSrcImage.format.imagemode ≠ ImageMode.INT16)
    (h32 : psSrcImage.format.imagemode ≠ ImageMode.FLOAT32)
    (h8 : psSrcImage.format.imagemode ≠ ImageMode.BYTE)
    (hbands : 0 < psSrcImage.format.bands)
    (hx : castInt dfXMin < castInt ((⌈dfXMax⌉ : Int) : ℚ))
    (hy : castInt dfYMin < castInt ((⌈dfYMax⌉ : Int) : ℚ)) :
    msAverageSample gd psSrcImage dfXMin dfYMin dfXMax dfYMax offsite padfPixelSum
      = none := by
  obtain ⟨rows, hrows⟩ := fromTo_pos _ _ hy
  obtain ⟨cols, hcols⟩ := fromTo_pos _ _ hx
  unfold msAverageSample
  rw [Option.map_eq_none']
  dsimp only
  rw [hrows, List.foldlM_cons, hcols, List.foldlM_cons,
    msSourceSample_unsupported _ _ _ _ _ _ _ _ hraw h16 h32 h8 hbands]
  rfl

/-- C27 (counterexample): a 1 x 1 raw source with one band whose image mode
is none of INT16, FLOAT32 and BYTE, resampled into a 1 x 1 destination with a transformer
that maps the pixel (its centre, for the average its corners) onto the source pixel.
Each of the three resamplers runs into its `assert( 0 )` (`none` in the model): no error
value is returned. -/
theorem resamplers_unsupported_encoding_assert :
    msNearestRasterResampler sampleGd (rawImage 1 1 ImageMode.NULL 1 fun _ => 7) ⟨-1, 0, 0⟩
        (rawImage 1 1 ImageMode.NULL 1 fun _ => 5) (fun i => i) identityTransformer = none
    ∧ msBilinearRasterResampler sampleGd (rawImage 1 1 ImageMode.NULL 1 fun _ => 7)
        ⟨-1, 0, 0⟩ (rawImage 1 1 ImageMode.NULL 1 fun _ => 5) (fun i => i)
        identityTransformer = none
    ∧ msAverageRasterResampler sampleGd (rawImage 1 1 ImageMode.NULL 1 fun _ => 7)
        ⟨-1, 0, 0⟩ (rawImage 1 1 ImageMode.NULL 1 fun _ => 5) (fun i => i)
        (scaleTransformer ((1 : Int) : ℚ)) = none := by
  have e1 : upTo 1 = [0] := by decide
  have hc : transformedCentre identityTransformer
      (rawImage 1 1 ImageMode.NULL 1 fun _ => 5).width 0 0 = ⟨1 / 2, 1 / 2, 1⟩ := by
    rw [transformedCentre_identity _ _ _ le_rfl (by decide)]
    norm_num
  have hci : castInt (1 / 2) = 0 := by norm_num [castInt, toInt32, trunc]
  refine ⟨?_, ?_, ?_⟩
  · unfold msNearestRasterResampler
    rw [Option.map_eq_none']
    refine pixelLoops_eq_none (rawImage 1 1 ImageMode.NULL 1 fun _ => 5)
      (fun s nDstY nDstX => msNearestRasterResampler.pixel sampleGd
        (rawImage 1 1 ImageMode.NULL 1 fun _ => 7) ⟨-1, 0, 0⟩ (fun i => i) nDstX nDstY
        (transformedCentre identityTransformer
          (rawImage 1 1 ImageMode.NULL 1 fun _ => 5).width nDstY nDstX) s)
      (by decide) (by decide) ?_
    dsimp only
    rw [hc]
    unfold msNearestRasterResampler.pixel
    rw [msNearestRasterResampler_srcPos_eq_some _ _ (by decide) (by norm_num) (by norm_num)
      (by rw [hci]; decide) (by rw [hci]; decide)]
    dsimp only
    rw [if_neg (by decide), if_pos (show (rawImage 1 1 ImageMode.NULL 1 fun _ =>
      (7 : ℚ)).format.renderer = Renderer.RAWDATA from rfl)]
    show (upTo 1).foldlM _ _ = none
    rw [e1, List.foldlM_cons]
    unfold msNearestRasterResampler.band
    rw [if_neg (by decide), if_neg (by decide), if_neg (by decide)]
    rfl
  · unfold msBilinearRasterResampler
    rw [Option.map_eq_none']
    refine pixelLoops_eq_none (rawImage 1 1 ImageMode.NULL 1 fun _ => 5)
      (fun s nDstY nDstX => msBilinearRasterResampler.pixel sampleGd
        (rawImage 1 1 ImageMode.NULL 1 fun _ => 7) ⟨-1, 0, 0⟩ (fun i => i) nDstX nDstY
        (transformedCentre identityTransformer
          (rawImage 1 1 ImageMode.NULL 1 fun _ => 5).width nDstY nDstX) s)
      (by decide) (by decide) ?_
    dsimp only
    rw [hc]
    have hpos : msBilinearRasterResampler.srcPos (rawImage 1 1 ImageMode.NULL 1 fun _ => 7)
        ⟨1 / 2, 1 / 2, 1⟩ = some ⟨0, 0, 0, 0, 0, 0⟩ := by
      norm_num [msBilinearRasterResampler.srcPos, castInt, toInt32, trunc, MAX, MIN,
        rawImage]
    unfold msBilinearRasterResampler.pixel
    rw [hpos]
    dsimp only
    unfold msBilinearRasterResampler.sample
    rw [msSourceSample_unsupported _ _ _ _ _ _ _ _ (by decide) (by decide) (by decide)
      (by decide) (by decide)]
    rfl
  · unfold msAverageRasterResampler
    rw [Option.map_eq_none']
    refine pixelLoops_eq_none (rawImage 1 1 ImageMode.NULL 1 fun _ => 5)
      (fun s nDstY nDstX => msAverageRasterResampler.pixel sampleGd
        (rawImage 1 1 ImageMode.NULL 1 fun _ => 7) ⟨-1, 0, 0⟩ (fun i => i) nDstX nDstY
        (transformedCorner (scaleTransformer ((1 : Int) : ℚ))
          (rawImage 1 1 ImageMode.NULL 1 fun _ => 5).width nDstY nDstX)
        (transformedCorner (scaleTransformer ((1 : Int) : ℚ))
          (rawImage 1 1 ImageMode.NULL 1 fun _ => 5).width nDstY (nDstX + 1))
        (transformedCorner (scaleTransformer ((1 : Int) : ℚ))
          (rawImage 1 1 ImageMode.NULL 1 fun _ => 5).width (nDstY + 1) nDstX)
        (transformedCorner (scaleTransformer ((1 : Int) : ℚ))
          (rawImage 1 1 ImageMode.NULL 1 fun _ => 5).width (nDstY + 1) (nDstX + 1)) s)
      (by decide) (by decide) ?_
    dsimp only
    rw [transformedCorner_scale _ _ _ _ le_rfl (by decide),
      transformedCorner_scale _ _ _ _ (by decide) (by decide),
      transformedCorner_scale _ _ _ _ le_rfl (by decide),
      transformedCorner_scale _ _ _ _ (by decide) (by decide)]
    unfold msAverageRasterResampler.pixel
    rw [if_neg (by decide)]
    dsimp only
    rw [msAverageSample_unsupported _ _ _ _ _ _ _ _ (by decide) (by decide) (by decide)
      (by decide) (by decide)
      (by norm_num [MAX, MIN, castInt, toInt32, trunc, rawImage])
      (by norm_num [MAX, MIN, castInt, toInt32, trunc, rawImage])]

/-- The two loops of `msAverageSample` are one loop over `msAverageSample.cells`, with a
call of `msSourceSample` at each cell. -/
theorem msAverageSample_eq_cells (gd : GdLib) (psSrcImage : imageObj)
    (dfXMin dfYMin dfXMax dfYMax : ℚ) (offsite : colorObj) (padfPixelSum : Int → ℚ) :
    msAverageSample gd psSrcImage dfXMin dfYMin dfXMax dfYMax offsite padfPixelSum
      = ((msAverageSample.cells dfXMin dfYMin dfXMax dfYMax).foldlM
          (fun (st : (Int → ℚ) × ℚ × ℚ) (c : Int × Int) =>
            (msSourceSample gd psSrcImage c.2 c.1 st.1
              ((MIN ((c.2 : ℚ) + 1) dfXMax - MAX (c.2 : ℚ) dfXMin)
                * (MIN ((c.1 : ℚ) + 1) dfYMax - MAX (c.1 : ℚ) dfYMin)) st.2.1 offsite).map
              fun r => (r.1, r.2,
                st.2.2 + (MIN ((c.2 : ℚ) + 1) dfXMax - MAX (c.2 : ℚ) dfXMin)
                  * (MIN ((c.1 : ℚ) + 1) dfYMax - MAX (c.1 : ℚ) dfYMin)))
          (padfPixelSum, 0, 0)).map fun st =>
            if st.2.1 = 0 then
              (MS_FALSE, st.1, 0)
            else
              (MS_TRUE, fun i => if 0 ≤ i ∧ i < 4 then st.1 i / st.2.1 else st.1 i,
                st.2.1 / st.2.2) := by
  unfold msAverageSample msAverageSample.cells
  dsimp only
  rw [foldlM_nested]

/-- The pixel loop of `msAverageRasterResampler` hands the footprint
`msAverageRasterResampler.footprint` to `msAverageSample` when no corner failed. -/
theorem msAverageRasterResampler_pixel_eq_footprint (gd : GdLib) (psSrcImage : imageObj)
    (offsite : colorObj) (panCMap : Int → Int) (nDstX nDstY : Int) (p1 p1n p2 p2n : Pt)
    (s : imageObj)
    (h : ¬ (p1.success = 0 ∨ p1n.success = 0 ∨ p2.success = 0 ∨ p2n.success = 0)) :
    msAverageRasterResampler.pixel gd psSrcImage offsite panCMap nDstX nDstY p1 p1n p2 p2n s
      = match msAverageSample gd psSrcImage
          (msAverageRasterResampler.footprint psSrcImage p1 p1n p2 p2n).1
          (msAverageRasterResampler.footprint psSrcImage p1 p1n p2 p2n).2.1
          (msAverageRasterResampler.footprint psSrcImage p1 p1n p2 p2n).2.2.1
          (msAverageRasterResampler.footprint psSrcImage p1 p1n p2 p2n).2.2.2
          offsite (fun _ => 0) with
        | none => none
        | some (ret, padfPixelSum, dfAlpha01) =>
          if ret = 0 then some s
          else some (writeResampledPixel gd psSrcImage panCMap nDstX nDstY padfPixelSum
            dfAlpha01 s) := by
  unfold msAverageRasterResampler.pixel msAverageRasterResampler.footprint
  rw [if_neg h]

theorem castInt_of_nonneg (d : ℚ) (h0 : 0 ≤ d) (h : d < 2147483648) :
    castInt d = ⌊d⌋ := by
  unfold castInt trunc
  rw [if_pos h0]
  apply toInt32_of_range
  · have : (0 : Int) ≤ ⌊d⌋ := Int.floor_nonneg.mpr h0
    omega
  · exact Int.floor_lt.mpr (by exact_mod_cast h)

/-- For a footprint whose lower bounds are below 2^31 and whose upper bounds are above
-2^31, every cell that `msAverageSample` runs over lies inside the source raster. -/
theorem msAverageSample_cells_in_bounds (psSrcImage : imageObj) (p1 p1n p2 p2n : Pt)
    (hW : psSrcImage.width < 2147483648) (hH : psSrcImage.height < 2147483648)
    (hx1 : (msAverageRasterResampler.footprint psSrcImage p1 p1n p2 p2n).1 < 2147483648)
    (hy1 : (msAverageRasterResampler.footprint psSrcImage p1 p1n p2 p2n).2.1 < 2147483648)
    (hx2 : -2147483648 < (msAverageRasterResampler.footprint psSrcImage p1 p1n p2 p2n).2.2.1)
    (hy2 : -2147483648 < (msAverageRasterResampler.footprint psSrcImage p1 p1n p2 p2n).2.2.2)
    (c : Int × Int)
    (hc : c ∈ msAverageSample.cells
      (msAverageRasterResampler.footprint psSrcImage p1 p1n p2 p2n).1
      (msAverageRasterResampler.footprint psSrcImage p1 p1n p2 p2n).2.1
      (msAverageRasterResampler.footprint psSrcImage p1 p1n p2 p2n).2.2.1
      (msAverageRasterResampler.footprint psSrcImage p1 p1n p2 p2n).2.2.2) :
    (0 ≤ c.2 ∧ c.2 < psSrcImage.width) ∧ (0 ≤ c.1 ∧ c.1 < psSrcImage.height) := by
  have lower : ∀ a : ℚ, 0 ≤ MAX a 0 := by
    intro a
    unfold MAX
    split_ifs with h
    · exact le_of_lt h
    · exact le_refl _
  have upper : ∀ (a : ℚ) (n : Int), MIN a (n : ℚ) ≤ (n : ℚ) := by
    intro a n
    unfold MIN
    split_ifs with h
    · exact le_of_lt h
    · exact le_refl _
  have hceil : ∀ (d : ℚ) (n : Int), n < 2147483648 → d ≤ (n : ℚ) → -2147483648 < d →
      castInt ((⌈d⌉ : Int) : ℚ) ≤ n := by
    intro d n hn hd hlow
    have h1 : ⌈d⌉ ≤ n := Int.ceil_le.mpr hd
    have h2 : -2147483648 ≤ ⌈d⌉ := by
      have : ((-2147483648 : Int) : ℚ) < d := by exact_mod_cast hlow
      have := Int.lt_ceil.mpr this
      omega
    rw [castInt_intCast _ h2 (by omega)]
    exact h1
  unfold msAverageSample.cells at hc
  obtain ⟨hy, hx⟩ := List.mem_product.mp hc
  rw [mem_fromTo] at hy hx
  unfold msAverageRasterResampler.footprint at hx hy hx1 hy1 hx2 hy2
  dsimp only at hx hy hx1 hy1 hx2 hy2
  rw [castInt_of_nonneg _ (lower _) hx1] at hx
  rw [castInt_of_nonneg _ (lower _) hy1] at hy
  have bx := hceil _ _ hW (upper _ _) hx2
  have byy := hceil _ _ hH (upper _ _) hy2
  have fx := Int.floor_nonneg.mpr (lower (MIN (MIN p1.x p1n.x) (MIN p2.x p2n.x)))
  have fy := Int.floor_nonneg.mpr (lower (MIN (MIN p1.y p1n.y) (MIN p2.y p2n.y)))
  refine ⟨⟨?_, ?_⟩, ⟨?_, ?_⟩⟩ <;> omega

/-- Under `constTransformer x y` every corner of a row maps to `(x, y)`. -/
theorem transformedCorner_const (x y : ℚ) (W Y X : Int) (h0 : 0 ≤ X) (h : X ≤ W) :
    transformedCorner (constTransformer x y) W Y X = ⟨x, y, 1⟩ := by
  unfold transformedCorner constTransformer
  dsimp only
  rw [List.getD_eq_getElem?_getD, List.getElem?_map, List.getElem?_map]
  have hlt : X.toNat < (upTo (W + 1)).length := by
    rw [length_upTo]
    omega
  rw [List.getElem?_eq_getElem hlt]
  rfl

/-- C21 (the code at a failing input): a 1 x 1 source and a transformer that sends every
corner to `(2147483648, 0.5)`, flagged successful. For the one destination pixel the
footprint handed to `msAverageSample` is the clipped bounding box `dfXMin = 2147483648`,
`dfYMin = 0.5`, `dfXMax = 1`, `dfYMax = 0.5`; `(int) dfXMin` is -2147483648, so the
column loop starts at `iX = -2147483648` and the first cell that `msSourceSample` reads is
`(iX, iY) = (-2147483648, 0)`, outside the source. -/
theorem msAverageSample_reads_negative_column :
    transformedCorner (constTransformer 2147483648 (1 / 2)) 1 0 0
      = ⟨2147483648, 1 / 2, 1⟩ ∧
    msAverageRasterResampler.footprint (rawImage 1 1 ImageMode.BYTE 1 fun _ => 7)
        ⟨2147483648, 1 / 2, 1⟩ ⟨2147483648, 1 / 2, 1⟩ ⟨2147483648, 1 / 2, 1⟩
        ⟨2147483648, 1 / 2, 1⟩ = (2147483648, 1 / 2, 1, 1 / 2) ∧
    (msAverageSample.cells 2147483648 (1 / 2) 1 (1 / 2)).head? = some (0, -2147483648) := by
  refine ⟨transformedCorner_const _ _ _ _ _ le_rfl (by decide), ?_, ?_⟩
  · norm_num [msAverageRasterResampler.footprint, MAX, MIN, rawImage]
  · have hx : castInt 2147483648 = -2147483648 := by norm_num [castInt, toInt32, trunc]
    have hy : castInt (1 / 2) = 0 := by norm_num [castInt, toInt32, trunc]
    have hx2 : castInt ((⌈(1 : ℚ)⌉ : Int) : ℚ) = 1 := by
      norm_num [castInt, toInt32, trunc]
    have hy2 : castInt ((⌈(1 / 2 : ℚ)⌉ : Int) : ℚ) = 1 := by
      have : ⌈(1 / 2 : ℚ)⌉ = 1 := by
        rw [Int.ceil_eq_iff]
        norm_num
      rw [this]
      norm_num [castInt, toInt32, trunc]
    unfold msAverageSample.cells
    rw [hx, hy, hx2, hy2]
    obtain ⟨rows, hrows⟩ := fromTo_pos 0 1 (by decide)
    obtain ⟨cols, hcols⟩ := fromTo_pos (-2147483648) 1 (by decide)
    rw [hrows, hcols, List.product_cons]
    rfl

theorem msTransformMapToSource_forRatio_from {σ : Type} (body : σ → ℚ → Option σ) :
    ∀ (j k : Nat), k + j = 11 → ∀ (m : Nat) (t : σ), j < m →
      msTransformMapToSource.forRatio body m ((k : ℚ) / 10) t
        = ((List.range' k j).map fun (i : Nat) => (i : ℚ) / 10).foldlM body t := by
  intro j
  induction j with
  | zero =>
    intro k hk m t hm
    obtain ⟨m', rfl⟩ : ∃ m', m = m' + 1 := ⟨m - 1, by omega⟩
    have hk11 : k = 11 := by omega
    subst hk11
    rw [msTransformMapToSource.forRatio, if_neg (by norm_num)]
    rfl
  | succ j ih =>
    intro k hk m t hm
    obtain ⟨m', rfl⟩ : ∃ m', m = m' + 1 := ⟨m - 1, by omega⟩
    have hk10 : (k : ℚ) ≤ 10 := by
      have : k ≤ 10 := by omega
      exact_mod_cast this
    have hle : (k : ℚ) / 10 ≤ 1001 / 1000 := by linarith
    have hnext : (k : ℚ) / 10 + 1 / (EDGE_STEPS : ℚ) = ((k + 1 : Nat) : ℚ) / 10 := by
      norm_num [EDGE_STEPS]
      ring
    rw [msTransformMapToSource.forRatio, if_pos hle, hnext]
    rw [List.range'_succ, List.map_cons, List.foldlM_cons]
    have := ih (k + 1) (by omega) m'
    cases hb : body t ((k : ℚ) / 10) with
    | none => rfl
    | some t' =>
      rw [Option.some_bind]
      exact this t' (by omega)

/-- The values that `dfRatio` takes in the loops of `msTransformMapToSource`: `k / 10`
for `k = 0, .., 10`; the next value, 1.1, is above 1.001. -/
theorem msTransformMapToSource_forRatio_eq {σ : Type} (body : σ → ℚ → Option σ) (n : Nat)
    (s : σ) :
    msTransformMapToSource.forRatio body (n + 12) 0 s
      = ((List.range 11).map fun (k : Nat) => (k : ℚ) / 10).foldlM body s := by
  have := msTransformMapToSource_forRatio_from body 11 0 rfl (n + 12) s (by omega)
  rw [List.range_eq_range']
  simpa using this

/-- A loop that appends the `k` samples `f r` to the arrays in each round, after the
assertion that the arrays are not full, when the assertion holds in every round. -/
theorem foldlM_append_assert (f : ℚ → List (ℚ × ℚ)) (k : Nat)
    (hk : ∀ r, (f r).length = k) :
    ∀ (l : List ℚ) (acc : List (ℚ × ℚ)),
      (l ≠ [] → acc.length + k * (l.length - 1) < 121) →
      l.foldlM
        (fun (xy : List (ℚ × ℚ)) (r : ℚ) =>
          if (xy.length : Int) < MAX_SIZE then some (xy ++ f r) else none) acc
        = some (acc ++ (l.map f).flatten) := by
  intro l
  induction l with
  | nil =>
    intro acc _
    simp
  | cons r rest ih =>
    intro acc h
    have h' := h (List.cons_ne_nil _ _)
    rw [List.length_cons, Nat.add_sub_cancel] at h'
    have hlt : (acc.length : Int) < MAX_SIZE := by
      have : acc.length < 121 := lt_of_le_of_lt (Nat.le_add_right _ _) h'
      have e : MAX_SIZE = 121 := by decide
      rw [e]
      exact_mod_cast this
    rw [List.foldlM_cons, if_pos hlt]
    simp only [Option.bind_eq_bind, Option.some_bind]
    rw [ih (acc ++ f r) (by
      intro hne
      rw [List.length_append, hk]
      have : 1 ≤ rest.length := Nat.pos_of_ne_zero (fun e => hne (List.length_eq_zero.mp e))
      have e2 : k * rest.length = k * (rest.length - 1) + k := by
        have : rest.length = (rest.length - 1) + 1 := by omega
        rw [this, Nat.mul_add, Nat.mul_one]
        simp
      omega)]
    simp

/-- A loop whose round appends `k` samples whenever the arrays have room for them, run
on arrays that have room for all rounds. -/
theorem foldlM_append_rows (g : List (ℚ × ℚ) → ℚ → Option (List (ℚ × ℚ)))
    (f : ℚ → List (ℚ × ℚ)) (k : Nat) (hk : ∀ r, (f r).length = k)
    (hg : ∀ acc r, acc.length + k ≤ 121 → g acc r = some (acc ++ f r)) :
    ∀ (l : List ℚ) (acc : List (ℚ × ℚ)), acc.length + k * l.length ≤ 121 →
      l.foldlM g acc = some (acc ++ (l.map f).flatten) := by
  intro l
  induction l with
  | nil =>
    intro acc _
    simp
  | cons r rest ih =>
    intro acc h
    rw [List.length_cons, Nat.mul_add, Nat.mul_one] at h
    rw [List.foldlM_cons, hg acc r (by omega)]
    simp only [Option.bind_eq_bind, Option.some_bind]
    rw [ih (acc ++ f r) (by rw [List.length_append, hk]; omega)]
    simp

theorem flatten_map_singleton {α β : Type} (g : α → β) (l : List α) :
    (l.map fun a => [g a]).flatten = l.map g := by
  induction l with
  | nil => rfl
  | cons a rest ih =>
    rw [List.map_cons, List.flatten_cons, ih]
    rfl

theorem msTransformMapToSource_fuel : MAX_SIZE.toNat + 1 = 110 + 12 := by decide

theorem msTransformMapToSource_length_ratios : msTransformMapToSource.ratios.length = 11 := by
  simp [msTransformMapToSource.ratios]

/-- The samples of the edge strategy: for each of the eleven ratios one point on each of
the four edges of the destination; no assertion fails. -/
theorem msTransformMapToSource_samples_edge (nDstXSize nDstYSize : Int) :
    msTransformMapToSource.samples nDstXSize nDstYSize 0
      = some ((msTransformMapToSource.ratios.map fun (dfRatio : ℚ) =>
          [(dfRatio * (nDstXSize : ℚ), (0 : ℚ)), (dfRatio * nDstXSize, (nDstYSize : ℚ)),
            (0, dfRatio * nDstYSize), ((nDstXSize : ℚ), dfRatio * nDstYSize)]).flatten) := by
  unfold msTransformMapToSource.samples
  rw [if_pos rfl, msTransformMapToSource_fuel, msTransformMapToSource_forRatio_eq]
  have := foldlM_append_assert
    (fun (dfRatio : ℚ) => [(dfRatio * (nDstXSize : ℚ), (0 : ℚ)),
      (dfRatio * nDstXSize, (nDstYSize : ℚ)),
      (0, dfRatio * nDstYSize), ((nDstXSize : ℚ), dfRatio * nDstYSize)]) 4 (fun _ => rfl)
    msTransformMapToSource.ratios [] (by
      intro _
      rw [msTransformMapToSource_length_ratios]
      decide)
  rw [List.nil_append] at this
  exact this

/-- The samples of the grid strategy: the eleven by eleven grid of ratios, row by row; no
assertion fails. -/
theorem msTransformMapToSource_samples_grid (nDstXSize nDstYSize bUseGrid : Int)
    (h : bUseGrid ≠ 0) :
    msTransformMapToSource.samples nDstXSize nDstYSize bUseGrid
      = some ((msTransformMapToSource.ratios.map fun (dfRatio : ℚ) =>
          msTransformMapToSource.ratios.map fun (dfRatio2 : ℚ) =>
            (dfRatio2 * (nDstXSize : ℚ), dfRatio * (nDstYSize : ℚ))).flatten) := by
  unfold msTransformMapToSource.samples
  rw [if_neg h, msTransformMapToSource_fuel, msTransformMapToSource_forRatio_eq]
  have := foldlM_append_rows
    (fun (xy : List (ℚ × ℚ)) (dfRatio : ℚ) =>
      msTransformMapToSource.forRatio
        (fun (xy : List (ℚ × ℚ)) (dfRatio2 : ℚ) =>
          if (xy.length : Int) < MAX_SIZE then
            some (xy ++ [(dfRatio2 * nDstXSize, dfRatio * nDstYSize)])
          else
            none)
        (110 + 12) 0 xy)
    (fun (dfRatio : ℚ) => msTransformMapToSource.ratios.map fun (dfRatio2 : ℚ) =>
      (dfRatio2 * (nDstXSize : ℚ), dfRatio * (nDstYSize : ℚ))) 11
    (fun _ => by rw [List.length_map, msTransformMapToSource_length_ratios])
    (by
      intro acc r hacc
      dsimp only
      rw [msTransformMapToSource_forRatio_eq]
      have := foldlM_append_assert
        (fun (dfRatio2 : ℚ) => [(dfRatio2 * (nDstXSize : ℚ), r * (nDstYSize : ℚ))]) 1
        (fun _ => rfl) msTransformMapToSource.ratios acc (by
          intro _
          rw [msTransformMapToSource_length_ratios]
          omega)
      unfold msTransformMapToSource.ratios at this ⊢
      rw [this, flatten_map_singleton])
    msTransformMapToSource.ratios [] (by
      rw [msTransformMapToSource_length_ratios]
      decide)
  rw [List.nil_append] at this
  exact this

theorem MIN_le_left (a b : ℚ) : MIN a b ≤ a := by
  unfold MIN
  split_ifs with h
  · exact le_refl _
  · exact not_lt.mp h

theorem MIN_le_right (a b : ℚ) : MIN a b ≤ b := by
  unfold MIN
  split_ifs with h
  · exact le_of_lt h
  · exact le_refl _

theorem le_MAX_left (a b : ℚ) : a ≤ MAX a b := by
  unfold MAX
  split_ifs with h
  · exact le_refl _
  · exact not_lt.mp h

theorem le_MAX_right (a b : ℚ) : b ≤ MAX a b := by
  unfold MAX
  split_ifs with h
  · exact le_of_lt h
  · exact le_refl _

theorem MIN_eq_or (a b : ℚ) : MIN a b = a ∨ MIN a b = b := by
  unfold MIN
  split_ifs
  · exact Or.inl rfl
  · exact Or.inr rfl

theorem MAX_eq_or (a b : ℚ) : MAX a b = a ∨ MAX a b = b := by
  unfold MAX
  split_ifs
  · exact Or.inl rfl
  · exact Or.inr rfl

theorem IsBoundingBox_singleton (q : ℚ × ℚ) :
    IsBoundingBox { minx := q.1, maxx := q.1, miny := q.2, maxy := q.2 } [q] := by
  refine ⟨?_, ⟨q, List.mem_singleton_self _, rfl⟩, ⟨q, List.mem_singleton_self _, rfl⟩,
    ⟨q, List.mem_singleton_self _, rfl⟩, ⟨q, List.mem_singleton_self _, rfl⟩⟩
  intro p hp
  rw [List.mem_singleton] at hp
  subst hp
  exact ⟨le_refl _, le_refl _, le_refl _, le_refl _⟩

theorem IsBoundingBox_append (e : rectObj) (L : List (ℚ × ℚ)) (q : ℚ × ℚ)
    (h : IsBoundingBox e L) :
    IsBoundingBox
      { minx := MIN e.minx q.1, maxx := MAX e.maxx q.1
        miny := MIN e.miny q.2, maxy := MAX e.maxy q.2 } (L ++ [q]) := by
  obtain ⟨hin, ⟨a, ha, ha'⟩, ⟨b, hb, hb'⟩, ⟨c, hc, hc'⟩, ⟨d, hd, hd'⟩⟩ := h
  have hq : q ∈ L ++ [q] := List.mem_append_right _ (List.mem_singleton_self _)
  refine ⟨?_, ?_, ?_, ?_, ?_⟩
  · intro p hp
    dsimp only
    rcases List.mem_append.mp hp with hp | hp
    · obtain ⟨h1, h2, h3, h4⟩ := hin p hp
      exact ⟨le_trans (MIN_le_left _ _) h1, le_trans h2 (le_MAX_left _ _),
        le_trans (MIN_le_left _ _) h3, le_trans h4 (le_MAX_left _ _)⟩
    · rw [List.mem_singleton] at hp
      subst hp
      exact ⟨MIN_le_right _ _, le_MAX_right _ _, MIN_le_right _ _, le_MAX_right _ _⟩
  · rcases MIN_eq_or e.minx q.1 with h | h
    · exact ⟨a, List.mem_append_left _ ha, by rw [ha', h]⟩
    · exact ⟨q, hq, h.symm⟩
  · rcases MAX_eq_or e.maxx q.1 with h | h
    · exact ⟨b, List.mem_append_left _ hb, by rw [hb', h]⟩
    · exact ⟨q, hq, h.symm⟩
  · rcases MIN_eq_or e.miny q.2 with h | h
    · exact ⟨c, List.mem_append_left _ hc, by rw [hc', h]⟩
    · exact ⟨q, hq, h.symm⟩
  · rcases MAX_eq_or e.maxy q.2 with h | h
    · exact ⟨d, List.mem_append_left _ hd, by rw [hd', h]⟩
    · exact ⟨q, hq, h.symm⟩

/-- What the collecting loop of `msTransformMapToSource` leaves: `nFailures` is positive
exactly when a sample failed; `bOutInit` is 0 with the extent untouched when every sample
failed, and 1 with the extent the bounding box of the successful samples otherwise. -/
theorem msTransformMapToSource_collect_spec (proj : ProjLib)
    (adfInvSrcGeoTransform : GeoTransform) (psSrcExtent : rectObj) :
    ∀ xy : List (ℚ × ℚ),
      (0 ≤ (msTransformMapToSource.collect proj adfInvSrcGeoTransform xy psSrcExtent).2.2
        ∧ ((msTransformMapToSource.collect proj adfInvSrcGeoTransform xy psSrcExtent).2.2 > 0
          ↔ ∃ p ∈ xy, p.1 = proj.HUGE_VAL ∨ p.2 = proj.HUGE_VAL))
      ∧ (((msTransformMapToSource.collect proj adfInvSrcGeoTransform xy psSrcExtent).2.1 = 0
          ∧ (msTransformMapToSource.collect proj adfInvSrcGeoTransform xy psSrcExtent).1
            = psSrcExtent
          ∧ ∀ p ∈ xy, p.1 = proj.HUGE_VAL ∨ p.2 = proj.HUGE_VAL)
        ∨ ((msTransformMapToSource.collect proj adfInvSrcGeoTransform xy psSrcExtent).2.1 = 1
          ∧ IsBoundingBox
            (msTransformMapToSource.collect proj adfInvSrcGeoTransform xy psSrcExtent).1
            (msTransformMapToSource.successes proj adfInvSrcGeoTransform xy))) := by
  intro xy
  induction xy using List.reverseRecOn with
  | nil =>
    refine ⟨⟨le_refl _, ?_⟩, Or.inl ⟨rfl, rfl, fun p hp => absurd hp (List.not_mem_nil _)⟩⟩
    simp [msTransformMapToSource.collect]
  | append_singleton l p ih =>
    obtain ⟨⟨hn0, hn⟩, hcase⟩ := ih
    have hstep : msTransformMapToSource.collect proj adfInvSrcGeoTransform (l ++ [p])
        psSrcExtent
        = (fun (st : rectObj × Int × Int) (p : ℚ × ℚ) =>
            if p.1 = proj.HUGE_VAL ∨ p.2 = proj.HUGE_VAL then
              (st.1, st.2.1, st.2.2 + 1)
            else
              if st.2.1 = 0 then
                ({ minx := adfInvSrcGeoTransform.a0 + p.1 * adfInvSrcGeoTransform.a1
                      + p.2 * adfInvSrcGeoTransform.a2
                   maxx := adfInvSrcGeoTransform.a0 + p.1 * adfInvSrcGeoTransform.a1
                      + p.2 * adfInvSrcGeoTransform.a2
                   miny := adfInvSrcGeoTransform.a3 + p.1 * adfInvSrcGeoTransform.a4
                      + p.2 * adfInvSrcGeoTransform.a5
                   maxy := adfInvSrcGeoTransform.a3 + p.1 * adfInvSrcGeoTransform.a4
                      + p.2 * adfInvSrcGeoTransform.a5 }, 1, st.2.2)
              else
                ({ minx := MIN st.1.minx (adfInvSrcGeoTransform.a0
                      + p.1 * adfInvSrcGeoTransform.a1 + p.2 * adfInvSrcGeoTransform.a2)
                   maxx := MAX st.1.maxx (adfInvSrcGeoTransform.a0
                      + p.1 * adfInvSrcGeoTransform.a1 + p.2 * adfInvSrcGeoTransform.a2)
                   miny := MIN st.1.miny (adfInvSrcGeoTransform.a3
                      + p.1 * adfInvSrcGeoTransform.a4 + p.2 * adfInvSrcGeoTransform.a5)
                   maxy := MAX st.1.maxy (adfInvSrcGeoTransform.a3
                      + p.1 * adfInvSrcGeoTransform.a4 + p.2 * adfInvSrcGeoTransform.a5) },
                  st.2.1, st.2.2))
          (msTransformMapToSource.collect proj adfInvSrcGeoTransform l psSrcExtent) p := by
      unfold msTransformMapToSource.collect
      rw [List.foldl_append]
      rfl
    rw [hstep]
    dsimp only
    by_cases hp : p.1 = proj.HUGE_VAL ∨ p.2 = proj.HUGE_VAL
    · rw [if_pos hp]
      dsimp only
      have hsucc : msTransformMapToSource.successes proj adfInvSrcGeoTransform (l ++ [p])
          = msTransformMapToSource.successes proj adfInvSrcGeoTransform l := by
        unfold msTransformMapToSource.successes
        rw [List.filter_append, List.filter_cons_of_neg (by
          simp only [decide_eq_true_eq, not_not]
          exact hp)]
        simp only [List.filter_nil, List.append_nil]
      refine ⟨⟨by omega, ?_⟩, ?_⟩
      · constructor
        · intro _
          exact ⟨p, List.mem_append_right _ (List.mem_singleton_self _), hp⟩
        · intro _
          omega
      · rcases hcase with ⟨h1, h2, h3⟩ | ⟨h1, h2⟩
        · refine Or.inl ⟨h1, h2, ?_⟩
          intro q hq
          rcases List.mem_append.mp hq with hq | hq
          · exact h3 q hq
          · rw [List.mem_singleton] at hq
            rw [hq]
            exact hp
        · rw [hsucc]
          exact Or.inr ⟨h1, h2⟩
    · rw [if_neg hp]
      have hsucc : msTransformMapToSource.successes proj adfInvSrcGeoTransform (l ++ [p])
          = msTransformMapToSource.successes proj adfInvSrcGeoTransform l
            ++ [(adfInvSrcGeoTransform.a0 + p.1 * adfInvSrcGeoTransform.a1
                + p.2 * adfInvSrcGeoTransform.a2,
              adfInvSrcGeoTransform.a3 + p.1 * adfInvSrcGeoTransform.a4
                + p.2 * adfInvSrcGeoTransform.a5)] := by
        unfold msTransformMapToSource.successes
        rw [List.filter_append, List.filter_cons_of_pos (by
          simp only [decide_eq_true_eq]
          exact hp)]
        simp only [List.filter_nil, List.map_append, List.map_cons, List.map_nil]
      have hfail : (∃ q ∈ l ++ [p], q.1 = proj.HUGE_VAL ∨ q.2 = proj.HUGE_VAL)
          ↔ ∃ q ∈ l, q.1 = proj.HUGE_VAL ∨ q.2 = proj.HUGE_VAL := by
        constructor
        · rintro ⟨q, hq, hf⟩
          rcases List.mem_append.mp hq with hq | hq
          · exact ⟨q, hq, hf⟩
          · rw [List.mem_singleton] at hq
            rw [hq] at hf
            exact absurd hf hp
        · rintro ⟨q, hq, hf⟩
          exact ⟨q, List.mem_append_left _ hq, hf⟩
      rcases hcase with ⟨h1, h2, h3⟩ | ⟨h1, h2⟩
      · rw [if_pos h1]
        dsimp only
        refine ⟨⟨hn0, by rw [hfail]; exact hn⟩, Or.inr ⟨rfl, ?_⟩⟩
        have hnil : msTransformMapToSource.successes proj adfInvSrcGeoTransform l = [] := by
          unfold msTransformMapToSource.successes
          rw [List.map_eq_nil_iff, List.filter_eq_nil_iff]
          intro q hq
          simp only [decide_eq_true_eq, not_not]
          exact h3 q hq
        rw [hsucc, hnil, List.nil_append]
        exact IsBoundingBox_singleton _
      · rw [if_neg (by rw [h1]; decide)]
        dsimp only
        refine ⟨⟨hn0, by rw [hfail]; exact hn⟩, Or.inr ⟨h1, ?_⟩⟩
        rw [hsucc]
        exact IsBoundingBox_append _ _ _ h2

/-- The function `msTransformMapToSource` in grid mode, after its samples are known: no
assertion fails and there is no further call. -/
theorem msTransformMapToSource_grid (proj : ProjLib) (pj_is_latlong : Nat → Bool)
    (nDstXSize nDstYSize : Int) (adfDstGeoTransform : GeoTransform)
    (psDstProj : projectionObj) (nSrcXSize nSrcYSize : Int)
    (adfInvSrcGeoTransform : GeoTransform) (psSrcProj : projectionObj)
    (psSrcExtent : rectObj) (bUseGrid : Int) (hg : bUseGrid ≠ 0) :
    msTransformMapToSource proj pj_is_latlong nDstXSize nDstYSize adfDstGeoTransform
        psDstProj nSrcXSize nSrcYSize adfInvSrcGeoTransform psSrcProj psSrcExtent bUseGrid
      = match (msTransformMapToSource.samples nDstXSize nDstYSize bUseGrid).bind
          (msTransformMapToSource.project proj pj_is_latlong adfDstGeoTransform psDstProj
            psSrcProj) with
        | none => some (MS_FALSE, psSrcExtent)
        | some xy =>
          if (msTransformMapToSource.collect proj adfInvSrcGeoTransform xy
              psSrcExtent).2.1 = 0 then
            some (MS_FALSE,
              (msTransformMapToSource.collect proj adfInvSrcGeoTransform xy psSrcExtent).1)
          else if (msTransformMapToSource.collect proj adfInvSrcGeoTransform xy
              psSrcExtent).2.2 > 0 then
            some (MS_TRUE,
              { minx := MAX
                  ((msTransformMapToSource.collect proj adfInvSrcGeoTransform xy
                      psSrcExtent).1.minx
                    - (((castInt
                      ((msTransformMapToSource.collect proj adfInvSrcGeoTransform xy
                          psSrcExtent).1.maxx
                        - (msTransformMapToSource.collect proj adfInvSrcGeoTransform xy
                          psSrcExtent).1.minx)).tdiv EDGE_STEPS + 1 : Int) : ℚ)) 0
                miny := MAX
                  ((msTransformMapToSource.collect proj adfInvSrcGeoTransform xy
                      psSrcExtent).1.miny
                    - (((castInt
                      ((msTransformMapToSource.collect proj adfInvSrcGeoTransform xy
                          psSrcExtent).1.maxy
                        - (msTransformMapToSource.collect proj adfInvSrcGeoTransform xy
                          psSrcExtent).1.miny)).tdiv EDGE_STEPS + 1 : Int) : ℚ)) 0
                maxx := MIN
                  ((msTransformMapToSource.collect proj adfInvSrcGeoTransform xy
                      psSrcExtent).1.maxx
                    + (((castInt
                      ((msTransformMapToSource.collect proj adfInvSrcGeoTransform xy
                          psSrcExtent).1.maxx
                        - (msTransformMapToSource.collect proj adfInvSrcGeoTransform xy
                          psSrcExtent).1.minx)).tdiv EDGE_STEPS + 1 : Int) : ℚ))
                  (nSrcXSize : ℚ)
                maxy := MIN
                  ((msTransformMapToSource.collect proj adfInvSrcGeoTransform xy
                      psSrcExtent).1.maxy
                    + (((castInt
                      ((msTransformMapToSource.collect proj adfInvSrcGeoTransform xy
                          psSrcExtent).1.maxy
                        - (msTransformMapToSource.collect proj adfInvSrcGeoTransform xy
                          psSrcExtent).1.miny)).tdiv EDGE_STEPS + 1 : Int) : ℚ))
                  (nSrcYSize : ℚ) })
          else
            some (MS_TRUE,
              (msTransformMapToSource.collect proj adfInvSrcGeoTransform xy
                psSrcExtent).1) := by
  rw [msTransformMapToSource, msTransformMapToSource_samples_grid _ _ _ hg]
  dsimp only
  rw [Option.some_bind]
  cases hp : msTransformMapToSource.project proj pj_is_latlong adfDstGeoTransform psDstProj
      psSrcProj ((msTransformMapToSource.ratios.map fun (dfRatio : ℚ) =>
        msTransformMapToSource.ratios.map fun (dfRatio2 : ℚ) =>
          (dfRatio2 * (nDstXSize : ℚ), dfRatio * (nDstYSize : ℚ))).flatten) with
  | none => rfl
  | some xy =>
    dsimp only
    rw [dif_neg (fun h => hg h.1)]

/-- What `msTransformMapToSource` returns in grid mode when a sample failed and a sample
succeeded: the bounding box of the successful samples, grown and clamped. -/
theorem msTransformMapToSource_grid_grown (proj : ProjLib) (pj_is_latlong : Nat → Bool)
    (nDstXSize nDstYSize : Int) (adfDstGeoTransform : GeoTransform)
    (psDstProj : projectionObj) (nSrcXSize nSrcYSize : Int)
    (adfInvSrcGeoTransform : GeoTransform) (psSrcProj : projectionObj)
    (psSrcExtent : rectObj) (bUseGrid : Int) (hg : bUseGrid ≠ 0) (xy : List (ℚ × ℚ))
    (hxy : (msTransformMapToSource.samples nDstXSize nDstYSize bUseGrid).bind
        (msTransformMapToSource.project proj pj_is_latlong adfDstGeoTransform psDstProj
          psSrcProj) = some xy)
    (hfail : ∃ p ∈ xy, p.1 = proj.HUGE_VAL ∨ p.2 = proj.HUGE_VAL)
    (hsucc : ∃ p ∈ xy, ¬ (p.1 = proj.HUGE_VAL ∨ p.2 = proj.HUGE_VAL)) :
    ∃ bb : rectObj,
      IsBoundingBox bb (msTransformMapToSource.successes proj adfInvSrcGeoTransform xy)
      ∧ msTransformMapToSource proj pj_is_latlong nDstXSize nDstYSize adfDstGeoTransform
          psDstProj nSrcXSize nSrcYSize adfInvSrcGeoTransform psSrcProj psSrcExtent bUseGrid
        = some (MS_TRUE,
            { minx := MAX (bb.minx
                - (((castInt (bb.maxx - bb.minx)).tdiv EDGE_STEPS + 1 : Int) : ℚ)) 0
              miny := MAX (bb.miny
                - (((castInt (bb.maxy - bb.miny)).tdiv EDGE_STEPS + 1 : Int) : ℚ)) 0
              maxx := MIN (bb.maxx
                + (((castInt (bb.maxx - bb.minx)).tdiv EDGE_STEPS + 1 : Int) : ℚ))
                (nSrcXSize : ℚ)
              maxy := MIN (bb.maxy
                + (((castInt (bb.maxy - bb.miny)).tdiv EDGE_STEPS + 1 : Int) : ℚ))
                (nSrcYSize : ℚ) }) := by
  rw [msTransformMapToSource_grid _ _ _ _ _ _ _ _ _ _ _ _ hg, hxy]
  dsimp only
  obtain ⟨⟨_, hn⟩, hcase⟩ :=
    msTransformMapToSource_collect_spec proj adfInvSrcGeoTransform psSrcExtent xy
  rcases hcase with ⟨_, _, hall⟩ | ⟨h1, hbb⟩
  · obtain ⟨p, hp, hnp⟩ := hsucc
    exact absurd (hall p hp) hnp
  · rw [if_neg (by rw [h1]; exact one_ne_zero), if_pos (hn.mpr hfail)]
    exact ⟨_, hbb, rfl⟩

/-- The CRS conversion step of `msTransformMapToSource` under `leftEdgeProj` and the
identity destination geotransform. -/
theorem msTransformMapToSource_project_leftEdge (L : List (ℚ × ℚ)) :
    msTransformMapToSource.project leftEdgeProj (fun _ => false) ⟨0, 1, 0, 0, 0, 1⟩ ⟨1⟩ ⟨2⟩ L
      = some (L.map fun (p : ℚ × ℚ) =>
          if p.1 = 0 then ((500 : ℚ), (500 : ℚ)) else ((10 : ℚ) ^ 400, (10 : ℚ) ^ 400)) := by
  unfold msTransformMapToSource.project
  simp [leftEdgeProj, List.map_map, Function.comp_def]

theorem msTransformMapToSource_ratios_zero : (0 : ℚ) ∈ msTransformMapToSource.ratios :=
  List.mem_map.mpr ⟨0, by decide, by norm_num⟩

theorem msTransformMapToSource_ratios_one : (1 : ℚ) ∈ msTransformMapToSource.ratios :=
  List.mem_map.mpr ⟨10, by decide, by norm_num⟩

/-- The grid samples of a 10 x 10 destination under `leftEdgeProj` and identity
geotransforms: the conversion succeeds as a call, a sample fails, a sample succeeds, and
every successful sample lies at `(500, 500)` in layer raster coordinates. -/
theorem msTransformMapToSource_leftEdge_samples :
    ∃ xy : List (ℚ × ℚ),
      (msTransformMapToSource.samples 10 10 1).bind
        (msTransformMapToSource.project leftEdgeProj (fun _ => false) ⟨0, 1, 0, 0, 0, 1⟩
          ⟨1⟩ ⟨2⟩) = some xy
      ∧ (∃ p ∈ xy, p.1 = leftEdgeProj.HUGE_VAL ∨ p.2 = leftEdgeProj.HUGE_VAL)
      ∧ (∃ p ∈ xy, ¬ (p.1 = leftEdgeProj.HUGE_VAL ∨ p.2 = leftEdgeProj.HUGE_VAL))
      ∧ ∀ q ∈ msTransformMapToSource.successes leftEdgeProj ⟨0, 1, 0, 0, 0, 1⟩ xy,
          q = (500, 500) := by
  have hH : leftEdgeProj.HUGE_VAL = (10 : ℚ) ^ 400 := rfl
  have h500 : ¬ ((500 : ℚ) = (10 : ℚ) ^ 400) := by norm_num
  have h00 : ((0 : ℚ), (0 : ℚ)) ∈ (msTransformMapToSource.ratios.map fun (dfRatio : ℚ) =>
      msTransformMapToSource.ratios.map fun (dfRatio2 : ℚ) =>
        (dfRatio2 * ((10 : Int) : ℚ), dfRatio * ((10 : Int) : ℚ))).flatten :=
    List.mem_flatten.mpr ⟨_, List.mem_map.mpr ⟨0, msTransformMapToSource_ratios_zero, rfl⟩,
      List.mem_map.mpr ⟨0, msTransformMapToSource_ratios_zero, by norm_num⟩⟩
  have h10 : ((10 : ℚ), (0 : ℚ)) ∈ (msTransformMapToSource.ratios.map fun (dfRatio : ℚ) =>
      msTransformMapToSource.ratios.map fun (dfRatio2 : ℚ) =>
        (dfRatio2 * ((10 : Int) : ℚ), dfRatio * ((10 : Int) : ℚ))).flatten :=
    List.mem_flatten.mpr ⟨_, List.mem_map.mpr ⟨0, msTransformMapToSource_ratios_zero, rfl⟩,
      List.mem_map.mpr ⟨1, msTransformMapToSource_ratios_one, by norm_num⟩⟩
  refine ⟨_, by rw [msTransformMapToSource_samples_grid 10 10 1 (by decide),
    Option.some_bind, msTransformMapToSource_project_leftEdge], ?_, ?_, ?_⟩
  · refine ⟨_, List.mem_map.mpr ⟨_, h10, rfl⟩, Or.inl ?_⟩
    rw [hH]
    norm_num
  · refine ⟨_, List.mem_map.mpr ⟨_, h00, rfl⟩, ?_⟩
    rw [hH]
    norm_num
  · intro q hq
    obtain ⟨p, hp, rfl⟩ := List.mem_map.mp hq
    obtain ⟨hp1, hp2⟩ := List.mem_filter.mp hp
    obtain ⟨g, _, rfl⟩ := List.mem_map.mp hp1
    by_cases hg0 : g.1 = 0
    · simp only [if_pos hg0]
      norm_num
    · exfalso
      simp only [if_neg hg0, hH] at hp2
      simp at hp2

/-- A bounding box is ordered: its lower bounds are not above its upper bounds. -/
theorem IsBoundingBox_ordered (e : rectObj) (L : List (ℚ × ℚ)) (h : IsBoundingBox e L) :
    e.minx ≤ e.maxx ∧ e.miny ≤ e.maxy := by
  obtain ⟨hin, ⟨q, hq, _⟩, _⟩ := h
  obtain ⟨a, b, c, d⟩ := hin q hq
  exact ⟨le_trans a b, le_trans c d⟩

/-- The bounding box of points that all coincide is that point. -/
theorem IsBoundingBox_const (e : rectObj) (L : List (ℚ × ℚ)) (c : ℚ × ℚ)
    (h : IsBoundingBox e L) (hc : ∀ q ∈ L, q = c) :
    e = { minx := c.1, miny := c.2, maxx := c.1, maxy := c.2 } := by
  obtain ⟨_, ⟨q1, hq1, e1⟩, ⟨q2, hq2, e2⟩, ⟨q3, hq3, e3⟩, ⟨q4, hq4, e4⟩⟩ := h
  rw [hc q1 hq1] at e1
  rw [hc q2 hq2] at e2
  rw [hc q3 hq3] at e3
  rw [hc q4 hq4] at e4
  cases e
  simp only at e1 e2 e3 e4
  rw [← e1, ← e2, ← e3, ← e4]

/-- The growth amount of `msTransformMapToSource` is at least 1 for a bounding box whose
side is below `2^31`. -/
theorem msTransformMapToSource_grow_pos (d : ℚ) (h0 : 0 ≤ d) (h : d < 2147483648) :
    (1 : ℚ) ≤ (((castInt d).tdiv EDGE_STEPS + 1 : Int) : ℚ) := by
  rw [castInt_of_nonneg d h0 h]
  have h1 : 0 ≤ (⌊d⌋).tdiv EDGE_STEPS :=
    Int.tdiv_nonneg (Int.floor_nonneg.mpr h0) (by decide)
  have h2 : (1 : Int) ≤ (⌊d⌋).tdiv EDGE_STEPS + 1 := by omega
  exact_mod_cast h2

/-- C22 (amended): in grid mode, whenever the CRS conversion of the samples succeeds as a
call, at least one sample fails and at least one succeeds, `msTransformMapToSource`
returns `MS_TRUE` with the bounding box of the successful samples, grown on each side by
`(int) width / 10 + 1` (resp. height) and clamped: the lower bounds only from below, at 0,
and the upper bounds only from above, at the source raster size. So `0 <= minx`,
`maxx <= srcWidth`, `0 <= miny` and `maxy <= srcHeight` always hold; the other four bounds
`minx <= srcWidth`, `0 <= maxx`, `miny <= srcHeight` and `0 <= maxy` hold when the
bounding box itself lies inside the source raster. -/
theorem msTransformMapToSource_grow_and_clamp (proj : ProjLib) (pj_is_latlong : Nat → Bool)
    (nDstXSize nDstYSize : Int) (adfDstGeoTransform : GeoTransform)
    (psDstProj : projectionObj) (nSrcXSize nSrcYSize : Int)
    (adfInvSrcGeoTransform : GeoTransform) (psSrcProj : projectionObj)
    (psSrcExtent : rectObj) (bUseGrid : Int) (hg : bUseGrid ≠ 0) (xy : List (ℚ × ℚ))
    (hxy : (msTransformMapToSource.samples nDstXSize nDstYSize bUseGrid).bind
        (msTransformMapToSource.project proj pj_is_latlong adfDstGeoTransform psDstProj
          psSrcProj) = some xy)
    (hfail : ∃ p ∈ xy, p.1 = proj.HUGE_VAL ∨ p.2 = proj.HUGE_VAL)
    (hsucc : ∃ p ∈ xy, ¬ (p.1 = proj.HUGE_VAL ∨ p.2 = proj.HUGE_VAL)) :
    ∃ bb ext : rectObj,
      IsBoundingBox bb (msTransformMapToSource.successes proj adfInvSrcGeoTransform xy)
      ∧ msTransformMapToSource proj pj_is_latlong nDstXSize nDstYSize adfDstGeoTransform
          psDstProj nSrcXSize nSrcYSize adfInvSrcGeoTransform psSrcProj psSrcExtent bUseGrid
        = some (MS_TRUE, ext)
      ∧ ext.minx = MAX (bb.minx
          - (((castInt (bb.maxx - bb.minx)).tdiv EDGE_STEPS + 1 : Int) : ℚ)) 0
      ∧ ext.miny = MAX (bb.miny
          - (((castInt (bb.maxy - bb.miny)).tdiv EDGE_STEPS + 1 : Int) : ℚ)) 0
      ∧ ext.maxx = MIN (bb.maxx
          + (((castInt (bb.maxx - bb.minx)).tdiv EDGE_STEPS + 1 : Int) : ℚ)) (nSrcXSize : ℚ)
      ∧ ext.maxy = MIN (bb.maxy
          + (((castInt (bb.maxy - bb.miny)).tdiv EDGE_STEPS + 1 : Int) : ℚ)) (nSrcYSize : ℚ)
      ∧ 0 ≤ ext.minx ∧ ext.maxx ≤ (nSrcXSize : ℚ)
      ∧ 0 ≤ ext.miny ∧ ext.maxy ≤ (nSrcYSize : ℚ)
      ∧ (0 ≤ bb.minx ∧ bb.maxx ≤ (nSrcXSize : ℚ) ∧ nSrcXSize < 2147483648 →
          ext.minx ≤ (nSrcXSize : ℚ) ∧ 0 ≤ ext.maxx)
      ∧ (0 ≤ bb.miny ∧ bb.maxy ≤ (nSrcYSize : ℚ) ∧ nSrcYSize < 2147483648 →
          ext.miny ≤ (nSrcYSize : ℚ) ∧ 0 ≤ ext.maxy) := by
  obtain ⟨bb, hbb, hres⟩ := msTransformMapToSource_grid_grown proj pj_is_latlong nDstXSize
    nDstYSize adfDstGeoTransform psDstProj nSrcXSize nSrcYSize adfInvSrcGeoTransform
    psSrcProj psSrcExtent bUseGrid hg xy hxy hfail hsucc
  obtain ⟨hox, hoy⟩ := IsBoundingBox_ordered bb _ hbb
  have key : ∀ (lo hi : ℚ) (n : Int), lo ≤ hi → 0 ≤ lo → hi ≤ (n : ℚ) → n < 2147483648 →
      MAX (lo - (((castInt (hi - lo)).tdiv EDGE_STEPS + 1 : Int) : ℚ)) 0 ≤ (n : ℚ)
      ∧ 0 ≤ MIN (hi + (((castInt (hi - lo)).tdiv EDGE_STEPS + 1 : Int) : ℚ)) (n : ℚ) := by
    intro lo hi n hle h0 hn hlt
    have hn31 : (n : ℚ) < 2147483648 := by exact_mod_cast hlt
    have hg1 := msTransformMapToSource_grow_pos (hi - lo) (by linarith) (by linarith)
    constructor
    · rcases MAX_eq_or (lo - (((castInt (hi - lo)).tdiv EDGE_STEPS + 1 : Int) : ℚ)) 0
        with h | h
      · rw [h]; linarith
      · rw [h]; linarith
    · rcases MIN_eq_or (hi + (((castInt (hi - lo)).tdiv EDGE_STEPS + 1 : Int) : ℚ)) (n : ℚ)
        with h | h
      · rw [h]; linarith
      · rw [h]; linarith
  exact ⟨bb, _, hbb, hres, rfl, rfl, rfl, rfl, le_MAX_right _ _, MIN_le_right _ _,
    le_MAX_right _ _, MIN_le_right _ _,
    fun h => key bb.minx bb.maxx nSrcXSize hox h.1 h.2.1 h.2.2,
    fun h => key bb.miny bb.maxy nSrcYSize hoy h.1 h.2.1 h.2.2⟩

/-- The result of `msTransformMapToSource` on the grid samples of a 10 x 10 destination
under `leftEdgeProj` and identity geotransforms, for any source raster size. -/
theorem msTransformMapToSource_leftEdge_result (nSrcXSize nSrcYSize : Int) :
    msTransformMapToSource leftEdgeProj (fun _ => false) 10 10 ⟨0, 1, 0, 0, 0, 1⟩ ⟨1⟩
        nSrcXSize nSrcYSize ⟨0, 1, 0, 0, 0, 1⟩ ⟨2⟩ ⟨0, 0, 0, 0⟩ 1
      = some (MS_TRUE,
          { minx := 499, miny := 499
            maxx := MIN 501 (nSrcXSize : ℚ), maxy := MIN 501 (nSrcYSize : ℚ) }) := by
  obtain ⟨xy, h1, h2, h3, h4⟩ := msTransformMapToSource_leftEdge_samples
  obtain ⟨bb, hbb, hres⟩ := msTransformMapToSource_grid_grown leftEdgeProj (fun _ => false)
    10 10 ⟨0, 1, 0, 0, 0, 1⟩ ⟨1⟩ nSrcXSize nSrcYSize ⟨0, 1, 0, 0, 0, 1⟩ ⟨2⟩ ⟨0, 0, 0, 0⟩ 1
    (by decide) xy h1 h2 h3
  rw [hres, IsBoundingBox_const bb _ (500, 500) hbb h4]
  have h0 : castInt ((500 : ℚ) - 500) = 0 := by
    have := castInt_intCast 0 (by norm_num) (by norm_num)
    simpa using this
  have hg : ((0 : Int).tdiv EDGE_STEPS + 1 : Int) = 1 := by decide
  simp only [h0, hg]
  have hm : MAX ((500 : ℚ) - ((1 : Int) : ℚ)) 0 = 499 := by
    rw [MAX_of_ge _ _ (by norm_num)]
    norm_num
  have hp : (500 : ℚ) + ((1 : Int) : ℚ) = 501 := by norm_num
  rw [hm, hp]

/-- C22 (counterexample): a 10 x 10 destination whose grid samples succeed only on the
left edge, where they all land on the source position `(500, 500)`, against a 100 x 100
source raster. A sample fails and a sample succeeds, the function returns `MS_TRUE`, and
the extent has `minx = 499 > 100 = srcWidth`. -/
theorem msTransformMapToSource_clamp_counterexample :
    ∃ (xy : List (ℚ × ℚ)) (ext : rectObj),
      (msTransformMapToSource.samples 10 10 1).bind
        (msTransformMapToSource.project leftEdgeProj (fun _ => false) ⟨0, 1, 0, 0, 0, 1⟩
          ⟨1⟩ ⟨2⟩) = some xy
      ∧ (∃ p ∈ xy, p.1 = leftEdgeProj.HUGE_VAL ∨ p.2 = leftEdgeProj.HUGE_VAL)
      ∧ (∃ p ∈ xy, ¬ (p.1 = leftEdgeProj.HUGE_VAL ∨ p.2 = leftEdgeProj.HUGE_VAL))
      ∧ msTransformMapToSource leftEdgeProj (fun _ => false) 10 10 ⟨0, 1, 0, 0, 0, 1⟩ ⟨1⟩
          100 100 ⟨0, 1, 0, 0, 0, 1⟩ ⟨2⟩ ⟨0, 0, 0, 0⟩ 1 = some (MS_TRUE, ext)
      ∧ ext.minx = 499 ∧ ¬ (ext.minx ≤ ((100 : Int) : ℚ))
      ∧ ext.miny = 499 ∧ ¬ (ext.miny ≤ ((100 : Int) : ℚ)) := by
  obtain ⟨xy, h1, h2, h3, _⟩ := msTransformMapToSource_leftEdge_samples
  refine ⟨xy, _, h1, h2, h3, msTransformMapToSource_leftEdge_result 100 100, rfl, ?_, rfl, ?_⟩
  · norm_num
  · norm_num

/-- C22 (witness): the same samples against a 1000 x 1000 source raster, where the
bounding box `(500, 500)` lies inside the raster and all eight bounds hold. -/
theorem msTransformMapToSource_grow_and_clamp_witness :
    ∃ ext : rectObj,
      msTransformMapToSource leftEdgeProj (fun _ => false) 10 10 ⟨0, 1, 0, 0, 0, 1⟩ ⟨1⟩
          1000 1000 ⟨0, 1, 0, 0, 0, 1⟩ ⟨2⟩ ⟨0, 0, 0, 0⟩ 1 = some (MS_TRUE, ext)
      ∧ 0 ≤ ext.minx ∧ ext.minx ≤ 1000 ∧ 0 ≤ ext.maxx ∧ ext.maxx ≤ 1000
      ∧ 0 ≤ ext.miny ∧ ext.miny ≤ 1000 ∧ 0 ≤ ext.maxy ∧ ext.maxy ≤ 1000 := by
  obtain ⟨xy, h1, h2, h3, h4⟩ := msTransformMapToSource_leftEdge_samples
  obtain ⟨bb, ext, hbb, hres, _, _, _, _, a1, a2, a3, a4, hx, hy⟩ :=
    msTransformMapToSource_grow_and_clamp leftEdgeProj (fun _ => false)
      10 10 ⟨0, 1, 0, 0, 0, 1⟩ ⟨1⟩ 1000 1000 ⟨0, 1, 0, 0, 0, 1⟩ ⟨2⟩ ⟨0, 0, 0, 0⟩ 1
      (by decide) xy h1 h2 h3
  have hb := IsBoundingBox_const bb _ (500, 500) hbb h4
  have hx2 := hx (by rw [hb]; norm_num)
  have hy2 := hy (by rw [hb]; norm_num)
  have c : (((1000 : Int)) : ℚ) = 1000 := by norm_num
  rw [c] at a2 a4 hx2 hy2
  exact ⟨ext, hres, a1, hx2.1, hx2.2, a2, a3, hy2.1, hy2.2, a4⟩

theorem sampleSqrt_one : sampleSqrt 1 = 1 := by
  simp [sampleSqrt]

/-- The function `msTransformMapToSource` in edge mode, after its samples are known: a
failed sample makes it start again in grid mode. -/
theorem msTransformMapToSource_edge (proj : ProjLib) (pj_is_latlong : Nat → Bool)
    (nDstXSize nDstYSize : Int) (adfDstGeoTransform : GeoTransform)
    (psDstProj : projectionObj) (nSrcXSize nSrcYSize : Int)
    (adfInvSrcGeoTransform : GeoTransform) (psSrcProj : projectionObj)
    (psSrcExtent : rectObj) :
    msTransformMapToSource proj pj_is_latlong nDstXSize nDstYSize adfDstGeoTransform
        psDstProj nSrcXSize nSrcYSize adfInvSrcGeoTransform psSrcProj psSrcExtent 0
      = match (msTransformMapToSource.samples nDstXSize nDstYSize 0).bind
          (msTransformMapToSource.project proj pj_is_latlong adfDstGeoTransform psDstProj
            psSrcProj) with
        | none => some (MS_FALSE, psSrcExtent)
        | some xy =>
          if ∃ p ∈ xy, p.1 = proj.HUGE_VAL ∨ p.2 = proj.HUGE_VAL then
            msTransformMapToSource proj pj_is_latlong nDstXSize nDstYSize adfDstGeoTransform
              psDstProj nSrcXSize nSrcYSize adfInvSrcGeoTransform psSrcProj psSrcExtent 1
          else if (msTransformMapToSource.collect proj adfInvSrcGeoTransform xy
              psSrcExtent).2.1 = 0 then
            some (MS_FALSE,
              (msTransformMapToSource.collect proj adfInvSrcGeoTransform xy psSrcExtent).1)
          else
            some (MS_TRUE,
              (msTransformMapToSource.collect proj adfInvSrcGeoTransform xy
                psSrcExtent).1) := by
  rw [msTransformMapToSource, msTransformMapToSource_samples_edge]
  dsimp only
  rw [Option.some_bind]
  cases hp : msTransformMapToSource.project proj pj_is_latlong adfDstGeoTransform psDstProj
      psSrcProj ((msTransformMapToSource.ratios.map fun (dfRatio : ℚ) =>
        [(dfRatio * (nDstXSize : ℚ), (0 : ℚ)), (dfRatio * nDstXSize, (nDstYSize : ℚ)),
          (0, dfRatio * nDstYSize), ((nDstXSize : ℚ), dfRatio * nDstYSize)]).flatten) with
  | none => rfl
  | some xy =>
    dsimp only
    by_cases hf : ∃ p ∈ xy, p.1 = proj.HUGE_VAL ∨ p.2 = proj.HUGE_VAL
    · rw [dif_pos ⟨rfl, hf⟩, if_pos hf]
    · rw [dif_neg (fun h => hf h.2), if_neg hf]
      have hn := (msTransformMapToSource_collect_spec proj adfInvSrcGeoTransform psSrcExtent
        xy).1.2
      rw [if_neg (fun h => hf (hn.mp h))]

/-- In grid mode `msTransformMapToSource` returns `MS_FALSE` and the extent it was given
when the CRS conversion fails as a call or no sample comes back from it. -/
theorem msTransformMapToSource_grid_failure (proj : ProjLib) (pj_is_latlong : Nat → Bool)
    (nDstXSize nDstYSize : Int) (adfDstGeoTransform : GeoTransform)
    (psDstProj : projectionObj) (nSrcXSize nSrcYSize : Int)
    (adfInvSrcGeoTransform : GeoTransform) (psSrcProj : projectionObj)
    (psSrcExtent : rectObj) (bUseGrid : Int) (hg : bUseGrid ≠ 0)
    (h : (msTransformMapToSource.samples nDstXSize nDstYSize bUseGrid).bind
          (msTransformMapToSource.project proj pj_is_latlong adfDstGeoTransform psDstProj
            psSrcProj) = none
      ∨ ∃ xy, (msTransformMapToSource.samples nDstXSize nDstYSize bUseGrid).bind
          (msTransformMapToSource.project proj pj_is_latlong adfDstGeoTransform psDstProj
            psSrcProj) = some xy
        ∧ ∀ p ∈ xy, p.1 = proj.HUGE_VAL ∨ p.2 = proj.HUGE_VAL) :
    msTransformMapToSource proj pj_is_latlong nDstXSize nDstYSize adfDstGeoTransform
        psDstProj nSrcXSize nSrcYSize adfInvSrcGeoTransform psSrcProj psSrcExtent bUseGrid
      = some (MS_FALSE, psSrcExtent) := by
  rw [msTransformMapToSource_grid _ _ _ _ _ _ _ _ _ _ _ _ hg]
  rcases h with h | ⟨xy, h, hall⟩
  · rw [h]
  · rw [h]
    dsimp only
    obtain ⟨_, hcase⟩ :=
      msTransformMapToSource_collect_spec proj adfInvSrcGeoTransform psSrcExtent xy
    rcases hcase with ⟨h0, he, _⟩ | ⟨_, hbb⟩
    · rw [if_pos h0, he]
    · exfalso
      obtain ⟨_, ⟨q, hq, _⟩, _⟩ := hbb
      obtain ⟨p, hp, _⟩ := List.mem_map.mp hq
      obtain ⟨hp1, hp2⟩ := List.mem_filter.mp hp
      simp only [decide_eq_true_eq] at hp2
      exact hp2 (hall p hp1)

/-- The window of `msResampleGDALToMap` for the whole source raster is the whole source
raster. -/
theorem msResampleGDALToMap_window_whole (nSrcXSize nSrcYSize : Int) :
    msResampleGDALToMap.window
        { minx := 0, maxx := (nSrcXSize : ℚ), miny := 0, maxy := (nSrcYSize : ℚ) }
        nSrcXSize nSrcYSize
      = { minx := 0, maxx := (nSrcXSize : ℚ), miny := 0, maxy := (nSrcYSize : ℚ) } := by
  unfold msResampleGDALToMap.window
  dsimp only
  have f1 : ((⌊(0 : ℚ) - 1⌋ : Int) : ℚ) = -1 := by
    have : ((0 : ℚ) - 1) = ((-1 : Int) : ℚ) := by norm_num
    rw [this, Int.floor_intCast]
    norm_num
  have c1 : ((⌈(nSrcXSize : ℚ) + 1⌉ : Int) : ℚ) = (nSrcXSize : ℚ) + 1 := by
    have : ((nSrcXSize : ℚ) + 1) = ((nSrcXSize + 1 : Int) : ℚ) := by push_cast; rfl
    rw [this, Int.ceil_intCast]
  have c2 : ((⌈(nSrcYSize : ℚ) + 1⌉ : Int) : ℚ) = (nSrcYSize : ℚ) + 1 := by
    have : ((nSrcYSize : ℚ) + 1) = ((nSrcYSize + 1 : Int) : ℚ) := by push_cast; rfl
    rw [this, Int.ceil_intCast]
  rw [f1, c1, c2, MAX_of_ge 0 (-1) (by norm_num), MAX_of_le (-1) 0 (by norm_num),
    MIN_of_ge _ _ (by linarith), MIN_of_ge _ _ (by linarith)]

/-- C23: if the CRS conversion of the edge samples fails as a call, or an edge sample
fails and then in grid mode the conversion fails as a call or no grid sample comes back
from it, `msTransformMapToSource` (called as the orchestrator calls it, in edge mode)
returns `MS_FALSE` and the extent it was given, unmodified; `msResampleGDALToMap` then
takes the whole source raster `[0, srcWidth] x [0, srcHeight]` as the source extent, the
same extent that it takes when `LOAD_WHOLE_IMAGE` is set, and its window (pad, floor and
ceil, clamp) is again the whole source raster. -/
theorem msResampleGDALToMap_estimator_failure (lib : ResampleLib) (locals : ResampleLocals)
    (map : mapObj) (layer : layerObj) (image : imageObj) (hDS : Nat)
    (h : (msTransformMapToSource.samples image.width image.height 0).bind
          (msTransformMapToSource.project lib.proj lib.pj_is_latlong map.geotransform
            map.projection layer.projection) = none
      ∨ ∃ xy, (msTransformMapToSource.samples image.width image.height 0).bind
          (msTransformMapToSource.project lib.proj lib.pj_is_latlong map.geotransform
            map.projection layer.projection) = some xy
        ∧ (∃ p ∈ xy, p.1 = lib.proj.HUGE_VAL ∨ p.2 = lib.proj.HUGE_VAL)
        ∧ ((msTransformMapToSource.samples image.width image.height 1).bind
            (msTransformMapToSource.project lib.proj lib.pj_is_latlong map.geotransform
              map.projection layer.projection) = none
          ∨ ∃ xy2, (msTransformMapToSource.samples image.width image.height 1).bind
              (msTransformMapToSource.project lib.proj lib.pj_is_latlong map.geotransform
                map.projection layer.projection) = some xy2
            ∧ ∀ p ∈ xy2, p.1 = lib.proj.HUGE_VAL ∨ p.2 = lib.proj.HUGE_VAL)) :
    (∀ (nSrcXSize nSrcYSize : Int) (adfInvSrcGeoTransform : GeoTransform)
        (psSrcExtent : rectObj),
      msTransformMapToSource lib.proj lib.pj_is_latlong image.width image.height
        map.geotransform map.projection nSrcXSize nSrcYSize adfInvSrcGeoTransform
        layer.projection psSrcExtent 0 = some (MS_FALSE, psSrcExtent))
    ∧ msResampleGDALToMap.extent lib locals map layer image hDS
      = some { minx := 0, maxx := (lib.GDALGetRasterXSize hDS : ℚ)
               miny := 0, maxy := (lib.GDALGetRasterYSize hDS : ℚ) }
    ∧ msResampleGDALToMap.extent lib locals map { layer with LOAD_WHOLE_IMAGE := true }
        image hDS
      = some { minx := 0, maxx := (lib.GDALGetRasterXSize hDS : ℚ)
               miny := 0, maxy := (lib.GDALGetRasterYSize hDS : ℚ) }
    ∧ msResampleGDALToMap.window
        { minx := 0, maxx := (lib.GDALGetRasterXSize hDS : ℚ)
          miny := 0, maxy := (lib.GDALGetRasterYSize hDS : ℚ) }
        (lib.GDALGetRasterXSize hDS) (lib.GDALGetRasterYSize hDS)
      = { minx := 0, maxx := (lib.GDALGetRasterXSize hDS : ℚ)
          miny := 0, maxy := (lib.GDALGetRasterYSize hDS : ℚ) } := by
  have hest : ∀ (nSrcXSize nSrcYSize : Int) (adfInvSrcGeoTransform : GeoTransform)
      (psSrcExtent : rectObj),
      msTransformMapToSource lib.proj lib.pj_is_latlong image.width image.height
        map.geotransform map.projection nSrcXSize nSrcYSize adfInvSrcGeoTransform
        layer.projection psSrcExtent 0 = some (MS_FALSE, psSrcExtent) := by
    intro nSrcXSize nSrcYSize adfInvSrcGeoTransform psSrcExtent
    rw [msTransformMapToSource_edge]
    rcases h with h | ⟨xy, h, hf, hgrid⟩
    · rw [h]
    · rw [h]
      dsimp only
      rw [if_pos hf]
      exact msTransformMapToSource_grid_failure _ _ _ _ _ _ _ _ _ _ _ 1 (by decide) hgrid
  refine ⟨hest, ?_, ?_, msResampleGDALToMap_window_whole _ _⟩
  · unfold msResampleGDALToMap.extent
    dsimp only
    by_cases hw : layer.LOAD_WHOLE_IMAGE = true
    · rw [if_pos hw]
      rfl
    · rw [if_neg hw, hest]
      rfl
  · unfold msResampleGDALToMap.extent
    dsimp only
    rw [if_pos rfl]
    rfl

/-- C23 (witness): under `failingProj` the CRS conversion of the edge samples fails as a
call; the estimator leaves the extent `(-7, -7, -7, -7)` as it was and the orchestrator
takes the whole 100 x 50 source raster. -/
theorem msResampleGDALToMap_estimator_failure_witness :
    msTransformMapToSource failingProj (fun _ => false) 10 10 ⟨0, 1, 0, 0, 0, 1⟩ ⟨1⟩ 100 50
        ⟨0, 1, 0, 0, 0, 1⟩ ⟨2⟩ ⟨-7, -7, -7, -7⟩ 0 = some (MS_FALSE, ⟨-7, -7, -7, -7⟩)
    ∧ msResampleGDALToMap.extent (sampleLib failingProj ⟨0, 1, 0, 0, 0, 1⟩ 100 50 7)
        (sampleLocals ⟨0, 0, 0, 0, 0, 0⟩) ⟨⟨1⟩, ⟨0, 1, 0, 0, 0, 1⟩, ⟨0, 0, 0⟩⟩
        (sampleLayer ResampleMode.NEAREST ⟨2⟩)
        (rawImage 10 10 ImageMode.FLOAT32 1 fun _ => 0) 0
      = some { minx := 0, maxx := ((100 : Int) : ℚ), miny := 0, maxy := ((50 : Int) : ℚ) } := by
  have hedge : (msTransformMapToSource.samples
        (rawImage 10 10 ImageMode.FLOAT32 1 fun _ => 0).width
        (rawImage 10 10 ImageMode.FLOAT32 1 fun _ => 0).height 0).bind
      (msTransformMapToSource.project
        (sampleLib failingProj ⟨0, 1, 0, 0, 0, 1⟩ 100 50 7).proj
        (sampleLib failingProj ⟨0, 1, 0, 0, 0, 1⟩ 100 50 7).pj_is_latlong
        (⟨⟨1⟩, ⟨0, 1, 0, 0, 0, 1⟩, ⟨0, 0, 0⟩⟩ : mapObj).geotransform
        (⟨⟨1⟩, ⟨0, 1, 0, 0, 0, 1⟩, ⟨0, 0, 0⟩⟩ : mapObj).projection
        (sampleLayer ResampleMode.NEAREST ⟨2⟩).projection) = none := by
    rw [msTransformMapToSource_samples_edge, Option.some_bind]
    rfl
  have key := msResampleGDALToMap_estimator_failure
    (sampleLib failingProj ⟨0, 1, 0, 0, 0, 1⟩ 100 50 7)
    (sampleLocals ⟨0, 0, 0, 0, 0, 0⟩) ⟨⟨1⟩, ⟨0, 1, 0, 0, 0, 1⟩, ⟨0, 0, 0⟩⟩
    (sampleLayer ResampleMode.NEAREST ⟨2⟩)
    (rawImage 10 10 ImageMode.FLOAT32 1 fun _ => 0) 0 (Or.inl hedge)
  exact ⟨key.1 100 50 ⟨0, 1, 0, 0, 0, 1⟩ ⟨-7, -7, -7, -7⟩, key.2.1⟩

/-- The conversion `(int)` of a value between 1 and an `int` is its truncation and lies
between the same bounds. -/
theorem castInt_between (v : ℚ) (n : Int) (h1 : 1 ≤ v) (h2 : v ≤ (n : ℚ))
    (hn : n < 2147483648) :
    castInt v = trunc v ∧ 1 ≤ castInt v ∧ castInt v ≤ n := by
  have h0 : (0 : ℚ) ≤ v := by linarith
  have hn2 : (n : ℚ) < 2147483648 := by exact_mod_cast hn
  have hc := castInt_of_nonneg v h0 (by linarith)
  have ht : trunc v = ⌊v⌋ := by
    unfold trunc
    rw [if_pos h0]
  rw [hc, ht]
  refine ⟨rfl, ?_, ?_⟩
  · apply Int.le_floor.mpr
    exact_mod_cast h1
  · have : ((⌊v⌋ : Int) : ℚ) ≤ (n : ℚ) := le_trans (Int.floor_le v) h2
    exact_mod_cast this

/-- C25 (amended): in exact arithmetic, for a window of integer size `w x h`
(`1 <= w, h < 2^31`), an oversample ratio
`> 0`, a destination width `> 0` and a nominal cell size other than 0, the scratch raster
size of `msResampleGDALToMap` satisfies `1 <= nLoadImgXSize <= w` and
`1 <= nLoadImgYSize <= h`; it is `w x h` when the unpadded extent is not wider than
`ratio * destination width` or `LOAD_FULL_RES_IMAGE` is set, and otherwise
`nLoadImgXSize = trunc(max(1, w * ratio * dstWidth / unpaddedExtentWidth))` (and the same
with `h` for `nLoadImgYSize`). -/
theorem msResampleGDALToMap_load_size (layer : layerObj) (sSrcExtent sOrigSrcExtent : rectObj)
    (nDstXSize : Int) (dfNominalCellSize : ℚ) (w h : Int)
    (hw : sSrcExtent.maxx - sSrcExtent.minx = (w : ℚ))
    (hh : sSrcExtent.maxy - sSrcExtent.miny = (h : ℚ))
    (hw1 : 1 ≤ w) (hw2 : w < 2147483648) (hh1 : 1 ≤ h) (hh2 : h < 2147483648)
    (hnom : dfNominalCellSize ≠ 0)
    (hratio : 0 < msResampleGDALToMap.dfOversampleRatio layer) (hdst : 0 < nDstXSize) :
    1 ≤ (msResampleGDALToMap.loadSize sSrcExtent dfNominalCellSize
        (msResampleGDALToMap.cellsize layer sOrigSrcExtent nDstXSize dfNominalCellSize)).1
    ∧ (msResampleGDALToMap.loadSize sSrcExtent dfNominalCellSize
        (msResampleGDALToMap.cellsize layer sOrigSrcExtent nDstXSize dfNominalCellSize)).1 ≤ w
    ∧ 1 ≤ (msResampleGDALToMap.loadSize sSrcExtent dfNominalCellSize
        (msResampleGDALToMap.cellsize layer sOrigSrcExtent nDstXSize dfNominalCellSize)).2
    ∧ (msResampleGDALToMap.loadSize sSrcExtent dfNominalCellSize
        (msResampleGDALToMap.cellsize layer sOrigSrcExtent nDstXSize dfNominalCellSize)).2 ≤ h
    ∧ ((sOrigSrcExtent.maxx - sOrigSrcExtent.minx
          ≤ msResampleGDALToMap.dfOversampleRatio layer * (nDstXSize : ℚ)
        ∨ layer.LOAD_FULL_RES_IMAGE = true) →
        msResampleGDALToMap.loadSize sSrcExtent dfNominalCellSize
          (msResampleGDALToMap.cellsize layer sOrigSrcExtent nDstXSize dfNominalCellSize)
          = (w, h))
    ∧ (¬ (sOrigSrcExtent.maxx - sOrigSrcExtent.minx
          ≤ msResampleGDALToMap.dfOversampleRatio layer * (nDstXSize : ℚ)
        ∨ layer.LOAD_FULL_RES_IMAGE = true) →
        msResampleGDALToMap.loadSize sSrcExtent dfNominalCellSize
          (msResampleGDALToMap.cellsize layer sOrigSrcExtent nDstXSize dfNominalCellSize)
          = (trunc (MAX 1 ((w : ℚ) * msResampleGDALToMap.dfOversampleRatio layer
                * (nDstXSize : ℚ) / (sOrigSrcExtent.maxx - sOrigSrcExtent.minx))),
             trunc (MAX 1 ((h : ℚ) * msResampleGDALToMap.dfOversampleRatio layer
                * (nDstXSize : ℚ) / (sOrigSrcExtent.maxx - sOrigSrcExtent.minx))))) := by
  have hw1q : (1 : ℚ) ≤ (w : ℚ) := by exact_mod_cast hw1
  have hh1q : (1 : ℚ) ≤ (h : ℚ) := by exact_mod_cast hh1
  have hdq : (0 : ℚ) < (nDstXSize : ℚ) := by exact_mod_cast hdst
  have hrd : 0 < msResampleGDALToMap.dfOversampleRatio layer * (nDstXSize : ℚ) :=
    mul_pos hratio hdq
  by_cases hc : sOrigSrcExtent.maxx - sOrigSrcExtent.minx
      ≤ msResampleGDALToMap.dfOversampleRatio layer * (nDstXSize : ℚ)
      ∨ layer.LOAD_FULL_RES_IMAGE = true
  · -- the source is read at its native resolution
    have hcell : msResampleGDALToMap.cellsize layer sOrigSrcExtent nDstXSize
        dfNominalCellSize = dfNominalCellSize := by
      unfold msResampleGDALToMap.cellsize
      dsimp only
      rw [if_neg]
      rintro ⟨h1, h2⟩
      rcases hc with hc | hc
      · exact absurd h1 (not_lt.mpr hc)
      · exact h2 hc
    have hval : msResampleGDALToMap.loadSize sSrcExtent dfNominalCellSize
        (msResampleGDALToMap.cellsize layer sOrigSrcExtent nDstXSize dfNominalCellSize)
        = (w, h) := by
      unfold msResampleGDALToMap.loadSize
      rw [hcell, hw, hh, div_self hnom, mul_one, mul_one, MAX_of_le 1 _ hw1q,
        MAX_of_le 1 _ hh1q, castInt_intCast w (by omega) hw2,
        castInt_intCast h (by omega) hh2]
    rw [hval]
    exact ⟨hw1, le_refl _, hh1, le_refl _, fun _ => rfl, fun hn => absurd hc hn⟩
  · -- the source is read at `ratio` times the resolution of the destination
    have hc2 := hc
    rw [not_or, not_le] at hc2
    obtain ⟨hwide, hfull⟩ := hc2
    have hpos : 0 < sOrigSrcExtent.maxx - sOrigSrcExtent.minx := lt_trans hrd hwide
    have hcell : msResampleGDALToMap.cellsize layer sOrigSrcExtent nDstXSize
        dfNominalCellSize
        = (dfNominalCellSize * (sOrigSrcExtent.maxx - sOrigSrcExtent.minx))
          / (msResampleGDALToMap.dfOversampleRatio layer * (nDstXSize : ℚ)) := by
      unfold msResampleGDALToMap.cellsize
      dsimp only
      rw [if_pos ⟨hwide, hfull⟩]
    have hf : dfNominalCellSize
        / ((dfNominalCellSize * (sOrigSrcExtent.maxx - sOrigSrcExtent.minx))
          / (msResampleGDALToMap.dfOversampleRatio layer * (nDstXSize : ℚ)))
        = msResampleGDALToMap.dfOversampleRatio layer * (nDstXSize : ℚ)
          / (sOrigSrcExtent.maxx - sOrigSrcExtent.minx) := by
      have hp2 := hpos.ne.symm
      have hr2 := hrd.ne.symm
      field_simp
      ring
    have hf1 : msResampleGDALToMap.dfOversampleRatio layer * (nDstXSize : ℚ)
        / (sOrigSrcExtent.maxx - sOrigSrcExtent.minx) ≤ 1 := by
      rw [div_le_one hpos]
      exact le_of_lt hwide
    have hf0 : 0 ≤ msResampleGDALToMap.dfOversampleRatio layer * (nDstXSize : ℚ)
        / (sOrigSrcExtent.maxx - sOrigSrcExtent.minx) :=
      le_of_lt (div_pos hrd hpos)
    have bound : ∀ n : Int, (1 : ℚ) ≤ (n : ℚ) →
        1 ≤ MAX 1 ((n : ℚ) * (msResampleGDALToMap.dfOversampleRatio layer * (nDstXSize : ℚ)
          / (sOrigSrcExtent.maxx - sOrigSrcExtent.minx)))
        ∧ MAX 1 ((n : ℚ) * (msResampleGDALToMap.dfOversampleRatio layer * (nDstXSize : ℚ)
          / (sOrigSrcExtent.maxx - sOrigSrcExtent.minx))) ≤ (n : ℚ) := by
      intro n hn
      refine ⟨le_MAX_left _ _, ?_⟩
      rcases MAX_eq_or 1 ((n : ℚ) * (msResampleGDALToMap.dfOversampleRatio layer
          * (nDstXSize : ℚ) / (sOrigSrcExtent.maxx - sOrigSrcExtent.minx))) with e | e
      · rw [e]
        exact hn
      · rw [e]
        exact mul_le_of_le_one_right (by linarith) hf1
    have hval : msResampleGDALToMap.loadSize sSrcExtent dfNominalCellSize
        (msResampleGDALToMap.cellsize layer sOrigSrcExtent nDstXSize dfNominalCellSize)
        = (castInt (MAX 1 ((w : ℚ) * (msResampleGDALToMap.dfOversampleRatio layer
              * (nDstXSize : ℚ) / (sOrigSrcExtent.maxx - sOrigSrcExtent.minx)))),
           castInt (MAX 1 ((h : ℚ) * (msResampleGDALToMap.dfOversampleRatio layer
              * (nDstXSize : ℚ) / (sOrigSrcExtent.maxx - sOrigSrcExtent.minx))))) := by
      unfold msResampleGDALToMap.loadSize
      rw [hcell, hw, hh, hf]
    obtain ⟨bw1, bw2⟩ := bound w hw1q
    obtain ⟨bh1, bh2⟩ := bound h hh1q
    obtain ⟨cw, cw1, cw2⟩ := castInt_between _ w bw1 bw2 hw2
    obtain ⟨ch, ch1, ch2⟩ := castInt_between _ h bh1 bh2 hh2
    rw [hval]
    refine ⟨cw1, cw2, ch1, ch2, fun hy => absurd hy hc, fun _ => ?_⟩
    rw [cw, ch, mul_div_assoc, mul_div_assoc, mul_assoc, mul_assoc, mul_div_assoc,
      mul_div_assoc]

/-- C25 (witness): a 100 x 50 window of the unpadded extent `[1, 99] x [1, 49]`, the
default ratio 2 and a destination 10 pixels wide: the scratch raster is 20 x 10. -/
theorem msResampleGDALToMap_load_size_witness :
    msResampleGDALToMap.loadSize ⟨0, 0, 100, 50⟩ 1
        (msResampleGDALToMap.cellsize (sampleLayer ResampleMode.NEAREST ⟨0⟩) ⟨1, 1, 99, 49⟩
          10 1)
      = (20, 10) := by
  have hr : msResampleGDALToMap.dfOversampleRatio (sampleLayer ResampleMode.NEAREST ⟨0⟩)
      = 2 := rfl
  have key := (msResampleGDALToMap_load_size (sampleLayer ResampleMode.NEAREST ⟨0⟩)
    ⟨0, 0, 100, 50⟩ ⟨1, 1, 99, 49⟩ 10 1 100 50 (by norm_num) (by norm_num) (by norm_num)
    (by norm_num) (by norm_num) (by norm_num) one_ne_zero (by rw [hr]; norm_num)
    (by norm_num)).2.2.2.2.2 (by
      rw [hr]
      simp only [sampleLayer]
      norm_num)
  rw [key, hr]
  have e1 : MAX (1 : ℚ) (((100 : Int) : ℚ) * 2 * ((10 : Int) : ℚ) / (99 - 1)) = 1000 / 49 := by
    rw [MAX_of_le _ _ (by norm_num)]
    norm_num
  have e2 : MAX (1 : ℚ) (((50 : Int) : ℚ) * 2 * ((10 : Int) : ℚ) / (99 - 1)) = 500 / 49 := by
    rw [MAX_of_le _ _ (by norm_num)]
    norm_num
  have t1 : trunc ((1000 : ℚ) / 49) = 20 := by
    unfold trunc
    rw [if_pos (by norm_num), Int.floor_eq_iff]
    norm_num
  have t2 : trunc ((500 : ℚ) / 49) = 10 := by
    unfold trunc
    rw [if_pos (by norm_num), Int.floor_eq_iff]
    norm_num
  simp only [e1, e2, t1, t2]

/-- The window of `msResampleGDALToMap` has integer bounds inside the source raster; when it
is not empty its size is `w x h` for integers `1 <= w <= nSrcXSize`,
`1 <= h <= nSrcYSize`. -/
theorem msResampleGDALToMap_window_integer (sSrcExtent : rectObj) (nSrcXSize nSrcYSize : Int)
    (hne : ¬ ((msResampleGDALToMap.window sSrcExtent nSrcXSize nSrcYSize).maxx
          ≤ (msResampleGDALToMap.window sSrcExtent nSrcXSize nSrcYSize).minx
        ∨ (msResampleGDALToMap.window sSrcExtent nSrcXSize nSrcYSize).maxy
          ≤ (msResampleGDALToMap.window sSrcExtent nSrcXSize nSrcYSize).miny)) :
    ∃ w h : Int,
      (msResampleGDALToMap.window sSrcExtent nSrcXSize nSrcYSize).maxx
        - (msResampleGDALToMap.window sSrcExtent nSrcXSize nSrcYSize).minx = (w : ℚ)
      ∧ (msResampleGDALToMap.window sSrcExtent nSrcXSize nSrcYSize).maxy
        - (msResampleGDALToMap.window sSrcExtent nSrcXSize nSrcYSize).miny = (h : ℚ)
      ∧ 1 ≤ w ∧ w ≤ nSrcXSize ∧ 1 ≤ h ∧ h ≤ nSrcYSize := by
  have key : ∀ (lo hi : Int) (n : Int) (a b : ℚ),
      (a = 0 ∨ a = (lo : ℚ)) → 0 ≤ a → (b = (hi : ℚ) ∨ b = (n : ℚ)) → b ≤ (n : ℚ) →
      ¬ b ≤ a → ∃ w : Int, b - a = (w : ℚ) ∧ 1 ≤ w ∧ w ≤ n := by
    intro lo hi n a b ha ha0 hb hbn hlt
    obtain ⟨ia, hia⟩ : ∃ i : Int, a = (i : ℚ) := by
      rcases ha with h | h
      · exact ⟨0, by rw [h]; norm_num⟩
      · exact ⟨lo, h⟩
    obtain ⟨ib, hib⟩ : ∃ i : Int, b = (i : ℚ) := by
      rcases hb with h | h
      · exact ⟨hi, h⟩
      · exact ⟨n, h⟩
    refine ⟨ib - ia, by rw [hia, hib]; push_cast; rfl, ?_, ?_⟩
    · have : (ia : ℚ) < (ib : ℚ) := by
        rw [← hia, ← hib]
        exact not_le.mp hlt
      have : ia < ib := by exact_mod_cast this
      omega
    · have h1 : (0 : ℚ) ≤ (ia : ℚ) := by rw [← hia]; exact ha0
      have h2 : (ib : ℚ) ≤ (n : ℚ) := by rw [← hib]; exact hbn
      have h3 : 0 ≤ ia := by exact_mod_cast h1
      have h4 : ib ≤ n := by exact_mod_cast h2
      omega
  rw [not_or] at hne
  obtain ⟨hx, hy⟩ := hne
  unfold msResampleGDALToMap.window at hx hy ⊢
  dsimp only at hx hy ⊢
  obtain ⟨w, e1, w1, w2⟩ := key ⌊sSrcExtent.minx - 1⌋ ⌈sSrcExtent.maxx + 1⌉ nSrcXSize _ _
    (MAX_eq_or _ _) (le_MAX_left _ _) (MIN_eq_or _ _) (MIN_le_right _ _) hx
  obtain ⟨h, e2, h1, h2⟩ := key ⌊sSrcExtent.miny - 1⌋ ⌈sSrcExtent.maxy + 1⌉ nSrcYSize _ _
    ((MAX_eq_or _ _).symm) (le_MAX_right _ _) (MIN_eq_or _ _) (MIN_le_right _ _) hy
  exact ⟨w, h, e1, e2, w1, w2, h1, h2⟩

/-- The window of `msResampleGDALToMap` is empty for an extent that lies a pixel or more
outside the source raster. -/
theorem msResampleGDALToMap_window_empty (e : rectObj) (nSrcXSize nSrcYSize : Int)
    (hout : e.maxx ≤ -1 ∨ (nSrcXSize : ℚ) + 1 ≤ e.minx
      ∨ e.maxy ≤ -1 ∨ (nSrcYSize : ℚ) + 1 ≤ e.miny) :
    (msResampleGDALToMap.window e nSrcXSize nSrcYSize).maxx
        ≤ (msResampleGDALToMap.window e nSrcXSize nSrcYSize).minx
      ∨ (msResampleGDALToMap.window e nSrcXSize nSrcYSize).maxy
        ≤ (msResampleGDALToMap.window e nSrcXSize nSrcYSize).miny := by
  unfold msResampleGDALToMap.window
  dsimp only
  have up : ∀ (a : ℚ), a ≤ -1 → ((⌈a + 1⌉ : Int) : ℚ) ≤ 0 := by
    intro a ha
    have : ⌈a + 1⌉ ≤ 0 := Int.ceil_le.mpr (by push_cast; linarith)
    exact_mod_cast this
  have dn : ∀ (a : ℚ) (n : Int), (n : ℚ) + 1 ≤ a → (n : ℚ) ≤ ((⌊a - 1⌋ : Int) : ℚ) := by
    intro a n ha
    have : n ≤ ⌊a - 1⌋ := Int.le_floor.mpr (by linarith)
    exact_mod_cast this
  rcases hout with h | h | h | h
  · exact Or.inl (le_trans (MIN_le_left _ _) (le_trans (up _ h) (le_MAX_left _ _)))
  · exact Or.inl (le_trans (MIN_le_right _ _) (le_trans (dn _ _ h) (le_MAX_right _ _)))
  · exact Or.inr (le_trans (MIN_le_left _ _) (le_trans (up _ h) (le_MAX_right _ _)))
  · exact Or.inr (le_trans (MIN_le_right _ _) (le_trans (dn _ _ h) (le_MAX_left _ _)))

/-- Two bounding boxes of the same points are equal. -/
theorem IsBoundingBox_unique (e f : rectObj) (L : List (ℚ × ℚ))
    (he : IsBoundingBox e L) (hf : IsBoundingBox f L) : e = f := by
  obtain ⟨ein, ⟨p1, hp1, e1⟩, ⟨p2, hp2, e2⟩, ⟨p3, hp3, e3⟩, ⟨p4, hp4, e4⟩⟩ := he
  obtain ⟨fin, ⟨q1, hq1, f1⟩, ⟨q2, hq2, f2⟩, ⟨q3, hq3, f3⟩, ⟨q4, hq4, f4⟩⟩ := hf
  have a1 : e.minx = f.minx :=
    le_antisymm (by rw [← f1]; exact (ein q1 hq1).1) (by rw [← e1]; exact (fin p1 hp1).1)
  have a2 : e.maxx = f.maxx :=
    le_antisymm (by rw [← e2]; exact (fin p2 hp2).2.1) (by rw [← f2]; exact (ein q2 hq2).2.1)
  have a3 : e.miny = f.miny :=
    le_antisymm (by rw [← f3]; exact (ein q3 hq3).2.2.1)
      (by rw [← e3]; exact (fin p3 hp3).2.2.1)
  have a4 : e.maxy = f.maxy :=
    le_antisymm (by rw [← e4]; exact (fin p4 hp4).2.2.2)
      (by rw [← f4]; exact (ein q4 hq4).2.2.2)
  cases e
  cases f
  simp only at a1 a2 a3 a4
  rw [a1, a2, a3, a4]

/-- Every ratio of `msTransformMapToSource` lies between 0 and 1. -/
theorem msTransformMapToSource_ratios_bounds (r : ℚ)
    (hr : r ∈ msTransformMapToSource.ratios) : 0 ≤ r ∧ r ≤ 1 := by
  obtain ⟨k, hk, rfl⟩ := List.mem_map.mp hr
  have hk11 : k < 11 := List.mem_range.mp hk
  have hk2 : (k : ℚ) ≤ 10 := by exact_mod_cast (by omega : k ≤ 10)
  constructor
  · positivity
  · rw [div_le_one (by norm_num)]
    exact hk2

/-- The edge samples of a destination of size `X x Y` lie in `[0, X] x [0, Y]`, and two
opposite corners are among them. -/
theorem msTransformMapToSource_edge_samples_in (X Y : Int) (hX : 0 ≤ X) (hY : 0 ≤ Y) :
    (∀ s ∈ (msTransformMapToSource.ratios.map fun (dfRatio : ℚ) =>
        [(dfRatio * (X : ℚ), (0 : ℚ)), (dfRatio * X, (Y : ℚ)),
          (0, dfRatio * Y), ((X : ℚ), dfRatio * Y)]).flatten,
      0 ≤ s.1 ∧ s.1 ≤ (X : ℚ) ∧ 0 ≤ s.2 ∧ s.2 ≤ (Y : ℚ))
    ∧ ((0 : ℚ), (0 : ℚ)) ∈ (msTransformMapToSource.ratios.map fun (dfRatio : ℚ) =>
        [(dfRatio * (X : ℚ), (0 : ℚ)), (dfRatio * X, (Y : ℚ)),
          (0, dfRatio * Y), ((X : ℚ), dfRatio * Y)]).flatten
    ∧ ((X : ℚ), (Y : ℚ)) ∈ (msTransformMapToSource.ratios.map fun (dfRatio : ℚ) =>
        [(dfRatio * (X : ℚ), (0 : ℚ)), (dfRatio * X, (Y : ℚ)),
          (0, dfRatio * Y), ((X : ℚ), dfRatio * Y)]).flatten := by
  have hXq : (0 : ℚ) ≤ (X : ℚ) := by exact_mod_cast hX
  have hYq : (0 : ℚ) ≤ (Y : ℚ) := by exact_mod_cast hY
  refine ⟨?_, ?_, ?_⟩
  · intro s hs
    obtain ⟨l, hl, hsl⟩ := List.mem_flatten.mp hs
    obtain ⟨r, hr, rfl⟩ := List.mem_map.mp hl
    obtain ⟨r0, r1⟩ := msTransformMapToSource_ratios_bounds r hr
    have b1 : 0 ≤ r * (X : ℚ) := mul_nonneg r0 hXq
    have b2 : r * (X : ℚ) ≤ (X : ℚ) := mul_le_of_le_one_left hXq r1
    have b3 : 0 ≤ r * (Y : ℚ) := mul_nonneg r0 hYq
    have b4 : r * (Y : ℚ) ≤ (Y : ℚ) := mul_le_of_le_one_left hYq r1
    simp only [List.mem_cons, List.mem_singleton, List.not_mem_nil, or_false] at hsl
    rcases hsl with rfl | rfl | rfl | rfl
    · exact ⟨b1, b2, le_refl _, hYq⟩
    · exact ⟨b1, b2, hYq, le_refl _⟩
    · exact ⟨le_refl _, hXq, b3, b4⟩
    · exact ⟨hXq, le_refl _, b3, b4⟩
  · refine List.mem_flatten.mpr ⟨_, List.mem_map.mpr
      ⟨0, msTransformMapToSource_ratios_zero, rfl⟩, ?_⟩
    rw [zero_mul]
    exact List.mem_cons_self _ _
  · refine List.mem_flatten.mpr ⟨_, List.mem_map.mpr
      ⟨1, msTransformMapToSource_ratios_one, rfl⟩, ?_⟩
    rw [one_mul]
    exact List.mem_cons_of_mem _ (List.mem_cons_self _ _)

/-- Without a coordinate system on one side the CRS conversion step of
`msTransformMapToSource` is the destination geotransform alone. -/
theorem msTransformMapToSource_project_no_crs (proj : ProjLib) (pj_is_latlong : Nat → Bool)
    (adfDstGeoTransform : GeoTransform) (psDstProj psSrcProj : projectionObj)
    (hnull : psDstProj.proj = 0 ∨ psSrcProj.proj = 0) (xy : List (ℚ × ℚ)) :
    msTransformMapToSource.project proj pj_is_latlong adfDstGeoTransform psDstProj
        psSrcProj xy
      = some (xy.map fun p =>
          (adfDstGeoTransform.a0 + p.1 * adfDstGeoTransform.a1
              + p.2 * adfDstGeoTransform.a2,
            adfDstGeoTransform.a3 + p.1 * adfDstGeoTransform.a4
              + p.2 * adfDstGeoTransform.a5)) := by
  unfold msTransformMapToSource.project
  dsimp only
  rw [if_neg]
  rintro ⟨h1, h2⟩
  rcases hnull with h | h
  · exact h1 h
  · exact h2 h

/-- The estimate of `msTransformMapToSource` without a coordinate system on one side, for
a destination geotransform without rotation and with non-negative scale and the identity
as inverse source geotransform, when no coordinate equals `HUGE_VAL`: the extent of the
destination in georeferenced units. -/
theorem msTransformMapToSource_no_crs_axis_aligned (proj : ProjLib)
    (pj_is_latlong : Nat → Bool) (X Y : Int) (hX : 0 ≤ X) (hY : 0 ≤ Y)
    (x0 sx y0 sy : ℚ) (hsx : 0 ≤ sx) (hsy : 0 ≤ sy)
    (psDstProj psSrcProj : projectionObj)
    (hnull : psDstProj.proj = 0 ∨ psSrcProj.proj = 0) (nSrcXSize nSrcYSize : Int)
    (psSrcExtent : rectObj)
    (hhx : x0 + sx * (X : ℚ) < proj.HUGE_VAL) (hhy : y0 + sy * (Y : ℚ) < proj.HUGE_VAL) :
    msTransformMapToSource proj pj_is_latlong X Y ⟨x0, sx, 0, y0, 0, sy⟩ psDstProj
        nSrcXSize nSrcYSize ⟨0, 1, 0, 0, 0, 1⟩ psSrcProj psSrcExtent 0
      = some (MS_TRUE,
          { minx := x0, miny := y0, maxx := x0 + sx * (X : ℚ), maxy := y0 + sy * (Y : ℚ) }) := by
  obtain ⟨hin, hmem0, hmem1⟩ := msTransformMapToSource_edge_samples_in X Y hX hY
  have hXq : (0 : ℚ) ≤ (X : ℚ) := by exact_mod_cast hX
  have hYq : (0 : ℚ) ≤ (Y : ℚ) := by exact_mod_cast hY
  rw [msTransformMapToSource_edge, msTransformMapToSource_samples_edge, Option.some_bind,
    msTransformMapToSource_project_no_crs _ _ _ _ _ hnull]
  dsimp only
  -- the samples in georeferenced units
  have hgeo : ∀ p ∈ ((msTransformMapToSource.ratios.map fun (dfRatio : ℚ) =>
        [(dfRatio * (X : ℚ), (0 : ℚ)), (dfRatio * X, (Y : ℚ)),
          (0, dfRatio * Y), ((X : ℚ), dfRatio * Y)]).flatten.map fun (p : ℚ × ℚ) =>
        (x0 + p.1 * sx + p.2 * 0, y0 + p.1 * 0 + p.2 * sy)),
      (x0 ≤ p.1 ∧ p.1 ≤ x0 + sx * (X : ℚ)) ∧ (y0 ≤ p.2 ∧ p.2 ≤ y0 + sy * (Y : ℚ)) := by
    intro p hp
    obtain ⟨s, hs, rfl⟩ := List.mem_map.mp hp
    obtain ⟨s1, s2, s3, s4⟩ := hin s hs
    dsimp only
    have m1 : 0 ≤ s.1 * sx := mul_nonneg s1 hsx
    have m2 : s.1 * sx ≤ sx * (X : ℚ) := by
      rw [mul_comm]
      exact mul_le_mul_of_nonneg_left s2 hsx
    have m3 : 0 ≤ s.2 * sy := mul_nonneg s3 hsy
    have m4 : s.2 * sy ≤ sy * (Y : ℚ) := by
      rw [mul_comm]
      exact mul_le_mul_of_nonneg_left s4 hsy
    constructor <;> constructor <;> linarith
  have hok : ∀ p ∈ ((msTransformMapToSource.ratios.map fun (dfRatio : ℚ) =>
        [(dfRatio * (X : ℚ), (0 : ℚ)), (dfRatio * X, (Y : ℚ)),
          (0, dfRatio * Y), ((X : ℚ), dfRatio * Y)]).flatten.map fun (p : ℚ × ℚ) =>
        (x0 + p.1 * sx + p.2 * 0, y0 + p.1 * 0 + p.2 * sy)),
      ¬ (p.1 = proj.HUGE_VAL ∨ p.2 = proj.HUGE_VAL) := by
    intro p hp
    obtain ⟨⟨_, a⟩, ⟨_, b⟩⟩ := hgeo p hp
    rintro (h | h)
    · rw [h] at a
      linarith
    · rw [h] at b
      linarith
  rw [if_neg (fun ⟨p, hp, hf⟩ => hok p hp hf)]
  obtain ⟨_, hcase⟩ := msTransformMapToSource_collect_spec proj ⟨0, 1, 0, 0, 0, 1⟩ psSrcExtent
    ((msTransformMapToSource.ratios.map fun (dfRatio : ℚ) =>
        [(dfRatio * (X : ℚ), (0 : ℚ)), (dfRatio * X, (Y : ℚ)),
          (0, dfRatio * Y), ((X : ℚ), dfRatio * Y)]).flatten.map fun (p : ℚ × ℚ) =>
        (x0 + p.1 * sx + p.2 * 0, y0 + p.1 * 0 + p.2 * sy))
  have hp0 := List.mem_map_of_mem (fun (p : ℚ × ℚ) =>
    (x0 + p.1 * sx + p.2 * 0, y0 + p.1 * 0 + p.2 * sy)) hmem0
  have hp1 := List.mem_map_of_mem (fun (p : ℚ × ℚ) =>
    (x0 + p.1 * sx + p.2 * 0, y0 + p.1 * 0 + p.2 * sy)) hmem1
  rcases hcase with ⟨_, _, hall⟩ | ⟨h1, hbb⟩
  · exact absurd (hall _ hp0) (hok _ hp0)
  · rw [if_neg (by rw [h1]; exact one_ne_zero)]
    congr 2
    refine IsBoundingBox_unique _ _ _ hbb ?_
    have hsucc : ∀ p ∈ ((msTransformMapToSource.ratios.map fun (dfRatio : ℚ) =>
        [(dfRatio * (X : ℚ), (0 : ℚ)), (dfRatio * X, (Y : ℚ)),
          (0, dfRatio * Y), ((X : ℚ), dfRatio * Y)]).flatten.map fun (p : ℚ × ℚ) =>
        (x0 + p.1 * sx + p.2 * 0, y0 + p.1 * 0 + p.2 * sy)),
        p ∈ msTransformMapToSource.successes proj ⟨0, 1, 0, 0, 0, 1⟩
          ((msTransformMapToSource.ratios.map fun (dfRatio : ℚ) =>
            [(dfRatio * (X : ℚ), (0 : ℚ)), (dfRatio * X, (Y : ℚ)),
              (0, dfRatio * Y), ((X : ℚ), dfRatio * Y)]).flatten.map fun (p : ℚ × ℚ) =>
            (x0 + p.1 * sx + p.2 * 0, y0 + p.1 * 0 + p.2 * sy)) := by
      intro p hp
      refine List.mem_map.mpr ⟨p, List.mem_filter.mpr ⟨hp, ?_⟩, ?_⟩
      · simp only [decide_eq_true_eq]
        exact hok p hp
      · dsimp only
        ext <;> simp
    refine ⟨?_, ⟨_, hsucc _ hp0, ?_⟩, ⟨_, hsucc _ hp1, ?_⟩, ⟨_, hsucc _ hp0, ?_⟩,
      ⟨_, hsucc _ hp1, ?_⟩⟩
    · intro q hq
      obtain ⟨p, hp, rfl⟩ := List.mem_map.mp hq
      obtain ⟨hp1, _⟩ := List.mem_filter.mp hp
      obtain ⟨⟨a, b⟩, ⟨c, d⟩⟩ := hgeo p hp1
      dsimp only
      refine ⟨?_, ?_, ?_, ?_⟩ <;> linarith
    · dsimp only
      ring
    · dsimp only
      ring
    · dsimp only
      ring
    · dsimp only
      ring

/-- The inverse of the identity geotransform is the identity, whatever the output array
held before. -/
theorem InvGeoTransform_identity (gt_out : GeoTransform) :
    InvGeoTransform ⟨0, 1, 0, 0, 0, 1⟩ gt_out = (1, ⟨0, 1, 0, 0, 0, 1⟩) := by
  norm_num [InvGeoTransform, fabs]

/-- The source extent that `msResampleGDALToMap` estimates under `sampleLib` with the
identity as source geotransform, for a map without coordinate system whose geotransform
has no rotation and non-negative scale: the extent of the destination in georeferenced
units. -/
theorem msResampleGDALToMap_extent_sample (proj : ProjLib) (nSrcXSize nSrcYSize : Int)
    (v : ℚ) (gt_garbage : GeoTransform) (x0 sx y0 sy : ℚ) (hsx : 0 ≤ sx) (hsy : 0 ≤ sy)
    (c : colorObj) (mode : ResampleMode) (p : projectionObj) (image : imageObj)
    (hX : 0 ≤ image.width) (hY : 0 ≤ image.height)
    (hhx : x0 + sx * (image.width : ℚ) < proj.HUGE_VAL)
    (hhy : y0 + sy * (image.height : ℚ) < proj.HUGE_VAL) :
    msResampleGDALToMap.extent (sampleLib proj ⟨0, 1, 0, 0, 0, 1⟩ nSrcXSize nSrcYSize v)
        (sampleLocals gt_garbage) ⟨⟨0⟩, ⟨x0, sx, 0, y0, 0, sy⟩, c⟩ (sampleLayer mode p) image 0
      = some { minx := x0, miny := y0, maxx := x0 + sx * (image.width : ℚ)
               maxy := y0 + sy * (image.height : ℚ) } := by
  unfold msResampleGDALToMap.extent
  dsimp only
  rw [if_neg (by simp [sampleLayer])]
  have hinv : (InvGeoTransform
      ((sampleLib proj ⟨0, 1, 0, 0, 0, 1⟩ nSrcXSize nSrcYSize v).msGetGDALGeoTransform 0
        ⟨⟨0⟩, ⟨x0, sx, 0, y0, 0, sy⟩, c⟩ (sampleLayer mode p))
      (sampleLocals gt_garbage).adfInvSrcGeoTransform).2 = ⟨0, 1, 0, 0, 0, 1⟩ := by
    show (InvGeoTransform ⟨0, 1, 0, 0, 0, 1⟩ _).2 = _
    rw [InvGeoTransform_identity]
  rw [hinv]
  have hest := msTransformMapToSource_no_crs_axis_aligned proj (fun _ => false)
    image.width image.height hX hY x0 sx y0 sy hsx hsy ⟨0⟩ p (Or.inl rfl)
    nSrcXSize nSrcYSize (sampleLocals gt_garbage).sSrcExtent hhx hhy
  have hest2 : msTransformMapToSource
      (sampleLib proj ⟨0, 1, 0, 0, 0, 1⟩ nSrcXSize nSrcYSize v).proj
      (sampleLib proj ⟨0, 1, 0, 0, 0, 1⟩ nSrcXSize nSrcYSize v).pj_is_latlong
      image.width image.height
      (⟨⟨0⟩, ⟨x0, sx, 0, y0, 0, sy⟩, c⟩ : mapObj).geotransform
      (⟨⟨0⟩, ⟨x0, sx, 0, y0, 0, sy⟩, c⟩ : mapObj).projection
      ((sampleLib proj ⟨0, 1, 0, 0, 0, 1⟩ nSrcXSize nSrcYSize v).GDALGetRasterXSize 0)
      ((sampleLib proj ⟨0, 1, 0, 0, 0, 1⟩ nSrcXSize nSrcYSize v).GDALGetRasterYSize 0)
      ⟨0, 1, 0, 0, 0, 1⟩ (sampleLayer mode p).projection
      (sampleLocals gt_garbage).sSrcExtent 0
      = some (MS_TRUE,
          { minx := x0, miny := y0, maxx := x0 + sx * (image.width : ℚ)
            maxy := y0 + sy * (image.height : ℚ) }) := hest
  rw [hest2]
  rfl

/-- C24 (amended): for every estimated source extent that lies a pixel or more outside the
source raster rectangle (`maxx <= -1`, `minx >= srcWidth + 1`, `maxy <= -1` or
`miny >= srcHeight + 1`), the window computation of `msResampleGDALToMap` (pad by one
pixel, floor and ceil, clamp) yields an empty window and the function returns 0 with the
destination image as it was. -/
theorem msResampleGDALToMap_no_overlap (lib : ResampleLib) (locals : ResampleLocals)
    (map : mapObj) (layer : layerObj) (image : imageObj) (hDS : Nat) (e : rectObj)
    (he : msResampleGDALToMap.extent lib locals map layer image hDS = some e)
    (hout : e.maxx ≤ -1 ∨ (lib.GDALGetRasterXSize hDS : ℚ) + 1 ≤ e.minx
      ∨ e.maxy ≤ -1 ∨ (lib.GDALGetRasterYSize hDS : ℚ) + 1 ≤ e.miny) :
    ((msResampleGDALToMap.window e (lib.GDALGetRasterXSize hDS)
          (lib.GDALGetRasterYSize hDS)).maxx
        ≤ (msResampleGDALToMap.window e (lib.GDALGetRasterXSize hDS)
          (lib.GDALGetRasterYSize hDS)).minx
      ∨ (msResampleGDALToMap.window e (lib.GDALGetRasterXSize hDS)
          (lib.GDALGetRasterYSize hDS)).maxy
        ≤ (msResampleGDALToMap.window e (lib.GDALGetRasterXSize hDS)
          (lib.GDALGetRasterYSize hDS)).miny)
    ∧ msResampleGDALToMap lib locals map layer image hDS = some (0, image) := by
  have hw := msResampleGDALToMap_window_empty e (lib.GDALGetRasterXSize hDS)
    (lib.GDALGetRasterYSize hDS) hout
  refine ⟨hw, ?_⟩
  unfold msResampleGDALToMap
  dsimp only
  rw [he]
  dsimp only
  rw [if_pos hw]

/-- C24 (witness): a 1 x 1 destination that covers `[5, 6] x [5, 6]` of a 1 x 1 source
raster: the estimated extent lies four pixels outside, and the function returns 0 with
the destination as it was. -/
theorem msResampleGDALToMap_no_overlap_witness :
    msResampleGDALToMap (sampleLib failingProj ⟨0, 1, 0, 0, 0, 1⟩ 1 1 7)
        (sampleLocals ⟨0, 0, 0, 0, 0, 0⟩) ⟨⟨0⟩, ⟨5, 1, 0, 5, 0, 1⟩, ⟨0, 0, 0⟩⟩
        (sampleLayer ResampleMode.BILINEAR ⟨0⟩)
        (rawImage 1 1 ImageMode.FLOAT32 1 fun _ => 0) 0
      = some (0, rawImage 1 1 ImageMode.FLOAT32 1 fun _ => 0) := by
  have hH : failingProj.HUGE_VAL = (10 : ℚ) ^ 400 := rfl
  have he := msResampleGDALToMap_extent_sample failingProj 1 1 7 ⟨0, 0, 0, 0, 0, 0⟩
    5 1 5 1 (by norm_num) (by norm_num) ⟨0, 0, 0⟩ ResampleMode.BILINEAR ⟨0⟩
    (rawImage 1 1 ImageMode.FLOAT32 1 fun _ => 0) (by decide) (by decide)
    (by rw [hH]; norm_num [rawImage]) (by rw [hH]; norm_num [rawImage])
  exact (msResampleGDALToMap_no_overlap _ _ _ _ _ 0 _ he
    (Or.inr (Or.inl (by
      show (((1 : Int) : ℚ)) + 1 ≤ 5
      norm_num)))).2

/-- The orchestrator `msResampleGDALToMap` on a 1 x 1 destination that covers
`[1.1, 1.3] x [0, 1]` of a 1 x 1 source raster, in bilinear mode: the estimated extent
lies outside the source raster, the window is the whole raster, and the function goes on
to the bilinear resampler. -/
theorem msResampleGDALToMap_near_miss_eq :
    msResampleGDALToMap.extent (sampleLib failingProj ⟨0, 1, 0, 0, 0, 1⟩ 1 1 7)
        (sampleLocals ⟨0, 0, 0, 0, 0, 0⟩) ⟨⟨0⟩, ⟨11 / 10, 1 / 5, 0, 0, 0, 1⟩, ⟨0, 0, 0⟩⟩
        (sampleLayer ResampleMode.BILINEAR ⟨0⟩)
        (rawImage 1 1 ImageMode.FLOAT32 1 fun _ => 0) 0
      = some ⟨11 / 10, 0, 13 / 10, 1⟩
    ∧ msResampleGDALToMap.window ⟨11 / 10, 0, 13 / 10, 1⟩ 1 1 = ⟨0, 0, 1, 1⟩
    ∧ msResampleGDALToMap (sampleLib failingProj ⟨0, 1, 0, 0, 0, 1⟩ 1 1 7)
        (sampleLocals ⟨0, 0, 0, 0, 0, 0⟩) ⟨⟨0⟩, ⟨11 / 10, 1 / 5, 0, 0, 0, 1⟩, ⟨0, 0, 0⟩⟩
        (sampleLayer ResampleMode.BILINEAR ⟨0⟩)
        (rawImage 1 1 ImageMode.FLOAT32 1 fun _ => 0) 0
      = msBilinearRasterResampler sampleGd (rawImage 1 1 ImageMode.FLOAT32 1 fun _ => 7)
          ⟨-1, -1, -1⟩ (rawImage 1 1 ImageMode.FLOAT32 1 fun _ => 0) (fun _ => 0)
          (msApproxTransformer.callback (msInitApproxTransformer
            (msProjTransformer.callback failingProj
              { psSrcProj := 0, bSrcIsGeographic := false
                adfInvSrcGeoTransform := ⟨0, 1, 0, 0, 0, 1⟩
                psDstProj := 0, bDstIsGeographic := false
                adfDstGeoTransform := ⟨11 / 10, 1 / 5, 0, 0, 0, 1⟩
                bUseProj := false }) (333 / 1000))) := by
  have hH : failingProj.HUGE_VAL = (10 : ℚ) ^ 400 := rfl
  have he0 := msResampleGDALToMap_extent_sample failingProj 1 1 7 ⟨0, 0, 0, 0, 0, 0⟩
    (11 / 10) (1 / 5) 0 1 (by norm_num) (by norm_num) ⟨0, 0, 0⟩ ResampleMode.BILINEAR ⟨0⟩
    (rawImage 1 1 ImageMode.FLOAT32 1 fun _ => 0) (by decide) (by decide)
    (by rw [hH]; norm_num [rawImage]) (by rw [hH]; norm_num [rawImage])
  have he : msResampleGDALToMap.extent (sampleLib failingProj ⟨0, 1, 0, 0, 0, 1⟩ 1 1 7)
      (sampleLocals ⟨0, 0, 0, 0, 0, 0⟩) ⟨⟨0⟩, ⟨11 / 10, 1 / 5, 0, 0, 0, 1⟩, ⟨0, 0, 0⟩⟩
      (sampleLayer ResampleMode.BILINEAR ⟨0⟩)
      (rawImage 1 1 ImageMode.FLOAT32 1 fun _ => 0) 0
      = some ⟨11 / 10, 0, 13 / 10, 1⟩ := by
    rw [he0]
    norm_num [rawImage]
  have hwin : msResampleGDALToMap.window ⟨11 / 10, 0, 13 / 10, 1⟩ 1 1 = ⟨0, 0, 1, 1⟩ := by
    have f1 : ⌊(11 / 10 : ℚ) - 1⌋ = 0 := by
      rw [Int.floor_eq_iff]
      norm_num
    have f2 : ⌈(13 / 10 : ℚ) + 1⌉ = 3 := by
      rw [Int.ceil_eq_iff]
      norm_num
    have f3 : ⌊(0 : ℚ) - 1⌋ = -1 := by
      rw [Int.floor_eq_iff]
      norm_num
    have f4 : ⌈(1 : ℚ) + 1⌉ = 2 := by
      rw [Int.ceil_eq_iff]
      norm_num
    unfold msResampleGDALToMap.window
    dsimp only
    rw [f1, f2, f3, f4]
    norm_num [MAX, MIN]
  refine ⟨he, hwin, ?_⟩
  have hwin2 : msResampleGDALToMap.window ⟨11 / 10, 0, 13 / 10, 1⟩
      ((sampleLib failingProj ⟨0, 1, 0, 0, 0, 1⟩ 1 1 7).GDALGetRasterXSize 0)
      ((sampleLib failingProj ⟨0, 1, 0, 0, 0, 1⟩ 1 1 7).GDALGetRasterYSize 0)
      = ⟨0, 0, 1, 1⟩ := hwin
  unfold msResampleGDALToMap
  dsimp only
  rw [he]
  dsimp only
  rw [hwin2]
  norm_num [sampleLib, sampleLayer, sampleLocals, rawImage, sampleSqrt_one,
    msResampleGDALToMap.cellsize, msResampleGDALToMap.dfOversampleRatio,
    msResampleGDALToMap.loadSize, msResampleGDALToMap.scratchGeoTransform,
    msResampleGDALToMap.dummyMap, msResampleGDALToMap.colourMap, msInitProjTransformer,
    InvGeoTransform, fabs, castInt, toInt32, trunc, MAX, MIN]
  simp only [reduceCtorEq, false_and, if_false]

/-- The centre of the one pixel of a 1 x 1 destination under the approximating transformer
over `msProjTransformer` without coordinate systems, destination geotransform
`(1.1, 0.2, 0, 0, 0, 1)` and the identity as inverse source geotransform: the source
position `(1.2, 0.5)`. -/
theorem transformedCentre_near_miss :
    transformedCentre
      (msApproxTransformer.callback (msInitApproxTransformer
        (msProjTransformer.callback failingProj
          { psSrcProj := 0, bSrcIsGeographic := false
            adfInvSrcGeoTransform := ⟨0, 1, 0, 0, 0, 1⟩
            psDstProj := 0, bDstIsGeographic := false
            adfDstGeoTransform := ⟨11 / 10, 1 / 5, 0, 0, 0, 1⟩
            bUseProj := false }) (333 / 1000))) 1 0 0 = ⟨6 / 5, 1 / 2, 1⟩ := by
  unfold transformedCentre
  have h1 : upTo 1 = [0] := by decide
  rw [h1]
  show ((msApproxTransformer _ _).2.getD _ _) = _
  rw [msApproxTransformer_of_length_le_five _ _ (by simp)]
  norm_num [msInitApproxTransformer, msProjTransformer.callback, msProjTransformer,
    msProjTransformer.toDstGeo, msProjTransformer.toSourceRaster]

/-- The loop body of `msBilinearRasterResampler` for the one pixel of a 1 x 1 destination
whose centre maps to `(1.2, 0.5)`, to the right of a 1 x 1 FLOAT32 source with the sample
7 and no nodata sample: the destination gets 7. -/
theorem msBilinearRasterResampler_pixel_near_miss (s s' : imageObj) (hw : s.width = 1)
    (hh : s.height = 1)
    (h : msBilinearRasterResampler.pixel sampleGd
      (rawImage 1 1 ImageMode.FLOAT32 1 fun _ => 7) ⟨-1, -1, -1⟩
      (fun _ => 0) 0 0 ⟨6 / 5, 1 / 2, 1⟩ s = some s') :
    s'.raw 0 = 7 := by
  have hpos : msBilinearRasterResampler.srcPos
      (rawImage 1 1 ImageMode.FLOAT32 1 fun _ => 7)
      ⟨6 / 5, 1 / 2, 1⟩ = some ⟨0, 0, 0, 0, 7 / 10, 0⟩ := by
    norm_num [msBilinearRasterResampler.srcPos, castInt, toInt32, trunc, MAX, MIN, rawImage]
  have hraw : (rawImage 1 1 ImageMode.FLOAT32 1 fun _ => 7).format.renderer
      ≠ Renderer.GD := by decide
  have hdata : (rawImage 1 1 ImageMode.FLOAT32 1 fun _ => 7).raw
      (0 + 0 * (rawImage 1 1 ImageMode.FLOAT32 1 fun _ => 7).width
        + 0 * (rawImage 1 1 ImageMode.FLOAT32 1 fun _ => 7).width
          * (rawImage 1 1 ImageMode.FLOAT32 1 fun _ => 7).height)
      ≠ ((⟨-1, -1, -1⟩ : colorObj).red : ℚ) := by
    norm_num [rawImage]
  unfold msBilinearRasterResampler.pixel at h
  rw [hpos] at h
  dsimp only at h
  unfold msBilinearRasterResampler.sample at h
  simp only [msSourceSample_raw _ _ _ _ _ _ _ _ hraw (Or.inr (Or.inl rfl)) hdata,
    Option.some_bind] at h
  rw [if_neg (by norm_num)] at h
  simp only [Option.some.injEq] at h
  subst h
  have key : ∀ (F : Int → ℚ) (a : ℚ),
      (writeResampledPixel sampleGd
        (rawImage 1 1 ImageMode.FLOAT32 1 fun _ => 7) (fun _ => 0)
        0 0 F a s).raw 0 = F 0 := by
    intro F a
    have := writeResampledPixel_raw sampleGd
      (rawImage 1 1 ImageMode.FLOAT32 1 fun _ => 7) (fun _ => 0)
      0 0 F a s rfl 0 le_rfl (by decide)
    rw [hw, hh, if_neg (show ¬ (rawImage 1 1 ImageMode.FLOAT32 1 fun _ : Int =>
        (7 : ℚ)).format.imagemode = ImageMode.INT16 from by decide),
      if_pos (show (rawImage 1 1 ImageMode.FLOAT32 1 fun _ : Int =>
        (7 : ℚ)).format.imagemode = ImageMode.FLOAT32 from rfl)] at this
    rw [← this]
    congr 1
  rw [key]
  norm_num [rawImage]

/-- C24 (counterexample): a 1 x 1 destination that covers `[1.1, 1.3] x [0, 1]` of a 1 x 1
source raster whose one sample is 7, resampled in bilinear mode. The estimated extent
lies entirely outside the source raster (`minx = 1.1 > 1 = srcWidth`), yet the padded
window is the whole raster, not empty, and the function goes on: it returns 0 after the
bilinear resampler has written 7 over the 0 in the destination pixel. -/
theorem msResampleGDALToMap_no_overlap_counterexample :
    ∃ e : rectObj,
      msResampleGDALToMap.extent (sampleLib failingProj ⟨0, 1, 0, 0, 0, 1⟩ 1 1 7)
        (sampleLocals ⟨0, 0, 0, 0, 0, 0⟩) ⟨⟨0⟩, ⟨11 / 10, 1 / 5, 0, 0, 0, 1⟩, ⟨0, 0, 0⟩⟩
        (sampleLayer ResampleMode.BILINEAR ⟨0⟩)
        (rawImage 1 1 ImageMode.FLOAT32 1 fun _ => 0) 0 = some e
      ∧ ((1 : Int) : ℚ) < e.minx
      ∧ ¬ ((msResampleGDALToMap.window e 1 1).maxx ≤ (msResampleGDALToMap.window e 1 1).minx
        ∨ (msResampleGDALToMap.window e 1 1).maxy ≤ (msResampleGDALToMap.window e 1 1).miny)
      ∧ (rawImage 1 1 ImageMode.FLOAT32 1 fun _ => 0).raw 0 = 0
      ∧ ∃ dst', msResampleGDALToMap (sampleLib failingProj ⟨0, 1, 0, 0, 0, 1⟩ 1 1 7)
          (sampleLocals ⟨0, 0, 0, 0, 0, 0⟩) ⟨⟨0⟩, ⟨11 / 10, 1 / 5, 0, 0, 0, 1⟩, ⟨0, 0, 0⟩⟩
          (sampleLayer ResampleMode.BILINEAR ⟨0⟩)
          (rawImage 1 1 ImageMode.FLOAT32 1 fun _ => 0) 0 = some (0, dst')
        ∧ dst'.raw 0 = 7 := by
  obtain ⟨he, hwin, heq⟩ := msResampleGDALToMap_near_miss_eq
  refine ⟨_, he, by norm_num, ?_, rfl, ?_⟩
  · rw [hwin]
    norm_num
  · rw [heq]
    have hsome := msBilinearRasterResampler_isSome sampleGd
      (rawImage 1 1 ImageMode.FLOAT32 1 fun _ => 7) ⟨-1, -1, -1⟩
      (rawImage 1 1 ImageMode.FLOAT32 1 fun _ => 0) (fun _ => 0)
      (msApproxTransformer.callback (msInitApproxTransformer
        (msProjTransformer.callback failingProj
          { psSrcProj := 0, bSrcIsGeographic := false
            adfInvSrcGeoTransform := ⟨0, 1, 0, 0, 0, 1⟩
            psDstProj := 0, bDstIsGeographic := false
            adfDstGeoTransform := ⟨11 / 10, 1 / 5, 0, 0, 0, 1⟩
            bUseProj := false }) (333 / 1000)))
      (Or.inr (Or.inr (Or.inl rfl)))
    obtain ⟨⟨rc, dst'⟩, hres⟩ := Option.isSome_iff_exists.mp hsome
    have key := msBilinearRasterResampler_pixelwise sampleGd
      (rawImage 1 1 ImageMode.FLOAT32 1 fun _ => 7) ⟨-1, -1, -1⟩
      (rawImage 1 1 ImageMode.FLOAT32 1 fun _ => 0) (fun _ => 0)
      (msApproxTransformer.callback (msInitApproxTransformer
        (msProjTransformer.callback failingProj
          { psSrcProj := 0, bSrcIsGeographic := false
            adfInvSrcGeoTransform := ⟨0, 1, 0, 0, 0, 1⟩
            psDstProj := 0, bDstIsGeographic := false
            adfDstGeoTransform := ⟨11 / 10, 1 / 5, 0, 0, 0, 1⟩
            bUseProj := false }) (333 / 1000)))
      (fun _ _ new => new.2.2 0 = 7)
      (by
        intro nDstY nDstX s s' h1 h2 h3 h4 hs hstep
        have hY : nDstY = 0 := by
          have : nDstY < 1 := h2
          omega
        have hX : nDstX = 0 := by
          have : nDstX < 1 := h4
          omega
        subst hY
        subst hX
        have hc := transformedCentre_near_miss
        have hwd : (rawImage 1 1 ImageMode.FLOAT32 1 fun _ : Int => (0 : ℚ)).width = 1 := rfl
        rw [hwd, hc] at hstep
        have := msBilinearRasterResampler_pixel_near_miss s s' hs.1 hs.2.1 hstep
        simpa [imageObj.view, rawImage] using this)
      rc dst' hres
    obtain ⟨hrc, -, hpix⟩ := key
    subst hrc
    refine ⟨dst', hres, ?_⟩
    have := hpix 0 0 le_rfl (by decide) le_rfl (by decide)
    simpa [imageObj.view, rawImage] using this

/-- For a source geotransform whose determinant is below the threshold
`msInitProjTransformer` returns NULL. -/
theorem msInitProjTransformer_degenerate (pj_is_latlong : Nat → Bool)
    (msProjectionsDiffer : projectionObj → projectionObj → Bool)
    (psSrc : projectionObj) (padfSrcGeoTransform : GeoTransform)
    (psDst : projectionObj) (padfDstGeoTransform : GeoTransform)
    (hdet : fabs (padfSrcGeoTransform.a1 * padfSrcGeoTransform.a5
      - padfSrcGeoTransform.a2 * padfSrcGeoTransform.a4) < 1 / 1000000000000000) :
    msInitProjTransformer pj_is_latlong msProjectionsDiffer psSrc padfSrcGeoTransform
      psDst padfDstGeoTransform = none := by
  unfold msInitProjTransformer InvGeoTransform
  dsimp only
  rw [if_pos hdet]
  rfl

/-- For a source geotransform whose determinant is below the threshold `InvGeoTransform`
returns 0 and leaves the output array as it was. -/
theorem InvGeoTransform_degenerate (gt_in gt_out : GeoTransform)
    (hdet : fabs (gt_in.a1 * gt_in.a5 - gt_in.a2 * gt_in.a4) < 1 / 1000000000000000) :
    InvGeoTransform gt_in gt_out = (0, gt_out) := by
  unfold InvGeoTransform
  dsimp only
  rw [if_pos hdet]

/-- The function `msResampleGDALToMap` returns 0 and leaves the destination as it was when
the window of the estimated extent is empty. -/
theorem msResampleGDALToMap_of_window_empty (lib : ResampleLib) (locals : ResampleLocals)
    (map : mapObj) (layer : layerObj) (image : imageObj) (hDS : Nat) (e : rectObj)
    (he : msResampleGDALToMap.extent lib locals map layer image hDS = some e)
    (hw : (msResampleGDALToMap.window e (lib.GDALGetRasterXSize hDS)
          (lib.GDALGetRasterYSize hDS)).maxx
        ≤ (msResampleGDALToMap.window e (lib.GDALGetRasterXSize hDS)
          (lib.GDALGetRasterYSize hDS)).minx
      ∨ (msResampleGDALToMap.window e (lib.GDALGetRasterXSize hDS)
          (lib.GDALGetRasterYSize hDS)).maxy
        ≤ (msResampleGDALToMap.window e (lib.GDALGetRasterXSize hDS)
          (lib.GDALGetRasterYSize hDS)).miny) :
    msResampleGDALToMap lib locals map layer image hDS = some (0, image) := by
  unfold msResampleGDALToMap
  dsimp only
  rw [he]
  dsimp only
  rw [if_pos hw]

/-- The estimate of `msTransformMapToSource` without a coordinate system on one side, for
the identity as destination geotransform and an inverse source geotransform whose four
coefficients `[1]`, `[2]`, `[4]`, `[5]` are zero: the one point `(cx, cy)`. -/
theorem msTransformMapToSource_no_crs_const_inverse (proj : ProjLib)
    (pj_is_latlong : Nat → Bool) (X Y : Int) (hX : 0 ≤ X) (hY : 0 ≤ Y) (cx cy : ℚ)
    (psDstProj psSrcProj : projectionObj)
    (hnull : psDstProj.proj = 0 ∨ psSrcProj.proj = 0) (nSrcXSize nSrcYSize : Int)
    (psSrcExtent : rectObj)
    (hhx : (X : ℚ) < proj.HUGE_VAL) (hhy : (Y : ℚ) < proj.HUGE_VAL) :
    msTransformMapToSource proj pj_is_latlong X Y ⟨0, 1, 0, 0, 0, 1⟩ psDstProj
        nSrcXSize nSrcYSize ⟨cx, 0, 0, cy, 0, 0⟩ psSrcProj psSrcExtent 0
      = some (MS_TRUE, { minx := cx, miny := cy, maxx := cx, maxy := cy }) := by
  obtain ⟨hin, hmem0, -⟩ := msTransformMapToSource_edge_samples_in X Y hX hY
  rw [msTransformMapToSource_edge, msTransformMapToSource_samples_edge, Option.some_bind,
    msTransformMapToSource_project_no_crs _ _ _ _ _ hnull]
  dsimp only
  have hok : ∀ p ∈ ((msTransformMapToSource.ratios.map fun (dfRatio : ℚ) =>
        [(dfRatio * (X : ℚ), (0 : ℚ)), (dfRatio * X, (Y : ℚ)),
          (0, dfRatio * Y), ((X : ℚ), dfRatio * Y)]).flatten.map fun (p : ℚ × ℚ) =>
        (0 + p.1 * 1 + p.2 * 0, 0 + p.1 * 0 + p.2 * 1)),
      ¬ (p.1 = proj.HUGE_VAL ∨ p.2 = proj.HUGE_VAL) := by
    intro p hp
    obtain ⟨s, hs, rfl⟩ := List.mem_map.mp hp
    obtain ⟨s1, s2, s3, s4⟩ := hin s hs
    dsimp only
    rintro (h | h)
    · have : s.1 = proj.HUGE_VAL := by rw [← h]; ring
      rw [this] at s2
      linarith
    · have : s.2 = proj.HUGE_VAL := by rw [← h]; ring
      rw [this] at s4
      linarith
  rw [if_neg (fun ⟨p, hp, hf⟩ => hok p hp hf)]
  obtain ⟨_, hcase⟩ := msTransformMapToSource_collect_spec proj ⟨cx, 0, 0, cy, 0, 0⟩
    psSrcExtent
    ((msTransformMapToSource.ratios.map fun (dfRatio : ℚ) =>
        [(dfRatio * (X : ℚ), (0 : ℚ)), (dfRatio * X, (Y : ℚ)),
          (0, dfRatio * Y), ((X : ℚ), dfRatio * Y)]).flatten.map fun (p : ℚ × ℚ) =>
        (0 + p.1 * 1 + p.2 * 0, 0 + p.1 * 0 + p.2 * 1))
  have hp0 := List.mem_map_of_mem (fun (p : ℚ × ℚ) =>
    (0 + p.1 * 1 + p.2 * 0, 0 + p.1 * 0 + p.2 * 1)) hmem0
  rcases hcase with ⟨_, _, hall⟩ | ⟨h1, hbb⟩
  · exact absurd (hall _ hp0) (hok _ hp0)
  · rw [if_neg (by rw [h1]; exact one_ne_zero)]
    congr 2
    refine IsBoundingBox_const _ _ (cx, cy) hbb ?_
    intro q hq
    obtain ⟨p, _, rfl⟩ := List.mem_map.mp hq
    dsimp only
    ext <;> simp

/-- The source extent that `msResampleGDALToMap` estimates under `sampleLib` with the
degenerate source geotransform `(0, 1, 0, 0, 0, 0)`, for a map without coordinate system
and with the identity as geotransform, from what the uninitialised array
`adfInvSrcGeoTransform` holds when its coefficients `[1]`, `[2]`, `[4]`, `[5]` are zero: the
one point `(cx, cy)` that the array holds in `[0]` and `[3]`. -/
theorem msResampleGDALToMap_extent_degenerate (cx cy : ℚ) (mode : ResampleMode) :
    msResampleGDALToMap.extent (sampleLib failingProj ⟨0, 1, 0, 0, 0, 0⟩ 1 1 7)
        (sampleLocals ⟨cx, 0, 0, cy, 0, 0⟩) ⟨⟨0⟩, ⟨0, 1, 0, 0, 0, 1⟩, ⟨0, 0, 0⟩⟩
        (sampleLayer mode ⟨0⟩) (rawImage 1 1 ImageMode.FLOAT32 1 fun _ => 0) 0
      = some { minx := cx, miny := cy, maxx := cx, maxy := cy } := by
  unfold msResampleGDALToMap.extent
  dsimp only
  rw [if_neg (by simp [sampleLayer])]
  have hinv : (InvGeoTransform
      ((sampleLib failingProj ⟨0, 1, 0, 0, 0, 0⟩ 1 1 7).msGetGDALGeoTransform 0
        ⟨⟨0⟩, ⟨0, 1, 0, 0, 0, 1⟩, ⟨0, 0, 0⟩⟩ (sampleLayer mode ⟨0⟩))
      (sampleLocals ⟨cx, 0, 0, cy, 0, 0⟩).adfInvSrcGeoTransform).2 = ⟨cx, 0, 0, cy, 0, 0⟩ := by
    show (InvGeoTransform ⟨0, 1, 0, 0, 0, 0⟩ ⟨cx, 0, 0, cy, 0, 0⟩).2 = _
    rw [InvGeoTransform_degenerate _ _ (by norm_num [fabs])]
  rw [hinv]
  have hH : failingProj.HUGE_VAL = (10 : ℚ) ^ 400 := rfl
  have hest := msTransformMapToSource_no_crs_const_inverse failingProj (fun _ => false)
    1 1 (by decide) (by decide) cx cy ⟨0⟩ ⟨0⟩ (Or.inl rfl) 1 1
    (sampleLocals ⟨cx, 0, 0, cy, 0, 0⟩).sSrcExtent
    (by rw [hH]; norm_num) (by rw [hH]; norm_num)
  have hest2 : msTransformMapToSource
      (sampleLib failingProj ⟨0, 1, 0, 0, 0, 0⟩ 1 1 7).proj
      (sampleLib failingProj ⟨0, 1, 0, 0, 0, 0⟩ 1 1 7).pj_is_latlong
      (rawImage 1 1 ImageMode.FLOAT32 1 fun _ => 0).width
      (rawImage 1 1 ImageMode.FLOAT32 1 fun _ => 0).height
      (⟨⟨0⟩, ⟨0, 1, 0, 0, 0, 1⟩, ⟨0, 0, 0⟩⟩ : mapObj).geotransform
      (⟨⟨0⟩, ⟨0, 1, 0, 0, 0, 1⟩, ⟨0, 0, 0⟩⟩ : mapObj).projection
      ((sampleLib failingProj ⟨0, 1, 0, 0, 0, 0⟩ 1 1 7).GDALGetRasterXSize 0)
      ((sampleLib failingProj ⟨0, 1, 0, 0, 0, 0⟩ 1 1 7).GDALGetRasterYSize 0)
      ⟨cx, 0, 0, cy, 0, 0⟩ (sampleLayer mode ⟨0⟩).projection
      (sampleLocals ⟨cx, 0, 0, cy, 0, 0⟩).sSrcExtent 0
      = some (MS_TRUE, { minx := cx, miny := cy, maxx := cx, maxy := cy }) := hest
  rw [hest2]
  rfl

/-- C26 (the code at a failing input): `msInitProjTransformer` returns NULL for every
source geotransform whose determinant is below the threshold, but `msResampleGDALToMap`
does not look at what `InvGeoTransform` returns: with the degenerate source geotransform
`(0, 1, 0, 0, 0, 0)` the array `adfInvSrcGeoTransform` keeps what was on the stack, and the
estimator works from it. When the array holds `(-100, 0, 0, -100, 0, 0)` the function
returns 0, the outcome of a source without overlap; when it holds
`(0.5, 0, 0, 0.5, 0, 0)` the function loads the scratch image and returns `MS_PROJERR`.
The destination is as it was in both runs. -/
theorem msResampleGDALToMap_degenerate_transform :
    (∀ (pj_is_latlong : Nat → Bool)
        (msProjectionsDiffer : projectionObj → projectionObj → Bool)
        (psSrc : projectionObj) (padfSrcGeoTransform : GeoTransform)
        (psDst : projectionObj) (padfDstGeoTransform : GeoTransform),
      fabs (padfSrcGeoTransform.a1 * padfSrcGeoTransform.a5
        - padfSrcGeoTransform.a2 * padfSrcGeoTransform.a4) < 1 / 1000000000000000 →
      msInitProjTransformer pj_is_latlong msProjectionsDiffer psSrc padfSrcGeoTransform
        psDst padfDstGeoTransform = none)
    ∧ fabs ((⟨0, 1, 0, 0, 0, 0⟩ : GeoTransform).a1 * (⟨0, 1, 0, 0, 0, 0⟩ : GeoTransform).a5
        - (⟨0, 1, 0, 0, 0, 0⟩ : GeoTransform).a2 * (⟨0, 1, 0, 0, 0, 0⟩ : GeoTransform).a4)
      < 1 / 1000000000000000
    ∧ msResampleGDALToMap (sampleLib failingProj ⟨0, 1, 0, 0, 0, 0⟩ 1 1 7)
        (sampleLocals ⟨-100, 0, 0, -100, 0, 0⟩) ⟨⟨0⟩, ⟨0, 1, 0, 0, 0, 1⟩, ⟨0, 0, 0⟩⟩
        (sampleLayer ResampleMode.NEAREST ⟨0⟩)
        (rawImage 1 1 ImageMode.FLOAT32 1 fun _ => 0) 0
      = some (0, rawImage 1 1 ImageMode.FLOAT32 1 fun _ => 0)
    ∧ msResampleGDALToMap (sampleLib failingProj ⟨0, 1, 0, 0, 0, 0⟩ 1 1 7)
        (sampleLocals ⟨1 / 2, 0, 0, 1 / 2, 0, 0⟩) ⟨⟨0⟩, ⟨0, 1, 0, 0, 0, 1⟩, ⟨0, 0, 0⟩⟩
        (sampleLayer ResampleMode.NEAREST ⟨0⟩)
        (rawImage 1 1 ImageMode.FLOAT32 1 fun _ => 0) 0
      = some ((sampleLib failingProj ⟨0, 1, 0, 0, 0, 0⟩ 1 1 7).MS_PROJERR,
          rawImage 1 1 ImageMode.FLOAT32 1 fun _ => 0) := by
  refine ⟨fun a b c d e f h => msInitProjTransformer_degenerate a b c d e f h,
    by norm_num [fabs], ?_, ?_⟩
  · have he := msResampleGDALToMap_extent_degenerate (-100) (-100) ResampleMode.NEAREST
    exact msResampleGDALToMap_of_window_empty _ _ _ _ _ 0 _ he
      (msResampleGDALToMap_window_empty _ _ _ (Or.inl (by norm_num)))
  · have he := msResampleGDALToMap_extent_degenerate (1 / 2) (1 / 2) ResampleMode.NEAREST
    have hwin : msResampleGDALToMap.window ⟨1 / 2, 1 / 2, 1 / 2, 1 / 2⟩
        ((sampleLib failingProj ⟨0, 1, 0, 0, 0, 0⟩ 1 1 7).GDALGetRasterXSize 0)
        ((sampleLib failingProj ⟨0, 1, 0, 0, 0, 0⟩ 1 1 7).GDALGetRasterYSize 0)
        = ⟨0, 0, 1, 1⟩ := by
      show msResampleGDALToMap.window ⟨1 / 2, 1 / 2, 1 / 2, 1 / 2⟩ 1 1 = ⟨0, 0, 1, 1⟩
      have f1 : ⌊(1 / 2 : ℚ) - 1⌋ = -1 := by
        rw [Int.floor_eq_iff]
        norm_num
      have f2 : ⌈(1 / 2 : ℚ) + 1⌉ = 2 := by
        rw [Int.ceil_eq_iff]
        norm_num
      unfold msResampleGDALToMap.window
      dsimp only
      rw [f1, f2]
      norm_num [MAX, MIN]
    unfold msResampleGDALToMap
    dsimp only
    rw [he]
    dsimp only
    rw [hwin]
    norm_num [sampleLib, sampleLayer, sampleLocals, rawImage, sampleSqrt_one,
      msResampleGDALToMap.cellsize, msResampleGDALToMap.dfOversampleRatio,
      msResampleGDALToMap.loadSize, msResampleGDALToMap.scratchGeoTransform,
      msResampleGDALToMap.dummyMap, msResampleGDALToMap.colourMap, msInitProjTransformer,
      InvGeoTransform, fabs, castInt, toInt32, trunc, MAX, MIN]
    simp only [reduceCtorEq, false_and, if_false]

/-- The length of a list of lists that all have the length `k`, flattened. -/
theorem length_flatten_map_const {α β : Type} (f : α → List β) (k : Nat)
    (hf : ∀ a, (f a).length = k) (l : List α) :
    ((l.map f).flatten).length = k * l.length := by
  induction l with
  | nil => simp
  | cons a l ih =>
    rw [List.map_cons, List.flatten_cons, List.length_append, ih, hf, List.length_cons]
    ring

/-- C39: with `EDGE_STEPS = 10` the edge strategy of `msTransformMapToSource` generates
exactly 44 samples and the grid strategy exactly 121 = `MAX_SIZE` samples, for every
destination size; no `assert( nSamples < MAX_SIZE )` fails (the model returns the
samples), and the number of samples written never exceeds `MAX_SIZE`, so every index
written is below `MAX_SIZE`. -/
theorem msTransformMapToSource_sample_buffer (nDstXSize nDstYSize bUseGrid : Int) :
    EDGE_STEPS = 10 ∧ MAX_SIZE = 121
    ∧ ∃ xy : List (ℚ × ℚ),
        msTransformMapToSource.samples nDstXSize nDstYSize bUseGrid = some xy
        ∧ xy.length = (if bUseGrid = 0 then 44 else 121)
        ∧ (xy.length : Int) ≤ MAX_SIZE := by
  refine ⟨rfl, by decide, ?_⟩
  have hM : MAX_SIZE = 121 := by decide
  by_cases hg : bUseGrid = 0
  · subst hg
    have hlen := length_flatten_map_const
      (fun (dfRatio : ℚ) => [(dfRatio * (nDstXSize : ℚ), (0 : ℚ)),
        (dfRatio * nDstXSize, (nDstYSize : ℚ)),
        (0, dfRatio * nDstYSize), ((nDstXSize : ℚ), dfRatio * nDstYSize)]) 4 (fun _ => rfl)
      msTransformMapToSource.ratios
    rw [msTransformMapToSource_length_ratios] at hlen
    refine ⟨_, msTransformMapToSource_samples_edge _ _, ?_, ?_⟩
    · rw [hlen, if_pos rfl]
    · rw [hlen, hM]
      decide
  · have hlen := length_flatten_map_const
      (fun (dfRatio : ℚ) => msTransformMapToSource.ratios.map fun (dfRatio2 : ℚ) =>
        (dfRatio2 * (nDstXSize : ℚ), dfRatio * (nDstYSize : ℚ))) 11
      (fun _ => by rw [List.length_map, msTransformMapToSource_length_ratios])
      msTransformMapToSource.ratios
    rw [msTransformMapToSource_length_ratios] at hlen
    refine ⟨_, msTransformMapToSource_samples_grid _ _ _ hg, ?_, ?_⟩
    · rw [hlen, if_neg hg]
    · rw [hlen, hM]
      decide

/-- In grid mode `msTransformMapToSource` is the grid pass, whatever non-zero value
`bUseGrid` has. -/
theorem msTransformMapToSource_eq_gridPass (proj : ProjLib) (pj_is_latlong : Nat → Bool)
    (nDstXSize nDstYSize : Int) (adfDstGeoTransform : GeoTransform)
    (psDstProj : projectionObj) (nSrcXSize nSrcYSize : Int)
    (adfInvSrcGeoTransform : GeoTransform) (psSrcProj : projectionObj)
    (psSrcExtent : rectObj) (bUseGrid : Int) (hg : bUseGrid ≠ 0) :
    msTransformMapToSource proj pj_is_latlong nDstXSize nDstYSize adfDstGeoTransform
        psDstProj nSrcXSize nSrcYSize adfInvSrcGeoTransform psSrcProj psSrcExtent bUseGrid
      = msTransformMapToSource.gridPass proj pj_is_latlong nDstXSize nDstYSize
          adfDstGeoTransform psDstProj nSrcXSize nSrcYSize adfInvSrcGeoTransform psSrcProj
          psSrcExtent := by
  rw [msTransformMapToSource_grid _ _ _ _ _ _ _ _ _ _ _ _ hg,
    msTransformMapToSource_samples_grid _ _ _ hg]
  unfold msTransformMapToSource.gridPass
  rw [msTransformMapToSource_samples_grid _ _ 1 (by decide)]
  try rfl

/-- C32: for every input for which the CRS conversion of the edge samples returns and at
least one edge sample comes back as `HUGE_VAL`, `msTransformMapToSource` in edge mode
returns exactly what it returns in grid mode on the same input; in grid mode, for every
non-zero `bUseGrid`, the function is the grid pass, which has no call of the function. -/
theorem msTransformMapToSource_edge_to_grid (proj : ProjLib) (pj_is_latlong : Nat → Bool)
    (nDstXSize nDstYSize : Int) (adfDstGeoTransform : GeoTransform)
    (psDstProj : projectionObj) (nSrcXSize nSrcYSize : Int)
    (adfInvSrcGeoTransform : GeoTransform) (psSrcProj : projectionObj)
    (psSrcExtent : rectObj) (xy : List (ℚ × ℚ))
    (hxy : (msTransformMapToSource.samples nDstXSize nDstYSize 0).bind
        (msTransformMapToSource.project proj pj_is_latlong adfDstGeoTransform psDstProj
          psSrcProj) = some xy)
    (hfail : ∃ p ∈ xy, p.1 = proj.HUGE_VAL ∨ p.2 = proj.HUGE_VAL) :
    msTransformMapToSource proj pj_is_latlong nDstXSize nDstYSize adfDstGeoTransform
        psDstProj nSrcXSize nSrcYSize adfInvSrcGeoTransform psSrcProj psSrcExtent 0
      = msTransformMapToSource proj pj_is_latlong nDstXSize nDstYSize adfDstGeoTransform
        psDstProj nSrcXSize nSrcYSize adfInvSrcGeoTransform psSrcProj psSrcExtent 1
    ∧ ∀ bUseGrid : Int, bUseGrid ≠ 0 →
      msTransformMapToSource proj pj_is_latlong nDstXSize nDstYSize adfDstGeoTransform
        psDstProj nSrcXSize nSrcYSize adfInvSrcGeoTransform psSrcProj psSrcExtent bUseGrid
      = msTransformMapToSource.gridPass proj pj_is_latlong nDstXSize nDstYSize
          adfDstGeoTransform psDstProj nSrcXSize nSrcYSize adfInvSrcGeoTransform psSrcProj
          psSrcExtent := by
  refine ⟨?_, fun g hg => msTransformMapToSource_eq_gridPass _ _ _ _ _ _ _ _ _ _ _ g hg⟩
  rw [msTransformMapToSource_edge, hxy]
  dsimp only
  rw [if_pos hfail]

/-- C32 (witness): under `leftEdgeProj` the edge samples with `x` other than 0 come back as
`HUGE_VAL`; the edge call returns what the grid call returns, the grown extent around
`(500, 500)`. -/
theorem msTransformMapToSource_edge_to_grid_witness :
    msTransformMapToSource leftEdgeProj (fun _ => false) 10 10 ⟨0, 1, 0, 0, 0, 1⟩ ⟨1⟩
        1000 1000 ⟨0, 1, 0, 0, 0, 1⟩ ⟨2⟩ ⟨0, 0, 0, 0⟩ 0
      = msTransformMapToSource leftEdgeProj (fun _ => false) 10 10 ⟨0, 1, 0, 0, 0, 1⟩ ⟨1⟩
        1000 1000 ⟨0, 1, 0, 0, 0, 1⟩ ⟨2⟩ ⟨0, 0, 0, 0⟩ 1 := by
  have h10 : ((10 : ℚ), (0 : ℚ)) ∈ (msTransformMapToSource.ratios.map fun (dfRatio : ℚ) =>
      [(dfRatio * ((10 : Int) : ℚ), (0 : ℚ)), (dfRatio * ((10 : Int) : ℚ), ((10 : Int) : ℚ)),
        (0, dfRatio * ((10 : Int) : ℚ)), (((10 : Int) : ℚ), dfRatio * ((10 : Int) : ℚ))]).flatten :=
    List.mem_flatten.mpr ⟨_, List.mem_map.mpr ⟨1, msTransformMapToSource_ratios_one, rfl⟩,
      by norm_num⟩
  have hxy : (msTransformMapToSource.samples 10 10 0).bind
      (msTransformMapToSource.project leftEdgeProj (fun _ => false) ⟨0, 1, 0, 0, 0, 1⟩
        ⟨1⟩ ⟨2⟩)
      = some (((msTransformMapToSource.ratios.map fun (dfRatio : ℚ) =>
          [(dfRatio * ((10 : Int) : ℚ), (0 : ℚ)),
            (dfRatio * ((10 : Int) : ℚ), ((10 : Int) : ℚ)),
            (0, dfRatio * ((10 : Int) : ℚ)),
            (((10 : Int) : ℚ), dfRatio * ((10 : Int) : ℚ))]).flatten).map
          fun (p : ℚ × ℚ) =>
            if p.1 = 0 then ((500 : ℚ), (500 : ℚ)) else ((10 : ℚ) ^ 400, (10 : ℚ) ^ 400)) := by
    rw [msTransformMapToSource_samples_edge, Option.some_bind,
      msTransformMapToSource_project_leftEdge]
  have hH : leftEdgeProj.HUGE_VAL = (10 : ℚ) ^ 400 := rfl
  exact (msTransformMapToSource_edge_to_grid leftEdgeProj (fun _ => false) 10 10
    ⟨0, 1, 0, 0, 0, 1⟩ ⟨1⟩ 1000 1000 ⟨0, 1, 0, 0, 0, 1⟩ ⟨2⟩ ⟨0, 0, 0, 0⟩ _ hxy
    ⟨_, List.mem_map.mpr ⟨_, h10, rfl⟩, Or.inl (by rw [hH]; norm_num)⟩).1

/-- A convex combination of two numbers that are not below `m` equals `m` only if one of
the two is `m`. -/
theorem convex_attains_min (a b m r : ℚ) (hr0 : 0 ≤ r) (hr1 : r ≤ 1) (ha : m ≤ a)
    (hb : m ≤ b) (h : (1 - r) * a + r * b = m) : a = m ∨ b = m := by
  by_contra hne
  rw [not_or] at hne
  have ha2 : 0 < a - m := sub_pos.mpr (lt_of_le_of_ne ha (Ne.symm hne.1))
  have hb2 : 0 < b - m := sub_pos.mpr (lt_of_le_of_ne hb (Ne.symm hne.2))
  have hsum : (1 - r) * (a - m) + r * (b - m) = 0 := by
    have : (1 - r) * (a - m) + r * (b - m) = ((1 - r) * a + r * b) - m := by ring
    rw [this, h, sub_self]
  rcases eq_or_lt_of_le hr0 with h0 | h0
  · rw [← h0] at hsum
    simp only [sub_zero, one_mul, zero_mul, add_zero] at hsum
    linarith
  · have p1 : 0 ≤ (1 - r) * (a - m) := mul_nonneg (sub_nonneg.mpr hr1) ha2.le
    have p2 : 0 < r * (b - m) := mul_pos h0 hb2
    linarith

/-- A bound of an affine function over the corners that is attained at a point between
two corners is attained at a corner. -/
theorem affine_attained_at_corner (φ : ℚ × ℚ → ℚ) (k0 k1 k2 : ℚ)
    (hφ : ∀ s, φ s = k0 + k1 * s.1 + k2 * s.2) (C : List (ℚ × ℚ)) (s : ℚ × ℚ)
    (hs : ∃ c1 ∈ C, ∃ c2 ∈ C, ∃ r : ℚ, 0 ≤ r ∧ r ≤ 1
      ∧ s = ((1 - r) * c1.1 + r * c2.1, (1 - r) * c1.2 + r * c2.2)) (m : ℚ) :
    ((∀ c ∈ C, m ≤ φ c) → φ s = m → ∃ c ∈ C, φ c = m)
    ∧ ((∀ c ∈ C, φ c ≤ m) → φ s = m → ∃ c ∈ C, φ c = m) := by
  obtain ⟨c1, h1, c2, h2, r, r0, r1, rfl⟩ := hs
  have hconv : φ ((1 - r) * c1.1 + r * c2.1, (1 - r) * c1.2 + r * c2.2)
      = (1 - r) * φ c1 + r * φ c2 := by
    rw [hφ, hφ c1, hφ c2]
    ring
  constructor
  · intro hlow hm
    rw [hconv] at hm
    rcases convex_attains_min _ _ m r r0 r1 (hlow c1 h1) (hlow c2 h2) hm with h | h
    · exact ⟨c1, h1, h⟩
    · exact ⟨c2, h2, h⟩
  · intro hup hm
    rw [hconv] at hm
    have hm2 : (1 - r) * (-φ c1) + r * (-φ c2) = -m := by
      rw [← hm]
      ring
    rcases convex_attains_min _ _ (-m) r r0 r1 (neg_le_neg (hup c1 h1))
      (neg_le_neg (hup c2 h2)) hm2 with h | h
    · exact ⟨c1, h1, neg_injective h⟩
    · exact ⟨c2, h2, neg_injective h⟩

/-- The edge samples of a destination of size `X x Y`: the four corners are among them,
and each sample lies between two corners. -/
theorem msTransformMapToSource_edge_samples_convex (X Y : Int) :
    (∀ c ∈ [((0 : ℚ), (0 : ℚ)), ((X : ℚ), (0 : ℚ)), ((0 : ℚ), (Y : ℚ)), ((X : ℚ), (Y : ℚ))],
      c ∈ (msTransformMapToSource.ratios.map fun (dfRatio : ℚ) =>
        [(dfRatio * (X : ℚ), (0 : ℚ)), (dfRatio * X, (Y : ℚ)),
          (0, dfRatio * Y), ((X : ℚ), dfRatio * Y)]).flatten)
    ∧ ∀ s ∈ (msTransformMapToSource.ratios.map fun (dfRatio : ℚ) =>
        [(dfRatio * (X : ℚ), (0 : ℚ)), (dfRatio * X, (Y : ℚ)),
          (0, dfRatio * Y), ((X : ℚ), dfRatio * Y)]).flatten,
      ∃ c1 ∈ [((0 : ℚ), (0 : ℚ)), ((X : ℚ), (0 : ℚ)), ((0 : ℚ), (Y : ℚ)), ((X : ℚ), (Y : ℚ))],
      ∃ c2 ∈ [((0 : ℚ), (0 : ℚ)), ((X : ℚ), (0 : ℚ)), ((0 : ℚ), (Y : ℚ)), ((X : ℚ), (Y : ℚ))],
      ∃ r : ℚ, 0 ≤ r ∧ r ≤ 1
        ∧ s = ((1 - r) * c1.1 + r * c2.1, (1 - r) * c1.2 + r * c2.2) := by
  constructor
  · intro c hc
    simp only [List.mem_cons, List.mem_singleton, List.not_mem_nil, or_false] at hc
    rcases hc with rfl | rfl | rfl | rfl
    · refine List.mem_flatten.mpr ⟨_, List.mem_map.mpr
        ⟨0, msTransformMapToSource_ratios_zero, rfl⟩, ?_⟩
      rw [zero_mul]
      exact List.mem_cons_self _ _
    · refine List.mem_flatten.mpr ⟨_, List.mem_map.mpr
        ⟨1, msTransformMapToSource_ratios_one, rfl⟩, ?_⟩
      rw [one_mul]
      exact List.mem_cons_self _ _
    · refine List.mem_flatten.mpr ⟨_, List.mem_map.mpr
        ⟨0, msTransformMapToSource_ratios_zero, rfl⟩, ?_⟩
      rw [zero_mul]
      exact List.mem_cons_of_mem _ (List.mem_cons_self _ _)
    · refine List.mem_flatten.mpr ⟨_, List.mem_map.mpr
        ⟨1, msTransformMapToSource_ratios_one, rfl⟩, ?_⟩
      rw [one_mul]
      exact List.mem_cons_of_mem _ (List.mem_cons_self _ _)
  · intro s hs
    obtain ⟨l, hl, hsl⟩ := List.mem_flatten.mp hs
    obtain ⟨r, hr, rfl⟩ := List.mem_map.mp hl
    obtain ⟨r0, r1⟩ := msTransformMapToSource_ratios_bounds r hr
    simp only [List.mem_cons, List.mem_singleton, List.not_mem_nil, or_false] at hsl
    rcases hsl with rfl | rfl | rfl | rfl
    · refine ⟨(0, 0), by simp, ((X : ℚ), 0), by simp, r, r0, r1, ?_⟩
      ext <;> simp
    · refine ⟨(0, (Y : ℚ)), by simp, ((X : ℚ), (Y : ℚ)), by simp, r, r0, r1, ?_⟩
      ext
      · simp
      · dsimp only
        ring
    · refine ⟨(0, 0), by simp, (0, (Y : ℚ)), by simp, r, r0, r1, ?_⟩
      ext <;> simp
    · refine ⟨((X : ℚ), 0), by simp, ((X : ℚ), (Y : ℚ)), by simp, r, r0, r1, ?_⟩
      ext
      · dsimp only
        ring
      · simp

/-- C38: when either projection is null and no sample in map georeferenced units has a
coordinate equal to `HUGE_VAL` (in C the sentinel is infinite, so no finite coordinate
equals it), for every destination size `W x H` and every pair of geotransforms
`msTransformMapToSource` in edge mode returns `MS_TRUE` and exactly the bounding box of
the four destination corners `(0,0)`, `(W,0)`, `(0,H)`, `(W,H)` mapped through the
destination geotransform and then the inverse source geotransform; nothing is grown or
clamped. -/
theorem msTransformMapToSource_without_crs (proj : ProjLib) (pj_is_latlong : Nat → Bool)
    (nDstXSize nDstYSize : Int) (adfDstGeoTransform : GeoTransform)
    (psDstProj : projectionObj) (nSrcXSize nSrcYSize : Int)
    (adfInvSrcGeoTransform : GeoTransform) (psSrcProj : projectionObj)
    (psSrcExtent : rectObj) (hnull : psDstProj.proj = 0 ∨ psSrcProj.proj = 0)
    (hfinite : ∀ xy, msTransformMapToSource.samples nDstXSize nDstYSize 0 = some xy →
      ∀ s ∈ xy, (adfDstGeoTransform.apply s).1 ≠ proj.HUGE_VAL
        ∧ (adfDstGeoTransform.apply s).2 ≠ proj.HUGE_VAL) :
    ∃ bb : rectObj,
      msTransformMapToSource proj pj_is_latlong nDstXSize nDstYSize adfDstGeoTransform
        psDstProj nSrcXSize nSrcYSize adfInvSrcGeoTransform psSrcProj psSrcExtent 0
        = some (MS_TRUE, bb)
      ∧ IsBoundingBox bb
        ([((0 : ℚ), (0 : ℚ)), ((nDstXSize : ℚ), (0 : ℚ)), ((0 : ℚ), (nDstYSize : ℚ)),
            ((nDstXSize : ℚ), (nDstYSize : ℚ))].map fun c =>
          adfInvSrcGeoTransform.apply (adfDstGeoTransform.apply c)) := by
  obtain ⟨hcorner, hconvex⟩ := msTransformMapToSource_edge_samples_convex nDstXSize nDstYSize
  have hfin := hfinite _ (msTransformMapToSource_samples_edge nDstXSize nDstYSize)
  rw [msTransformMapToSource_edge, msTransformMapToSource_samples_edge, Option.some_bind,
    msTransformMapToSource_project_no_crs _ _ _ _ _ hnull]
  dsimp only
  have hok : ∀ p ∈ ((msTransformMapToSource.ratios.map fun (dfRatio : ℚ) =>
        [(dfRatio * (nDstXSize : ℚ), (0 : ℚ)), (dfRatio * nDstXSize, (nDstYSize : ℚ)),
          (0, dfRatio * nDstYSize), ((nDstXSize : ℚ), dfRatio * nDstYSize)]).flatten.map
        fun (p : ℚ × ℚ) =>
        (adfDstGeoTransform.a0 + p.1 * adfDstGeoTransform.a1 + p.2 * adfDstGeoTransform.a2,
          adfDstGeoTransform.a3 + p.1 * adfDstGeoTransform.a4
            + p.2 * adfDstGeoTransform.a5)),
      ¬ (p.1 = proj.HUGE_VAL ∨ p.2 = proj.HUGE_VAL) := by
    intro p hp
    obtain ⟨s, hs, rfl⟩ := List.mem_map.mp hp
    obtain ⟨f1, f2⟩ := hfin s hs
    dsimp only
    rintro (h | h)
    · apply f1
      rw [← h]
      simp only [GeoTransform.apply]
      ring
    · apply f2
      rw [← h]
      simp only [GeoTransform.apply]
      ring
  rw [if_neg (fun ⟨p, hp, hf⟩ => hok p hp hf)]
  obtain ⟨_, hcase⟩ := msTransformMapToSource_collect_spec proj adfInvSrcGeoTransform
    psSrcExtent
    ((msTransformMapToSource.ratios.map fun (dfRatio : ℚ) =>
        [(dfRatio * (nDstXSize : ℚ), (0 : ℚ)), (dfRatio * nDstXSize, (nDstYSize : ℚ)),
          (0, dfRatio * nDstYSize), ((nDstXSize : ℚ), dfRatio * nDstYSize)]).flatten.map
        fun (p : ℚ × ℚ) =>
        (adfDstGeoTransform.a0 + p.1 * adfDstGeoTransform.a1 + p.2 * adfDstGeoTransform.a2,
          adfDstGeoTransform.a3 + p.1 * adfDstGeoTransform.a4
            + p.2 * adfDstGeoTransform.a5))
  have hp0 := List.mem_map_of_mem (fun (p : ℚ × ℚ) =>
      (adfDstGeoTransform.a0 + p.1 * adfDstGeoTransform.a1 + p.2 * adfDstGeoTransform.a2,
        adfDstGeoTransform.a3 + p.1 * adfDstGeoTransform.a4
          + p.2 * adfDstGeoTransform.a5))
    (hcorner (0, 0) (List.mem_cons_self _ _))
  rcases hcase with ⟨_, _, hall⟩ | ⟨h1, hbb⟩
  · exact absurd (hall _ hp0) (hok _ hp0)
  · refine ⟨_, by rw [if_neg (by rw [h1]; exact one_ne_zero)], ?_⟩
    -- the successful samples are the edge samples mapped through both geotransforms
    have hS1 : ∀ s ∈ (msTransformMapToSource.ratios.map fun (dfRatio : ℚ) =>
        [(dfRatio * (nDstXSize : ℚ), (0 : ℚ)), (dfRatio * nDstXSize, (nDstYSize : ℚ)),
          (0, dfRatio * nDstYSize), ((nDstXSize : ℚ), dfRatio * nDstYSize)]).flatten,
        adfInvSrcGeoTransform.apply (adfDstGeoTransform.apply s)
          ∈ msTransformMapToSource.successes proj adfInvSrcGeoTransform
            ((msTransformMapToSource.ratios.map fun (dfRatio : ℚ) =>
              [(dfRatio * (nDstXSize : ℚ), (0 : ℚ)), (dfRatio * nDstXSize, (nDstYSize : ℚ)),
                (0, dfRatio * nDstYSize), ((nDstXSize : ℚ), dfRatio * nDstYSize)]).flatten.map
              fun (p : ℚ × ℚ) =>
              (adfDstGeoTransform.a0 + p.1 * adfDstGeoTransform.a1
                  + p.2 * adfDstGeoTransform.a2,
                adfDstGeoTransform.a3 + p.1 * adfDstGeoTransform.a4
                  + p.2 * adfDstGeoTransform.a5)) := by
      intro s hs
      refine List.mem_map.mpr ⟨_, List.mem_filter.mpr
        ⟨List.mem_map_of_mem _ hs, ?_⟩, ?_⟩
      · simp only [decide_eq_true_eq]
        exact hok _ (List.mem_map_of_mem _ hs)
      · simp only [GeoTransform.apply]
        ext
        · dsimp only
          ring
        · dsimp only
          ring
    have hS2 : ∀ q ∈ msTransformMapToSource.successes proj adfInvSrcGeoTransform
          ((msTransformMapToSource.ratios.map fun (dfRatio : ℚ) =>
            [(dfRatio * (nDstXSize : ℚ), (0 : ℚ)), (dfRatio * nDstXSize, (nDstYSize : ℚ)),
              (0, dfRatio * nDstYSize), ((nDstXSize : ℚ), dfRatio * nDstYSize)]).flatten.map
            fun (p : ℚ × ℚ) =>
            (adfDstGeoTransform.a0 + p.1 * adfDstGeoTransform.a1
                + p.2 * adfDstGeoTransform.a2,
              adfDstGeoTransform.a3 + p.1 * adfDstGeoTransform.a4
                + p.2 * adfDstGeoTransform.a5)),
        ∃ s ∈ (msTransformMapToSource.ratios.map fun (dfRatio : ℚ) =>
          [(dfRatio * (nDstXSize : ℚ), (0 : ℚ)), (dfRatio * nDstXSize, (nDstYSize : ℚ)),
            (0, dfRatio * nDstYSize), ((nDstXSize : ℚ), dfRatio * nDstYSize)]).flatten,
          q = adfInvSrcGeoTransform.apply (adfDstGeoTransform.apply s) := by
      intro q hq
      obtain ⟨p, hp, rfl⟩ := List.mem_map.mp hq
      obtain ⟨hp1, _⟩ := List.mem_filter.mp hp
      obtain ⟨s, hs, rfl⟩ := List.mem_map.mp hp1
      refine ⟨s, hs, ?_⟩
      simp only [GeoTransform.apply]
      ext
      · dsimp only
        ring
      · dsimp only
        ring
    obtain ⟨hin, ⟨q1, hq1, e1⟩, ⟨q2, hq2, e2⟩, ⟨q3, hq3, e3⟩, ⟨q4, hq4, e4⟩⟩ := hbb
    have hcin : ∀ c ∈ [((0 : ℚ), (0 : ℚ)), ((nDstXSize : ℚ), (0 : ℚ)),
        ((0 : ℚ), (nDstYSize : ℚ)), ((nDstXSize : ℚ), (nDstYSize : ℚ))],
        _ := fun c hc => hin _ (hS1 c (hcorner c hc))
    have hφx : ∀ s : ℚ × ℚ, (adfInvSrcGeoTransform.apply (adfDstGeoTransform.apply s)).1
        = (adfInvSrcGeoTransform.a0 + adfInvSrcGeoTransform.a1 * adfDstGeoTransform.a0
            + adfInvSrcGeoTransform.a2 * adfDstGeoTransform.a3)
          + (adfInvSrcGeoTransform.a1 * adfDstGeoTransform.a1
            + adfInvSrcGeoTransform.a2 * adfDstGeoTransform.a4) * s.1
          + (adfInvSrcGeoTransform.a1 * adfDstGeoTransform.a2
            + adfInvSrcGeoTransform.a2 * adfDstGeoTransform.a5) * s.2 := by
      intro s
      simp only [GeoTransform.apply]
      ring
    have hφy : ∀ s : ℚ × ℚ, (adfInvSrcGeoTransform.apply (adfDstGeoTransform.apply s)).2
        = (adfInvSrcGeoTransform.a3 + adfInvSrcGeoTransform.a4 * adfDstGeoTransform.a0
            + adfInvSrcGeoTransform.a5 * adfDstGeoTransform.a3)
          + (adfInvSrcGeoTransform.a4 * adfDstGeoTransform.a1
            + adfInvSrcGeoTransform.a5 * adfDstGeoTransform.a4) * s.1
          + (adfInvSrcGeoTransform.a4 * adfDstGeoTransform.a2
            + adfInvSrcGeoTransform.a5 * adfDstGeoTransform.a5) * s.2 := by
      intro s
      simp only [GeoTransform.apply]
      ring
    have corner : ∀ (φ : ℚ × ℚ → ℚ) (k0 k1 k2 : ℚ),
        (∀ s, φ s = k0 + k1 * s.1 + k2 * s.2) → ∀ (q : ℚ × ℚ) (m : ℚ),
        q ∈ msTransformMapToSource.successes proj adfInvSrcGeoTransform
          ((msTransformMapToSource.ratios.map fun (dfRatio : ℚ) =>
            [(dfRatio * (nDstXSize : ℚ), (0 : ℚ)), (dfRatio * nDstXSize, (nDstYSize : ℚ)),
              (0, dfRatio * nDstYSize), ((nDstXSize : ℚ), dfRatio * nDstYSize)]).flatten.map
            fun (p : ℚ × ℚ) =>
            (adfDstGeoTransform.a0 + p.1 * adfDstGeoTransform.a1
                + p.2 * adfDstGeoTransform.a2,
              adfDstGeoTransform.a3 + p.1 * adfDstGeoTransform.a4
                + p.2 * adfDstGeoTransform.a5)) →
        (∀ s, q = adfInvSrcGeoTransform.apply (adfDstGeoTransform.apply s) → φ s = m) →
        ((∀ c ∈ [((0 : ℚ), (0 : ℚ)), ((nDstXSize : ℚ), (0 : ℚ)),
            ((0 : ℚ), (nDstYSize : ℚ)), ((nDstXSize : ℚ), (nDstYSize : ℚ))], m ≤ φ c)
          ∨ (∀ c ∈ [((0 : ℚ), (0 : ℚ)), ((nDstXSize : ℚ), (0 : ℚ)),
            ((0 : ℚ), (nDstYSize : ℚ)), ((nDstXSize : ℚ), (nDstYSize : ℚ))], φ c ≤ m)) →
        ∃ c ∈ [((0 : ℚ), (0 : ℚ)), ((nDstXSize : ℚ), (0 : ℚ)),
            ((0 : ℚ), (nDstYSize : ℚ)), ((nDstXSize : ℚ), (nDstYSize : ℚ))], φ c = m := by
      intro φ k0 k1 k2 hφ q m hq hqm hb
      obtain ⟨s, hs, hqs⟩ := hS2 q hq
      have hat := affine_attained_at_corner φ k0 k1 k2 hφ _ s (hconvex s hs) m
      rcases hb with hb | hb
      · exact hat.1 hb (hqm s hqs)
      · exact hat.2 hb (hqm s hqs)
    refine ⟨?_, ?_, ?_, ?_, ?_⟩
    · intro q hq
      obtain ⟨c, hc, rfl⟩ := List.mem_map.mp hq
      exact hcin c hc
    · obtain ⟨c, hc, hcm⟩ := corner _ _ _ _ hφx q1 _ hq1
        (fun s hs => by rw [← hs]; exact e1) (Or.inl fun c hc => (hcin c hc).1)
      exact ⟨_, List.mem_map_of_mem _ hc, hcm⟩
    · obtain ⟨c, hc, hcm⟩ := corner _ _ _ _ hφx q2 _ hq2
        (fun s hs => by rw [← hs]; exact e2) (Or.inr fun c hc => (hcin c hc).2.1)
      exact ⟨_, List.mem_map_of_mem _ hc, hcm⟩
    · obtain ⟨c, hc, hcm⟩ := corner _ _ _ _ hφy q3 _ hq3
        (fun s hs => by rw [← hs]; exact e3) (Or.inl fun c hc => (hcin c hc).2.2.1)
      exact ⟨_, List.mem_map_of_mem _ hc, hcm⟩
    · obtain ⟨c, hc, hcm⟩ := corner _ _ _ _ hφy q4 _ hq4
        (fun s hs => by rw [← hs]; exact e4) (Or.inr fun c hc => (hcin c hc).2.2.2)
      exact ⟨_, List.mem_map_of_mem _ hc, hcm⟩

/-- C38 (witness): a 10 x 10 destination with the geotransform `(100, 2, 0, 200, 0, -2)`,
a map without coordinate system and the identity as inverse source geotransform: the
estimate is `[100, 120] x [180, 200]`, although the source raster is 50 x 50. -/
theorem msTransformMapToSource_without_crs_witness :
    msTransformMapToSource failingProj (fun _ => false) 10 10 ⟨100, 2, 0, 200, 0, -2⟩ ⟨0⟩
        50 50 ⟨0, 1, 0, 0, 0, 1⟩ ⟨3⟩ ⟨0, 0, 0, 0⟩ 0
      = some (MS_TRUE, ⟨100, 180, 120, 200⟩) := by
  have hH : failingProj.HUGE_VAL = (10 : ℚ) ^ 400 := rfl
  have hbig : (200 : ℚ) < (10 : ℚ) ^ 400 := by norm_num
  obtain ⟨bb, hres, hbb⟩ := msTransformMapToSource_without_crs failingProj (fun _ => false)
    10 10 ⟨100, 2, 0, 200, 0, -2⟩ ⟨0⟩ 50 50 ⟨0, 1, 0, 0, 0, 1⟩ ⟨3⟩ ⟨0, 0, 0, 0⟩ (Or.inl rfl)
    (by
      intro xy hxy s hs
      rw [msTransformMapToSource_samples_edge] at hxy
      simp only [Option.some.injEq] at hxy
      subst hxy
      obtain ⟨s1, s2, s3, s4⟩ :=
        (msTransformMapToSource_edge_samples_in 10 10 (by decide) (by decide)).1 s hs
      have c : (((10 : Int)) : ℚ) = 10 := by norm_num
      rw [c] at s2 s4
      rw [hH]
      simp only [GeoTransform.apply]
      constructor
      · apply ne_of_lt
        linarith
      · apply ne_of_lt
        linarith)
  have hb : bb = ⟨100, 180, 120, 200⟩ := by
    refine IsBoundingBox_unique _ _ _ hbb ?_
    simp only [IsBoundingBox, GeoTransform.apply, List.map_cons, List.map_nil, List.mem_cons,
      List.mem_singleton, List.not_mem_nil, or_false]
    refine ⟨?_, ⟨_, Or.inl rfl, by norm_num⟩, ⟨_, Or.inr (Or.inl rfl), by norm_num⟩,
      ⟨_, Or.inr (Or.inr (Or.inl rfl)), by norm_num⟩, ⟨_, Or.inl rfl, by norm_num⟩⟩
    rintro q (rfl | rfl | rfl | rfl) <;> norm_num
  rw [hres, hb]

/-- C33 (amended): for every source geotransform `G`, window `[minx, maxx] x [miny, maxy]`,
nominal cell size other than 0 and scratch size `nLoadImgXSize x nLoadImgYSize` with
`nLoadImgXSize` other than 0, the adjusted geotransform `G'` that `msResampleGDALToMap`
builds from the fixed-up cell size maps scratch pixel `(0, 0)` to `G(minx, miny)` and
scratch pixel `(nLoadImgXSize, 0)` to `G(maxx, miny)`: the scratch raster covers exactly
the window along X. Along Y one scratch line stands for `(maxx - minx) / nLoadImgXSize`
source lines, so `(nLoadImgXSize, nLoadImgYSize)` goes to
`G(maxx, miny + nLoadImgYSize * (maxx - minx) / nLoadImgXSize)`, which is `G(maxx, maxy)`
when `(maxy - miny) * nLoadImgXSize = (maxx - minx) * nLoadImgYSize`, as it is at the
native resolution. -/
theorem msResampleGDALToMap_scratch_geotransform (G : GeoTransform) (sSrcExtent : rectObj)
    (dfNominalCellSize : ℚ) (nLoadImgXSize nLoadImgYSize : Int)
    (hnom : dfNominalCellSize ≠ 0) (hn : nLoadImgXSize ≠ 0) :
    (msResampleGDALToMap.scratchGeoTransform G sSrcExtent
        (((sSrcExtent.maxx - sSrcExtent.minx) * dfNominalCellSize) / (nLoadImgXSize : ℚ))
        dfNominalCellSize).apply (0, 0)
      = G.apply (sSrcExtent.minx, sSrcExtent.miny)
    ∧ (msResampleGDALToMap.scratchGeoTransform G sSrcExtent
        (((sSrcExtent.maxx - sSrcExtent.minx) * dfNominalCellSize) / (nLoadImgXSize : ℚ))
        dfNominalCellSize).apply ((nLoadImgXSize : ℚ), 0)
      = G.apply (sSrcExtent.maxx, sSrcExtent.miny)
    ∧ (msResampleGDALToMap.scratchGeoTransform G sSrcExtent
        (((sSrcExtent.maxx - sSrcExtent.minx) * dfNominalCellSize) / (nLoadImgXSize : ℚ))
        dfNominalCellSize).apply ((nLoadImgXSize : ℚ), (nLoadImgYSize : ℚ))
      = G.apply (sSrcExtent.maxx,
          sSrcExtent.miny
            + (nLoadImgYSize : ℚ) * (sSrcExtent.maxx - sSrcExtent.minx) / (nLoadImgXSize : ℚ))
    ∧ ((sSrcExtent.maxy - sSrcExtent.miny) * (nLoadImgXSize : ℚ)
          = (sSrcExtent.maxx - sSrcExtent.minx) * (nLoadImgYSize : ℚ) →
        (msResampleGDALToMap.scratchGeoTransform G sSrcExtent
          (((sSrcExtent.maxx - sSrcExtent.minx) * dfNominalCellSize) / (nLoadImgXSize : ℚ))
          dfNominalCellSize).apply ((nLoadImgXSize : ℚ), (nLoadImgYSize : ℚ))
        = G.apply (sSrcExtent.maxx, sSrcExtent.maxy)) := by
  have hnq : (nLoadImgXSize : ℚ) ≠ 0 := by exact_mod_cast hn
  have hscale : ((sSrcExtent.maxx - sSrcExtent.minx) * dfNominalCellSize)
      / (nLoadImgXSize : ℚ) / dfNominalCellSize
      = (sSrcExtent.maxx - sSrcExtent.minx) / (nLoadImgXSize : ℚ) := by
    field_simp
    ring
  have h3 : (msResampleGDALToMap.scratchGeoTransform G sSrcExtent
        (((sSrcExtent.maxx - sSrcExtent.minx) * dfNominalCellSize) / (nLoadImgXSize : ℚ))
        dfNominalCellSize).apply ((nLoadImgXSize : ℚ), (nLoadImgYSize : ℚ))
      = G.apply (sSrcExtent.maxx,
          sSrcExtent.miny
            + (nLoadImgYSize : ℚ) * (sSrcExtent.maxx - sSrcExtent.minx)
              / (nLoadImgXSize : ℚ)) := by
    simp only [msResampleGDALToMap.scratchGeoTransform, GeoTransform.apply, hscale]
    ext
    · dsimp only
      field_simp
      ring
    · dsimp only
      field_simp
      ring
  refine ⟨?_, ?_, h3, ?_⟩
  · simp only [msResampleGDALToMap.scratchGeoTransform, GeoTransform.apply]
    ext
    · dsimp only
      ring
    · dsimp only
      ring
  · simp only [msResampleGDALToMap.scratchGeoTransform, GeoTransform.apply, hscale]
    ext
    · dsimp only
      field_simp
      ring
    · dsimp only
      field_simp
      ring
  · intro hy
    rw [h3]
    have : sSrcExtent.miny
        + (nLoadImgYSize : ℚ) * (sSrcExtent.maxx - sSrcExtent.minx) / (nLoadImgXSize : ℚ)
        = sSrcExtent.maxy := by
      rw [mul_comm (nLoadImgYSize : ℚ), ← hy]
      field_simp
    rw [this]

/-- The scratch size for the 100 x 33 window of the unpadded extent `[1, 99] x [1, 32]`,
the default ratio 2, a destination 10 pixels wide and nominal cell size 1: 20 x 6. -/
theorem msResampleGDALToMap_loadSize_sample :
    msResampleGDALToMap.window ⟨1, 1, 99, 32⟩ 100 33 = ⟨0, 0, 100, 33⟩
    ∧ msResampleGDALToMap.loadSize ⟨0, 0, 100, 33⟩ 1
        (msResampleGDALToMap.cellsize (sampleLayer ResampleMode.NEAREST ⟨0⟩) ⟨1, 1, 99, 32⟩
          10 1) = (20, 6) := by
  constructor
  · have f1 : ⌊(1 : ℚ) - 1⌋ = 0 := by
      rw [Int.floor_eq_iff]
      norm_num
    have f2 : ⌈(99 : ℚ) + 1⌉ = 100 := by
      rw [Int.ceil_eq_iff]
      norm_num
    have f3 : ⌈(32 : ℚ) + 1⌉ = 33 := by
      rw [Int.ceil_eq_iff]
      norm_num
    unfold msResampleGDALToMap.window
    dsimp only
    rw [f1, f2, f3]
    norm_num [MAX, MIN]
  · have hc : msResampleGDALToMap.cellsize (sampleLayer ResampleMode.NEAREST ⟨0⟩)
        ⟨1, 1, 99, 32⟩ 10 1 = 49 / 10 := by
      norm_num [msResampleGDALToMap.cellsize, msResampleGDALToMap.dfOversampleRatio,
        sampleLayer]
    have e1 : MAX (1 : ℚ) ((100 - 0) * (1 / (49 / 10))) = 1000 / 49 := by
      rw [MAX_of_le _ _ (by norm_num)]
      norm_num
    have e2 : MAX (1 : ℚ) ((33 - 0) * (1 / (49 / 10))) = 330 / 49 := by
      rw [MAX_of_le _ _ (by norm_num)]
      norm_num
    have t1 : castInt ((1000 : ℚ) / 49) = 20 := by
      rw [castInt_of_nonneg _ (by norm_num) (by norm_num), Int.floor_eq_iff]
      norm_num
    have t2 : castInt ((330 : ℚ) / 49) = 6 := by
      rw [castInt_of_nonneg _ (by norm_num) (by norm_num), Int.floor_eq_iff]
      norm_num
    unfold msResampleGDALToMap.loadSize
    rw [hc]
    dsimp only
    rw [e1, e2, t1, t2]

/-- C33 (counterexample): the identity as source geotransform, the unpadded extent
`[1, 99] x [1, 32]` of a 100 x 33 source raster, the default ratio 2, a destination 10
pixels wide. The window is `[0, 100] x [0, 33]` and the scratch size 20 x 6; the adjusted
geotransform maps scratch pixel `(20, 6)` to `(100, 30)`, not to `G(maxx, maxy) =
(100, 33)`: the scratch raster does not cover the window along Y. -/
theorem msResampleGDALToMap_scratch_geotransform_counterexample :
    msResampleGDALToMap.window ⟨1, 1, 99, 32⟩ 100 33 = ⟨0, 0, 100, 33⟩
    ∧ msResampleGDALToMap.loadSize ⟨0, 0, 100, 33⟩ 1
        (msResampleGDALToMap.cellsize (sampleLayer ResampleMode.NEAREST ⟨0⟩) ⟨1, 1, 99, 32⟩
          10 1) = (20, 6)
    ∧ (msResampleGDALToMap.scratchGeoTransform ⟨0, 1, 0, 0, 0, 1⟩ ⟨0, 0, 100, 33⟩
        (((100 - 0) * 1) / ((20 : Int) : ℚ)) 1).apply (((20 : Int) : ℚ), ((6 : Int) : ℚ))
      = (100, 30)
    ∧ (⟨0, 1, 0, 0, 0, 1⟩ : GeoTransform).apply (100, 33) = (100, 33)
    ∧ (msResampleGDALToMap.scratchGeoTransform ⟨0, 1, 0, 0, 0, 1⟩ ⟨0, 0, 100, 33⟩
        (((100 - 0) * 1) / ((20 : Int) : ℚ)) 1).apply (((20 : Int) : ℚ), ((6 : Int) : ℚ))
      ≠ (⟨0, 1, 0, 0, 0, 1⟩ : GeoTransform).apply (100, 33) := by
  have h1 : (msResampleGDALToMap.scratchGeoTransform ⟨0, 1, 0, 0, 0, 1⟩ ⟨0, 0, 100, 33⟩
        (((100 - 0) * 1) / ((20 : Int) : ℚ)) 1).apply (((20 : Int) : ℚ), ((6 : Int) : ℚ))
      = (100, 30) := by
    norm_num [msResampleGDALToMap.scratchGeoTransform, GeoTransform.apply]
  have h2 : (⟨0, 1, 0, 0, 0, 1⟩ : GeoTransform).apply (100, 33) = (100, 33) := by
    norm_num [GeoTransform.apply]
  refine ⟨msResampleGDALToMap_loadSize_sample.1, msResampleGDALToMap_loadSize_sample.2,
    h1, h2, ?_⟩
  rw [h1, h2]
  norm_num

/-- C33 (witness): the same window and scratch size: scratch pixel `(20, 0)` goes to
`G(maxx, miny) = (100, 0)` and scratch pixel `(0, 0)` to `G(minx, miny) = (0, 0)`. -/
theorem msResampleGDALToMap_scratch_geotransform_witness :
    (msResampleGDALToMap.scratchGeoTransform ⟨0, 1, 0, 0, 0, 1⟩ ⟨0, 0, 100, 33⟩
        (((100 - 0) * 1) / ((20 : Int) : ℚ)) 1).apply (0, 0)
      = (⟨0, 1, 0, 0, 0, 1⟩ : GeoTransform).apply (0, 0)
    ∧ (msResampleGDALToMap.scratchGeoTransform ⟨0, 1, 0, 0, 0, 1⟩ ⟨0, 0, 100, 33⟩
        (((100 - 0) * 1) / ((20 : Int) : ℚ)) 1).apply (((20 : Int) : ℚ), 0)
      = (⟨0, 1, 0, 0, 0, 1⟩ : GeoTransform).apply (100, 0) :=
  ⟨(msResampleGDALToMap_scratch_geotransform ⟨0, 1, 0, 0, 0, 1⟩ ⟨0, 0, 100, 33⟩ 1 20 6
      one_ne_zero (by decide)).1,
    (msResampleGDALToMap_scratch_geotransform ⟨0, 1, 0, 0, 0, 1⟩ ⟨0, 0, 100, 33⟩ 1 20 6
      one_ne_zero (by decide)).2.1⟩

/-- The interpolation path of `msApproxTransformer`: when the preconditions hold, the
base transformer succeeds on the three samples and the deviation at the middle point is
at most the tolerance, the result is the interpolation between the transformed first and
last sample. -/
theorem msApproxTransformer_interpolation_path (psATInfo : msApproxTransformInfo)
    (pts : List (ℚ × ℚ)) (hlen : 5 < pts.length) (heps : psATInfo.dfMaxError ≠ 0)
    (hrow1 : (pts.getD 0 (0, 0)).2 = (pts.getD (pts.length - 1) (0, 0)).2)
    (hrow2 : (pts.getD 0 (0, 0)).2 = (pts.getD ((pts.length - 1) / 2) (0, 0)).2)
    (hcol1 : (pts.getD 0 (0, 0)).1 ≠ (pts.getD (pts.length - 1) (0, 0)).1)
    (hcol2 : (pts.getD 0 (0, 0)).1 ≠ (pts.getD ((pts.length - 1) / 2) (0, 0)).1)
    (hret : (msApproxTransformer.sampled psATInfo pts).1 ≠ 0)
    (hs0 : ((msApproxTransformer.sampled psATInfo pts).2.getD 0 ⟨0, 0, 0⟩).success ≠ 0)
    (hs1 : ((msApproxTransformer.sampled psATInfo pts).2.getD 1 ⟨0, 0, 0⟩).success ≠ 0)
    (hs2 : ((msApproxTransformer.sampled psATInfo pts).2.getD 2 ⟨0, 0, 0⟩).success ≠ 0)
    (herr : deviation
      (interpolated (pts.getD 0 (0, 0)) (pts.getD (pts.length - 1) (0, 0))
        ((msApproxTransformer.sampled psATInfo pts).2.getD 0 ⟨0, 0, 0⟩)
        ((msApproxTransformer.sampled psATInfo pts).2.getD 2 ⟨0, 0, 0⟩)
        (pts.getD ((pts.length - 1) / 2) (0, 0)))
      ((msApproxTransformer.sampled psATInfo pts).2.getD 1 ⟨0, 0, 0⟩)
        ≤ psATInfo.dfMaxError) :
    msApproxTransformer psATInfo pts
      = (1, pts.map (interpolated (pts.getD 0 (0, 0)) (pts.getD (pts.length - 1) (0, 0))
          ((msApproxTransformer.sampled psATInfo pts).2.getD 0 ⟨0, 0, 0⟩)
          ((msApproxTransformer.sampled psATInfo pts).2.getD 2 ⟨0, 0, 0⟩))) := by
  have hpre : ¬ ((pts.getD 0 (0, 0)).2 ≠ (pts.getD (pts.length - 1) (0, 0)).2
      ∨ (pts.getD 0 (0, 0)).2 ≠ (pts.getD ((pts.length - 1) / 2) (0, 0)).2
      ∨ (pts.getD 0 (0, 0)).1 = (pts.getD (pts.length - 1) (0, 0)).1
      ∨ (pts.getD 0 (0, 0)).1 = (pts.getD ((pts.length - 1) / 2) (0, 0)).1
      ∨ psATInfo.dfMaxError = 0 ∨ pts.length ≤ 5) := by
    rintro (h | h | h | h | h | h)
    · exact h hrow1
    · exact h hrow2
    · exact hcol1 h
    · exact hcol2 h
    · exact heps h
    · omega
  have hsucc : ¬ ((msApproxTransformer.sampled psATInfo pts).1 = 0
      ∨ ((msApproxTransformer.sampled psATInfo pts).2.getD 0 ⟨0, 0, 0⟩).success = 0
      ∨ ((msApproxTransformer.sampled psATInfo pts).2.getD 1 ⟨0, 0, 0⟩).success = 0
      ∨ ((msApproxTransformer.sampled psATInfo pts).2.getD 2 ⟨0, 0, 0⟩).success = 0) := by
    rintro (h | h | h | h)
    · exact hret h
    · exact hs0 h
    · exact hs1 h
    · exact hs2 h
  rw [msApproxTransformer, dif_neg hpre]
  dsimp only
  unfold msApproxTransformer.sampled at hsucc herr ⊢
  rw [if_neg hsucc]
  unfold deviation interpolated at herr
  dsimp only at herr
  rw [if_neg (not_lt.mpr herr)]
  rfl

/-- C35: whenever `msApproxTransformer` takes the interpolation path (more than five
points, non-zero tolerance, the three sampled points on one row, first column different
from the last and the middle one, the base transformer succeeding on the three samples,
middle deviation at most the tolerance), its output for the first and for the last point
has exactly the coordinates that the base transformer gave for those points, and its
output for the middle point (index `(n-1)/2`) differs from what the base transformer gave
for that point by at most the tolerance in `|dx| + |dy|`. -/
theorem msApproxTransformer_fast_path_anchors (psATInfo : msApproxTransformInfo)
    (pts : List (ℚ × ℚ)) (hlen : 5 < pts.length) (heps : psATInfo.dfMaxError ≠ 0)
    (hrow1 : (pts.getD 0 (0, 0)).2 = (pts.getD (pts.length - 1) (0, 0)).2)
    (hrow2 : (pts.getD 0 (0, 0)).2 = (pts.getD ((pts.length - 1) / 2) (0, 0)).2)
    (hcol1 : (pts.getD 0 (0, 0)).1 ≠ (pts.getD (pts.length - 1) (0, 0)).1)
    (hcol2 : (pts.getD 0 (0, 0)).1 ≠ (pts.getD ((pts.length - 1) / 2) (0, 0)).1)
    (hret : (msApproxTransformer.sampled psATInfo pts).1 ≠ 0)
    (hs0 : ((msApproxTransformer.sampled psATInfo pts).2.getD 0 ⟨0, 0, 0⟩).success ≠ 0)
    (hs1 : ((msApproxTransformer.sampled psATInfo pts).2.getD 1 ⟨0, 0, 0⟩).success ≠ 0)
    (hs2 : ((msApproxTransformer.sampled psATInfo pts).2.getD 2 ⟨0, 0, 0⟩).success ≠ 0)
    (herr : deviation
      (interpolated (pts.getD 0 (0, 0)) (pts.getD (pts.length - 1) (0, 0))
        ((msApproxTransformer.sampled psATInfo pts).2.getD 0 ⟨0, 0, 0⟩)
        ((msApproxTransformer.sampled psATInfo pts).2.getD 2 ⟨0, 0, 0⟩)
        (pts.getD ((pts.length - 1) / 2) (0, 0)))
      ((msApproxTransformer.sampled psATInfo pts).2.getD 1 ⟨0, 0, 0⟩)
        ≤ psATInfo.dfMaxError) :
    ((msApproxTransformer psATInfo pts).2.getD 0 ⟨0, 0, 0⟩).xy
        = ((msApproxTransformer.sampled psATInfo pts).2.getD 0 ⟨0, 0, 0⟩).xy
    ∧ ((msApproxTransformer psATInfo pts).2.getD (pts.length - 1) ⟨0, 0, 0⟩).xy
        = ((msApproxTransformer.sampled psATInfo pts).2.getD 2 ⟨0, 0, 0⟩).xy
    ∧ deviation ((msApproxTransformer psATInfo pts).2.getD ((pts.length - 1) / 2) ⟨0, 0, 0⟩)
        ((msApproxTransformer.sampled psATInfo pts).2.getD 1 ⟨0, 0, 0⟩)
        ≤ psATInfo.dfMaxError := by
  rw [msApproxTransformer_interpolation_path psATInfo pts hlen heps hrow1 hrow2 hcol1 hcol2
    hret hs0 hs1 hs2 herr]
  have hget : ∀ i, i < pts.length →
      (pts.map (interpolated (pts.getD 0 (0, 0)) (pts.getD (pts.length - 1) (0, 0))
          ((msApproxTransformer.sampled psATInfo pts).2.getD 0 ⟨0, 0, 0⟩)
          ((msApproxTransformer.sampled psATInfo pts).2.getD 2 ⟨0, 0, 0⟩))).getD i ⟨0, 0, 0⟩
        = interpolated (pts.getD 0 (0, 0)) (pts.getD (pts.length - 1) (0, 0))
          ((msApproxTransformer.sampled psATInfo pts).2.getD 0 ⟨0, 0, 0⟩)
          ((msApproxTransformer.sampled psATInfo pts).2.getD 2 ⟨0, 0, 0⟩)
          (pts.getD i (0, 0)) := by
    intro i hi
    simp only [List.getD_eq_getElem?_getD, List.getElem?_map, List.getElem?_eq_getElem hi,
      Option.map_some', Option.getD_some]
  dsimp only
  rw [hget 0 (by omega), hget (pts.length - 1) (by omega),
    hget ((pts.length - 1) / 2) (by omega)]
  have hd : (pts.getD (pts.length - 1) (0, 0)).1 - (pts.getD 0 (0, 0)).1 ≠ 0 :=
    sub_ne_zero.mpr (Ne.symm hcol1)
  refine ⟨?_, ?_, herr⟩
  · simp only [interpolated, Pt.xy, sub_self, mul_zero, add_zero]
  · simp only [interpolated, Pt.xy, div_mul_cancel₀ _ hd, add_sub_cancel]

/-- The interpolation between two values of an affine function of the column is the
function. -/
theorem affine_interpolation (a b c x0 xl x : ℚ) (h : xl - x0 ≠ 0) :
    (a * x0 + b + c) + ((a * xl + b + c) - (a * x0 + b + c)) / (xl - x0) * (x - x0)
      = a * x + b + c := by
  field_simp
  ring

/-- C34: if the base transformer never fails a batch and maps every point by one affine
map, flagging it 1, then for every tolerance and every batch whose points share one input
row the coordinates and flags that `msApproxTransformer` yields are exactly those that
the base transformer yields on the batch, and the return value is not zero. -/
theorem msApproxTransformer_exact_on_affine (psATInfo : msApproxTransformInfo)
    (a b c d e g : ℚ)
    (hbase : ∀ pts, (psATInfo.pfnBaseTransformer.run pts).1 ≠ 0
      ∧ (psATInfo.pfnBaseTransformer.run pts).2
        = pts.map fun p => ⟨a * p.1 + b * p.2 + c, d * p.1 + e * p.2 + g, 1⟩)
    (y0 : ℚ) :
    ∀ (n : Nat) (pts : List (ℚ × ℚ)), pts.length = n → (∀ p ∈ pts, p.2 = y0) →
      (msApproxTransformer psATInfo pts).2 = (psATInfo.pfnBaseTransformer.run pts).2
      ∧ (msApproxTransformer psATInfo pts).1 ≠ 0 := by
  intro n
  induction n using Nat.strong_induction_on with
  | _ n ih =>
    intro pts hn hrow
    subst hn
    rcases msApproxTransformer_cases psATInfo
      (fun p => ⟨a * p.1 + b * p.2 + c, d * p.1 + e * p.2 + g, 1⟩) hbase pts
      with h | ⟨hlen, hcol, _, h⟩ | ⟨hlen, h⟩
    · rw [h]
      exact ⟨rfl, (hbase pts).1⟩
    · rw [h, (hbase pts).2]
      refine ⟨?_, one_ne_zero⟩
      dsimp only
      apply List.map_congr_left
      intro p hp
      have hf : (pts.getD 0 (0, 0)).2 = y0 := by
        apply hrow
        rw [List.getD_eq_getElem?_getD, List.getElem?_eq_getElem (by omega)]
        exact List.getElem_mem _
      have hl : (pts.getD (pts.length - 1) (0, 0)).2 = y0 := by
        apply hrow
        rw [List.getD_eq_getElem?_getD, List.getElem?_eq_getElem (by omega)]
        exact List.getElem_mem _
      have hd : (pts.getD (pts.length - 1) (0, 0)).1 - (pts.getD 0 (0, 0)).1 ≠ 0 :=
        sub_ne_zero.mpr (Ne.symm hcol)
      simp only [interpolated, hf, hl, hrow p hp]
      congr 1
      · exact affine_interpolation a (b * y0) c _ _ _ hd
      · exact affine_interpolation d (e * y0) g _ _ _ hd
    · have l1 := ih (pts.take ((pts.length - 1) / 2)).length
        (by rw [List.length_take]; omega) (pts.take ((pts.length - 1) / 2)) rfl
        (fun p hp => hrow p (List.mem_of_mem_take hp))
      have l2 := ih (pts.drop ((pts.length - 1) / 2)).length
        (by rw [List.length_drop]; omega) (pts.drop ((pts.length - 1) / 2)) rfl
        (fun p hp => hrow p (List.mem_of_mem_drop hp))
      rw [h]
      refine ⟨?_, one_ne_zero⟩
      dsimp only
      rw [l1.1, l2.1, (hbase _).2, (hbase _).2, (hbase pts).2, ← List.map_append,
        List.take_append_drop]

/-- C34 (witness): the base transformer `affineBase`, `(x, y) -> (2x + 1, y + 3)`, on the
scanline of six pixels in row 7 with tolerance 1. -/
theorem msApproxTransformer_exact_on_affine_witness :
    (msApproxTransformer ⟨affineBase, 1⟩ scanline6).2 = (affineBase.run scanline6).2
    ∧ (msApproxTransformer ⟨affineBase, 1⟩ scanline6).1 ≠ 0 :=
  msApproxTransformer_exact_on_affine ⟨affineBase, 1⟩ 2 0 1 0 1 3
    (by
      intro pts
      refine ⟨one_ne_zero, ?_⟩
      show pts.map _ = pts.map _
      apply List.map_congr_left
      intro p _
      simp only [zero_mul, add_zero, one_mul, zero_add])
    7 6 scanline6 rfl (by
      intro p hp
      simp only [scanline6, List.mem_cons, List.mem_singleton, List.not_mem_nil,
        or_false] at hp
      rcases hp with rfl | rfl | rfl | rfl | rfl | rfl <;> rfl)

/-- C35 (witness): the base transformer `affineBase` on the scanline of six pixels with
tolerance 1 takes the interpolation path. -/
theorem msApproxTransformer_fast_path_anchors_witness :
    ((msApproxTransformer ⟨affineBase, 1⟩ scanline6).2.getD 0 ⟨0, 0, 0⟩).xy
        = ((msApproxTransformer.sampled ⟨affineBase, 1⟩ scanline6).2.getD 0 ⟨0, 0, 0⟩).xy
    ∧ ((msApproxTransformer ⟨affineBase, 1⟩ scanline6).2.getD (scanline6.length - 1)
          ⟨0, 0, 0⟩).xy
        = ((msApproxTransformer.sampled ⟨affineBase, 1⟩ scanline6).2.getD 2 ⟨0, 0, 0⟩).xy
    ∧ deviation
        ((msApproxTransformer ⟨affineBase, 1⟩ scanline6).2.getD ((scanline6.length - 1) / 2)
          ⟨0, 0, 0⟩)
        ((msApproxTransformer.sampled ⟨affineBase, 1⟩ scanline6).2.getD 1 ⟨0, 0, 0⟩)
        ≤ (⟨affineBase, 1⟩ : msApproxTransformInfo).dfMaxError :=
  msApproxTransformer_fast_path_anchors ⟨affineBase, 1⟩ scanline6 (by decide)
    one_ne_zero (by decide) (by decide) (by decide) (by decide) (by decide)
    (by decide) (by decide) (by decide)
    (by norm_num [deviation, interpolated, msApproxTransformer.sampled, affineBase,
      scanline6, fabs])

/-- C36: in the recursive branch of `msApproxTransformer` (more than five points, the
preconditions met, the three samples transformed, middle deviation above the tolerance)
the two sub-calls get the points `[0, nMiddle)` and `[nMiddle, n)` of the batch as it
came in, `nMiddle = (n-1)/2`: the two parts are disjoint, together they are the batch, and
when both sub-calls return non-zero the function returns 1 and entry `i` of the result is
entry `i` of the first sub-call for `i < nMiddle` and entry `i - nMiddle` of the second
for `i >= nMiddle`; the two results have `nMiddle` and `n - nMiddle` entries, so every
point has its coordinates and its flag from exactly one sub-call. -/
theorem msApproxTransformer_recursion_partition (psATInfo : msApproxTransformInfo)
    (pts : List (ℚ × ℚ)) (hlen : 5 < pts.length) (heps : psATInfo.dfMaxError ≠ 0)
    (hrow1 : (pts.getD 0 (0, 0)).2 = (pts.getD (pts.length - 1) (0, 0)).2)
    (hrow2 : (pts.getD 0 (0, 0)).2 = (pts.getD ((pts.length - 1) / 2) (0, 0)).2)
    (hcol1 : (pts.getD 0 (0, 0)).1 ≠ (pts.getD (pts.length - 1) (0, 0)).1)
    (hcol2 : (pts.getD 0 (0, 0)).1 ≠ (pts.getD ((pts.length - 1) / 2) (0, 0)).1)
    (hret : (msApproxTransformer.sampled psATInfo pts).1 ≠ 0)
    (hs0 : ((msApproxTransformer.sampled psATInfo pts).2.getD 0 ⟨0, 0, 0⟩).success ≠ 0)
    (hs1 : ((msApproxTransformer.sampled psATInfo pts).2.getD 1 ⟨0, 0, 0⟩).success ≠ 0)
    (hs2 : ((msApproxTransformer.sampled psATInfo pts).2.getD 2 ⟨0, 0, 0⟩).success ≠ 0)
    (herr : psATInfo.dfMaxError < deviation
      (interpolated (pts.getD 0 (0, 0)) (pts.getD (pts.length - 1) (0, 0))
        ((msApproxTransformer.sampled psATInfo pts).2.getD 0 ⟨0, 0, 0⟩)
        ((msApproxTransformer.sampled psATInfo pts).2.getD 2 ⟨0, 0, 0⟩)
        (pts.getD ((pts.length - 1) / 2) (0, 0)))
      ((msApproxTransformer.sampled psATInfo pts).2.getD 1 ⟨0, 0, 0⟩))
    (h1 : (msApproxTransformer psATInfo (pts.take ((pts.length - 1) / 2))).1 ≠ 0)
    (h2 : (msApproxTransformer psATInfo (pts.drop ((pts.length - 1) / 2))).1 ≠ 0) :
    pts.take ((pts.length - 1) / 2) ++ pts.drop ((pts.length - 1) / 2) = pts
    ∧ (pts.take ((pts.length - 1) / 2)).length = (pts.length - 1) / 2
    ∧ (pts.drop ((pts.length - 1) / 2)).length = pts.length - (pts.length - 1) / 2
    ∧ msApproxTransformer psATInfo pts
      = (1, (msApproxTransformer psATInfo (pts.take ((pts.length - 1) / 2))).2
          ++ (msApproxTransformer psATInfo (pts.drop ((pts.length - 1) / 2))).2)
    ∧ (msApproxTransformer psATInfo (pts.take ((pts.length - 1) / 2))).2.length
      = (pts.length - 1) / 2
    ∧ (msApproxTransformer psATInfo (pts.drop ((pts.length - 1) / 2))).2.length
      = pts.length - (pts.length - 1) / 2
    ∧ ∀ i, i < pts.length →
      (msApproxTransformer psATInfo pts).2[i]?
        = if i < (pts.length - 1) / 2 then
            (msApproxTransformer psATInfo (pts.take ((pts.length - 1) / 2))).2[i]?
          else
            (msApproxTransformer psATInfo (pts.drop ((pts.length - 1) / 2))).2[i
              - (pts.length - 1) / 2]? := by
  have hpre : ¬ ((pts.getD 0 (0, 0)).2 ≠ (pts.getD (pts.length - 1) (0, 0)).2
      ∨ (pts.getD 0 (0, 0)).2 ≠ (pts.getD ((pts.length - 1) / 2) (0, 0)).2
      ∨ (pts.getD 0 (0, 0)).1 = (pts.getD (pts.length - 1) (0, 0)).1
      ∨ (pts.getD 0 (0, 0)).1 = (pts.getD ((pts.length - 1) / 2) (0, 0)).1
      ∨ psATInfo.dfMaxError = 0 ∨ pts.length ≤ 5) := by
    rintro (h | h | h | h | h | h)
    · exact h hrow1
    · exact h hrow2
    · exact hcol1 h
    · exact hcol2 h
    · exact heps h
    · omega
  have hsucc : ¬ ((msApproxTransformer.sampled psATInfo pts).1 = 0
      ∨ ((msApproxTransformer.sampled psATInfo pts).2.getD 0 ⟨0, 0, 0⟩).success = 0
      ∨ ((msApproxTransformer.sampled psATInfo pts).2.getD 1 ⟨0, 0, 0⟩).success = 0
      ∨ ((msApproxTransformer.sampled psATInfo pts).2.getD 2 ⟨0, 0, 0⟩).success = 0) := by
    rintro (h | h | h | h)
    · exact hret h
    · exact hs0 h
    · exact hs1 h
    · exact hs2 h
  have hmain : msApproxTransformer psATInfo pts
      = (1, (msApproxTransformer psATInfo (pts.take ((pts.length - 1) / 2))).2
          ++ (msApproxTransformer psATInfo (pts.drop ((pts.length - 1) / 2))).2) := by
    rw [msApproxTransformer, dif_neg hpre]
    dsimp only
    unfold msApproxTransformer.sampled at hsucc herr
    rw [if_neg hsucc]
    unfold deviation interpolated at herr
    dsimp only at herr
    rw [if_pos herr, if_neg h1, if_neg h2]
  have l1 : (msApproxTransformer psATInfo (pts.take ((pts.length - 1) / 2))).2.length
      = (pts.length - 1) / 2 := by
    rw [msApproxTransformer_length psATInfo _ _ rfl, List.length_take]
    omega
  have l2 : (msApproxTransformer psATInfo (pts.drop ((pts.length - 1) / 2))).2.length
      = pts.length - (pts.length - 1) / 2 := by
    rw [msApproxTransformer_length psATInfo _ _ rfl, List.length_drop]
  refine ⟨List.take_append_drop _ _, ?_, List.length_drop _ _, hmain, l1, l2, ?_⟩
  · rw [List.length_take]
    omega
  · intro i hi
    rw [hmain]
    dsimp only
    by_cases hlt : i < (pts.length - 1) / 2
    · rw [if_pos hlt, List.getElem?_append_left (by rw [l1]; exact hlt)]
    · rw [if_neg hlt, List.getElem?_append_right (by rw [l1]; omega), l1]

/-- C36 (witness): the base transformer `squareBase` on the scanline of six pixels with
tolerance 1: the interpolated middle column would be 15 against 9, so the batch is split
into two and four points. -/
theorem msApproxTransformer_recursion_partition_witness :
    msApproxTransformer ⟨squareBase, 1⟩ scanline6
      = (1, (msApproxTransformer ⟨squareBase, 1⟩
              (scanline6.take ((scanline6.length - 1) / 2))).2
          ++ (msApproxTransformer ⟨squareBase, 1⟩
              (scanline6.drop ((scanline6.length - 1) / 2))).2) :=
  (msApproxTransformer_recursion_partition ⟨squareBase, 1⟩ scanline6 (by decide)
    one_ne_zero (by decide) (by decide) (by decide) (by decide) (by decide)
    (by decide) (by decide) (by decide)
    (by norm_num [deviation, interpolated, msApproxTransformer.sampled, squareBase,
      scanline6, fabs])
    (by
      rw [msApproxTransformer_of_length_le_five _ _ (by decide)]
      exact one_ne_zero)
    (by
      rw [msApproxTransformer_of_length_le_five _ _ (by decide)]
      exact one_ne_zero)).2.2.2.1

/-- C37 (the code at a failing input): the empty batch, `nPoints = 0`, which each
resampler hands to the transformer for every row of a destination of width 0. The test of
`msApproxTransformer` reads `y[0]` and `y[nPoints-1] = y[-1]` before anything else, and
`nMiddle` is `(0-1)/2 = 0`: no index it reads lies in `[0, 0)`. For every `nPoints >= 1`
all the indices of the test lie in `[0, nPoints)`. -/
theorem msApproxTransformer_reads_empty_batch :
    ((upTo (rawImage 0 1 ImageMode.BYTE 1 fun _ => 0).width).map fun (nDstX : Int) =>
        ((nDstX : ℚ) + 1 / 2, ((0 : Int) : ℚ) + 1 / 2)).length = 0
    ∧ msApproxTransformer.testReads 0 = [0, -1, 0]
    ∧ (∀ i ∈ msApproxTransformer.testReads 0, ¬ (0 ≤ i ∧ i < 0))
    ∧ ∀ nPoints : Int, 1 ≤ nPoints →
        ∀ i ∈ msApproxTransformer.testReads nPoints, 0 ≤ i ∧ i < nPoints := by
  refine ⟨by decide, by decide, ?_, ?_⟩
  · intro i _ h
    omega
  · intro n hn i hi
    have hdiv : (n - 1).tdiv 2 = (n - 1) / 2 := Int.tdiv_eq_ediv (by omega) (by decide)
    simp only [msApproxTransformer.testReads, hdiv, List.mem_cons, List.mem_singleton,
      List.not_mem_nil, or_false] at hi
    rcases hi with rfl | rfl | rfl <;> omega

/-- The function `msSourceSample` adds the weight to the weight sum or leaves the weight
sum as it is. -/
theorem msSourceSample_weight_sum (gd : GdLib) (psSrcImage : imageObj) (iSrcX iSrcY : Int)
    (padfPixelSum : Int → ℚ) (dfWeight dfWeightSum : ℚ) (offsite : colorObj)
    (r : (Int → ℚ) × ℚ)
    (h : msSourceSample gd psSrcImage iSrcX iSrcY padfPixelSum dfWeight dfWeightSum offsite
      = some r) :
    r.2 = dfWeightSum ∨ r.2 = dfWeightSum + dfWeight := by
  unfold msSourceSample at h
  by_cases h1 : psSrcImage.format.renderer = Renderer.GD
  · rw [if_pos h1] at h
    by_cases h2 : ¬ psSrcImage.gd.trueColor
    · rw [if_pos h2] at h
      simp only [Option.some.injEq] at h
      rw [← h]
      exact Or.inr rfl
    · rw [if_neg h2] at h
      dsimp only at h
      by_cases h3 : gd.gdTrueColorGetAlpha (psSrcImage.gd.tpixels iSrcY iSrcX) ≠ 127
      · rw [if_pos h3] at h
        simp only [Option.some.injEq] at h
        rw [← h]
        exact Or.inr rfl
      · rw [if_neg h3] at h
        simp only [Option.some.injEq] at h
        rw [← h]
        exact Or.inl rfl
  · rw [if_neg h1] at h
    cases hb : msSourceSample.bands psSrcImage iSrcX iSrcY dfWeight offsite
        (upTo psSrcImage.format.bands) padfPixelSum with
    | none =>
      rw [hb] at h
      exact absurd h (by simp)
    | some v =>
      obtain ⟨s, b⟩ := v
      rw [hb] at h
      cases b with
      | true =>
        simp only [Option.some.injEq] at h
        rw [← h]
        exact Or.inr rfl
      | false =>
        simp only [Option.some.injEq] at h
        rw [← h]
        exact Or.inl rfl

theorem msBilinearRasterResampler_srcPos_ratios (psSrcImage : imageObj) (p : Pt)
    (pos : BilinearPos)
    (hx : -2147483648 ≤ ⌊p.x - 1 / 2⌋ ∧ ⌊p.x - 1 / 2⌋ < 2147483648)
    (hy : -2147483648 ≤ ⌊p.y - 1 / 2⌋ ∧ ⌊p.y - 1 / 2⌋ < 2147483648)
    (h : msBilinearRasterResampler.srcPos psSrcImage p = some pos) :
    (0 ≤ pos.dfRatioX2 ∧ pos.dfRatioX2 < 1) ∧ (0 ≤ pos.dfRatioY2 ∧ pos.dfRatioY2 < 1) := by
  unfold msBilinearRasterResampler.srcPos at h
  split_ifs at h with h1
  dsimp only at h
  split_ifs at h with h2
  simp only [Option.some.injEq] at h
  subst h
  dsimp only
  rw [castInt_intCast _ hx.1 hx.2, castInt_intCast _ hy.1 hy.2]
  have a1 := Int.floor_le (p.x - 1 / 2)
  have a2 := Int.lt_floor_add_one (p.x - 1 / 2)
  have b1 := Int.floor_le (p.y - 1 / 2)
  have b2 := Int.lt_floor_add_one (p.y - 1 / 2)
  refine ⟨⟨?_, ?_⟩, ?_, ?_⟩ <;> linarith

theorem msBilinearRasterResampler_corners_weights (pos : BilinearPos)
    (hx : 0 ≤ pos.dfRatioX2 ∧ pos.dfRatioX2 < 1) (hy : 0 ≤ pos.dfRatioY2 ∧ pos.dfRatioY2 < 1) :
    (∀ c ∈ msBilinearRasterResampler.corners pos, 0 ≤ c.2.2 ∧ c.2.2 ≤ 1)
    ∧ ((msBilinearRasterResampler.corners pos).map fun c => c.2.2).sum = 1 := by
  obtain ⟨x0, x1⟩ := hx
  obtain ⟨y0, y1⟩ := hy
  constructor
  · intro c hc
    unfold msBilinearRasterResampler.corners at hc
    simp only [List.mem_cons, List.mem_singleton, List.not_mem_nil, or_false] at hc
    rcases hc with rfl | rfl | rfl | rfl <;> dsimp only <;> constructor <;> nlinarith
  · unfold msBilinearRasterResampler.corners
    simp only [List.map_cons, List.map_nil, List.sum_cons, List.sum_nil]
    ring

/-- One call of `msSourceSample` on a source that adds weight only together with a sample:
a skipped position changes nothing, any other adds the weight to the weight sum and the
weight times the band 0 sample to `padfPixelSum[0]`. -/
theorem msSourceSample_band0 (gd : GdLib) (psSrcImage : imageObj) (iSrcX iSrcY : Int)
    (padfPixelSum : Int → ℚ) (dfWeight dfWeightSum : ℚ) (offsite : colorObj)
    (hws : psSrcImage.weightWithSample) (r : (Int → ℚ) × ℚ)
    (h : msSourceSample gd psSrcImage iSrcX iSrcY padfPixelSum dfWeight dfWeightSum offsite
      = some r) :
    (msSourceSample.skipped gd psSrcImage iSrcX iSrcY offsite →
      r.1 0 = padfPixelSum 0 ∧ r.2 = dfWeightSum)
    ∧ (¬ msSourceSample.skipped gd psSrcImage iSrcX iSrcY offsite →
      r.1 0 = padfPixelSum 0
          + dfWeight * msSourceSample.value gd psSrcImage iSrcX iSrcY
        ∧ r.2 = dfWeightSum + dfWeight) := by
  unfold msSourceSample.skipped msSourceSample.value
  by_cases h1 : psSrcImage.format.renderer = Renderer.GD
  · rw [if_pos h1, if_pos h1]
    by_cases h2 : psSrcImage.gd.trueColor = false
    · have h2n : ¬ psSrcImage.gd.trueColor = true := by rw [h2]; decide
      rw [msSourceSample_palette gd psSrcImage iSrcX iSrcY padfPixelSum dfWeight dfWeightSum
        offsite h1 h2] at h
      simp only [Option.some.injEq] at h
      subst h
      rw [if_pos h2n, if_pos h2n]
      refine ⟨fun hf => absurd hf (by simp), fun _ => ⟨?_, rfl⟩⟩
      simp
    · have h2t : psSrcImage.gd.trueColor = true := by
        cases hb : psSrcImage.gd.trueColor with
        | false => exact absurd hb h2
        | true => rfl
      have h2n : ¬ ¬ psSrcImage.gd.trueColor = true := by rw [h2t]; decide
      rw [if_neg h2n, if_neg h2n]
      by_cases h3 : gd.gdTrueColorGetAlpha (psSrcImage.gd.tpixels iSrcY iSrcX) = 127
      · unfold msSourceSample at h
        rw [if_pos h1, if_neg h2n] at h
        dsimp only at h
        rw [if_neg (by rw [h3]; decide)] at h
        simp only [Option.some.injEq] at h
        subst h
        exact ⟨fun _ => ⟨rfl, rfl⟩, fun hn => absurd h3 hn⟩
      · rw [msSourceSample_truecolor gd psSrcImage iSrcX iSrcY padfPixelSum dfWeight
          dfWeightSum offsite h1 h2t h3] at h
        simp only [Option.some.injEq] at h
        subst h
        refine ⟨fun hs => absurd hs h3, fun _ => ⟨?_, rfl⟩⟩
        simp
  · rw [if_neg h1, if_neg h1]
    rcases hws with hgd | ⟨hmode, hb⟩
    · exact absurd hgd h1
    · by_cases h3 : psSrcImage.raw (iSrcX + iSrcY * psSrcImage.width
          + 0 * psSrcImage.width * psSrcImage.height) = offsite.red
      · rw [msSourceSample_nodata_int16_float32 gd psSrcImage iSrcX iSrcY padfPixelSum
          dfWeight dfWeightSum offsite h1 hmode hb h3] at h
        simp only [Option.some.injEq] at h
        subst h
        exact ⟨fun _ => ⟨rfl, rfl⟩, fun hn => absurd h3 hn⟩
      · have hmode3 : psSrcImage.format.imagemode = ImageMode.INT16
            ∨ psSrcImage.format.imagemode = ImageMode.FLOAT32
            ∨ psSrcImage.format.imagemode = ImageMode.BYTE := by
          rcases hmode with hm | hm
          · exact Or.inl hm
          · exact Or.inr (Or.inl hm)
        rw [msSourceSample_raw gd psSrcImage iSrcX iSrcY padfPixelSum dfWeight dfWeightSum
          offsite h1 hmode3 h3] at h
        simp only [Option.some.injEq] at h
        subst h
        refine ⟨fun hs => absurd hs h3, fun _ => ⟨?_, rfl⟩⟩
        dsimp only
        rw [if_pos ⟨le_refl 0, hb⟩]

/-- One call of `msSourceSample` with a weight that is not negative keeps the weight sum
between its old value and the old value plus the weight. -/
theorem msSourceSample_weight_step (gd : GdLib) (psSrcImage : imageObj) (iSrcX iSrcY : Int)
    (padfPixelSum : Int → ℚ) (dfWeight dfWeightSum : ℚ) (offsite : colorObj)
    (hw : 0 ≤ dfWeight) (r : (Int → ℚ) × ℚ)
    (h : msSourceSample gd psSrcImage iSrcX iSrcY padfPixelSum dfWeight dfWeightSum offsite
      = some r) :
    dfWeightSum ≤ r.2 ∧ r.2 ≤ dfWeightSum + dfWeight := by
  rcases msSourceSample_weight_sum gd psSrcImage iSrcX iSrcY padfPixelSum dfWeight dfWeightSum
    offsite r h with e | e <;> rw [e] <;> constructor <;> linarith

/-- One call of `msSourceSample` on a source that adds weight only together with a sample
keeps `lo * dfWeightSum <= padfPixelSum[0] <= hi * dfWeightSum` when the sample it adds
with a weight other than 0 lies between `lo` and `hi`. -/
theorem msSourceSample_convex_step (gd : GdLib) (psSrcImage : imageObj) (iSrcX iSrcY : Int)
    (padfPixelSum : Int → ℚ) (dfWeight dfWeightSum : ℚ) (offsite : colorObj)
    (hws : psSrcImage.weightWithSample) (hw : 0 ≤ dfWeight) (lo hi : ℚ)
    (hv : ¬ msSourceSample.skipped gd psSrcImage iSrcX iSrcY offsite → dfWeight ≠ 0 →
      lo ≤ msSourceSample.value gd psSrcImage iSrcX iSrcY
        ∧ msSourceSample.value gd psSrcImage iSrcX iSrcY ≤ hi)
    (hinv : lo * dfWeightSum ≤ padfPixelSum 0 ∧ padfPixelSum 0 ≤ hi * dfWeightSum)
    (r : (Int → ℚ) × ℚ)
    (h : msSourceSample gd psSrcImage iSrcX iSrcY padfPixelSum dfWeight dfWeightSum offsite
      = some r) :
    lo * r.2 ≤ r.1 0 ∧ r.1 0 ≤ hi * r.2 := by
  obtain ⟨hs, hns⟩ := msSourceSample_band0 gd psSrcImage iSrcX iSrcY padfPixelSum dfWeight
    dfWeightSum offsite hws r h
  by_cases hsk : msSourceSample.skipped gd psSrcImage iSrcX iSrcY offsite
  · obtain ⟨e1, e2⟩ := hs hsk
    rw [e1, e2]
    exact hinv
  · obtain ⟨e1, e2⟩ := hns hsk
    rw [e1, e2]
    by_cases hz : dfWeight = 0
    · rw [hz]
      simp only [zero_mul, add_zero]
      exact hinv
    · obtain ⟨v1, v2⟩ := hv hsk hz
      have p1 := mul_le_mul_of_nonneg_left v1 hw
      have p2 := mul_le_mul_of_nonneg_left v2 hw
      constructor <;> nlinarith
theorem castInt_between_nonneg (d : ℚ) (n : Int) (h0 : 0 ≤ d) (hn : d ≤ n)
    (hr : n < 2147483648) : 0 ≤ castInt d ∧ castInt d ≤ n := by
  have f0 : 0 ≤ ⌊d⌋ := Int.floor_nonneg.mpr h0
  have f1 : ⌊d⌋ ≤ n := by
    have : ((⌊d⌋ : Int) : ℚ) ≤ (n : ℚ) := le_trans (Int.floor_le d) hn
    exact_mod_cast this
  unfold castInt trunc
  rw [if_pos h0, toInt32_of_range _ (by omega) (by omega)]
  exact ⟨f0, f1⟩

/-- C40 (amended): in exact arithmetic, for every transformed point that
`msBilinearRasterResampler` goes on to sample
(flagged successful, not right off the source) and whose `floor(x - 0.5)`,
`floor(y - 0.5)` are in the range of `int`, the weights of the four calls of
`msSourceSample` are each in `[0, 1]` and sum to 1; the weight sum after the four calls
lies in `[0, 1]`; for a source that adds weight only together with a sample, a weight sum
other than 0 gives a normalised `padfPixelSum[0]` between any two bounds `lo`, `hi` of
the samples that were added with a weight other than 0; and for a paletted source with
indexes in `0..255` the weight sum is 1 and the index looked up in `panCMap` is in
`0..255`. -/
theorem msBilinearRasterResampler_convex_combination (gd : GdLib) (psSrcImage : imageObj)
    (offsite : colorObj) (p : Pt) (pos : BilinearPos)
    (hx : -2147483648 ≤ ⌊p.x - 1 / 2⌋ ∧ ⌊p.x - 1 / 2⌋ < 2147483648)
    (hy : -2147483648 ≤ ⌊p.y - 1 / 2⌋ ∧ ⌊p.y - 1 / 2⌋ < 2147483648)
    (hpos : msBilinearRasterResampler.srcPos psSrcImage p = some pos) :
    (∀ c ∈ msBilinearRasterResampler.corners pos, 0 ≤ c.2.2 ∧ c.2.2 ≤ 1)
    ∧ ((msBilinearRasterResampler.corners pos).map fun c => c.2.2).sum = 1
    ∧ ∀ (S : Int → ℚ) (W : ℚ),
        msBilinearRasterResampler.sample gd psSrcImage offsite pos = some (S, W) →
        (0 ≤ W ∧ W ≤ 1)
        ∧ (psSrcImage.weightWithSample → W ≠ 0 → ∀ lo hi : ℚ,
            (∀ c ∈ msBilinearRasterResampler.corners pos,
              ¬ msSourceSample.skipped gd psSrcImage c.1 c.2.1 offsite → c.2.2 ≠ 0 →
              lo ≤ msSourceSample.value gd psSrcImage c.1 c.2.1
                ∧ msSourceSample.value gd psSrcImage c.1 c.2.1 ≤ hi) →
            lo ≤ S 0 / W ∧ S 0 / W ≤ hi)
        ∧ (psSrcImage.format.renderer = Renderer.GD → psSrcImage.gd.trueColor = false →
            (∀ c ∈ msBilinearRasterResampler.corners pos,
              0 ≤ psSrcImage.gd.pixels c.2.1 c.1 ∧ psSrcImage.gd.pixels c.2.1 c.1 ≤ 255) →
            W = 1 ∧ 0 ≤ castInt (S 0 / W) ∧ castInt (S 0 / W) ≤ 255) := by
  obtain ⟨hrx, hry⟩ := msBilinearRasterResampler_srcPos_ratios psSrcImage p pos hx hy hpos
  obtain ⟨hwts, hsum⟩ := msBilinearRasterResampler_corners_weights pos hrx hry
  have hc1 : (pos.nSrcX, pos.nSrcY, (1 - pos.dfRatioX2) * (1 - pos.dfRatioY2))
      ∈ msBilinearRasterResampler.corners pos := by
    unfold msBilinearRasterResampler.corners
    simp
  have hc2 : (pos.nSrcX2, pos.nSrcY, pos.dfRatioX2 * (1 - pos.dfRatioY2))
      ∈ msBilinearRasterResampler.corners pos := by
    unfold msBilinearRasterResampler.corners
    simp
  have hc3 : (pos.nSrcX, pos.nSrcY2, (1 - pos.dfRatioX2) * pos.dfRatioY2)
      ∈ msBilinearRasterResampler.corners pos := by
    unfold msBilinearRasterResampler.corners
    simp
  have hc4 : (pos.nSrcX2, pos.nSrcY2, pos.dfRatioX2 * pos.dfRatioY2)
      ∈ msBilinearRasterResampler.corners pos := by
    unfold msBilinearRasterResampler.corners
    simp
  have hw1 := (hwts _ hc1).1
  have hw2 := (hwts _ hc2).1
  have hw3 := (hwts _ hc3).1
  have hw4 := (hwts _ hc4).1
  dsimp only at hw1 hw2 hw3 hw4
  have htot : (1 - pos.dfRatioX2) * (1 - pos.dfRatioY2) + pos.dfRatioX2 * (1 - pos.dfRatioY2)
      + (1 - pos.dfRatioX2) * pos.dfRatioY2 + pos.dfRatioX2 * pos.dfRatioY2 = 1 := by ring
  -- the four calls, one after the other
  have hcalls : ∀ (S : Int → ℚ) (W : ℚ),
      msBilinearRasterResampler.sample gd psSrcImage offsite pos = some (S, W) →
      ∃ r1 r2 r3 : (Int → ℚ) × ℚ,
        msSourceSample gd psSrcImage pos.nSrcX pos.nSrcY (fun _ => 0)
          ((1 - pos.dfRatioX2) * (1 - pos.dfRatioY2)) 0 offsite = some r1
        ∧ msSourceSample gd psSrcImage pos.nSrcX2 pos.nSrcY r1.1
          (pos.dfRatioX2 * (1 - pos.dfRatioY2)) r1.2 offsite = some r2
        ∧ msSourceSample gd psSrcImage pos.nSrcX pos.nSrcY2 r2.1
          ((1 - pos.dfRatioX2) * pos.dfRatioY2) r2.2 offsite = some r3
        ∧ msSourceSample gd psSrcImage pos.nSrcX2 pos.nSrcY2 r3.1
          (pos.dfRatioX2 * pos.dfRatioY2) r3.2 offsite = some (S, W) := by
    intro S W hs
    unfold msBilinearRasterResampler.sample at hs
    obtain ⟨r1, e1, hs⟩ := Option.bind_eq_some.mp hs
    obtain ⟨r2, e2, hs⟩ := Option.bind_eq_some.mp hs
    obtain ⟨r3, e3, hs⟩ := Option.bind_eq_some.mp hs
    exact ⟨r1, r2, r3, e1, e2, e3, hs⟩
  refine ⟨hwts, hsum, ?_⟩
  intro S W hs
  obtain ⟨r1, r2, r3, e1, e2, e3, e4⟩ := hcalls S W hs
  have s1 := msSourceSample_weight_step gd psSrcImage _ _ _ _ _ offsite hw1 r1 e1
  have s2 := msSourceSample_weight_step gd psSrcImage _ _ _ _ _ offsite hw2 r2 e2
  have s3 := msSourceSample_weight_step gd psSrcImage _ _ _ _ _ offsite hw3 r3 e3
  have s4 := msSourceSample_weight_step gd psSrcImage _ _ _ _ _ offsite hw4 (S, W) e4
  dsimp only at s4
  have hW0 : 0 ≤ W := by linarith [s1.1, s2.1, s3.1, s4.1]
  have hW1 : W ≤ 1 := by linarith [s1.2, s2.2, s3.2, s4.2]
  have hconv : psSrcImage.weightWithSample → W ≠ 0 → ∀ lo hi : ℚ,
      (∀ c ∈ msBilinearRasterResampler.corners pos,
        ¬ msSourceSample.skipped gd psSrcImage c.1 c.2.1 offsite → c.2.2 ≠ 0 →
        lo ≤ msSourceSample.value gd psSrcImage c.1 c.2.1
          ∧ msSourceSample.value gd psSrcImage c.1 c.2.1 ≤ hi) →
      lo ≤ S 0 / W ∧ S 0 / W ≤ hi := by
    intro hws hWne lo hi hb
    have i0 : lo * (0 : ℚ) ≤ (fun _ : Int => (0 : ℚ)) 0
        ∧ (fun _ : Int => (0 : ℚ)) 0 ≤ hi * (0 : ℚ) := by
      simp
    have i1 := msSourceSample_convex_step gd psSrcImage _ _ _ _ _ offsite hws hw1 lo hi
      (hb _ hc1) i0 r1 e1
    have i2 := msSourceSample_convex_step gd psSrcImage _ _ _ _ _ offsite hws hw2 lo hi
      (hb _ hc2) i1 r2 e2
    have i3 := msSourceSample_convex_step gd psSrcImage _ _ _ _ _ offsite hws hw3 lo hi
      (hb _ hc3) i2 r3 e3
    have i4 := msSourceSample_convex_step gd psSrcImage _ _ _ _ _ offsite hws hw4 lo hi
      (hb _ hc4) i3 (S, W) e4
    dsimp only at i4
    have hWpos : 0 < W := lt_of_le_of_ne hW0 (Ne.symm hWne)
    exact ⟨(le_div_iff₀ hWpos).mpr i4.1, (div_le_iff₀ hWpos).mpr i4.2⟩
  refine ⟨⟨hW0, hW1⟩, hconv, ?_⟩
  intro hgd htc hpix
  have hws : psSrcImage.weightWithSample := Or.inl hgd
  have hnot : ∀ (iX iY : Int), ¬ msSourceSample.skipped gd psSrcImage iX iY offsite := by
    intro iX iY
    unfold msSourceSample.skipped
    rw [if_pos hgd, if_pos (by rw [htc]; decide)]
    exact not_false
  have hval : ∀ (iX iY : Int), msSourceSample.value gd psSrcImage iX iY
      = (psSrcImage.gd.pixels iY iX : ℚ) := by
    intro iX iY
    unfold msSourceSample.value
    rw [if_pos hgd, if_pos (by rw [htc]; decide)]
  have w1 := (msSourceSample_band0 gd psSrcImage _ _ _ _ _ offsite hws r1 e1).2 (hnot _ _)
  have w2 := (msSourceSample_band0 gd psSrcImage _ _ _ _ _ offsite hws r2 e2).2 (hnot _ _)
  have w3 := (msSourceSample_band0 gd psSrcImage _ _ _ _ _ offsite hws r3 e3).2 (hnot _ _)
  have w4 := (msSourceSample_band0 gd psSrcImage _ _ _ _ _ offsite hws (S, W) e4).2
    (hnot _ _)
  dsimp only at w4
  have hWone : W = 1 := by
    rw [w4.2, w3.2, w2.2, w1.2]
    ring
  have hone : W ≠ 0 := by rw [hWone]; exact one_ne_zero
  obtain ⟨b0, b1⟩ := hconv hws hone 0 255 (by
    intro c hc _ _
    rw [hval]
    obtain ⟨q0, q1⟩ := hpix c hc
    exact ⟨by exact_mod_cast q0, by exact_mod_cast q1⟩)
  exact ⟨hWone, castInt_between_nonneg _ 255 b0 (by exact_mod_cast b1) (by decide)⟩

/-- C40 (witness): the point `(1.4, 0.5)` in a 2 x 1 paletted source: the ratios are 0.9
and 0, and the weights of the four calls sum to 1. -/
theorem msBilinearRasterResampler_convex_combination_witness :
    msBilinearRasterResampler.srcPos
        (gdImageObj 2 1 false (fun _ c => if c = 0 then 1 else 2) fun _ _ => 0)
        ⟨7 / 5, 1 / 2, 1⟩ = some ⟨0, 0, 1, 0, 9 / 10, 0⟩
    ∧ ((msBilinearRasterResampler.corners ⟨0, 0, 1, 0, 9 / 10, 0⟩).map fun c => c.2.2).sum
        = 1 := by
  have hf1 : ⌊((7 : ℚ) / 5 - 1 / 2)⌋ = 0 := by
    rw [Int.floor_eq_iff]
    constructor <;> norm_num
  have hf2 : ⌊((1 : ℚ) / 2 - 1 / 2)⌋ = 0 := by
    rw [Int.floor_eq_iff]
    constructor <;> norm_num
  have hpos : msBilinearRasterResampler.srcPos
      (gdImageObj 2 1 false (fun _ c => if c = 0 then 1 else 2) fun _ _ => 0)
      ⟨7 / 5, 1 / 2, 1⟩ = some ⟨0, 0, 1, 0, 9 / 10, 0⟩ := by
    unfold msBilinearRasterResampler.srcPos
    dsimp only
    rw [hf1, hf2]
    norm_num [castInt, toInt32, trunc, MAX, MIN, gdImageObj]
  have key := msBilinearRasterResampler_convex_combination sampleGd
    (gdImageObj 2 1 false (fun _ c => if c = 0 then 1 else 2) fun _ _ => 0) ⟨-1, 0, 0⟩
    ⟨7 / 5, 1 / 2, 1⟩ ⟨0, 0, 1, 0, 9 / 10, 0⟩
    (by dsimp only; rw [hf1]; decide) (by dsimp only; rw [hf2]; decide) hpos
  exact ⟨hpos, key.2.1⟩

/-- The rounding `binary64` at known values: the doubles nearest to 0.1 and to 1/3, a value
that is a double already, the two ties at `2^53 + 1` and `2^53 + 3` going to the even
significand, and a tie between the two smallest positive doubles; `binary32` at 0.1,
the value of the `float` literal `0.1f`. -/
theorem binary64_values :
    binary64 (1 / 10) = 3602879701896397 / 36028797018963968
    ∧ binary64 (1 / 3) = 6004799503160661 / 18014398509481984
    ∧ binary64 (561 / 512) = 561 / 512
    ∧ binary64 (2 ^ 53 + 1) = 2 ^ 53
    ∧ binary64 (2 ^ 53 + 3) = 2 ^ 53 + 4
    ∧ binary64 (3 / 2 ^ 1075) = 2 / 2 ^ 1074
    ∧ binary32 (1 / 10) = 13421773 / 134217728 := by
  decide!

/-- With no rounding the rounded function is `InvGeoTransform`. -/
theorem InvGeoTransform_rounded_id (gt_in gt_out : GeoTransform) :
    InvGeoTransform.rounded id gt_in gt_out = InvGeoTransform gt_in gt_out := rfl

theorem GeoTransform_applyRounded_id (gt : GeoTransform) (p : ℚ × ℚ) :
    gt.applyRounded id p = gt.apply p := rfl

theorem msResampleGDALToMap_cellsizeRounded_id (layer : layerObj) (sOrigSrcExtent : rectObj)
    (nDstXSize : Int) (dfNominalCellSize : ℚ) :
    msResampleGDALToMap.cellsizeRounded id layer sOrigSrcExtent nDstXSize dfNominalCellSize
      = msResampleGDALToMap.cellsize layer sOrigSrcExtent nDstXSize dfNominalCellSize := rfl

theorem msResampleGDALToMap_loadSizeRounded_id (sSrcExtent : rectObj)
    (dfNominalCellSize cellsize : ℚ) :
    msResampleGDALToMap.loadSizeRounded id sSrcExtent dfNominalCellSize cellsize
      = msResampleGDALToMap.loadSize sSrcExtent dfNominalCellSize cellsize := rfl

/-- C1 (counterexample): on doubles, for the geotransform with origin
`(500000, 4500000)` and pixels of 0.1 units, `InvGeoTransform` returns 1, and its inverse
applied to `T(3, 4)` gives `(3 + 2^-30, 4 - 2^-27)`: the line is off by `7.45e-9`, more
than `1e-9`. -/
theorem InvGeoTransform_round_trip_counterexample :
    (InvGeoTransform.rounded binary64 utmGeoTransform ⟨0, 0, 0, 0, 0, 0⟩).1 = 1
    ∧ (InvGeoTransform.rounded binary64 utmGeoTransform ⟨0, 0, 0, 0, 0, 0⟩).2.applyRounded
        binary64 (utmGeoTransform.applyRounded binary64 (3, 4))
        = (3 + 1 / 1073741824, 4 - 1 / 134217728)
    ∧ (1 : ℚ) / 1000000000 < fabs ((4 - 1 / 134217728) - 4) := by
  decide!

/-- C25 (counterexample): on doubles, the 561 x 33 window of the unpadded extent
`[0, 561] x [0, 33]`, the default ratio 2, a destination 256 pixels wide and the nominal
cell size 1: `561 * (1 / (561 / 512))` comes out as `511.99999999999994` and
`nLoadImgXSize` is 511, where `trunc(max(1, w * ratio * dstWidth /
unpaddedExtentWidth))` is 512. -/
theorem msResampleGDALToMap_load_size_counterexample :
    msResampleGDALToMap.loadSizeRounded binary64 ⟨0, 0, 561, 33⟩ 1
        (msResampleGDALToMap.cellsizeRounded binary64 (sampleLayer ResampleMode.NEAREST ⟨0⟩)
          ⟨0, 0, 561, 33⟩ 256 1) = (511, 30)
    ∧ trunc (MAX 1 ((561 : ℚ) * 2 * 256 / (561 - 0))) = 512 := by
  decide!

theorem addAtRounded_id (padfPixelSum : Int → ℚ) (i : Int) (v : ℚ) :
    addAtRounded id padfPixelSum i v = addAt padfPixelSum i v := rfl

theorem msSourceSample_bandsRounded_id (psSrcImage : imageObj) (iSrcX iSrcY : Int)
    (dfWeight : ℚ) (offsite : colorObj) (l : List Int) (padfPixelSum : Int → ℚ) :
    msSourceSample.bandsRounded id psSrcImage iSrcX iSrcY dfWeight offsite l padfPixelSum
      = msSourceSample.bands psSrcImage iSrcX iSrcY dfWeight offsite l padfPixelSum := by
  induction l generalizing padfPixelSum with
  | nil => rfl
  | cons b rest ih =>
    unfold msSourceSample.bandsRounded msSourceSample.bands
    simp only [ih, addAtRounded_id, id]

theorem msSourceSample_rounded_id (gd : GdLib) (psSrcImage : imageObj) (iSrcX iSrcY : Int)
    (padfPixelSum : Int → ℚ) (dfWeight dfWeightSum : ℚ) (offsite : colorObj) :
    msSourceSample.rounded id gd psSrcImage iSrcX iSrcY padfPixelSum dfWeight dfWeightSum
        offsite
      = msSourceSample gd psSrcImage iSrcX iSrcY padfPixelSum dfWeight dfWeightSum
        offsite := by
  unfold msSourceSample.rounded msSourceSample
  simp only [msSourceSample_bandsRounded_id, addAtRounded_id, id]
  try rfl

theorem msBilinearRasterResampler_srcPosRounded_id (psSrcImage : imageObj) (p : Pt) :
    msBilinearRasterResampler.srcPosRounded id psSrcImage p
      = msBilinearRasterResampler.srcPos psSrcImage p := rfl

theorem msBilinearRasterResampler_sampleRounded_id (gd : GdLib) (psSrcImage : imageObj)
    (offsite : colorObj) (pos : BilinearPos) :
    msBilinearRasterResampler.sampleRounded id gd psSrcImage offsite pos
      = msBilinearRasterResampler.sample gd psSrcImage offsite pos := by
  unfold msBilinearRasterResampler.sampleRounded msBilinearRasterResampler.sample
  simp only [msSourceSample_rounded_id, id]

/-- C40 (counterexample): a 3 x 3 paletted source whose indexes are all 7, on doubles.
At the point `(1.1, 1.9)` the four samples are added with a weight sum of 1, yet the
normalised `padfPixelSum[0]` is `7 - 2^-50`, below the smallest sample, and `(int)`
makes it 6. At the point `(1.62, 1.06)` the weight sum is `1 - 2^-53`, not 1, and the
normalised value is `7 + 2^-50`, above the largest sample. -/
theorem msBilinearRasterResampler_convex_combination_counterexample :
    ((msBilinearRasterResampler.srcPosRounded binary64
        (gdImageObj 3 3 false (fun _ _ => 7) fun _ _ => 0)
        ⟨binary64 (11 / 10), binary64 (19 / 10), 1⟩).bind fun pos =>
      (msBilinearRasterResampler.sampleRounded binary64 sampleGd
        (gdImageObj 3 3 false (fun _ _ => 7) fun _ _ => 0) ⟨-1, 0, 0⟩ pos).map fun r =>
        (r.2, binary64 (r.1 0 / r.2), castInt (binary64 (r.1 0 / r.2))))
      = some (1, 7 - 1 / 1125899906842624, 6)
    ∧ ((msBilinearRasterResampler.srcPosRounded binary64
        (gdImageObj 3 3 false (fun _ _ => 7) fun _ _ => 0)
        ⟨binary64 (81 / 50), binary64 (53 / 50), 1⟩).bind fun pos =>
      (msBilinearRasterResampler.sampleRounded binary64 sampleGd
        (gdImageObj 3 3 false (fun _ _ => 7) fun _ _ => 0) ⟨-1, 0, 0⟩ pos).map fun r =>
        (r.2, binary64 (r.1 0 / r.2)))
      = some (1 - 1 / 9007199254740992, 7 + 1 / 1125899906842624) := by
  decide!

theorem writeResampledPixelRounded_id (gd : GdLib) (psSrcImage : imageObj)
    (panCMap : Int → Int) (nDstX nDstY : Int) (padfPixelSum : Int → ℚ) (dfAlpha : ℚ)
    (psDstImage : imageObj) :
    writeResampledPixelRounded id id gd psSrcImage panCMap nDstX nDstY padfPixelSum dfAlpha
        psDstImage
      = writeResampledPixel gd psSrcImage panCMap nDstX nDstY padfPixelSum dfAlpha
        psDstImage := rfl

theorem msBilinearRasterResampler_pixelRounded_id (gd : GdLib) (psSrcImage : imageObj)
    (offsite : colorObj) (panCMap : Int → Int) (nDstX nDstY : Int) (p : Pt)
    (psDstImage : imageObj) :
    msBilinearRasterResampler.pixelRounded id id gd psSrcImage offsite panCMap nDstX nDstY p
        psDstImage
      = msBilinearRasterResampler.pixel gd psSrcImage offsite panCMap nDstX nDstY p
        psDstImage := by
  unfold msBilinearRasterResampler.pixelRounded msBilinearRasterResampler.pixel
  rw [msBilinearRasterResampler_srcPosRounded_id]
  cases msBilinearRasterResampler.srcPos psSrcImage p with
  | none => rfl
  | some pos =>
    dsimp only
    rw [msBilinearRasterResampler_sampleRounded_id]
    cases msBilinearRasterResampler.sample gd psSrcImage offsite pos with
    | none => rfl
    | some r => rfl

/-- With no rounding the rounded resampler is `msBilinearRasterResampler`. -/
theorem msBilinearRasterResampler_rounded_id (gd : GdLib) (psSrcImage : imageObj)
    (offsite : colorObj) (psDstImage : imageObj) (panCMap : Int → Int)
    (pfnTransform : SimpleTransformer) :
    msBilinearRasterResampler.rounded id id gd psSrcImage offsite psDstImage panCMap
        pfnTransform
      = msBilinearRasterResampler gd psSrcImage offsite psDstImage panCMap pfnTransform := by
  unfold msBilinearRasterResampler.rounded msBilinearRasterResampler
  simp only [msBilinearRasterResampler_pixelRounded_id]

theorem weightSumRounded_id (pos : BilinearPos) : weightSumRounded id pos = 1 := by
  unfold weightSumRounded
  simp only [id]
  ring

theorem weightedAverageIndexRounded_id (psSrcImage : imageObj) (pos : BilinearPos) :
    weightedAverageIndexRounded id psSrcImage pos = weightedAverageIndex psSrcImage pos := by
  unfold weightedAverageIndexRounded weightedAverageIndex weightSumRounded
  simp only [id, zero_add]

/-- The rounded write of a resampled pixel changes the destination pixel
`(nDstX, nDstY)` only. -/
theorem writeResampledPixelRounded_onlyPixel (fl fl32 : ℚ → ℚ) (gd : GdLib)
    (psSrcImage : imageObj) (panCMap : Int → Int) (nDstX nDstY : Int)
    (padfPixelSum : Int → ℚ) (dfAlpha : ℚ) (s : imageObj) :
    OnlyPixel s.width s.height nDstY nDstX s
      (writeResampledPixelRounded fl fl32 gd psSrcImage panCMap nDstX nDstY padfPixelSum
        dfAlpha s) := by
  unfold writeResampledPixelRounded
  dsimp only
  split_ifs
  all_goals first
    | exact OnlyPixel.refl _ _ _ _ _
    | exact OnlyPixel.setPixel _ _ _ _ _ _
    | exact OnlyPixel.setTPixel _ _ _ _ _ _
    | (apply foldl_onlyPixel _ _ _ _ _ (fun b hb => ((mem_upTo _ _).mp hb).1)
       intro dst b hb
       first
        | exact OnlyPixel.setRaw _ _ _ _ _ _ _ hb
        | exact OnlyPixel.refl _ _ _ _ _)

theorem msBilinearRasterResampler_pixelRounded_onlyPixel (fl fl32 : ℚ → ℚ) (gd : GdLib)
    (psSrcImage : imageObj) (offsite : colorObj) (panCMap : Int → Int) (nDstX nDstY : Int)
    (p : Pt) (s s' : imageObj)
    (h : msBilinearRasterResampler.pixelRounded fl fl32 gd psSrcImage offsite panCMap nDstX
      nDstY p s = some s') :
    OnlyPixel s.width s.height nDstY nDstX s s' := by
  unfold msBilinearRasterResampler.pixelRounded at h
  cases hp : msBilinearRasterResampler.srcPosRounded fl psSrcImage p with
  | none =>
    rw [hp] at h
    simp only [Option.some.injEq] at h
    subst h
    exact OnlyPixel.refl _ _ _ _ _
  | some pos =>
    rw [hp] at h
    dsimp only at h
    cases hs : msBilinearRasterResampler.sampleRounded fl gd psSrcImage offsite pos with
    | none =>
      rw [hs] at h
      exact absurd h (by simp)
    | some r =>
      obtain ⟨sum, dfWeightSum⟩ := r
      rw [hs] at h
      dsimp only at h
      split_ifs at h
      · simp only [Option.some.injEq] at h
        subst h
        exact OnlyPixel.refl _ _ _ _ _
      · simp only [Option.some.injEq] at h
        subst h
        exact writeResampledPixelRounded_onlyPixel _ _ _ _ _ _ _ _ _ _

/-- What the rounded `msBilinearRasterResampler` does to the image follows pixel by pixel
from the body of its pixel loop. -/
theorem msBilinearRasterResampler_rounded_pixelwise (fl fl32 : ℚ → ℚ) (gd : GdLib)
    (psSrcImage : imageObj) (offsite : colorObj) (psDstImage : imageObj)
    (panCMap : Int → Int) (pfnTransform : SimpleTransformer)
    (R : Int × Int → (Int × Int × (Nat → ℚ)) → (Int × Int × (Nat → ℚ)) → Prop)
    (hown : ∀ (nDstY nDstX : Int) (s s' : imageObj), 0 ≤ nDstY → nDstY < psDstImage.height →
      0 ≤ nDstX → nDstX < psDstImage.width → SameShape psDstImage s →
      msBilinearRasterResampler.pixelRounded fl fl32 gd psSrcImage offsite panCMap nDstX nDstY
        (transformedCentre pfnTransform psDstImage.width nDstY nDstX) s = some s' →
      R (nDstY, nDstX) (s.view psDstImage.width psDstImage.height (nDstY, nDstX))
        (s'.view psDstImage.width psDstImage.height (nDstY, nDstX)))
    (rc : Int) (dst' : imageObj)
    (h : msBilinearRasterResampler.rounded fl fl32 gd psSrcImage offsite psDstImage panCMap
      pfnTransform = some (rc, dst')) :
    rc = 0 ∧ SameShape psDstImage dst' ∧
    ∀ nDstY nDstX : Int, 0 ≤ nDstY → nDstY < psDstImage.height → 0 ≤ nDstX →
      nDstX < psDstImage.width →
      R (nDstY, nDstX) (psDstImage.view psDstImage.width psDstImage.height (nDstY, nDstX))
        (dst'.view psDstImage.width psDstImage.height (nDstY, nDstX)) := by
  unfold msBilinearRasterResampler.rounded at h
  simp only [Option.map_eq_some', Prod.mk.injEq] at h
  obtain ⟨d, hd, hrc, rfl⟩ := h
  refine ⟨hrc.symm, ?_⟩
  exact pixelLoops_pixelwise psDstImage
    (fun s nDstY nDstX => msBilinearRasterResampler.pixelRounded fl fl32 gd psSrcImage
      offsite panCMap nDstX nDstY (transformedCentre pfnTransform psDstImage.width nDstY nDstX)
      s) R
    (fun nDstY nDstX s s' hs =>
      msBilinearRasterResampler_pixelRounded_onlyPixel _ _ _ _ _ _ _ _ _ _ _ hs)
    hown d hd

/-- The rounded `msSourceSample` on a paletted source: the weighted index is added to
`padfPixelSum[0]` and the weight to the weight sum, each product and sum rounded. -/
theorem msSourceSample_rounded_palette (fl : ℚ → ℚ) (gd : GdLib) (psSrcImage : imageObj)
    (iSrcX iSrcY : Int) (padfPixelSum : Int → ℚ) (dfWeight dfWeightSum : ℚ)
    (offsite : colorObj) (hgd : psSrcImage.format.renderer = Renderer.GD)
    (htc : psSrcImage.gd.trueColor = false) :
    msSourceSample.rounded fl gd psSrcImage iSrcX iSrcY padfPixelSum dfWeight dfWeightSum
        offsite
      = some (addAtRounded fl padfPixelSum 0
          (fl (dfWeight * psSrcImage.gd.pixels iSrcY iSrcX)), fl (dfWeightSum + dfWeight)) := by
  unfold msSourceSample.rounded
  rw [if_pos hgd, if_pos (by rw [htc]; decide)]

/-- The four rounded calls of `msSourceSample` on a paletted source: the weight sum is
`weightSumRounded`, and `padfPixelSum[0]` divided by it is
`weightedAverageIndexRounded`. -/
theorem msBilinearRasterResampler_sampleRounded_palette (fl : ℚ → ℚ) (gd : GdLib)
    (psSrcImage : imageObj) (offsite : colorObj) (pos : BilinearPos)
    (hgd : psSrcImage.format.renderer = Renderer.GD)
    (htc : psSrcImage.gd.trueColor = false) :
    ∃ F : Int → ℚ, msBilinearRasterResampler.sampleRounded fl gd psSrcImage offsite pos
        = some (F, weightSumRounded fl pos)
      ∧ fl (F 0 / weightSumRounded fl pos) = weightedAverageIndexRounded fl psSrcImage pos := by
  unfold msBilinearRasterResampler.sampleRounded
  simp only [msSourceSample_rounded_palette fl gd psSrcImage _ _ _ _ _ offsite hgd htc,
    Option.some_bind]
  refine ⟨_, rfl, ?_⟩
  unfold weightedAverageIndexRounded addAtRounded
  simp only [if_true]

/-- The rounded write of a resampled pixel from a paletted source: the index
`padfPixelSum[0]` goes through `panCMap` and is written unless it maps to -1. -/
theorem writeResampledPixelRounded_palette (fl fl32 : ℚ → ℚ) (gd : GdLib)
    (psSrcImage : imageObj) (panCMap : Int → Int) (nDstX nDstY : Int)
    (padfPixelSum : Int → ℚ) (dfAlpha : ℚ) (s : imageObj)
    (hgd : psSrcImage.format.renderer = Renderer.GD)
    (htc : psSrcImage.gd.trueColor = false) :
    (writeResampledPixelRounded fl fl32 gd psSrcImage panCMap nDstX nDstY padfPixelSum
        dfAlpha s).gd.pixels nDstY nDstX
      = if panCMap (castInt (padfPixelSum 0)) ≠ -1 then panCMap (castInt (padfPixelSum 0))
        else s.gd.pixels nDstY nDstX := by
  unfold writeResampledPixelRounded
  rw [if_pos hgd, if_pos (by rw [htc]; decide)]
  dsimp only
  split_ifs
  · simp [imageObj.setPixel]
  · rfl

/-- The rounded loop body of `msBilinearRasterResampler` on a paletted source: it
completes, and the index looked up in `panCMap` is the computed weighted average
converted with `(int)`. -/
theorem msBilinearRasterResampler_pixelRounded_palette (fl fl32 : ℚ → ℚ) (gd : GdLib)
    (psSrcImage : imageObj) (offsite : colorObj) (panCMap : Int → Int) (nDstX nDstY : Int)
    (p : Pt) (hgd : psSrcImage.format.renderer = Renderer.GD)
    (htc : psSrcImage.gd.trueColor = false) (s : imageObj) :
    ∃ s', msBilinearRasterResampler.pixelRounded fl fl32 gd psSrcImage offsite panCMap nDstX
        nDstY p s = some s'
      ∧ (msBilinearRasterResampler.srcPosRounded fl psSrcImage p = none →
          s'.gd.pixels nDstY nDstX = s.gd.pixels nDstY nDstX)
      ∧ ∀ pos, msBilinearRasterResampler.srcPosRounded fl psSrcImage p = some pos →
          s'.gd.pixels nDstY nDstX =
            if weightSumRounded fl pos = 0 then s.gd.pixels nDstY nDstX
            else if panCMap (castInt (weightedAverageIndexRounded fl psSrcImage pos)) ≠ -1 then
              panCMap (castInt (weightedAverageIndexRounded fl psSrcImage pos))
            else s.gd.pixels nDstY nDstX := by
  unfold msBilinearRasterResampler.pixelRounded
  cases hp : msBilinearRasterResampler.srcPosRounded fl psSrcImage p with
  | none =>
    exact ⟨s, rfl, fun _ => rfl, fun pos hpos => absurd hpos (by simp)⟩
  | some pos =>
    obtain ⟨F, hF, hF0⟩ := msBilinearRasterResampler_sampleRounded_palette fl gd psSrcImage
      offsite pos hgd htc
    dsimp only
    rw [hF]
    dsimp only
    by_cases hz : weightSumRounded fl pos = 0
    · rw [if_pos hz]
      refine ⟨s, rfl, fun hn => absurd hn (by simp), fun pos' hpos' => ?_⟩
      simp only [Option.some.injEq] at hpos'
      subst hpos'
      rw [if_pos hz]
    · rw [if_neg hz]
      refine ⟨_, rfl, fun hn => absurd hn (by simp), fun pos' hpos' => ?_⟩
      simp only [Option.some.injEq] at hpos'
      subst hpos'
      rw [if_neg hz, writeResampledPixelRounded_palette fl fl32 gd psSrcImage panCMap nDstX
        nDstY _ _ s hgd htc]
      have hband : (0 : Int) < MAX 4 psSrcImage.format.bands := by
        unfold MAX
        split_ifs <;> omega
      have hsum : (if (0 : Int) ≤ 0 ∧ (0 : Int) < MAX 4 psSrcImage.format.bands then
          fl (F 0 / weightSumRounded fl pos) else F 0)
          = weightedAverageIndexRounded fl psSrcImage pos := by
        rw [if_pos ⟨le_rfl, hband⟩, hF0]
      rw [hsum]

/-- C30 (amended): for every paletted source, the bilinear resampler returns 0 whatever
the rounding of its arithmetic (`fl`; `binary64` for the doubles of the C code, `id` for
exact arithmetic), and for every destination pixel that gets past the two tests of the
loop with a weight sum other than 0, the index looked up in `panCMap` is the weighted
average of the four neighbouring indexes as the code computes it
(`weightedAverageIndexRounded`), converted with `(int)`, that is truncated toward zero,
not rounded to the nearest integer; the destination pixel becomes the remapped value
unless that is -1, in which case, as for a pixel that does not get past the tests, it
keeps its value. In exact arithmetic the weight sum is 1, the computed average is the
exact weighted average `weightedAverageIndex`, and the function is
`msBilinearRasterResampler`. -/
theorem msBilinearRasterResampler_palette_truncates (fl fl32 : ℚ → ℚ) (gd : GdLib)
    (psSrcImage : imageObj) (offsite : colorObj) (psDstImage : imageObj)
    (panCMap : Int → Int) (pfnTransform : SimpleTransformer)
    (hgd : psSrcImage.format.renderer = Renderer.GD)
    (htc : psSrcImage.gd.trueColor = false) :
    (∃ dst', msBilinearRasterResampler.rounded fl fl32 gd psSrcImage offsite psDstImage
        panCMap pfnTransform = some (0, dst') ∧
      ∀ (X Y : Int), 0 ≤ X → X < psDstImage.width → 0 ≤ Y → Y < psDstImage.height →
        (msBilinearRasterResampler.srcPosRounded fl psSrcImage
            (transformedCentre pfnTransform psDstImage.width Y X) = none →
          dst'.gd.pixels Y X = psDstImage.gd.pixels Y X)
        ∧ ∀ pos, msBilinearRasterResampler.srcPosRounded fl psSrcImage
            (transformedCentre pfnTransform psDstImage.width Y X) = some pos →
          dst'.gd.pixels Y X =
            if weightSumRounded fl pos = 0 then psDstImage.gd.pixels Y X
            else if panCMap (castInt (weightedAverageIndexRounded fl psSrcImage pos)) ≠ -1 then
              panCMap (castInt (weightedAverageIndexRounded fl psSrcImage pos))
            else psDstImage.gd.pixels Y X)
    ∧ (∀ pos : BilinearPos, weightSumRounded id pos = 1
        ∧ weightedAverageIndexRounded id psSrcImage pos = weightedAverageIndex psSrcImage pos)
    ∧ msBilinearRasterResampler.rounded id id gd psSrcImage offsite psDstImage panCMap
        pfnTransform
      = msBilinearRasterResampler gd psSrcImage offsite psDstImage panCMap pfnTransform := by
  refine ⟨?_, fun pos => ⟨weightSumRounded_id pos, weightedAverageIndexRounded_id _ pos⟩,
    msBilinearRasterResampler_rounded_id _ _ _ _ _ _⟩
  have hsome : (msBilinearRasterResampler.rounded fl fl32 gd psSrcImage offsite psDstImage
      panCMap pfnTransform).isSome := by
    unfold msBilinearRasterResampler.rounded
    simp only [Option.isSome_map']
    exact pixelLoops_isSome psDstImage
      (fun s nDstY nDstX => msBilinearRasterResampler.pixelRounded fl fl32 gd psSrcImage
        offsite panCMap nDstX nDstY
        (transformedCentre pfnTransform psDstImage.width nDstY nDstX) s)
      (fun s nDstY nDstX => by
        obtain ⟨s', hs', -⟩ := msBilinearRasterResampler_pixelRounded_palette fl fl32 gd
          psSrcImage offsite panCMap nDstX nDstY
          (transformedCentre pfnTransform psDstImage.width nDstY nDstX) hgd htc s
        dsimp only
        rw [hs']
        rfl)
  obtain ⟨⟨rc, dst'⟩, hres⟩ := Option.isSome_iff_exists.mp hsome
  have key := msBilinearRasterResampler_rounded_pixelwise fl fl32 gd psSrcImage offsite
    psDstImage panCMap pfnTransform
    (fun yx old new =>
      (msBilinearRasterResampler.srcPosRounded fl psSrcImage
          (transformedCentre pfnTransform psDstImage.width yx.1 yx.2) = none →
        new.1 = old.1)
      ∧ ∀ pos, msBilinearRasterResampler.srcPosRounded fl psSrcImage
          (transformedCentre pfnTransform psDstImage.width yx.1 yx.2) = some pos →
        new.1 =
          if weightSumRounded fl pos = 0 then old.1
          else if panCMap (castInt (weightedAverageIndexRounded fl psSrcImage pos)) ≠ -1 then
            panCMap (castInt (weightedAverageIndexRounded fl psSrcImage pos))
          else old.1)
    (fun nDstY nDstX s s' _ _ _ _ _ hstep => by
      obtain ⟨t, ht, h1, h2⟩ := msBilinearRasterResampler_pixelRounded_palette fl fl32 gd
        psSrcImage offsite panCMap nDstX nDstY
        (transformedCentre pfnTransform psDstImage.width nDstY nDstX) hgd htc s
      rw [hstep] at ht
      simp only [Option.some.injEq] at ht
      subst ht
      exact ⟨h1, h2⟩)
    rc dst' hres
  obtain ⟨hrc, -, hpix⟩ := key
  subst hrc
  exact ⟨dst', hres, fun X Y hX hXW hY hYH => hpix Y X hY hYH hX hXW⟩

/-- C30 (witness): on doubles, a 3 x 3 paletted source whose indexes are all 7, the remap
table `i -> i + 10` and a transformer that sends the centre of the one destination pixel
to `(1.1, 1.9)`: the computed average is just below 7, the index looked up is 6 and the
pixel written is 16. -/
theorem msBilinearRasterResampler_palette_truncates_witness :
    (gdImageObj 3 3 false (fun _ _ => 7) fun _ _ => 0).format.renderer = Renderer.GD ∧
    ∃ dst', msBilinearRasterResampler.rounded binary64 binary32 sampleGd
        (gdImageObj 3 3 false (fun _ _ => 7) fun _ _ => 0) ⟨-1, 0, 0⟩
        (gdImageObj 1 1 false (fun _ _ => 0) fun _ _ => 0) (fun i => i + 10)
        (constTransformer (binary64 (11 / 10)) (binary64 (19 / 10))) = some (0, dst') ∧
      dst'.gd.pixels 0 0 = 16 := by
  obtain ⟨⟨dst', hres, hpix⟩, -⟩ := msBilinearRasterResampler_palette_truncates binary64
    binary32 sampleGd (gdImageObj 3 3 false (fun _ _ => 7) fun _ _ => 0) ⟨-1, 0, 0⟩
    (gdImageObj 1 1 false (fun _ _ => 0) fun _ _ => 0) (fun i => i + 10)
    (constTransformer (binary64 (11 / 10)) (binary64 (19 / 10))) rfl rfl
  refine ⟨rfl, dst', hres, ?_⟩
  have hpos : msBilinearRasterResampler.srcPosRounded binary64
      (gdImageObj 3 3 false (fun _ _ => 7) fun _ _ => 0)
      ⟨binary64 (11 / 10), binary64 (19 / 10), 1⟩
      = some ⟨0, 1, 1, 2, 1351079888211149 / 2251799813685248,
          900719925474099 / 2251799813685248⟩ := by
    decide!
  have hW : weightSumRounded binary64 ⟨0, 1, 1, 2, 1351079888211149 / 2251799813685248,
      900719925474099 / 2251799813685248⟩ = 1 := by
    decide!
  have hI : castInt (weightedAverageIndexRounded binary64
      (gdImageObj 3 3 false (fun _ _ => 7) fun _ _ => 0)
      ⟨0, 1, 1, 2, 1351079888211149 / 2251799813685248,
        900719925474099 / 2251799813685248⟩) = 6 := by
    decide!
  have h := (hpix 0 0 le_rfl (by decide) le_rfl (by decide)).2 _
    (by rw [transformedCentre_const _ _ _ _ _ le_rfl (by decide)]; exact hpos)
  rw [hW, hI] at h
  simpa using h

/-- A loop whose rounds either fail an `assert` or leave the state as it is: it fails when
one round does, and otherwise ends in the initial state. -/
theorem foldlM_skip_or_abort {σ ι : Type} (step : σ → ι → Option σ) (bad : ι → Prop)
    (hbad : ∀ s i, bad i → step s i = none) (hgood : ∀ s i, ¬ bad i → step s i = some s) :
    ∀ (l : List ι) (s : σ),
      ((∃ i ∈ l, bad i) → l.foldlM step s = none)
      ∧ ((∀ i ∈ l, ¬ bad i) → l.foldlM step s = some s) := by
  intro l
  induction l with
  | nil =>
    intro s
    exact ⟨fun ⟨i, hi, _⟩ => absurd hi (List.not_mem_nil i), fun _ => rfl⟩
  | cons a l ih =>
    intro s
    by_cases ha : bad a
    · refine ⟨fun _ => ?_, fun h => absurd ha (h a (List.mem_cons_self a l))⟩
      rw [List.foldlM_cons, hbad s a ha]
      rfl
    · constructor
      · rintro ⟨i, hi, hb⟩
        rw [List.foldlM_cons, hgood s a ha]
        rcases List.mem_cons.mp hi with rfl | hi'
        · exact absurd hb ha
        · exact (ih s).1 ⟨i, hi', hb⟩
      · intro h
        rw [List.foldlM_cons, hgood s a ha]
        exact (ih s).2 fun i hi => h i (List.mem_cons_of_mem a hi)

/-- Pixel loops whose rounds either fail an `assert` or leave the image as it is. -/
theorem pixelLoops_skip_or_abort (dst : imageObj)
    (step : imageObj → Int → Int → Option imageObj) (bad : Int → Int → Prop)
    (hbad : ∀ s Y X, bad Y X → step s Y X = none)
    (hgood : ∀ s Y X, ¬ bad Y X → step s Y X = some s) :
    ((∃ Y ∈ upTo dst.height, ∃ X ∈ upTo dst.width, bad Y X) →
      (upTo dst.height).foldlM
        (fun s nDstY => (upTo dst.width).foldlM (fun s nDstX => step s nDstY nDstX) s) dst
          = none)
    ∧ ((∀ Y ∈ upTo dst.height, ∀ X ∈ upTo dst.width, ¬ bad Y X) →
      (upTo dst.height).foldlM
        (fun s nDstY => (upTo dst.width).foldlM (fun s nDstX => step s nDstY nDstX) s) dst
          = some dst) := by
  have hrow : ∀ (Y : Int) (s : imageObj),
      ((∃ X ∈ upTo dst.width, bad Y X) →
        (upTo dst.width).foldlM (fun s nDstX => step s Y nDstX) s = none)
      ∧ ((∀ X ∈ upTo dst.width, ¬ bad Y X) →
        (upTo dst.width).foldlM (fun s nDstX => step s Y nDstX) s = some s) :=
    fun Y s => foldlM_skip_or_abort (fun s nDstX => step s Y nDstX) (bad Y)
      (fun s X h => hbad s Y X h) (fun s X h => hgood s Y X h) (upTo dst.width) s
  have key := foldlM_skip_or_abort
    (fun s nDstY => (upTo dst.width).foldlM (fun s nDstX => step s nDstY nDstX) s)
    (fun Y => ∃ X ∈ upTo dst.width, bad Y X)
    (fun s Y h => (hrow Y s).1 h)
    (fun s Y h => (hrow Y s).2 fun X hX hb => h ⟨X, hX, hb⟩)
    (upTo dst.height) dst
  exact ⟨fun h => key.1 h, fun h => key.2 fun Y hY ⟨X, hX, hb⟩ => h Y hY X hX hb⟩

/-- The loop body of `msNearestRasterResampler` on a raw source with at least one band
whose image mode is none of INT16, FLOAT32 and BYTE: the `assert( 0 )` is reached as soon
as a source position is read. -/
theorem msNearestRasterResampler_pixel_unsupported (gd : GdLib) (psSrcImage : imageObj)
    (offsite : colorObj) (panCMap : Int → Int) (nDstX nDstY : Int) (p : Pt) (s : imageObj)
    (hraw : psSrcImage.format.renderer = Renderer.RAWDATA)
    (h16 : psSrcImage.format.imagemode ≠ ImageMode.INT16)
    (h32 : psSrcImage.format.imagemode ≠ ImageMode.FLOAT32)
    (h8 : psSrcImage.format.imagemode ≠ ImageMode.BYTE)
    (hbands : 0 < psSrcImage.format.bands) :
    ((msNearestRasterResampler.srcPos psSrcImage p).isSome →
      msNearestRasterResampler.pixel gd psSrcImage offsite panCMap nDstX nDstY p s = none)
    ∧ (¬ (msNearestRasterResampler.srcPos psSrcImage p).isSome →
      msNearestRasterResampler.pixel gd psSrcImage offsite panCMap nDstX nDstY p s
        = some s) := by
  unfold msNearestRasterResampler.pixel
  cases hp : msNearestRasterResampler.srcPos psSrcImage p with
  | none => exact ⟨fun h => absurd h (by simp), fun _ => rfl⟩
  | some xy =>
    refine ⟨fun _ => ?_, fun h => absurd rfl h⟩
    obtain ⟨nSrcX, nSrcY⟩ := xy
    obtain ⟨rest, hrest⟩ := upTo_pos _ hbands
    dsimp only
    rw [if_neg (by rw [hraw]; decide), if_pos hraw, hrest, List.foldlM_cons]
    unfold msNearestRasterResampler.band
    rw [if_neg h16, if_neg h32, if_neg h8]
    rfl

/-- The loop body of `msBilinearRasterResampler` on a raw source with at least one band
whose image mode is none of INT16, FLOAT32 and BYTE: the `assert( 0 )` of
`msSourceSample` is reached as soon as a pixel gets past the two tests. -/
theorem msBilinearRasterResampler_pixel_unsupported (gd : GdLib) (psSrcImage : imageObj)
    (offsite : colorObj) (panCMap : Int → Int) (nDstX nDstY : Int) (p : Pt) (s : imageObj)
    (hraw : psSrcImage.format.renderer = Renderer.RAWDATA)
    (h16 : psSrcImage.format.imagemode ≠ ImageMode.INT16)
    (h32 : psSrcImage.format.imagemode ≠ ImageMode.FLOAT32)
    (h8 : psSrcImage.format.imagemode ≠ ImageMode.BYTE)
    (hbands : 0 < psSrcImage.format.bands) :
    ((msBilinearRasterResampler.srcPos psSrcImage p).isSome →
      msBilinearRasterResampler.pixel gd psSrcImage offsite panCMap nDstX nDstY p s = none)
    ∧ (¬ (msBilinearRasterResampler.srcPos psSrcImage p).isSome →
      msBilinearRasterResampler.pixel gd psSrcImage offsite panCMap nDstX nDstY p s
        = some s) := by
  have hng : psSrcImage.format.renderer ≠ Renderer.GD := by rw [hraw]; decide
  unfold msBilinearRasterResampler.pixel
  cases hp : msBilinearRasterResampler.srcPos psSrcImage p with
  | none => exact ⟨fun h => absurd h (by simp), fun _ => rfl⟩
  | some pos =>
    refine ⟨fun _ => ?_, fun h => absurd rfl h⟩
    dsimp only
    unfold msBilinearRasterResampler.sample
    rw [msSourceSample_unsupported _ _ _ _ _ _ _ _ hng h16 h32 h8 hbands]
    rfl

/-- The function `msAverageSample` over a footprint without a cell: no sample is read
and the function returns `MS_FALSE`. -/
theorem msAverageSample_no_cell (gd : GdLib) (psSrcImage : imageObj)
    (dfXMin dfYMin dfXMax dfYMax : ℚ) (offsite : colorObj) (padfPixelSum : Int → ℚ)
    (h : msAverageSample.cells dfXMin dfYMin dfXMax dfYMax = []) :
    msAverageSample gd psSrcImage dfXMin dfYMin dfXMax dfYMax offsite padfPixelSum
      = some (MS_FALSE, padfPixelSum, 0) := by
  rw [msAverageSample_eq_cells, h]
  rfl

/-- The function `msAverageSample` over a footprint with at least one cell on a raw
source with at least one band whose image mode is none of INT16, FLOAT32 and BYTE: the
`assert( 0 )` of `msSourceSample` is reached in the first cell. -/
theorem msAverageSample_cell_unsupported (gd : GdLib) (psSrcImage : imageObj)
    (dfXMin dfYMin dfXMax dfYMax : ℚ) (offsite : colorObj) (padfPixelSum : Int → ℚ)
    (hraw : psSrcImage.format.renderer ≠ Renderer.GD)
    (h16 : psSrcImage.format.imagemode ≠ ImageMode.INT16)
    (h32 : psSrcImage.format.imagemode ≠ ImageMode.FLOAT32)
    (h8 : psSrcImage.format.imagemode ≠ ImageMode.BYTE)
    (hbands : 0 < psSrcImage.format.bands)
    (h : msAverageSample.cells dfXMin dfYMin dfXMax dfYMax ≠ []) :
    msAverageSample gd psSrcImage dfXMin dfYMin dfXMax dfYMax offsite padfPixelSum
      = none := by
  rw [msAverageSample_eq_cells]
  obtain ⟨c, rest, hc⟩ := List.exists_cons_of_ne_nil h
  rw [hc, List.foldlM_cons,
    msSourceSample_unsupported _ _ _ _ _ _ _ _ hraw h16 h32 h8 hbands]
  rfl

/-- The loop body of `msAverageRasterResampler` on a raw source with at least one band
whose image mode is none of INT16, FLOAT32 and BYTE: the `assert( 0 )` of
`msSourceSample` is reached as soon as the footprint of a pixel has a cell. -/
theorem msAverageRasterResampler_pixel_unsupported (gd : GdLib) (psSrcImage : imageObj)
    (offsite : colorObj) (panCMap : Int → Int) (pfnTransform : SimpleTransformer)
    (nDstXSize nDstX nDstY : Int) (s : imageObj)
    (hraw : psSrcImage.format.renderer = Renderer.RAWDATA)
    (h16 : psSrcImage.format.imagemode ≠ ImageMode.INT16)
    (h32 : psSrcImage.format.imagemode ≠ ImageMode.FLOAT32)
    (h8 : psSrcImage.format.imagemode ≠ ImageMode.BYTE)
    (hbands : 0 < psSrcImage.format.bands) :
    (msAverageRasterResampler.readsSample psSrcImage pfnTransform nDstXSize nDstY nDstX →
      msAverageRasterResampler.pixel gd psSrcImage offsite panCMap nDstX nDstY
        (transformedCorner pfnTransform nDstXSize nDstY nDstX)
        (transformedCorner pfnTransform nDstXSize nDstY (nDstX + 1))
        (transformedCorner pfnTransform nDstXSize (nDstY + 1) nDstX)
        (transformedCorner pfnTransform nDstXSize (nDstY + 1) (nDstX + 1)) s = none)
    ∧ (¬ msAverageRasterResampler.readsSample psSrcImage pfnTransform nDstXSize nDstY nDstX →
      msAverageRasterResampler.pixel gd psSrcImage offsite panCMap nDstX nDstY
        (transformedCorner pfnTransform nDstXSize nDstY nDstX)
        (transformedCorner pfnTransform nDstXSize nDstY (nDstX + 1))
        (transformedCorner pfnTransform nDstXSize (nDstY + 1) nDstX)
        (transformedCorner pfnTransform nDstXSize (nDstY + 1) (nDstX + 1)) s = some s) := by
  have hng : psSrcImage.format.renderer ≠ Renderer.GD := by rw [hraw]; decide
  unfold msAverageRasterResampler.readsSample
  by_cases hc : (transformedCorner pfnTransform nDstXSize nDstY nDstX).success = 0
      ∨ (transformedCorner pfnTransform nDstXSize nDstY (nDstX + 1)).success = 0
      ∨ (transformedCorner pfnTransform nDstXSize (nDstY + 1) nDstX).success = 0
      ∨ (transformedCorner pfnTransform nDstXSize (nDstY + 1) (nDstX + 1)).success = 0
  · refine ⟨fun h => absurd hc h.1, fun _ => ?_⟩
    unfold msAverageRasterResampler.pixel
    rw [if_pos hc]
  · rw [msAverageRasterResampler_pixel_eq_footprint _ _ _ _ _ _ _ _ _ _ _ hc]
    constructor
    · rintro ⟨-, hcells⟩
      rw [msAverageSample_cell_unsupported _ _ _ _ _ _ _ _ hng h16 h32 h8 hbands hcells]
    · intro hn
      have hcells : msAverageSample.cells _ _ _ _ = [] :=
        not_not.mp fun hne => hn ⟨hc, hne⟩
      rw [msAverageSample_no_cell _ _ _ _ _ _ _ _ hcells]
      rfl

/-- C27 (amended): on a raw source with at least one band whose image mode is none of
INT16, FLOAT32 and BYTE, each of the three resamplers stops at its `assert( 0 )` (`none`)
as soon as one destination pixel gets as far as reading a source sample, and otherwise
returns 0 with the destination as it was; none of them has an error outcome. -/
theorem resamplers_unsupported_encoding (gd : GdLib) (psSrcImage : imageObj)
    (offsite : colorObj) (psDstImage : imageObj) (panCMap : Int → Int)
    (pfnTransform : SimpleTransformer)
    (hraw : psSrcImage.format.renderer = Renderer.RAWDATA)
    (h16 : psSrcImage.format.imagemode ≠ ImageMode.INT16)
    (h32 : psSrcImage.format.imagemode ≠ ImageMode.FLOAT32)
    (h8 : psSrcImage.format.imagemode ≠ ImageMode.BYTE)
    (hbands : 0 < psSrcImage.format.bands) :
    (((∃ Y ∈ upTo psDstImage.height, ∃ X ∈ upTo psDstImage.width,
          (msNearestRasterResampler.srcPos psSrcImage
            (transformedCentre pfnTransform psDstImage.width Y X)).isSome) →
        msNearestRasterResampler gd psSrcImage offsite psDstImage panCMap pfnTransform = none)
      ∧ ((∀ Y ∈ upTo psDstImage.height, ∀ X ∈ upTo psDstImage.width,
          ¬ (msNearestRasterResampler.srcPos psSrcImage
            (transformedCentre pfnTransform psDstImage.width Y X)).isSome) →
        msNearestRasterResampler gd psSrcImage offsite psDstImage panCMap pfnTransform
          = some (0, psDstImage)))
    ∧ (((∃ Y ∈ upTo psDstImage.height, ∃ X ∈ upTo psDstImage.width,
          (msBilinearRasterResampler.srcPos psSrcImage
            (transformedCentre pfnTransform psDstImage.width Y X)).isSome) →
        msBilinearRasterResampler gd psSrcImage offsite psDstImage panCMap pfnTransform
          = none)
      ∧ ((∀ Y ∈ upTo psDstImage.height, ∀ X ∈ upTo psDstImage.width,
          ¬ (msBilinearRasterResampler.srcPos psSrcImage
            (transformedCentre pfnTransform psDstImage.width Y X)).isSome) →
        msBilinearRasterResampler gd psSrcImage offsite psDstImage panCMap pfnTransform
          = some (0, psDstImage)))
    ∧ (((∃ Y ∈ upTo psDstImage.height, ∃ X ∈ upTo psDstImage.width,
          msAverageRasterResampler.readsSample psSrcImage pfnTransform psDstImage.width
            Y X) →
        msAverageRasterResampler gd psSrcImage offsite psDstImage panCMap pfnTransform
          = none)
      ∧ ((∀ Y ∈ upTo psDstImage.height, ∀ X ∈ upTo psDstImage.width,
          ¬ msAverageRasterResampler.readsSample psSrcImage pfnTransform psDstImage.width
            Y X) →
        msAverageRasterResampler gd psSrcImage offsite psDstImage panCMap pfnTransform
          = some (0, psDstImage))) := by
  have kn := pixelLoops_skip_or_abort psDstImage
    (fun s nDstY nDstX => msNearestRasterResampler.pixel gd psSrcImage offsite panCMap nDstX
      nDstY (transformedCentre pfnTransform psDstImage.width nDstY nDstX) s)
    (fun Y X => (msNearestRasterResampler.srcPos psSrcImage
      (transformedCentre pfnTransform psDstImage.width Y X)).isSome)
    (fun s Y X h => (msNearestRasterResampler_pixel_unsupported gd psSrcImage offsite
      panCMap X Y _ s hraw h16 h32 h8 hbands).1 h)
    (fun s Y X h => (msNearestRasterResampler_pixel_unsupported gd psSrcImage offsite
      panCMap X Y _ s hraw h16 h32 h8 hbands).2 h)
  have kb := pixelLoops_skip_or_abort psDstImage
    (fun s nDstY nDstX => msBilinearRasterResampler.pixel gd psSrcImage offsite panCMap
      nDstX nDstY (transformedCentre pfnTransform psDstImage.width nDstY nDstX) s)
    (fun Y X => (msBilinearRasterResampler.srcPos psSrcImage
      (transformedCentre pfnTransform psDstImage.width Y X)).isSome)
    (fun s Y X h => (msBilinearRasterResampler_pixel_unsupported gd psSrcImage offsite
      panCMap X Y _ s hraw h16 h32 h8 hbands).1 h)
    (fun s Y X h => (msBilinearRasterResampler_pixel_unsupported gd psSrcImage offsite
      panCMap X Y _ s hraw h16 h32 h8 hbands).2 h)
  have ka := pixelLoops_skip_or_abort psDstImage
    (fun s nDstY nDstX => msAverageRasterResampler.pixel gd psSrcImage offsite panCMap
      nDstX nDstY
      (transformedCorner pfnTransform psDstImage.width nDstY nDstX)
      (transformedCorner pfnTransform psDstImage.width nDstY (nDstX + 1))
      (transformedCorner pfnTransform psDstImage.width (nDstY + 1) nDstX)
      (transformedCorner pfnTransform psDstImage.width (nDstY + 1) (nDstX + 1)) s)
    (fun Y X => msAverageRasterResampler.readsSample psSrcImage pfnTransform
      psDstImage.width Y X)
    (fun s Y X h => (msAverageRasterResampler_pixel_unsupported gd psSrcImage offsite
      panCMap pfnTransform psDstImage.width X Y s hraw h16 h32 h8 hbands).1 h)
    (fun s Y X h => (msAverageRasterResampler_pixel_unsupported gd psSrcImage offsite
      panCMap pfnTransform psDstImage.width X Y s hraw h16 h32 h8 hbands).2 h)
  refine ⟨⟨?_, ?_⟩, ⟨?_, ?_⟩, ?_, ?_⟩
  · intro hsampled
    unfold msNearestRasterResampler
    rw [Option.map_eq_none']
    exact kn.1 hsampled
  · intro hskipped
    unfold msNearestRasterResampler
    rw [Option.map_eq_some']
    exact ⟨psDstImage, kn.2 hskipped, rfl⟩
  · intro hsampled
    unfold msBilinearRasterResampler
    rw [Option.map_eq_none']
    exact kb.1 hsampled
  · intro hskipped
    unfold msBilinearRasterResampler
    rw [Option.map_eq_some']
    exact ⟨psDstImage, kb.2 hskipped, rfl⟩
  · intro hsampled
    unfold msAverageRasterResampler
    rw [Option.map_eq_none']
    exact ka.1 hsampled
  · intro hskipped
    unfold msAverageRasterResampler
    rw [Option.map_eq_some']
    exact ⟨psDstImage, ka.2 hskipped, rfl⟩

/-- C27 (witness): a 1 x 1 raw source with one band of an image mode that is not handled.
With a transformer that flags every point failed no sample is read and each of the three
resamplers returns 0 with the destination as it was; with the identity transformer the
nearest resampler reads the source pixel and stops at the `assert( 0 )`. -/
theorem resamplers_unsupported_encoding_witness :
    msNearestRasterResampler sampleGd (rawImage 1 1 ImageMode.NULL 1 fun _ => 7) ⟨-1, 0, 0⟩
        (rawImage 1 1 ImageMode.NULL 1 fun _ => 5) (fun i => i) failingTransformer
      = some (0, rawImage 1 1 ImageMode.NULL 1 fun _ => 5)
    ∧ msBilinearRasterResampler sampleGd (rawImage 1 1 ImageMode.NULL 1 fun _ => 7)
        ⟨-1, 0, 0⟩ (rawImage 1 1 ImageMode.NULL 1 fun _ => 5) (fun i => i)
        failingTransformer
      = some (0, rawImage 1 1 ImageMode.NULL 1 fun _ => 5)
    ∧ msAverageRasterResampler sampleGd (rawImage 1 1 ImageMode.NULL 1 fun _ => 7)
        ⟨-1, 0, 0⟩ (rawImage 1 1 ImageMode.NULL 1 fun _ => 5) (fun i => i)
        failingTransformer
      = some (0, rawImage 1 1 ImageMode.NULL 1 fun _ => 5)
    ∧ msNearestRasterResampler sampleGd (rawImage 1 1 ImageMode.NULL 1 fun _ => 7)
        ⟨-1, 0, 0⟩ (rawImage 1 1 ImageMode.NULL 1 fun _ => 5) (fun i => i)
        identityTransformer = none := by
  have kf := resamplers_unsupported_encoding sampleGd
    (rawImage 1 1 ImageMode.NULL 1 fun _ => 7) ⟨-1, 0, 0⟩
    (rawImage 1 1 ImageMode.NULL 1 fun _ => 5) (fun i => i) failingTransformer rfl
    (by decide) (by decide) (by decide) (by decide)
  have ki := resamplers_unsupported_encoding sampleGd
    (rawImage 1 1 ImageMode.NULL 1 fun _ => 7) ⟨-1, 0, 0⟩
    (rawImage 1 1 ImageMode.NULL 1 fun _ => 5) (fun i => i) identityTransformer rfl
    (by decide) (by decide) (by decide) (by decide)
  have hcentre : ∀ Y X : Int, X ∈ upTo (rawImage 1 1 ImageMode.NULL 1 fun _ => 5).width →
      (transformedCentre failingTransformer
        (rawImage 1 1 ImageMode.NULL 1 fun _ => 5).width Y X).success = 0 :=
    fun Y X hX => failingTransformer_centre _ Y X ((mem_upTo _ _).mp hX).1
      ((mem_upTo _ _).mp hX).2
  refine ⟨kf.1.2 ?_, kf.2.1.2 ?_, kf.2.2.2 ?_, ki.1.1 ?_⟩
  · intro Y _ X hX
    unfold msNearestRasterResampler.srcPos
    rw [if_pos (hcentre Y X hX)]
    simp
  · intro Y _ X hX
    unfold msBilinearRasterResampler.srcPos
    rw [if_pos (hcentre Y X hX)]
    simp
  · intro Y _ X hX h
    apply h.1
    exact Or.inl (failingTransformer_corner _ Y X ((mem_upTo _ _).mp hX).1
      (le_of_lt ((mem_upTo _ _).mp hX).2))
  · refine ⟨0, by decide, 0, by decide, ?_⟩
    rw [transformedCentre_identity _ _ _ le_rfl (by decide)]
    rw [msNearestRasterResampler_srcPos_eq_some _ _ (by decide) (by norm_num) (by norm_num)
      (by norm_num [castInt, toInt32, trunc, rawImage])
      (by norm_num [castInt, toInt32, trunc, rawImage])]
    rfl

end MapResample
